import Mathlib

/-! # Event bridge of cs-pcan-usb

A shallow embedding of `src/pcan_event_win32.c` and `src/pcan_event_darwin.c`:
the worker thread procedure `pcanEventThreadProc` and the two public functions
`pcanEventEnable` / `pcanEventDisable`, for both platforms.

The C functions are sequences of operating-system and driver calls.  Each call
is embedded as a function on an explicit `World` (the globals of the C file
plus the part of the kernel state the calls act on: open handles or
descriptors, the signalled state of the events or pipes, the worker threads,
the handle registered with the driver).  Whether a call fails is not decided by
the program; it is supplied by an environment record with one field per call
site.  A `trace` in the world records the calls and callback invocations in
program order.

Blocking calls are where the worker thread makes progress: the bounded wait of
`pcanEventEnable` lets the new thread run its prologue, and the unbounded join
of `pcanEventDisable` runs the thread until it has returned (no result when it
never does).
-/

/-! ## Thread tables

Both platforms keep the worker threads created so far in a list, in the order
of their creation. -/

/-- The record of the thread with id `tid`: thread ids count the threads from 1
in the order of their creation, and `0` is the id of no thread. -/
def findThread {α : Type} (ts : List α) (tid : Nat) : Option α :=
  match tid with
  | 0 => none
  | n + 1 => ts[n]?

/-- Change the record of thread `tid`. -/
def updThread {α : Type} (ts : List α) (tid : Nat) (f : α → α) : List α :=
  match tid with
  | 0 => ts
  | n + 1 => ts.modify f n

namespace Win32

/-! ## Constants of `windows.h`, `PCANBasic.h` and `pcan_event_win32.h` -/

/-- Value `WAIT_OBJECT_0` of the Windows SDK. -/
def WAIT_OBJECT_0 : Nat := 0
/-- Value `WAIT_ABANDONED_0` of the Windows SDK. -/
def WAIT_ABANDONED_0 : Nat := 0x80
/-- Value `WAIT_ABANDONED` of the Windows SDK. -/
def WAIT_ABANDONED : Nat := 0x80
/-- Value `WAIT_TIMEOUT` of the Windows SDK. -/
def WAIT_TIMEOUT : Nat := 0x102
/-- Value `WAIT_FAILED` of the Windows SDK, `(DWORD)0xFFFFFFFF`. -/
def WAIT_FAILED : Nat := 0xFFFFFFFF
/-- Value `STILL_ACTIVE` of the Windows SDK. -/
def STILL_ACTIVE : Nat := 259
/-- Value `INVALID_HANDLE_VALUE` of the Windows SDK, `(HANDLE)-1`. -/
def INVALID_HANDLE_VALUE : Int := -1
/-- Value `PCAN_ERROR_OK` of PCANBasic.h. -/
def PCAN_ERROR_OK : Nat := 0
/-- Macro `EVENT_INDEX_READ` of pcan_event_win32.h. -/
def EVENT_INDEX_READ : Nat := 0
/-- Macro `EVENT_INDEX_EXIT` of pcan_event_win32.h. -/
def EVENT_INDEX_EXIT : Nat := 1

/-! ## The body of the wait loop -/

/-- What one pass through the `while (threadExit == 0)` loop of
`pcanEventThreadProc` does once `WaitForMultipleObjects` has returned. -/
inductive LoopStep
  /-- The loop condition is evaluated again with `threadExit == 0`;
  `invoked` tells whether the callback was called in this pass. -/
  | again (invoked : Bool)
  /-- The statement `threadExit = 1` was executed: the loop ends. -/
  | leave
  /-- The statement `return 1` was executed inside the loop. -/
  | fail
deriving DecidableEq, Repr

/-- Lines 142-168 of pcan_event_win32.c, as a function of the value `ret`
returned by `WaitForMultipleObjects` (a 32-bit pattern). -/
def loopBody (ret : Nat) : LoopStep :=
  if ret &&& WAIT_ABANDONED_0 ≠ 0 then
    -- eventIndex = (ret ^ WAIT_ABANDONED_0); printf
    LoopStep.again false
  else if ret = WAIT_TIMEOUT then
    LoopStep.fail
  else if ret = WAIT_FAILED then
    LoopStep.fail
  else
    match ret with
    | 0 => LoopStep.again true     -- case EVENT_INDEX_READ: callback
    | 1 => LoopStep.leave          -- case EVENT_INDEX_EXIT: threadExit = 1
    | _ => LoopStep.again false    -- no case matches

/-! ## The world the functions act on -/

/-- Kernel objects a handle of the process can refer to: the three named events
and the worker threads. -/
inductive Obj
  | eventRead
  | eventSpawn
  | eventExit
  | thread (tid : Nat)
deriving DecidableEq, Repr

/-- Where a worker thread stands in `pcanEventThreadProc`. -/
inductive Pc
  /-- Created by `CreateThread`, the procedure has not run yet. -/
  | start
  /-- Inside the loop, at `WaitForMultipleObjects`. -/
  | waiting
  /-- The procedure has returned `code`. -/
  | exited (code : Nat)
deriving DecidableEq, Repr

/-- A worker thread: the copied `threadParameters_t` and its thread-local
handles. -/
structure Waiter where
  canChannel : Nat
  callback : Nat
  pc : Pc
  hRead : Int
  hSpawn : Int
  hExit : Int
deriving DecidableEq, Repr

/-- Observable actions, in program order. -/
inductive Ev
  | createEvent (o : Obj) (h : Int)
  | createThread (tid : Nat) (h : Int)
  | openEvent (tid : Nat) (o : Obj) (h : Int)
  | setEvent (o : Obj)
  | waitSpawn (ret : Nat)
  | canSetValue (channel : Nat) (target : Int) (status : Nat)
  | waitThread (ret : Nat)
  | closeHandle (h : Int) (ok : Bool)
  | callback (cb : Nat) (channel : Nat)
  | threadReturn (tid : Nat) (code : Nat)
deriving DecidableEq, Repr

/-- The globals of pcan_event_win32.c (first five fields) and the kernel and
driver state its calls act on. -/
structure World where
  pcanEventRead : Int
  pcanEventSpawn : Int
  pcanEventExit : Int
  pcanEventThread : Int
  pcanEventThreadID : Nat
  /-- Counter from which new handle values are drawn. -/
  nextHandle : Nat
  /-- Open handles of the process and the object each refers to. -/
  handles : List (Int × Obj)
  /-- Signalled state of the named event `pcanEventRead`. -/
  sigRead : Bool
  /-- Signalled state of the named event `pcanEventSpawn`. -/
  sigSpawn : Bool
  /-- Signalled state of the named event `pcanEventExit`. -/
  sigExit : Bool
  /-- Every worker thread created so far. -/
  threads : List Waiter
  /-- Handle registered with the driver through `PCAN_RECEIVE_EVENT`. -/
  driverEvent : Option Int
  trace : List Ev
deriving DecidableEq, Repr

/-- State of the process before the first call: lines 43-57. -/
def init : World :=
  { pcanEventRead := INVALID_HANDLE_VALUE
    pcanEventSpawn := INVALID_HANDLE_VALUE
    pcanEventExit := INVALID_HANDLE_VALUE
    pcanEventThread := INVALID_HANDLE_VALUE
    pcanEventThreadID := 0
    nextHandle := 0
    handles := []
    sigRead := false
    sigSpawn := false
    sigExit := false
    threads := []
    driverEvent := none
    trace := [] }

/-- Object an open handle refers to. -/
def lookupH (hs : List (Int × Obj)) (h : Int) : Option Obj :=
  match hs with
  | [] => none
  | p :: rest => if p.1 = h then some p.2 else lookupH rest h

/-- Handle table after `h` has been closed. -/
def closeH (hs : List (Int × Obj)) (h : Int) : List (Int × Obj) :=
  hs.filter (fun p => p.1 ≠ h)

/-- Whether some open handle refers to `o`, that is whether the named object
still exists. -/
def objOpen (hs : List (Int × Obj)) (o : Obj) : Bool :=
  hs.any (fun p => p.2 = o)

/-- Threads that have not returned from `pcanEventThreadProc`. -/
def liveThreads (w : World) : List Waiter :=
  w.threads.filter (fun t => match t.pc with
    | Pc.exited _ => false
    | _ => true)

/-- Number of callback invocations recorded so far. -/
def callbackCount (w : World) : Nat :=
  (w.trace.filter (fun e => match e with
    | Ev.callback _ _ => true
    | _ => false)).length

/-- Value of the next handle the kernel hands out; never `0` or `-1`. -/
def freshHandle (w : World) : Int := (w.nextHandle : Int) + 1

/-- Signalled state of a named event. -/
def sig (w : World) (o : Obj) : Bool :=
  match o with
  | Obj.eventRead => w.sigRead
  | Obj.eventSpawn => w.sigSpawn
  | Obj.eventExit => w.sigExit
  | Obj.thread _ => false

/-- Set the signalled state of a named event. -/
def setSig (w : World) (o : Obj) (b : Bool) : World :=
  match o with
  | Obj.eventRead => { w with sigRead := b }
  | Obj.eventSpawn => { w with sigSpawn := b }
  | Obj.eventExit => { w with sigExit := b }
  | Obj.thread _ => w

/-! ## Operating-system and driver calls -/

/-- `CreateEvent(attr, false, false, name)`: on success a new handle to the
named auto-reset event.  The object is created unsignalled unless an open
handle already refers to an event of that name, in which case that object is
opened.  On failure the result is `0`. -/
def CreateEvent (w : World) (o : Obj) (ok : Bool) : Int × World :=
  if ok then
    let h := freshHandle w
    let s := if objOpen w.handles o then sig w o else false
    (h, { setSig w o s with
            nextHandle := w.nextHandle + 1
            handles := (h, o) :: w.handles
            trace := w.trace ++ [Ev.createEvent o h] })
  else (0, w)

/-- `CreateThread(..., &pcanEventThreadProc, &params, 0, &pcanEventThreadID)`:
on success a new thread that has not run yet, a handle to it and its id; on
failure the result is `0`.  The fields `canChannel` and `callback` of the new
record are the contents of the parameter block `pcanEventThreadParams`, a local
of `pcanEventEnable` whose address the thread is given; the thread copies the
block when it starts (lines 69-72).  The copy has these values when the thread
starts before `pcanEventEnable` returns, as it does when it runs its prologue
inside `enableWait`.  For a thread that starts later the block is gone and what
it copies is not determined by the program; the record keeps the contents the
block had, which then do not describe what the thread works with. -/
def CreateThread (w : World) (pcanChannel callback : Nat) (ok : Bool) : Int × World :=
  if ok then
    let h := freshHandle w
    let tid := w.threads.length + 1
    let t : Waiter :=
      { canChannel := pcanChannel, callback := callback, pc := Pc.start
        hRead := INVALID_HANDLE_VALUE, hSpawn := INVALID_HANDLE_VALUE
        hExit := INVALID_HANDLE_VALUE }
    (h, { w with
            nextHandle := w.nextHandle + 1
            pcanEventThreadID := tid
            handles := (h, Obj.thread tid) :: w.handles
            threads := w.threads ++ [t]
            trace := w.trace ++ [Ev.createThread tid h] })
  else (0, w)

/-- `OpenEvent(EVENT_PERMISSIONS, false, name)` in thread `tid`: a new handle
to the named event when the object exists and the call is not failed by the
environment, `0` otherwise. -/
def OpenEvent (w : World) (tid : Nat) (o : Obj) (ok : Bool) : Int × World :=
  if ok && objOpen w.handles o then
    let h := freshHandle w
    (h, { w with
            nextHandle := w.nextHandle + 1
            handles := (h, o) :: w.handles
            trace := w.trace ++ [Ev.openEvent tid o h] })
  else (0, w)

/-- `SetEvent(h)`: non-zero and the event signalled when `h` is an open handle
to an event and the call is not failed by the environment; `0` otherwise. -/
def SetEvent (w : World) (h : Int) (ok : Bool) : Nat × World :=
  match lookupH w.handles h with
  | some (Obj.thread _) => (0, w)
  | some o =>
    if ok then
      let w1 := setSig w o true
      (1, { w1 with trace := w.trace ++ [Ev.setEvent o] })
    else (0, w)
  | none => (0, w)

/-- `CloseHandle(h)`: non-zero and the handle removed when `h` is open and the
call is not failed by the environment; `0` otherwise. -/
def CloseHandle (w : World) (h : Int) (ok : Bool) : Nat × World :=
  match lookupH w.handles h with
  | some _ =>
    if ok then
      (1, { w with handles := closeH w.handles h
                   trace := w.trace ++ [Ev.closeHandle h true] })
    else (0, { w with trace := w.trace ++ [Ev.closeHandle h false] })
  | none => (0, { w with trace := w.trace ++ [Ev.closeHandle h false] })

/-- `CAN_SetValue(channel, PCAN_RECEIVE_EVENT, &h, sizeof(h))`: the status is
the one supplied by the environment; with `PCAN_ERROR_OK` the driver takes `h`
as the event to signal (`INVALID_HANDLE_VALUE` clears the registration). -/
def CAN_SetValue (w : World) (channel : Nat) (h : Int) (status : Nat) : Nat × World :=
  (status, { w with
               driverEvent :=
                 if status = PCAN_ERROR_OK then
                   (if h = INVALID_HANDLE_VALUE then none else some h)
                 else w.driverEvent
               trace := w.trace ++ [Ev.canSetValue channel h status] })

/-- `WaitForSingleObject(h, 1000)` on an event handle.  A result other than
`WAIT_OBJECT_0` supplied by the environment is returned as it is.  Otherwise
the call returns `WAIT_OBJECT_0` and resets the auto-reset event when it is
signalled, `WAIT_TIMEOUT` when it is not, and `WAIT_FAILED` when `h` is not an
open handle. -/
def WaitForSingleObject_bounded (w : World) (h : Int) (fault : Option Nat) : Nat × World :=
  let normal : Nat × World :=
    match lookupH w.handles h with
    | some (Obj.thread tid) =>
      match findThread w.threads tid with
      | some t =>
        match t.pc with
        | Pc.exited _ => (WAIT_OBJECT_0, w)
        | _ => (WAIT_TIMEOUT, w)
      | none => (WAIT_TIMEOUT, w)
    | some o => if sig w o then (WAIT_OBJECT_0, setSig w o false) else (WAIT_TIMEOUT, w)
    | none => (WAIT_FAILED, w)
  match fault with
  | some r => if r = WAIT_OBJECT_0 then normal else (r, w)
  | none => normal

/-- `WaitForMultipleObjects(2, events, false, INFINITE)` in a worker thread,
with `events = {read, exit}`.  A result supplied by the environment is returned
as it is.  Otherwise the call returns the index of the first signalled event
and resets it; there is no result while neither is signalled. -/
def WaitForMultipleObjects (w : World) (fault : Option Nat) : Option (Nat × World) :=
  match fault with
  | some r => some (r, w)
  | none =>
    if w.sigRead then some (WAIT_OBJECT_0 + EVENT_INDEX_READ, { w with sigRead := false })
    else if w.sigExit then some (WAIT_OBJECT_0 + EVENT_INDEX_EXIT, { w with sigExit := false })
    else none

/-! ## The worker thread -/

/-- Outcome of the calls of the prologue of `pcanEventThreadProc`, and whether
the new thread gets to run it before the bounded wait of its creator ends. -/
structure ThreadStartEnv where
  scheduled : Bool
  openRead : Bool
  openSpawn : Bool
  openExit : Bool
  setSpawn : Bool
deriving DecidableEq, Repr

/-- Environment of a worker thread: its prologue and, for the n-th call of
`WaitForMultipleObjects`, a result forced by the environment if any. -/
structure ThreadEnv where
  start : ThreadStartEnv
  waits : Nat → Option Nat

/-- Thread `tid` returns `code` from `pcanEventThreadProc`. -/
def threadReturn (w : World) (tid : Nat) (code : Nat) : World :=
  { w with
      threads := updThread w.threads tid (fun t => { t with pc := Pc.exited code })
      trace := w.trace ++ [Ev.threadReturn tid code] }

/-- Lines 116-122 of pcan_event_win32.c: the thread signals the spawn event
through its own handle `hSpawn` and enters the loop; a failure is
`return 1`. -/
def threadSignalSpawn (w : World) (tid : Nat) (hSpawn : Int) (e : ThreadStartEnv) : World :=
  let r := SetEvent w hSpawn e.setSpawn
  if r.1 = 0 then threadReturn r.2 tid 1
  else { r.2 with threads := updThread r.2.threads tid (fun t => { t with pc := Pc.waiting }) }

/-- Lines 105-114 of pcan_event_win32.c, then `threadSignalSpawn`: the thread
opens its handle to the exit event; a failure is `return 1`. -/
def threadOpenExit (w : World) (tid : Nat) (hSpawn : Int) (e : ThreadStartEnv) : World :=
  let r := OpenEvent w tid Obj.eventExit e.openExit
  let w1 : World :=
    { r.2 with threads := updThread r.2.threads tid (fun t => { t with hExit := r.1 }) }
  if r.1 = 0 then threadReturn w1 tid 1 else threadSignalSpawn w1 tid hSpawn e

/-- Lines 94-103 of pcan_event_win32.c, then `threadOpenExit`: the thread opens
its handle to the spawn event; a failure is `return 1`. -/
def threadOpenSpawn (w : World) (tid : Nat) (e : ThreadStartEnv) : World :=
  let r := OpenEvent w tid Obj.eventSpawn e.openSpawn
  let w1 : World :=
    { r.2 with threads := updThread r.2.threads tid (fun t => { t with hSpawn := r.1 }) }
  if r.1 = 0 then threadReturn w1 tid 1 else threadOpenExit w1 tid r.1 e

/-- Lines 78-122 of pcan_event_win32.c, the prologue of `pcanEventThreadProc`:
the thread opens its own handles to the three named events (lines 83-92 here,
the rest in `threadOpenSpawn`) and signals the spawn event; any failure is
`return 1`. -/
def threadProcStart (w : World) (tid : Nat) (e : ThreadStartEnv) : World :=
  let r := OpenEvent w tid Obj.eventRead e.openRead
  let w1 : World :=
    { r.2 with threads := updThread r.2.threads tid (fun t => { t with hRead := r.1 }) }
  if r.1 = 0 then threadReturn w1 tid 1 else threadOpenSpawn w1 tid e

/-- Lines 132-178 of pcan_event_win32.c: one pass of the loop of thread `tid`,
whose record is `t`, from the call of `WaitForMultipleObjects` to the next
evaluation of the loop condition, followed by the epilogue when the loop
ends. -/
def threadProcPass (w : World) (tid : Nat) (t : Waiter) (fault : Option Nat) : Option World :=
  match WaitForMultipleObjects w fault with
  | none => none
  | some (ret, w1) =>
    match loopBody ret with
    | LoopStep.again true =>
      some { w1 with trace := w1.trace ++ [Ev.callback t.callback t.canChannel] }
    | LoopStep.again false => some w1
    | LoopStep.leave =>
      let w2 := (CloseHandle w1 t.hRead true).2
      let w3 := (CloseHandle w2 t.hSpawn true).2
      let w4 := (CloseHandle w3 t.hExit true).2
      some (threadReturn w4 tid 0)
    | LoopStep.fail => some (threadReturn w1 tid 1)

/-- The procedure `pcanEventThreadProc` of thread `tid`, run from where the
thread stands until it has returned, in at most `fuel` steps (the first
argument); `n` counts the calls of `WaitForMultipleObjects` made so far.  No
result when the thread has not returned after `fuel` steps or waits with no
event signalled. -/
def pcanEventThreadProc : Nat → World → Nat → ThreadEnv → Nat → Option World
  | 0, w, tid, _, _ =>
    match findThread w.threads tid with
    | none => none
    | some t =>
      match t.pc with
      | Pc.exited _ => some w
      | _ => none
  | k + 1, w, tid, env, n =>
    match findThread w.threads tid with
    | none => none
    | some t =>
      match t.pc with
      | Pc.exited _ => some w
      | Pc.start => pcanEventThreadProc k (threadProcStart w tid env.start) tid env n
      | Pc.waiting =>
        match threadProcPass w tid t (env.waits n) with
        | none => none
        | some w1 => pcanEventThreadProc k w1 tid env (n + 1)

/-- `WaitForSingleObject(h, INFINITE)` on a thread handle: the call returns
`WAIT_OBJECT_0` once the thread has returned, and does not return before.  A
result other than `WAIT_OBJECT_0` supplied by the environment is returned as it
is, and `WAIT_FAILED` when `h` is not an open handle to a thread.  While the
caller waits only the thread waited for runs here.  That is all that can happen
when no other worker thread is alive.  A worker thread left alive by an earlier
call waits on the same named events and can take a signal of the exit event
before the thread waited for does; such a pass is a `Step` of the process
before the wait is entered, after which the thread waited for finds no signal
and the wait has no result. -/
def WaitForSingleObject_infinite (fuel : Nat) (w : World) (h : Int) (fault : Option Nat)
    (env : ThreadEnv) : Option (Nat × World) :=
  let normal : Option (Nat × World) :=
    match lookupH w.handles h with
    | some (Obj.thread tid) =>
      match pcanEventThreadProc fuel w tid env 0 with
      | some w1 => some (WAIT_OBJECT_0, w1)
      | none => none
    | _ => some (WAIT_FAILED, w)
  match fault with
  | some r => if r = WAIT_OBJECT_0 then normal else some (r, w)
  | none => normal

/-- `GetExitCodeThread(h, &code)`: with a non-zero result, the value returned
by the thread, or `STILL_ACTIVE` while it has not returned. -/
def GetExitCodeThread (w : World) (h : Int) (ok : Bool) : Nat × Nat :=
  if ok then
    match lookupH w.handles h with
    | some (Obj.thread tid) =>
      match findThread w.threads tid with
      | some t =>
        match t.pc with
        | Pc.exited code => (1, code)
        | _ => (1, STILL_ACTIVE)
      | none => (0, 0)
    | _ => (0, 0)
  else (0, 0)

/-! ## The public functions -/

/-- Outcome of each call made by `pcanEventEnable`, in program order. -/
structure EnableEnv where
  initSD : Bool
  setDacl : Bool
  createRead : Bool
  createSpawn : Bool
  createExit : Bool
  createThread : Bool
  thread : ThreadStartEnv
  waitSpawn : Option Nat
  setValue : Nat
deriving DecidableEq, Repr

/-- Lines 306-319 of pcan_event_win32.c: the read event is registered with the
driver. -/
def enableRegister (w : World) (pcanChannel : Nat) (env : EnableEnv) : Nat × World :=
  let r := CAN_SetValue w pcanChannel w.pcanEventRead env.setValue
  if r.1 ≠ PCAN_ERROR_OK then (1, r.2) else (0, r.2)

/-- Lines 280-304 of pcan_event_win32.c, then `enableRegister`: the bounded
wait for the spawn event, during which the new thread runs its prologue if it
is scheduled. -/
def enableWait (w : World) (pcanChannel : Nat) (env : EnableEnv) : Nat × World :=
  let w5 := if env.thread.scheduled then threadProcStart w w.pcanEventThreadID env.thread else w
  let r := WaitForSingleObject_bounded w5 w5.pcanEventSpawn env.waitSpawn
  let w6 : World := { r.2 with trace := r.2.trace ++ [Ev.waitSpawn r.1] }
  if r.1 = WAIT_OBJECT_0 then enableRegister w6 pcanChannel env
  else if r.1 = WAIT_ABANDONED then (1, w6)
  else if r.1 = WAIT_TIMEOUT then (1, w6)
  else if r.1 = WAIT_FAILED then (1, w6)
  else (1, w6)

/-- Lines 260-278 of pcan_event_win32.c, then `enableWait`: the worker thread
is created. -/
def enableSpawn (w : World) (pcanChannel : Nat) (callback : Nat) (env : EnableEnv) :
    Nat × World :=
  let r := CreateThread w pcanChannel callback env.createThread
  let w4 : World := { r.2 with pcanEventThread := r.1 }
  if w4.pcanEventThread = 0 then (1, w4) else enableWait w4 pcanChannel env

/-- Lines 247-258 of pcan_event_win32.c, then `enableSpawn`: the exit event is
created. -/
def enableCreateExit (w : World) (pcanChannel : Nat) (callback : Nat) (env : EnableEnv) :
    Nat × World :=
  let r := CreateEvent w Obj.eventExit env.createExit
  let w3 : World := { r.2 with pcanEventExit := r.1 }
  if w3.pcanEventExit = 0 then (1, w3) else enableSpawn w3 pcanChannel callback env

/-- Lines 234-245 of pcan_event_win32.c, then `enableCreateExit`: the spawn
event is created. -/
def enableCreateSpawn (w : World) (pcanChannel : Nat) (callback : Nat) (env : EnableEnv) :
    Nat × World :=
  let r := CreateEvent w Obj.eventSpawn env.createSpawn
  let w2 : World := { r.2 with pcanEventSpawn := r.1 }
  if w2.pcanEventSpawn = 0 then (1, w2) else enableCreateExit w2 pcanChannel callback env

/-- Lines 188-320 of pcan_event_win32.c: the security descriptor and the read
event (lines 188-232) here, the rest of the function in `enableCreateSpawn`,
`enableCreateExit`, `enableSpawn`, `enableWait` and `enableRegister`, each of
which runs the function from its first line to the end. -/
def pcanEventEnable (w : World) (pcanChannel : Nat) (callback : Nat) (env : EnableEnv) :
    Nat × World :=
  -- InitializeSecurityDescriptor, SetSecurityDescriptorDacl
  if env.initSD = false then (1, w) else
  if env.setDacl = false then (1, w) else
  let r := CreateEvent w Obj.eventRead env.createRead
  let w1 : World := { r.2 with pcanEventRead := r.1 }
  if w1.pcanEventRead = 0 then (1, w1) else enableCreateSpawn w1 pcanChannel callback env

/-- Outcome of each call made by `pcanEventDisable`, in program order, and the
environment of the worker thread while the caller waits for it. -/
structure DisableEnv where
  setValue : Nat
  setEvent : Bool
  waitThread : Option Nat
  thread : ThreadEnv
  getExitCode : Bool
  closeRead : Bool
  closeSpawn : Bool
  closeExit : Bool
  closeThread : Bool

/-- Lines 394-427 of pcan_event_win32.c: the four handles are closed, the
first failure is `return 1`. -/
def disableClose (w : World) (env : DisableEnv) : Nat × World :=
  let r5 := CloseHandle w w.pcanEventRead env.closeRead
  if r5.1 = 0 then (1, r5.2) else
  let r6 := CloseHandle r5.2 r5.2.pcanEventSpawn env.closeSpawn
  if r6.1 = 0 then (1, r6.2) else
  let r7 := CloseHandle r6.2 r6.2.pcanEventExit env.closeExit
  if r7.1 = 0 then (1, r7.2) else
  let r8 := CloseHandle r7.2 r7.2.pcanEventThread env.closeThread
  if r8.1 = 0 then (1, r8.2) else
  (0, r8.2)

/-- Lines 345-392 of pcan_event_win32.c, then `disableClose`: the unbounded
wait for the worker thread and the inspection of its exit code.  No result when
the wait does not return. -/
def disableJoin (fuel : Nat) (w : World) (env : DisableEnv) : Option (Nat × World) :=
  match WaitForSingleObject_infinite fuel w w.pcanEventThread env.waitThread env.thread with
  | none => none
  | some (ret, w3a) =>
    let w3 : World := { w3a with trace := w3a.trace ++ [Ev.waitThread ret] }
    if ret = WAIT_OBJECT_0 then
      let r4 := GetExitCodeThread w3 w3.pcanEventThread env.getExitCode
      if r4.1 = 0 then some (1, w3) else
      if r4.2 = STILL_ACTIVE then some (1, w3) else
      some (disableClose w3 env)
    else if ret = WAIT_ABANDONED then some (1, w3)
    else if ret = WAIT_TIMEOUT then some (1, w3)
    else if ret = WAIT_FAILED then some (1, w3)
    else some (1, w3)

/-- Lines 325-428 of pcan_event_win32.c: the driver registration is cleared
and the exit event signalled (lines 325-343) here, the rest of the function in
`disableJoin` and `disableClose`.  No result when the unbounded wait for the
worker thread does not return. -/
def pcanEventDisable (fuel : Nat) (w : World) (pcan_Channel : Nat) (env : DisableEnv) :
    Option (Nat × World) :=
  let dummy_event := INVALID_HANDLE_VALUE
  -- the status of this call is not inspected
  let w1 := (CAN_SetValue w pcan_Channel dummy_event env.setValue).2
  let r2 := SetEvent w1 w1.pcanEventExit env.setEvent
  if r2.1 = 0 then some (1, r2.2) else disableJoin fuel r2.2 env

/-! ## The process between two calls of the bridge -/

/-- One step of the rest of the process, between two calls of the bridge or
between two calls made by a function of the bridge: a worker thread runs its
prologue, a worker thread makes one pass of its loop, or the driver signals the
event registered with it. -/
inductive Step : World → World → Prop
  | start (w : World) (tid : Nat) (t : Waiter) (e : ThreadStartEnv) :
      findThread w.threads tid = some t → t.pc = Pc.start →
      Step w (threadProcStart w tid e)
  | pass (w : World) (tid : Nat) (t : Waiter) (fault : Option Nat) (w1 : World) :
      findThread w.threads tid = some t → t.pc = Pc.waiting →
      threadProcPass w tid t fault = some w1 → Step w w1
  | driver (w : World) (h : Int) :
      w.driverEvent = some h → Step w (SetEvent w h true).2

/-- Whether a thread has returned from `pcanEventThreadProc`. -/
def Waiter.terminal (t : Waiter) : Bool :=
  match t.pc with
  | Pc.exited _ => true
  | _ => false

/-- What a step leaves as it is when it takes the process from `w` to `w1`,
closes nothing, invokes no callback and acts on no thread but `tid`: the
globals of the C file, every open handle, every other thread, the parameters of
thread `tid`, and the number of callback invocations. -/
structure Frame (tid : Nat) (w w1 : World) : Prop where
  read : w1.pcanEventRead = w.pcanEventRead
  spawn : w1.pcanEventSpawn = w.pcanEventSpawn
  exit : w1.pcanEventExit = w.pcanEventExit
  thread : w1.pcanEventThread = w.pcanEventThread
  threadID : w1.pcanEventThreadID = w.pcanEventThreadID
  handles : w.handles <:+ w1.handles
  length : w1.threads.length = w.threads.length
  others : ∀ tid2, tid2 ≠ tid → findThread w1.threads tid2 = findThread w.threads tid2
  self : ∀ t, findThread w.threads tid = some t →
    ∃ t1, findThread w1.threads tid = some t1 ∧ t1.callback = t.callback ∧
      t1.canChannel = t.canChannel
  callbacks : callbackCount w1 = callbackCount w

/-- The bridge is enabled with worker thread `tid`, whose record is `t`: the
four global handles are open and refer to the three events and to the thread,
and the thread is in its wait loop holding its own open handles. -/
structure Enabled (w : World) (tid : Nat) (t : Waiter) : Prop where
  thread : findThread w.threads tid = some t
  waiting : t.pc = Pc.waiting
  hRead : lookupH w.handles w.pcanEventRead = some Obj.eventRead
  hSpawn : lookupH w.handles w.pcanEventSpawn = some Obj.eventSpawn
  hExit : lookupH w.handles w.pcanEventExit = some Obj.eventExit
  hThread : lookupH w.handles w.pcanEventThread = some (Obj.thread tid)
  tRead : lookupH w.handles t.hRead = some Obj.eventRead
  tSpawn : lookupH w.handles t.hSpawn = some Obj.eventSpawn
  tExit : lookupH w.handles t.hExit = some Obj.eventExit
  neRead : t.hRead ≠ w.pcanEventRead
  neSpawn : t.hSpawn ≠ w.pcanEventSpawn
  neExit : t.hExit ≠ w.pcanEventExit

/-- Every call made by `pcanEventEnable` and by the prologue of the new thread
succeeds, and the thread runs its prologue within the bounded wait. -/
def EnableEnv.allOk (env : EnableEnv) : Prop :=
  env.initSD = true ∧ env.setDacl = true ∧ env.createRead = true ∧ env.createSpawn = true ∧
  env.createExit = true ∧ env.createThread = true ∧ env.thread.scheduled = true ∧
  env.thread.openRead = true ∧ env.thread.openSpawn = true ∧ env.thread.openExit = true ∧
  env.thread.setSpawn = true ∧ env.waitSpawn = none ∧ env.setValue = PCAN_ERROR_OK

/-- Every call made by `pcanEventDisable` succeeds and no wait of the worker
thread is failed by the environment. -/
def DisableEnv.allOk (env : DisableEnv) : Prop :=
  env.setValue = PCAN_ERROR_OK ∧ env.setEvent = true ∧ env.waitThread = none ∧
  (∀ n, env.thread.waits n = none) ∧ env.getExitCode = true ∧ env.closeRead = true ∧
  env.closeSpawn = true ∧ env.closeExit = true ∧ env.closeThread = true

end Win32

namespace Darwin

/-! ## Constants -/

/-- Value `PCAN_ERROR_OK` of PCBUSB.h. -/
def PCAN_ERROR_OK : Nat := 0
/-- Number of bytes written to signal a pipe: `sizeof(buf)` with `int buf`. -/
def sizeofBuf : Nat := 4
/-- Value a failed `write` leaves in `size_t count`: `(size_t)-1`. -/
def writeFailed : Nat := 2 ^ 64 - 1
/-- Error `ESRCH`, returned by `pthread_join` when no thread has the given id. -/
def ESRCH : Nat := 3

/-! ## The body of the wait loop -/

/-- What one pass through the `while (threadExit == 0)` loop of
`pcanEventThreadProc` does once `select` has returned. -/
inductive LoopStep
  /-- The loop condition is evaluated again with `threadExit == 0`;
  `invoked` tells whether the callback was called in this pass. -/
  | again (invoked : Bool)
  /-- The statement `threadExit = 1` was executed: the loop ends. -/
  | leave
  /-- The statement `return (void*)1` was executed inside the loop. -/
  | fail
deriving DecidableEq, Repr

/-- Lines 128-149 of pcan_event_darwin.c, as a function of the value `ret`
returned by `select` and of what `FD_ISSET` reports afterwards for the exit
descriptor (`exitSet`) and the read descriptor (`readSet`). -/
def loopBody (ret : Int) (exitSet readSet : Bool) : LoopStep :=
  if exitSet then
    LoopStep.leave               -- threadExit = 1
  else if readSet then
    LoopStep.again true          -- callback
  else if ret = 0 then
    LoopStep.again false         -- do nothing
  else
    LoopStep.fail                -- return (void*)1

/-! ## The world the functions act on -/

/-- Where a worker thread stands in `pcanEventThreadProc`. -/
inductive Pc
  /-- Created by `pthread_create`, the procedure has not run yet. -/
  | start
  /-- Inside the loop, at `select`. -/
  | waiting
  /-- The procedure has returned `code`. -/
  | exited (code : Nat)
deriving DecidableEq, Repr

/-- A worker thread and its copy of `threadParameters_t`. -/
structure Waiter where
  canChannel : Nat
  callback : Nat
  pipeRead : Int
  pipeSpawn : Int
  pipeExit : Int
  pc : Pc
deriving DecidableEq, Repr

/-- A pipe made by `pipe`: its two descriptors and the bytes written and not
read. -/
structure Pipe where
  rfd : Int
  wfd : Int
  bytes : Nat
deriving DecidableEq, Repr

/-- Observable actions, in program order. -/
inductive Ev
  | canGetValue (channel : Nat) (status : Nat)
  | pipe (rfd wfd : Int)
  | malloc
  | free
  | threadCreate (tid : Nat)
  | write (fd : Int) (count : Nat)
  | selectSpawn (ret : Int)
  | join (tid : Nat) (ret : Nat)
  | close (fd : Int) (ret : Int)
  | callback (cb : Nat) (channel : Nat)
  | threadReturn (tid : Nat) (code : Nat)
deriving DecidableEq, Repr

/-- The globals of pcan_event_darwin.c (first four fields; the components of a
pair are the entries `[R]` and `[W]` of the array) and the kernel state its
calls act on. -/
structure World where
  pcanPipeRead : Int
  pcanPipeSpawn : Int × Int
  pcanPipeExit : Int × Int
  pcanEventThread : Nat
  /-- Counter from which new descriptors are drawn. -/
  nextFd : Nat
  /-- Open descriptors of the process. -/
  fds : List Int
  /-- Pipes made by `pipe`. -/
  pipes : List Pipe
  /-- Number of blocks obtained from `malloc` and not freed. -/
  heap : Nat
  /-- Every worker thread created so far. -/
  threads : List Waiter
  trace : List Ev
deriving DecidableEq, Repr

/-- State of the process before the first call: lines 62-73; the standard
descriptors 0, 1 and 2 are open. -/
def init : World :=
  { pcanPipeRead := 0
    pcanPipeSpawn := (0, 0)
    pcanPipeExit := (0, 0)
    pcanEventThread := 0
    nextFd := 3
    fds := [0, 1, 2]
    pipes := []
    heap := 0
    threads := []
    trace := [] }

/-- Threads that have not returned from `pcanEventThreadProc`. -/
def liveThreads (w : World) : List Waiter :=
  w.threads.filter (fun t => match t.pc with
    | Pc.exited _ => false
    | _ => true)

/-- Number of callback invocations recorded so far. -/
def callbackCount (w : World) : Nat :=
  (w.trace.filter (fun e => match e with
    | Ev.callback _ _ => true
    | _ => false)).length

/-- Whether the pipe read through descriptor `fd` holds unread bytes. -/
def readable (ps : List Pipe) (fd : Int) : Bool :=
  ps.any (fun p => p.rfd = fd && 0 < p.bytes)

/-! ## Operating-system and driver calls -/

/-- `CAN_GetValue(channel, PCAN_RECEIVE_EVENT, &pcanPipeRead, sizeof(int))`:
the status is the one supplied by the environment; with `PCAN_ERROR_OK` the
driver stores its descriptor `fd` in `pcanPipeRead`. -/
def CAN_GetValue (w : World) (channel : Nat) (status : Nat) (fd : Int) : Nat × World :=
  (status, { w with
               pcanPipeRead := if status = PCAN_ERROR_OK then fd else w.pcanPipeRead
               trace := w.trace ++ [Ev.canGetValue channel status] })

/-- `pipe(fildes)`: on success `0`, a new pipe and its two new descriptors
(read end, write end); on failure `-1`. -/
def pipe (w : World) (ok : Bool) : Int × (Int × Int) × World :=
  if ok then
    let r : Int := (w.nextFd : Int)
    let wr : Int := (w.nextFd : Int) + 1
    (0, (r, wr), { w with
                     nextFd := w.nextFd + 2
                     fds := r :: wr :: w.fds
                     pipes := { rfd := r, wfd := wr, bytes := 0 } :: w.pipes
                     trace := w.trace ++ [Ev.pipe r wr] })
  else (-1, (0, 0), w)

/-- `malloc(sizeof(threadParameters_t))`: whether a block was obtained. -/
def malloc (w : World) (ok : Bool) : Bool × World :=
  if ok then (true, { w with heap := w.heap + 1, trace := w.trace ++ [Ev.malloc] })
  else (false, w)

/-- `free(p)` of a block obtained from `malloc`. -/
def free (w : World) : World :=
  { w with heap := w.heap - 1, trace := w.trace ++ [Ev.free] }

/-- `pthread_create(&pcanEventThread, NULL, &pcanEventThreadProc, params)`:
the result is the one supplied by the environment; with `0` a new thread that
has not run yet, whose id is stored in `pcanEventThread`.  The parameter fields
of the new record are the contents of the block `params` obtained from
`malloc`; the thread copies the block when it starts (lines 87-88).  The copy
has these values when the thread starts while the block is allocated, as it
does when it runs its prologue inside `enableWait`, before the `free` of line
249, or at any time after a `pcanEventEnable` that returned before that `free`.
For a thread that starts after the `free` what it copies is not determined by
the program; the record keeps the contents the block had, which then do not
describe what the thread works with. -/
def pthread_create (w : World) (params : Waiter) (ret : Nat) : Nat × World :=
  if ret = 0 then
    let tid := w.threads.length + 1
    (0, { w with
            pcanEventThread := tid
            threads := w.threads ++ [{ params with pc := Pc.start }]
            trace := w.trace ++ [Ev.threadCreate tid] })
  else (ret, w)

/-- `write(fd, &buf, sizeof(buf))`: the number of bytes written, as stored in
`size_t count`.  It is the count supplied by the environment when `fd` is open,
and the bytes are added to the pipe `fd` writes to when all four were written;
it is `(size_t)-1` when `fd` is not open. -/
def write (w : World) (fd : Int) (count : Nat) : Nat × World :=
  if fd ∈ w.fds then
    let ps := if count = sizeofBuf then
        w.pipes.map (fun p => if p.wfd = fd then { p with bytes := p.bytes + sizeofBuf } else p)
      else w.pipes
    (count, { w with pipes := ps, trace := w.trace ++ [Ev.write fd count] })
  else (writeFailed, { w with trace := w.trace ++ [Ev.write fd writeFailed] })

/-- `select(fd+1, &readfds, NULL, NULL, &timeout)` with only `fd` in the set
and a timeout of one second.  A result supplied by the environment is returned
as it is.  Otherwise `-1` when `fd` is not open, `1` when the pipe holds unread
bytes and `0` (timeout) when it does not. -/
def select1 (w : World) (fd : Int) (fault : Option Int) : Int :=
  match fault with
  | some r => r
  | none => if fd ∈ w.fds then (if readable w.pipes fd then 1 else 0) else -1

/-- Readiness of the driver descriptor at one call of `select` in the worker
thread, and whether the environment makes the call fail: `fault = some r` is a
call that fails with return value `r` (`-1` for `select`). -/
structure SelectEnv where
  readReady : Bool
  fault : Option Int
deriving DecidableEq, Repr

/-- `select(nfds+1, &readfds, NULL, NULL, &timeout)` in the worker thread, with
the read and the exit descriptor in the set (lines 118-120) and a timeout of
one second: the return value and what `FD_ISSET` reports afterwards for the
exit and for the read descriptor.  The exit descriptor is ready when its pipe
holds unread bytes; the readiness of the driver descriptor is supplied by the
environment.  A call that fails leaves the descriptor sets as they were passed
in, so `FD_ISSET` then reports both descriptors, which the loop has just put
in the set. -/
def select2 (w : World) (t : Waiter) (e : SelectEnv) : Int × Bool × Bool :=
  match e.fault with
  | some r => (r, true, true)
  | none =>
    let exitSet := readable w.pipes t.pipeExit
    let readSet := e.readReady
    ((if exitSet then 1 else 0) + (if readSet then 1 else 0), exitSet, readSet)

/-- `close(fd)`: `0` and the descriptor removed when it is open, `-1`
otherwise. -/
def close (w : World) (fd : Int) : Int × World :=
  if fd ∈ w.fds then
    (0, { w with fds := w.fds.filter (fun x => x ≠ fd), trace := w.trace ++ [Ev.close fd 0] })
  else (-1, { w with trace := w.trace ++ [Ev.close fd (-1)] })

/-! ## The worker thread -/

/-- Outcome of the prologue of `pcanEventThreadProc`: whether the new thread
gets to run it before the bounded wait of its creator ends, and the count its
`write` returns. -/
structure ThreadStartEnv where
  scheduled : Bool
  writeCount : Nat
deriving DecidableEq, Repr

/-- Environment of a worker thread: its prologue and the n-th call of
`select`. -/
structure ThreadEnv where
  start : ThreadStartEnv
  selects : Nat → SelectEnv

/-- Thread `tid` returns `code` from `pcanEventThreadProc`. -/
def threadReturn (w : World) (tid : Nat) (code : Nat) : World :=
  { w with
      threads := updThread w.threads tid (fun t => { t with pc := Pc.exited code })
      trace := w.trace ++ [Ev.threadReturn tid code] }

/-- Lines 94-102 of pcan_event_darwin.c: the thread signals the spawn pipe; a
short write is `return (void*)1`. -/
def threadProcStart (w : World) (tid : Nat) (t : Waiter) (e : ThreadStartEnv) : World :=
  let r := write w t.pipeSpawn e.writeCount
  if r.1 ≠ sizeofBuf then threadReturn r.2 tid 1
  else { r.2 with threads := updThread r.2.threads tid (fun x => { x with pc := Pc.waiting }) }

/-- Lines 111-156 of pcan_event_darwin.c: one pass of the loop of thread `tid`,
whose record is `t`, from the call of `select` to the next evaluation of the
loop condition, followed by `return 0` when the loop ends. -/
def threadProcPass (w : World) (tid : Nat) (t : Waiter) (e : SelectEnv) : World :=
  let r := select2 w t e
  match loopBody r.1 r.2.1 r.2.2 with
  | LoopStep.again true =>
    { w with trace := w.trace ++ [Ev.callback t.callback t.canChannel] }
  | LoopStep.again false => w
  | LoopStep.leave => threadReturn w tid 0
  | LoopStep.fail => threadReturn w tid 1

/-- The procedure `pcanEventThreadProc` of thread `tid`, run from where the
thread stands until it has returned, in at most `fuel` steps (the first
argument); `n` counts the calls of `select` made so far.  No result when the
thread has not returned after `fuel` steps. -/
def pcanEventThreadProc : Nat → World → Nat → ThreadEnv → Nat → Option World
  | 0, w, tid, _, _ =>
    match findThread w.threads tid with
    | none => none
    | some t =>
      match t.pc with
      | Pc.exited _ => some w
      | _ => none
  | k + 1, w, tid, env, n =>
    match findThread w.threads tid with
    | none => none
    | some t =>
      match t.pc with
      | Pc.exited _ => some w
      | Pc.start => pcanEventThreadProc k (threadProcStart w tid t env.start) tid env n
      | Pc.waiting =>
        pcanEventThreadProc k (threadProcPass w tid t (env.selects n)) tid env (n + 1)

/-- `pthread_join(tid, &code)`: the call returns `0` once the thread has
returned, and does not return before; it returns `ESRCH` when no thread has
that id.  A non-zero result supplied by the environment is returned as it
is. -/
def pthread_join (fuel : Nat) (w : World) (tid : Nat) (fault : Option Nat) (env : ThreadEnv) :
    Option (Nat × World) :=
  let normal : Option (Nat × World) :=
    match findThread w.threads tid with
    | none => some (ESRCH, w)
    | some _ =>
      match pcanEventThreadProc fuel w tid env 0 with
      | some w1 => some (0, w1)
      | none => none
  match fault with
  | some r => if r = 0 then normal else some (r, w)
  | none => normal

/-! ## The public functions -/

/-- Outcome of each call made by `pcanEventEnable`, in program order. -/
structure EnableEnv where
  getValue : Nat
  driverFd : Int
  pipeSpawn : Bool
  pipeExit : Bool
  malloc : Bool
  threadCreate : Nat
  thread : ThreadStartEnv
  select : Option Int
deriving DecidableEq, Repr

/-- Lines 228-251 of pcan_event_darwin.c: the bounded wait on the spawn pipe,
during which the new thread runs its prologue if it is scheduled, and the
release of the parameter block. -/
def enableWait (w : World) (env : EnableEnv) : Nat × World :=
  let w5 : World :=
    if env.thread.scheduled then
      match findThread w.threads w.pcanEventThread with
      | some t => threadProcStart w w.pcanEventThread t env.thread
      | none => w
    else w
  let ret := select1 w5 w5.pcanPipeSpawn.1 env.select
  let w6 : World := { w5 with trace := w5.trace ++ [Ev.selectSpawn ret] }
  if ret = -1 then (1, w6) else
  (0, free w6)

/-- Lines 210-226 of pcan_event_darwin.c, then `enableWait`: the parameter
block is filled in and the worker thread created. -/
def enableSpawn (w : World) (pcanChannel : Nat) (callback : Nat) (env : EnableEnv) :
    Nat × World :=
  let pcanEventThreadParams : Waiter :=
    { pc := Pc.start
      canChannel := pcanChannel
      callback := callback
      pipeRead := w.pcanPipeRead
      pipeSpawn := w.pcanPipeSpawn.2
      pipeExit := w.pcanPipeExit.1 }
  let r := pthread_create w pcanEventThreadParams env.threadCreate
  if r.1 ≠ 0 then (1, r.2) else enableWait r.2 env

/-- Lines 201-208 of pcan_event_darwin.c, then `enableSpawn`: the parameter
block is allocated. -/
def enableMalloc (w : World) (pcanChannel : Nat) (callback : Nat) (env : EnableEnv) :
    Nat × World :=
  let r := malloc w env.malloc
  if r.1 = false then (1, r.2) else enableSpawn r.2 pcanChannel callback env

/-- Lines 192-199 of pcan_event_darwin.c, then `enableMalloc`: the exit pipe
is created. -/
def enablePipeExit (w : World) (pcanChannel : Nat) (callback : Nat) (env : EnableEnv) :
    Nat × World :=
  let r := pipe w env.pipeExit
  if r.1 = -1 then (1, r.2.2)
  else enableMalloc { r.2.2 with pcanPipeExit := r.2.1 } pcanChannel callback env

/-- Lines 166-252 of pcan_event_darwin.c: the driver call and the spawn pipe
(lines 166-190) here, the rest of the function in `enablePipeExit`,
`enableMalloc`, `enableSpawn` and `enableWait`, each of which runs the function
from its first line to the end. -/
def pcanEventEnable (w : World) (pcanChannel : Nat) (callback : Nat) (env : EnableEnv) :
    Nat × World :=
  -- a status other than PCAN_ERROR_OK is printed, nothing else
  let w0 := (CAN_GetValue w pcanChannel env.getValue env.driverFd).2
  let r := pipe w0 env.pipeSpawn
  if r.1 = -1 then (1, r.2.2)
  else enablePipeExit { r.2.2 with pcanPipeSpawn := r.2.1 } pcanChannel callback env

/-- Outcome of each call made by `pcanEventDisable`, in program order, and the
environment of the worker thread while the caller waits for it. -/
structure DisableEnv where
  writeCount : Nat
  join : Option Nat
  thread : ThreadEnv

/-- Lines 257-305 of pcan_event_darwin.c.  No result when `pthread_join` does
not return. -/
def pcanEventDisable (fuel : Nat) (w : World) (_pcan_Channel : Nat) (env : DisableEnv) :
    Option (Nat × World) :=
  let r1 := write w w.pcanPipeExit.2 env.writeCount
  if r1.1 ≠ sizeofBuf then some (1, r1.2) else
  match pthread_join fuel r1.2 r1.2.pcanEventThread env.join env.thread with
  | none => none
  | some (ret, w2a) =>
    -- a non-zero result is printed
    let w2 : World := { w2a with trace := w2a.trace ++ [Ev.join w2a.pcanEventThread ret] }
    let w3 := (close w2 w2.pcanPipeSpawn.2).2
    let w4 := (close w3 w3.pcanPipeSpawn.1).2
    let w5 := (close w4 w4.pcanPipeExit.2).2
    let w6 := (close w5 w5.pcanPipeExit.1).2
    some (0, w6)

/-! ## The process between two calls of the bridge -/

/-- One step of the rest of the process, between two calls of the bridge or
between two calls made by a function of the bridge: a worker thread runs its
prologue or makes one pass of its loop. -/
inductive Step : World → World → Prop
  | start (w : World) (tid : Nat) (t : Waiter) (e : ThreadStartEnv) :
      findThread w.threads tid = some t → t.pc = Pc.start →
      Step w (threadProcStart w tid t e)
  | pass (w : World) (tid : Nat) (t : Waiter) (e : SelectEnv) :
      findThread w.threads tid = some t → t.pc = Pc.waiting →
      Step w (threadProcPass w tid t e)

/-- Whether a thread has returned from `pcanEventThreadProc`. -/
def Waiter.terminal (t : Waiter) : Bool :=
  match t.pc with
  | Pc.exited _ => true
  | _ => false

/-- The bridge is enabled with worker thread `tid`, whose record is `t`: the
thread is in its wait loop on the read end of the exit pipe, and the four
descriptors of the spawn and exit pipes are open and distinct. -/
structure Enabled (w : World) (tid : Nat) (t : Waiter) : Prop where
  thread : findThread w.threads tid = some t
  waiting : t.pc = Pc.waiting
  global : w.pcanEventThread = tid
  exitFd : t.pipeExit = w.pcanPipeExit.1
  exitPipe : ∃ p ∈ w.pipes, p.rfd = w.pcanPipeExit.1 ∧ p.wfd = w.pcanPipeExit.2
  fdsOpen : w.pcanPipeSpawn.2 ∈ w.fds ∧ w.pcanPipeSpawn.1 ∈ w.fds ∧
    w.pcanPipeExit.2 ∈ w.fds ∧ w.pcanPipeExit.1 ∈ w.fds
  distinct : [w.pcanPipeSpawn.2, w.pcanPipeSpawn.1, w.pcanPipeExit.2, w.pcanPipeExit.1].Nodup

/-- Every call made by `pcanEventEnable` succeeds and the new thread signals
the spawn pipe within the bounded wait. -/
def EnableEnv.allOk (env : EnableEnv) : Prop :=
  env.getValue = PCAN_ERROR_OK ∧ env.pipeSpawn = true ∧ env.pipeExit = true ∧
  env.malloc = true ∧ env.threadCreate = 0 ∧ env.thread.scheduled = true ∧
  env.thread.writeCount = sizeofBuf ∧ env.select = none

/-- Every call made by `pcanEventDisable` succeeds and no `select` of the
worker thread is failed by the environment. -/
def DisableEnv.allOk (env : DisableEnv) : Prop :=
  env.writeCount = sizeofBuf ∧ env.join = none ∧ (∀ n, (env.thread.selects n).fault = none)

end Darwin

/-! ## Concrete environments and worlds -/

namespace Win32

/-- World in which `pcanEventEnable` enters its handshake stage after the three
events and the thread have been created, in terms of the world `w` it was
called in. -/
def afterCreate (w : World) (ch cb : Nat) : World :=
  { w with
    pcanEventRead := (w.nextHandle : Int) + 1
    pcanEventSpawn := (w.nextHandle : Int) + 1 + 1
    pcanEventExit := (w.nextHandle : Int) + 1 + 1 + 1
    pcanEventThread := (w.nextHandle : Int) + 1 + 1 + 1 + 1
    pcanEventThreadID := w.threads.length + 1
    nextHandle := w.nextHandle + 1 + 1 + 1 + 1
    handles :=
      ((w.nextHandle : Int) + 1 + 1 + 1 + 1, Obj.thread (w.threads.length + 1)) ::
      ((w.nextHandle : Int) + 1 + 1 + 1, Obj.eventExit) ::
      ((w.nextHandle : Int) + 1 + 1, Obj.eventSpawn) ::
      ((w.nextHandle : Int) + 1, Obj.eventRead) :: w.handles
    sigRead := objOpen w.handles Obj.eventRead && w.sigRead
    sigSpawn := objOpen w.handles Obj.eventSpawn && w.sigSpawn
    sigExit := objOpen w.handles Obj.eventExit && w.sigExit
    threads := w.threads ++
      [{ canChannel := ch, callback := cb, pc := Pc.start
         hRead := INVALID_HANDLE_VALUE, hSpawn := INVALID_HANDLE_VALUE
         hExit := INVALID_HANDLE_VALUE }]
    trace := w.trace ++
      [Ev.createEvent Obj.eventRead ((w.nextHandle : Int) + 1),
       Ev.createEvent Obj.eventSpawn ((w.nextHandle : Int) + 1 + 1),
       Ev.createEvent Obj.eventExit ((w.nextHandle : Int) + 1 + 1 + 1),
       Ev.createThread (w.threads.length + 1) ((w.nextHandle : Int) + 1 + 1 + 1 + 1)] }

/-- Prologue of a worker thread in which every call succeeds. -/
def okStart : ThreadStartEnv :=
  { scheduled := true, openRead := true, openSpawn := true, openExit := true, setSpawn := true }

/-- Environment of `pcanEventEnable` in which every call succeeds. -/
def okEnable : EnableEnv :=
  { initSD := true, setDacl := true, createRead := true, createSpawn := true
    createExit := true, createThread := true, thread := okStart, waitSpawn := none
    setValue := PCAN_ERROR_OK }

/-- Environment of `pcanEventDisable` in which every call succeeds. -/
def okDisable : DisableEnv :=
  { setValue := PCAN_ERROR_OK, setEvent := true, waitThread := none
    thread := { start := okStart, waits := fun _ => none }
    getExitCode := true, closeRead := true, closeSpawn := true, closeExit := true
    closeThread := true }

/-- World after a first successful `pcanEventEnable(5, 7)`. -/
def enabledWorld : World := (pcanEventEnable init 5 7 okEnable).2

/-- Environment of `pcanEventEnable` in which only `CAN_SetValue` fails, with
status 1. -/
def setValueFails : EnableEnv := { okEnable with setValue := 1 }

/-- Environment of `pcanEventEnable` in which every call succeeds but the new
thread does not run before the bounded wait ends. -/
def lateThread : EnableEnv := { okEnable with thread := { okStart with scheduled := false } }

/-- Environment of `pcanEventEnable` in which the second `CreateEvent` fails. -/
def createSpawnFails : EnableEnv := { okEnable with createSpawn := false }

/-- Environment of `pcanEventEnable` in which the startup wait fails. -/
def waitFails : EnableEnv := { okEnable with waitSpawn := some WAIT_FAILED }

/-- Record of the worker thread in `enabledWorld`. -/
def enabledThread : Waiter :=
  { canChannel := 5, callback := 7, pc := Pc.waiting, hRead := 5, hSpawn := 6, hExit := 7 }

/-- World `enabledWorld` after the driver has signalled the read event. -/
def signalledWorld : World := (SetEvent enabledWorld enabledWorld.pcanEventRead true).2

/-- World after `pcanEventDisable` on `enabledWorld` with every call
succeeding. -/
def disabledWorld : World :=
  match pcanEventDisable 2 enabledWorld 5 okDisable with
  | some r => r.2
  | none => enabledWorld

/-- World after a `pcanEventEnable(5, 7)` that fails at `CAN_SetValue` followed
by a `pcanEventEnable(5, 8)` in which every call succeeds. -/
def retryWorld : World :=
  (pcanEventEnable (pcanEventEnable init 5 7 setValueFails).2 5 8 okEnable).2

/-- World `retryWorld` after the driver has signalled the event registered
with it. -/
def retrySignalled : World := (SetEvent retryWorld 8 true).2

/-- World `retryWorld` after the first two calls of a `pcanEventDisable(5)` in
which every call succeeds: the driver registration is cleared and the exit
event is signalled. -/
def retryExitSignalled : World :=
  (SetEvent (CAN_SetValue retryWorld 5 INVALID_HANDLE_VALUE PCAN_ERROR_OK).2
    retryWorld.pcanEventExit true).2

/-- World `retryExitSignalled` after the thread of the first attempt, which
waits on the same exit event, has made the loop pass that takes the signal and
has returned. -/
def retryExitTaken : World :=
  match threadProcPass retryExitSignalled 1 enabledThread none with
  | some w => w
  | none => retryExitSignalled

/-- World after the driver has signalled the read event through the handle in
`pcanEventRead`. -/
def driverSignal (w : World) : World := (SetEvent w w.pcanEventRead true).2

/-- World after a loop pass of a worker thread that consumed the signal of the
read event and invoked callback `cb` on channel `ch`. -/
def afterCallback (w : World) (cb ch : Nat) : World :=
  { w with sigRead := false, trace := w.trace ++ [Ev.callback cb ch] }

/-- World after a `pcanEventEnable(5, 7)` whose startup wait timed out because
the new thread was not scheduled in time. -/
def lateWorld : World := (pcanEventEnable init 5 7 lateThread).2

/-- World `lateWorld` after its thread has run its prologue, which signals the
spawn event. -/
def lateStarted : World := threadProcStart lateWorld 1 okStart

/-- Environment of `pcanEventEnable` in which every call of the function
succeeds, the new thread is scheduled in time and its second `OpenEvent`
fails. -/
def openSpawnFails : EnableEnv := { okEnable with thread := { okStart with openSpawn := false } }

/-- Environment of `pcanEventDisable` in which only `CAN_SetValue` fails, with
status 1. -/
def clearFails : DisableEnv := { okDisable with setValue := 1 }

/-- Environment of `pcanEventDisable` in which the unbounded wait for the
thread fails. -/
def joinFails : DisableEnv := { okDisable with waitThread := some WAIT_FAILED }

/-- Environment of `pcanEventDisable` in which `CloseHandle(pcanEventRead)`
fails. -/
def closeReadFails : DisableEnv := { okDisable with closeRead := false }

/-- Environment of `pcanEventDisable` in which `SetEvent` fails. -/
def setEventFails : DisableEnv := { okDisable with setEvent := false }

/-- World left by `pcanEventDisable` on `signalledWorld` when `SetEvent`
fails. -/
def afterFailedDisable : World :=
  { signalledWorld with
    driverEvent := none
    trace := signalledWorld.trace ++ [Ev.canSetValue 5 INVALID_HANDLE_VALUE PCAN_ERROR_OK] }

end Win32

namespace Darwin

/-- World in which `pcanEventEnable` enters its handshake stage after the two
pipes, the parameter block and the thread have been created, in terms of the
world `w` it was called in and of the outcome of `CAN_GetValue`. -/
def afterCreate (w : World) (ch cb : Nat) (env : EnableEnv) : World :=
  { w with
    pcanPipeRead := if env.getValue = PCAN_ERROR_OK then env.driverFd else w.pcanPipeRead
    pcanPipeSpawn := ((w.nextFd : Int), (w.nextFd : Int) + 1)
    pcanPipeExit := ((w.nextFd : Int) + 2, (w.nextFd : Int) + 2 + 1)
    pcanEventThread := w.threads.length + 1
    nextFd := w.nextFd + 2 + 2
    fds := ((w.nextFd : Int) + 2) :: ((w.nextFd : Int) + 2 + 1) :: (w.nextFd : Int) ::
      ((w.nextFd : Int) + 1) :: w.fds
    pipes :=
      { rfd := (w.nextFd : Int) + 2, wfd := (w.nextFd : Int) + 2 + 1, bytes := 0 } ::
      { rfd := (w.nextFd : Int), wfd := (w.nextFd : Int) + 1, bytes := 0 } :: w.pipes
    heap := w.heap + 1
    threads := w.threads ++
      [{ canChannel := ch, callback := cb
         pipeRead := if env.getValue = PCAN_ERROR_OK then env.driverFd else w.pcanPipeRead
         pipeSpawn := (w.nextFd : Int) + 1
         pipeExit := (w.nextFd : Int) + 2
         pc := Pc.start }]
    trace := w.trace ++
      [Ev.canGetValue ch env.getValue,
       Ev.pipe (w.nextFd : Int) ((w.nextFd : Int) + 1),
       Ev.pipe ((w.nextFd : Int) + 2) ((w.nextFd : Int) + 2 + 1),
       Ev.malloc,
       Ev.threadCreate (w.threads.length + 1)] }

/-- Prologue of a worker thread whose `write` succeeds. -/
def okStart : ThreadStartEnv := { scheduled := true, writeCount := sizeofBuf }

/-- Environment of `pcanEventEnable` in which every call succeeds; the driver
hands out descriptor 9. -/
def okEnable : EnableEnv :=
  { getValue := PCAN_ERROR_OK, driverFd := 9, pipeSpawn := true, pipeExit := true
    malloc := true, threadCreate := 0, thread := okStart, select := none }

/-- Environment of `pcanEventDisable` in which every call succeeds and the
driver descriptor is never ready. -/
def okDisable : DisableEnv :=
  { writeCount := sizeofBuf, join := none
    thread := { start := okStart, selects := fun _ => { readReady := false, fault := none } } }

/-- World after a first successful `pcanEventEnable(5, 7)`. -/
def enabledWorld : World := (pcanEventEnable init 5 7 okEnable).2

/-- Environment of `pcanEventEnable` in which only `CAN_GetValue` fails, with
status 1. -/
def getValueFails : EnableEnv := { okEnable with getValue := 1 }

/-- Environment of `pcanEventEnable` in which every call succeeds but the new
thread does not run before the bounded wait ends. -/
def lateThread : EnableEnv := { okEnable with thread := { okStart with scheduled := false } }

/-- Environment of `pcanEventEnable` in which `pthread_create` fails with
`EAGAIN` (35). -/
def threadCreateFails : EnableEnv := { okEnable with threadCreate := 35 }

/-- Environment of `pcanEventEnable` in which the startup `select` fails. -/
def selectFails : EnableEnv := { okEnable with select := some (-1) }

/-- Record of the worker thread in `enabledWorld`. -/
def enabledThread : Waiter :=
  { canChannel := 5, callback := 7, pipeRead := 9, pipeSpawn := 4, pipeExit := 5
    pc := Pc.waiting }

/-- World after `pcanEventDisable` on `enabledWorld` with every call
succeeding. -/
def disabledWorld : World :=
  match pcanEventDisable 1 enabledWorld 5 okDisable with
  | some r => r.2
  | none => enabledWorld

/-- World after a loop pass of a worker thread that found the driver descriptor
ready and invoked callback `cb` on channel `ch`. -/
def afterCallback (w : World) (cb ch : Nat) : World :=
  { w with trace := w.trace ++ [Ev.callback cb ch] }

/-- Environment of `pcanEventEnable` in which every call of the function
succeeds but the `write` of the new thread on the spawn pipe writes nothing. -/
def spawnWriteFails : EnableEnv :=
  { okEnable with thread := { scheduled := true, writeCount := 0 } }

/-- No pipe made so far uses a descriptor the kernel has not handed out yet. -/
def pipesBelow (w : World) : Prop :=
  ∀ p ∈ w.pipes, p.rfd < (w.nextFd : Int) ∧ p.wfd < (w.nextFd : Int)

/-- Environment of `pcanEventDisable` in which `pthread_join` fails with
`EDEADLK` (11). -/
def joinFails : DisableEnv := { okDisable with join := some 11 }

end Darwin

/-! ## Helpers of pcan_helper.c -/

/-- Function `pcanDLCDecode` of pcan_helper.c (lines 316-352), with
`uint8_t dlc`.  The local `int len` is declared without an initial value and no
branch assigns it when `dlc` is greater than 15; `lenInit` stands for the value
it holds then.  The result is `len` converted to `uint8_t`. -/
def pcanDLCDecode (lenInit : Int) (dlc : Nat) : Nat :=
  let len : Int :=
    if dlc ≤ 8 then (dlc : Int)
    else
      match dlc with
      | 9 => 12
      | 10 => 16
      | 11 => 20
      | 12 => 24
      | 13 => 32
      | 14 => 48
      | 15 => 64
      | _ => lenInit
  (len % 256).toNat

/-- The macros `PCAN_BAUD_*` of the vendor header PCANBasic.h (PCBUSB.h on
macOS), which pcan_helper.c includes and the repository does not contain. -/
structure BaudConstants where
  PCAN_BAUD_1M : Nat
  PCAN_BAUD_800K : Nat
  PCAN_BAUD_500K : Nat
  PCAN_BAUD_250K : Nat
  PCAN_BAUD_125K : Nat
  PCAN_BAUD_100K : Nat
  PCAN_BAUD_95K : Nat
  PCAN_BAUD_83K : Nat
  PCAN_BAUD_50K : Nat
  PCAN_BAUD_47K : Nat
  PCAN_BAUD_33K : Nat
  PCAN_BAUD_20K : Nat
  PCAN_BAUD_10K : Nat
  PCAN_BAUD_5K : Nat
deriving DecidableEq, Repr

/-- The values PCANBasic.h gives the macros (BTR0/BTR1 register codes);
`0x001C` is the value src/example/win32/main.c passes to `CAN_Initialize`. -/
def pcanBasicBauds : BaudConstants :=
  { PCAN_BAUD_1M := 0x0014
    PCAN_BAUD_800K := 0x0016
    PCAN_BAUD_500K := 0x001C
    PCAN_BAUD_250K := 0x011C
    PCAN_BAUD_125K := 0x031C
    PCAN_BAUD_100K := 0x432F
    PCAN_BAUD_95K := 0xC34E
    PCAN_BAUD_83K := 0x852B
    PCAN_BAUD_50K := 0x472F
    PCAN_BAUD_47K := 0x1414
    PCAN_BAUD_33K := 0x8B2F
    PCAN_BAUD_20K := 0x532F
    PCAN_BAUD_10K := 0x672F
    PCAN_BAUD_5K := 0x7F7F }

/-- None of the macros is 0. -/
def BaudConstants.nonzero (c : BaudConstants) : Prop :=
  c.PCAN_BAUD_1M ≠ 0 ∧ c.PCAN_BAUD_800K ≠ 0 ∧ c.PCAN_BAUD_500K ≠ 0 ∧ c.PCAN_BAUD_250K ≠ 0 ∧
  c.PCAN_BAUD_125K ≠ 0 ∧ c.PCAN_BAUD_100K ≠ 0 ∧ c.PCAN_BAUD_95K ≠ 0 ∧ c.PCAN_BAUD_83K ≠ 0 ∧
  c.PCAN_BAUD_50K ≠ 0 ∧ c.PCAN_BAUD_47K ≠ 0 ∧ c.PCAN_BAUD_33K ≠ 0 ∧ c.PCAN_BAUD_20K ≠ 0 ∧
  c.PCAN_BAUD_10K ≠ 0 ∧ c.PCAN_BAUD_5K ≠ 0

/-- The integer bauds `pcanTranslateBaud` has a case for. -/
def supportedBauds : List Nat :=
  [1000000, 800000, 500000, 250000, 125000, 100000, 95000, 83000, 50000, 47000, 33000, 20000,
   10000, 5000]

/-- Function `pcanTranslateBaud` of pcan_helper.c (lines 395-448), with
`uint32_t baudInt`. -/
def pcanTranslateBaud (c : BaudConstants) (baudInt : Nat) : Nat :=
  -- switch (baudInt)
  if baudInt = 1000000 then c.PCAN_BAUD_1M
  else if baudInt = 800000 then c.PCAN_BAUD_800K
  else if baudInt = 500000 then c.PCAN_BAUD_500K
  else if baudInt = 250000 then c.PCAN_BAUD_250K
  else if baudInt = 125000 then c.PCAN_BAUD_125K
  else if baudInt = 100000 then c.PCAN_BAUD_100K
  else if baudInt = 95000 then c.PCAN_BAUD_95K
  else if baudInt = 83000 then c.PCAN_BAUD_83K
  else if baudInt = 50000 then c.PCAN_BAUD_50K
  else if baudInt = 47000 then c.PCAN_BAUD_47K
  else if baudInt = 33000 then c.PCAN_BAUD_33K
  else if baudInt = 20000 then c.PCAN_BAUD_20K
  else if baudInt = 10000 then c.PCAN_BAUD_10K
  else if baudInt = 5000 then c.PCAN_BAUD_5K
  else 0 -- default: unknown

/-! ## Live threads and reachable states -/

/-- No thread of `ts` is alive: every thread has returned (`term`). -/
def noneLive {α : Type} (term : α → Bool) (ts : List α) : Prop :=
  ∀ i t, findThread ts i = some t → term t = true

/-- Every thread alive in `ts1` is alive, under the same id, in `ts`. -/
def liveSub {α : Type} (term : α → Bool) (ts1 ts : List α) : Prop :=
  ∀ i t1, findThread ts1 i = some t1 → term t1 = false →
    ∃ t, findThread ts i = some t ∧ term t = false

namespace Win32

/-- States of the process reachable from the initial state by calls of
`pcanEventEnable` and `pcanEventDisable` and by steps of the threads and of the
driver in between, when `pcanEventEnable` is called only while no worker thread
is alive. -/
inductive Reach : World → Prop
  | init : Reach init
  | step (w w1 : World) : Reach w → Step w w1 → Reach w1
  | enable (w : World) (pcanChannel callback : Nat) (env : EnableEnv) :
      Reach w → noneLive Waiter.terminal w.threads →
      Reach (pcanEventEnable w pcanChannel callback env).2
  | disable (fuel : Nat) (w : World) (pcan_Channel : Nat) (env : DisableEnv) (r : Nat)
      (w1 : World) :
      Reach w → pcanEventDisable fuel w pcan_Channel env = some (r, w1) → Reach w1

end Win32

namespace Darwin

/-- States of the process reachable from the initial state by calls of
`pcanEventEnable` and `pcanEventDisable` and by steps of the threads in between,
when `pcanEventEnable` is called only while no worker thread is alive. -/
inductive Reach : World → Prop
  | init : Reach init
  | step (w w1 : World) : Reach w → Step w w1 → Reach w1
  | enable (w : World) (pcanChannel callback : Nat) (env : EnableEnv) :
      Reach w → noneLive Waiter.terminal w.threads →
      Reach (pcanEventEnable w pcanChannel callback env).2
  | disable (fuel : Nat) (w : World) (pcan_Channel : Nat) (env : DisableEnv) (r : Nat)
      (w1 : World) :
      Reach w → pcanEventDisable fuel w pcan_Channel env = some (r, w1) → Reach w1

end Darwin

/-! ## What an Enable/Disable pair keeps true in between -/

namespace Win32

/-- The handle fields of a thread record are not the handle `g` and are handles
the kernel has handed out (at most `nh`), `0` or `INVALID_HANDLE_VALUE`. -/
def FieldsOk (g : Int) (nh : Nat) (t : Waiter) : Prop :=
  t.hRead ≠ g ∧ t.hSpawn ≠ g ∧ t.hExit ≠ g ∧
  t.hRead ≤ (nh : Int) ∧ t.hSpawn ≤ (nh : Int) ∧ t.hExit ≤ (nh : Int)

/-- None of the three handle fields of a thread record is an open handle. -/
def HandlesClosed (hs : List (Int × Obj)) (t : Waiter) : Prop :=
  lookupH hs t.hRead = none ∧ lookupH hs t.hSpawn = none ∧ lookupH hs t.hExit = none

/-- The handle fields of every thread record are handles the kernel has handed
out, `0` or `INVALID_HANDLE_VALUE`. -/
def fieldsBelow (w : World) : Prop :=
  ∀ tid t, findThread w.threads tid = some t →
    t.hRead ≤ (w.nextHandle : Int) ∧ t.hSpawn ≤ (w.nextHandle : Int) ∧
    t.hExit ≤ (w.nextHandle : Int)

/-- What holds from the creation of thread `tid0` by `pcanEventEnable`, with
thread handle `g`, until `pcanEventDisable` closes that handle: the global
`pcanEventThread` is `g`, `g` is an open handle to thread `tid0`, no thread
record holds `g` or a handle not handed out yet, and once thread `tid0` has
returned 0 its own three handles are closed. -/
structure PairInv (g : Int) (tid0 : Nat) (w : World) : Prop where
  thread : w.pcanEventThread = g
  hThread : lookupH w.handles g = some (Obj.thread tid0)
  pos : 0 < g
  next : g ≤ (w.nextHandle : Int)
  fields : ∀ tid t, findThread w.threads tid = some t → FieldsOk g w.nextHandle t
  closed : ∀ t, findThread w.threads tid0 = some t → t.pc = Pc.exited 0 →
    HandlesClosed w.handles t

end Win32

namespace Win32

/-- The globals of pcan_event_win32.c have the same values in `w1` as in
`w`. -/
def sameGlobals (w w1 : World) : Prop :=
  w1.pcanEventRead = w.pcanEventRead ∧ w1.pcanEventSpawn = w.pcanEventSpawn ∧
  w1.pcanEventExit = w.pcanEventExit ∧ w1.pcanEventThread = w.pcanEventThread ∧
  w1.pcanEventThreadID = w.pcanEventThreadID

end Win32

namespace Darwin

/-- The open descriptors, the globals naming the pipes and the thread, and the
number of threads are the same in `w1` as in `w`. -/
def sameCore (w w1 : World) : Prop :=
  w1.fds = w.fds ∧ w1.pcanPipeSpawn = w.pcanPipeSpawn ∧ w1.pcanPipeExit = w.pcanPipeExit ∧
  w1.pcanEventThread = w.pcanEventThread ∧ w1.threads.length = w.threads.length

end Darwin

/-! ## String lookup tables (common_helper.c, pcan_helper.c) -/

/-- Type `lookup_t` of common_helper.h: an integer constant and a string; the
null pointer is `none`. -/
structure lookup_t where
  value : Int
  string : Option String
deriving DecidableEq, Repr

/-- The `for` loop of `lookupString` (lines 43-55 of common_helper.c) from
entry `i` on: `table` holds the entries `table[i]`, `table[i+1]`, ... of the
array and `returnString` the current value of the local.  The loop ends at the
first entry whose string is null; no result when the array ends before such an
entry is met. -/
def lookupStringLoop (defaultString : String) (value : Int) :
    List lookup_t → Option String → Option (Option String)
  | [], _ => none
  | e :: rest, returnString =>
    match e.string with
    | none => some returnString
    | some s =>
      if e.value = value then some (some s)
      else lookupStringLoop defaultString value rest (some defaultString)

/-- Function `lookupString` of common_helper.c (lines 38-61): the local
`returnString` starts as the null pointer. -/
def lookupString (table : List lookup_t) (defaultString : String) (value : Int) :
    Option (Option String) :=
  lookupStringLoop defaultString value table none

/-- The macros `PCAN_ERROR_*` of the vendor header PCANBasic.h (PCBUSB.h on
macOS), which pcan_helper.c includes and the repository does not contain. -/
structure StatusConstants where
  PCAN_ERROR_OK : Nat
  PCAN_ERROR_XMTFULL : Nat
  PCAN_ERROR_OVERRUN : Nat
  PCAN_ERROR_BUSLIGHT : Nat
  PCAN_ERROR_BUSHEAVY : Nat
  PCAN_ERROR_BUSWARNING : Nat
  PCAN_ERROR_BUSPASSIVE : Nat
  PCAN_ERROR_BUSOFF : Nat
  PCAN_ERROR_ANYBUSERR : Nat
  PCAN_ERROR_QRCVEMPTY : Nat
  PCAN_ERROR_QOVERRUN : Nat
  PCAN_ERROR_QXMTFULL : Nat
  PCAN_ERROR_REGTEST : Nat
  PCAN_ERROR_NODRIVER : Nat
  PCAN_ERROR_HWINUSE : Nat
  PCAN_ERROR_NETINUSE : Nat
  PCAN_ERROR_ILLHW : Nat
  PCAN_ERROR_ILLNET : Nat
  PCAN_ERROR_ILLCLIENT : Nat
  PCAN_ERROR_ILLHANDLE : Nat
  PCAN_ERROR_RESOURCE : Nat
  PCAN_ERROR_ILLPARAMTYPE : Nat
  PCAN_ERROR_ILLPARAMVAL : Nat
  PCAN_ERROR_UNKNOWN : Nat
  PCAN_ERROR_ILLDATA : Nat
  PCAN_ERROR_ILLMODE : Nat
  PCAN_ERROR_CAUTION : Nat
  PCAN_ERROR_INITIALIZE : Nat
  PCAN_ERROR_ILLOPERATION : Nat
deriving DecidableEq, Repr

/-- The values PCANBasic.h gives the macros. -/
def pcanBasicStatuses : StatusConstants :=
  { PCAN_ERROR_OK := 0x00000
    PCAN_ERROR_XMTFULL := 0x00001
    PCAN_ERROR_OVERRUN := 0x00002
    PCAN_ERROR_BUSLIGHT := 0x00004
    PCAN_ERROR_BUSHEAVY := 0x00008
    PCAN_ERROR_BUSWARNING := 0x00008
    PCAN_ERROR_BUSPASSIVE := 0x40000
    PCAN_ERROR_BUSOFF := 0x00010
    PCAN_ERROR_ANYBUSERR := 0x4001C
    PCAN_ERROR_QRCVEMPTY := 0x00020
    PCAN_ERROR_QOVERRUN := 0x00040
    PCAN_ERROR_QXMTFULL := 0x00080
    PCAN_ERROR_REGTEST := 0x00100
    PCAN_ERROR_NODRIVER := 0x00200
    PCAN_ERROR_HWINUSE := 0x00400
    PCAN_ERROR_NETINUSE := 0x00800
    PCAN_ERROR_ILLHW := 0x01400
    PCAN_ERROR_ILLNET := 0x01800
    PCAN_ERROR_ILLCLIENT := 0x01C00
    PCAN_ERROR_ILLHANDLE := 0x01C00
    PCAN_ERROR_RESOURCE := 0x02000
    PCAN_ERROR_ILLPARAMTYPE := 0x04000
    PCAN_ERROR_ILLPARAMVAL := 0x08000
    PCAN_ERROR_UNKNOWN := 0x10000
    PCAN_ERROR_ILLDATA := 0x20000
    PCAN_ERROR_ILLMODE := 0x80000
    PCAN_ERROR_CAUTION := 0x2000000
    PCAN_ERROR_INITIALIZE := 0x4000000
    PCAN_ERROR_ILLOPERATION := 0x8000000 }

/-- Conversion of a 32-bit unsigned value (`TPCANStatus`, a `DWORD`) to
`int`. -/
def toInt32 (n : Nat) : Int :=
  if n % 2 ^ 32 < 2 ^ 31 then ((n % 2 ^ 32 : Nat) : Int) else ((n % 2 ^ 32 : Nat) : Int) - 2 ^ 32

/-- Table `pcanStatuses` of pcan_helper.c (lines 43-74), with its terminator
`{ 0, 0 }`. -/
def pcanStatuses (c : StatusConstants) : List lookup_t :=
  [ { value := toInt32 c.PCAN_ERROR_OK, string := some "PCAN_ERROR_OK" },
    { value := toInt32 c.PCAN_ERROR_XMTFULL, string := some "PCAN_ERROR_XMTFULL" },
    { value := toInt32 c.PCAN_ERROR_OVERRUN, string := some "PCAN_ERROR_OVERRUN" },
    { value := toInt32 c.PCAN_ERROR_BUSLIGHT, string := some "PCAN_ERROR_BUSLIGHT" },
    { value := toInt32 c.PCAN_ERROR_BUSHEAVY, string := some "PCAN_ERROR_BUSHEAVY" },
    { value := toInt32 c.PCAN_ERROR_BUSWARNING, string := some "PCAN_ERROR_BUSWARNING" },
    { value := toInt32 c.PCAN_ERROR_BUSPASSIVE, string := some "PCAN_ERROR_BUSPASSIVE" },
    { value := toInt32 c.PCAN_ERROR_BUSOFF, string := some "PCAN_ERROR_BUSOFF" },
    { value := toInt32 c.PCAN_ERROR_ANYBUSERR, string := some "PCAN_ERROR_ANYBUSERR" },
    { value := toInt32 c.PCAN_ERROR_QRCVEMPTY, string := some "PCAN_ERROR_QRCVEMPTY" },
    { value := toInt32 c.PCAN_ERROR_QOVERRUN, string := some "PCAN_ERROR_QOVERRUN" },
    { value := toInt32 c.PCAN_ERROR_QXMTFULL, string := some "PCAN_ERROR_QXMTFULL" },
    { value := toInt32 c.PCAN_ERROR_REGTEST, string := some "PCAN_ERROR_REGTEST" },
    { value := toInt32 c.PCAN_ERROR_NODRIVER, string := some "PCAN_ERROR_NODRIVER" },
    { value := toInt32 c.PCAN_ERROR_HWINUSE, string := some "PCAN_ERROR_HWINUSE" },
    { value := toInt32 c.PCAN_ERROR_NETINUSE, string := some "PCAN_ERROR_NETINUSE" },
    { value := toInt32 c.PCAN_ERROR_ILLHW, string := some "PCAN_ERROR_ILLHW" },
    { value := toInt32 c.PCAN_ERROR_ILLNET, string := some "PCAN_ERROR_ILLNET" },
    { value := toInt32 c.PCAN_ERROR_ILLCLIENT, string := some "PCAN_ERROR_ILLCLIENT" },
    { value := toInt32 c.PCAN_ERROR_ILLHANDLE, string := some "PCAN_ERROR_ILLHANDLE" },
    { value := toInt32 c.PCAN_ERROR_RESOURCE, string := some "PCAN_ERROR_RESOURCE" },
    { value := toInt32 c.PCAN_ERROR_ILLPARAMTYPE, string := some "PCAN_ERROR_ILLPARAMTYPE" },
    { value := toInt32 c.PCAN_ERROR_ILLPARAMVAL, string := some "PCAN_ERROR_ILLPARAMVAL" },
    { value := toInt32 c.PCAN_ERROR_UNKNOWN, string := some "PCAN_ERROR_UNKNOWN" },
    { value := toInt32 c.PCAN_ERROR_ILLDATA, string := some "PCAN_ERROR_ILLDATA" },
    { value := toInt32 c.PCAN_ERROR_ILLMODE, string := some "PCAN_ERROR_ILLMODE" },
    { value := toInt32 c.PCAN_ERROR_CAUTION, string := some "PCAN_ERROR_CAUTION" },
    { value := toInt32 c.PCAN_ERROR_INITIALIZE, string := some "PCAN_ERROR_INITIALIZE" },
    { value := toInt32 c.PCAN_ERROR_ILLOPERATION, string := some "PCAN_ERROR_ILLOPERATION" },
    { value := 0, string := none } ]

/-- String `pcanStatusUnknown` of pcan_helper.c (line 78). -/
def pcanStatusUnknown : String := "Status unknown"

/-- Function `pcanStatusLookup` of pcan_helper.c (lines 177-184): the status is
converted to `int` for `lookupString`. -/
def pcanStatusLookup (c : StatusConstants) (status : Nat) : Option (Option String) :=
  lookupString (pcanStatuses c) pcanStatusUnknown (toInt32 status)

/-! ## The N-API module (pcan.c) -/

/-- Bitwise complement `~x` of a `uint32_t`. -/
def not32 (x : Nat) : Nat := (x % 2 ^ 32) ^^^ 0xFFFFFFFF

/-- Lines 1346-1349 of pcan.c (Windows variant of
`pcan_CAN_AcceptanceFilter11Bit`): the `uint64_t` value handed to
`CAN_SetValue(pcanChannel, PCAN_ACCEPTANCE_FILTER_11BIT, ...)`, from the two
`uint32_t` arguments. -/
def pcan_CAN_AcceptanceFilter11Bit (pcan_AcceptanceCode pcan_AcceptanceMask : Nat) : Nat :=
  let pcan_AcceptanceFilter : Nat := 0
  let pcan_AcceptanceFilter :=
    pcan_AcceptanceFilter ||| (((pcan_AcceptanceCode % 2 ^ 32) <<< 0x20) % 2 ^ 64)
  let pcan_AcceptanceFilter := pcan_AcceptanceFilter ||| not32 pcan_AcceptanceMask
  pcan_AcceptanceFilter

/-- Lines 1443-1446 of pcan.c (Windows variant of
`pcan_CAN_AcceptanceFilter29Bit`): the `uint64_t` value handed to
`CAN_SetValue(pcanChannel, PCAN_ACCEPTANCE_FILTER_29BIT, ...)`, from the two
`uint32_t` arguments. -/
def pcan_CAN_AcceptanceFilter29Bit (pcan_AcceptanceCode pcan_AcceptanceMask : Nat) : Nat :=
  let pcan_AcceptanceFilter : Nat := 0
  let pcan_AcceptanceFilter :=
    pcan_AcceptanceFilter ||| (((pcan_AcceptanceCode % 2 ^ 32) <<< 0x20) % 2 ^ 64)
  let pcan_AcceptanceFilter := pcan_AcceptanceFilter ||| not32 pcan_AcceptanceMask
  pcan_AcceptanceFilter

/-- The functions declared in pcan.h that an exported name can be bound to. -/
inductive Handler
  | pcan_CAN_Initialize
  | pcan_CAN_InitializeFD
  | pcan_CAN_Uninitialize
  | pcan_CAN_Reset
  | pcan_CAN_GetStatus
  | pcan_CAN_Read
  | pcan_CAN_ReadFD
  | pcan_CAN_Write
  | pcan_CAN_WriteFD
  | pcan_CAN_GetValue
  | pcan_CAN_SetValue
  | pcan_CAN_FilterMessages
  | pcan_CAN_GetErrorText
  | pcan_CAN_EnableEvent
  | pcan_CAN_DisableEvent
  | pcan_CAN_AcceptanceFilter29Bit
  | pcan_CAN_AcceptanceFilter11Bit
  | pcan_CAN_ChannelInfo
  | pcan_CAN_TranslateBaud
deriving DecidableEq, Repr

/-- The name under which pcan.h declares the function. -/
def Handler.cName : Handler → String
  | Handler.pcan_CAN_Initialize => "pcan_CAN_Initialize"
  | Handler.pcan_CAN_InitializeFD => "pcan_CAN_InitializeFD"
  | Handler.pcan_CAN_Uninitialize => "pcan_CAN_Uninitialize"
  | Handler.pcan_CAN_Reset => "pcan_CAN_Reset"
  | Handler.pcan_CAN_GetStatus => "pcan_CAN_GetStatus"
  | Handler.pcan_CAN_Read => "pcan_CAN_Read"
  | Handler.pcan_CAN_ReadFD => "pcan_CAN_ReadFD"
  | Handler.pcan_CAN_Write => "pcan_CAN_Write"
  | Handler.pcan_CAN_WriteFD => "pcan_CAN_WriteFD"
  | Handler.pcan_CAN_GetValue => "pcan_CAN_GetValue"
  | Handler.pcan_CAN_SetValue => "pcan_CAN_SetValue"
  | Handler.pcan_CAN_FilterMessages => "pcan_CAN_FilterMessages"
  | Handler.pcan_CAN_GetErrorText => "pcan_CAN_GetErrorText"
  | Handler.pcan_CAN_EnableEvent => "pcan_CAN_EnableEvent"
  | Handler.pcan_CAN_DisableEvent => "pcan_CAN_DisableEvent"
  | Handler.pcan_CAN_AcceptanceFilter29Bit => "pcan_CAN_AcceptanceFilter29Bit"
  | Handler.pcan_CAN_AcceptanceFilter11Bit => "pcan_CAN_AcceptanceFilter11Bit"
  | Handler.pcan_CAN_ChannelInfo => "pcan_CAN_ChannelInfo"
  | Handler.pcan_CAN_TranslateBaud => "pcan_CAN_TranslateBaud"

/-- Constant `descriptors_len` of pcan.c (line 35). -/
def descriptors_len : Nat := 19

/-- The initialisers of the array `descriptors` in `Init` (lines 75-97 of
pcan.c): `DECLARE_NAPI_METHOD(name, func)` is the pair of the exported name and
the function. -/
def descriptors : List (String × Handler) :=
  [ ("Initialize", Handler.pcan_CAN_Initialize),
    ("InitializeFD", Handler.pcan_CAN_InitializeFD),
    ("Uninitialize", Handler.pcan_CAN_Uninitialize),
    ("Reset", Handler.pcan_CAN_Reset),
    ("GetStatus", Handler.pcan_CAN_GetStatus),
    ("Read", Handler.pcan_CAN_Read),
    ("ReadFD", Handler.pcan_CAN_ReadFD),
    ("Write", Handler.pcan_CAN_Write),
    ("WriteFD", Handler.pcan_CAN_Write),
    ("GetValue", Handler.pcan_CAN_GetValue),
    ("SetValue", Handler.pcan_CAN_SetValue),
    ("FilterMessages", Handler.pcan_CAN_FilterMessages),
    ("GetErrorText", Handler.pcan_CAN_GetErrorText),
    ("EnableEvent", Handler.pcan_CAN_EnableEvent),
    ("DisableEvent", Handler.pcan_CAN_DisableEvent),
    ("AcceptanceFilter29Bit", Handler.pcan_CAN_AcceptanceFilter29Bit),
    ("AcceptanceFilter11Bit", Handler.pcan_CAN_AcceptanceFilter11Bit),
    ("ChannelInfo", Handler.pcan_CAN_ChannelInfo),
    ("TranslateBaud", Handler.pcan_CAN_TranslateBaud) ]

/-- Function `Init` of pcan.c (lines 66-103): the properties defined on
`exports` by `napi_define_properties(env, exports, descriptors_len,
descriptors)`, the first `descriptors_len` elements of the array. -/
def Init : List (String × Handler) :=
  descriptors.take descriptors_len

/-- The binding the documentation of pcan.h gives an exported name `X`: the
function `pcan_CAN_X`. -/
def documentedHandler (name : String) (h : Handler) : Prop :=
  h.cName = "pcan_CAN_" ++ name

instance (name : String) (h : Handler) : Decidable (documentedHandler name h) :=
  inferInstanceAs (Decidable (h.cName = "pcan_CAN_" ++ name))

/-- The address of `pcan_CAN_EventCallback`, the function the wrappers pass to
`pcanEventEnable` as the callback. -/
def pcan_CAN_EventCallback : Nat := 0

/-- N-API calls made by the event wrappers after the call of the bridge, as far
as they are told apart here. -/
inductive NapiCall
  /-- The call `napi_throw_error(env, code, msg)`. -/
  | throw_error (code : Option (Option String)) (msg : String)
  /-- The call `napi_unref_threadsafe_function(env, pcanCallback)`. -/
  | unref_threadsafe_function
  /-- The call `napi_release_threadsafe_function(pcanCallback, napi_tsfn_abort)`. -/
  | release_threadsafe_function
  /-- The call `napi_create_uint32(env, value, &result)`. -/
  | create_uint32 (value : Nat)
deriving DecidableEq, Repr

/-- How a wrapper ends: `return 0` after a throw, `return result`, or a failed
`assert(status == napi_ok)`. -/
inductive NapiReturn
  | null
  | result (value : Nat)
  | assertFailed
deriving DecidableEq, Repr

/-- Whether each N-API call after the call of the bridge returns `napi_ok`. -/
structure NapiEnv where
  unrefOk : Bool
  releaseOk : Bool
  createOk : Bool
deriving DecidableEq, Repr

/-- Lines 1233-1251 of pcan.c: `pcan_CAN_EnableEvent` from the return of
`pcanEventEnable`, whose result is `pcanStatus`: the N-API calls made, in
order, and how the function ends. -/
def pcan_CAN_EnableEvent (c : StatusConstants) (n : NapiEnv) (pcanStatus : Nat) :
    List NapiCall × NapiReturn :=
  if pcanStatus ≠ c.PCAN_ERROR_OK then
    ([NapiCall.throw_error (pcanStatusLookup c pcanStatus) "pcan_CAN_EnableEvent"],
      NapiReturn.null)
  else if n.createOk = false then
    ([NapiCall.create_uint32 pcanStatus], NapiReturn.assertFailed)
  else
    ([NapiCall.create_uint32 pcanStatus], NapiReturn.result pcanStatus)

/-- Lines 1283-1307 of pcan.c: `pcan_CAN_DisableEvent` from the return of
`pcanEventDisable`, whose result is `pcanStatus`: the N-API calls made, in
order, and how the function ends. -/
def pcan_CAN_DisableEvent (c : StatusConstants) (n : NapiEnv) (pcanStatus : Nat) :
    List NapiCall × NapiReturn :=
  if pcanStatus ≠ c.PCAN_ERROR_OK then
    ([NapiCall.throw_error (pcanStatusLookup c pcanStatus) "pcan_CAN_DisableEvent"],
      NapiReturn.null)
  else if n.unrefOk = false then
    ([NapiCall.unref_threadsafe_function], NapiReturn.assertFailed)
  else if n.releaseOk = false then
    ([NapiCall.unref_threadsafe_function, NapiCall.release_threadsafe_function],
      NapiReturn.assertFailed)
  else if n.createOk = false then
    ([NapiCall.unref_threadsafe_function, NapiCall.release_threadsafe_function,
      NapiCall.create_uint32 pcanStatus], NapiReturn.assertFailed)
  else
    ([NapiCall.unref_threadsafe_function, NapiCall.release_threadsafe_function,
      NapiCall.create_uint32 pcanStatus], NapiReturn.result pcanStatus)

/-! ## The branches of the Windows wait loop -/

namespace Win32

/-- The arms of the `if` / `else if` chain in the loop of `pcanEventThreadProc`
(lines 142-168 of pcan_event_win32.c). -/
inductive Branch
  /-- The arm of `if (ret & WAIT_ABANDONED_0)`. -/
  | abandoned
  /-- The arm of `else if (ret == WAIT_TIMEOUT)`. -/
  | timeout
  /-- The arm of `else if (ret == WAIT_FAILED)`. -/
  | failed
  /-- The final `else`, with the `switch`. -/
  | signalled
deriving DecidableEq, Repr

/-- The arm of the chain taken for the value `ret` returned by
`WaitForMultipleObjects` (a 32-bit pattern). -/
def loopBranch (ret : Nat) : Branch :=
  if ret &&& WAIT_ABANDONED_0 ≠ 0 then Branch.abandoned
  else if ret = WAIT_TIMEOUT then Branch.timeout
  else if ret = WAIT_FAILED then Branch.failed
  else Branch.signalled

/-- What each arm of the chain does (lines 142-168 of pcan_event_win32.c). -/
def branchStep (b : Branch) (ret : Nat) : LoopStep :=
  match b with
  | Branch.abandoned => LoopStep.again false   -- printf
  | Branch.timeout => LoopStep.fail            -- return 1
  | Branch.failed => LoopStep.fail             -- return 1
  | Branch.signalled =>
    match ret with
    | 0 => LoopStep.again true     -- case EVENT_INDEX_READ: callback
    | 1 => LoopStep.leave          -- case EVENT_INDEX_EXIT: threadExit = 1
    | _ => LoopStep.again false    -- no case matches

end Win32

/-! # Theorems -/

/-! ## Thread tables -/

theorem findThread_updThread_same {α : Type} (ts : List α) (tid : Nat) (f : α → α) :
    findThread (updThread ts tid f) tid = (findThread ts tid).map f := by
  cases tid with
  | zero => simp [findThread, updThread]
  | succ n => simp [findThread, updThread]

theorem findThread_updThread_other {α : Type} (ts : List α) (a b : Nat) (f : α → α)
    (h : a ≠ b) : findThread (updThread ts a f) b = findThread ts b := by
  cases a with
  | zero => simp [updThread]
  | succ n =>
    cases b with
    | zero => simp [findThread]
    | succ m =>
      have hnm : n ≠ m := fun e => h (by rw [e])
      simp [findThread, updThread, List.getElem?_modify_ne, hnm]

theorem length_updThread {α : Type} (ts : List α) (tid : Nat) (f : α → α) :
    (updThread ts tid f).length = ts.length := by
  cases tid with
  | zero => simp [updThread]
  | succ n => simp [updThread]

theorem findThread_append_new {α : Type} (ts : List α) (t : α) :
    findThread (ts ++ [t]) (ts.length + 1) = some t := by
  simp [findThread]

theorem findThread_append_old {α : Type} (ts : List α) (t x : α) (tid : Nat)
    (h : findThread ts tid = some x) : findThread (ts ++ [t]) tid = some x := by
  cases tid with
  | zero => simp [findThread] at h
  | succ n =>
    simp only [findThread] at h ⊢
    have hlt : n < ts.length := by
      rcases List.getElem?_eq_some.mp h with ⟨hn, _⟩
      exact hn
    rw [List.getElem?_append_left hlt]
    exact h

/-! ## The loop body -/

/-- Windows loop body: the read index invokes the callback and loops, the
exit index ends the loop without a callback. -/
theorem loopBody_win32_signals :
    Win32.loopBody (Win32.WAIT_OBJECT_0 + Win32.EVENT_INDEX_READ) = Win32.LoopStep.again true ∧
    Win32.loopBody (Win32.WAIT_OBJECT_0 + Win32.EVENT_INDEX_EXIT) = Win32.LoopStep.leave := by
  decide

/-- The macOS loop body returns `(void*)1` exactly when neither descriptor is
reported set and `select` returned a value other than `0`. -/
theorem loopBody_darwin_fail_iff (ret : Int) (exitSet readSet : Bool) :
    Darwin.loopBody ret exitSet readSet = Darwin.LoopStep.fail ↔
      exitSet = false ∧ readSet = false ∧ ret ≠ 0 := by
  cases exitSet <;> cases readSet <;> by_cases h : ret = 0 <;> simp [Darwin.loopBody, h]

theorem updThread_append_new {α : Type} (ts : List α) (t : α) (f : α → α) :
    updThread (ts ++ [t]) (ts.length + 1) f = ts ++ [f t] := by
  simp only [updThread]
  induction ts with
  | nil => rfl
  | cons a l ih => simpa [List.modify] using ih

/-- Handle values drawn from the counter differ from `0` and `-1` and from each
other. -/
theorem fresh_handle_facts (n : Nat) :
    (((n : Int) + 1 = 0) = False) ∧ (((n : Int) + 1 + 1 = 0) = False) ∧
    (((n : Int) + 1 + 1 + 1 = 0) = False) ∧ (((n : Int) + 1 + 1 + 1 + 1 = 0) = False) ∧
    (((n : Int) + 1 + 1 + 1 + 1 + 1 = 0) = False) ∧
    (((n : Int) + 1 + 1 + 1 + 1 + 1 + 1 = 0) = False) ∧
    (((n : Int) + 1 + 1 + 1 + 1 + 1 + 1 + 1 = 0) = False) ∧
    (((n : Int) + 1 = -1) = False) ∧
    (((n : Int) + 1 + 1 + 1 + 1 + 1 + 1 + 1 = (n : Int) + 1 + 1 + 1 + 1 + 1 + 1) = False) ∧
    (((n : Int) + 1 + 1 + 1 + 1 + 1 + 1 + 1 = (n : Int) + 1 + 1) = False) ∧
    (((n : Int) + 1 + 1 + 1 + 1 + 1 + 1 = (n : Int) + 1 + 1) = False) ∧
    (((n : Int) + 1 + 1 + 1 + 1 + 1 = (n : Int) + 1 + 1) = False) ∧
    (((n : Int) + 1 + 1 + 1 + 1 = (n : Int) + 1 + 1) = False) ∧
    (((n : Int) + 1 + 1 + 1 = (n : Int) + 1 + 1) = False) := by
  refine ⟨?_, ?_, ?_, ?_, ?_, ?_, ?_, ?_, ?_, ?_, ?_, ?_, ?_, ?_⟩ <;> simp <;> omega

/-- State left by `pcanEventEnable` on Windows when every call up to the
bounded wait succeeds and the thread signals the spawn event in time. -/
theorem enable_handshake_done_win32 (w : Win32.World) (ch cb : Nat) (env : Win32.EnableEnv)
    (h1 : env.initSD = true) (h2 : env.setDacl = true) (h3 : env.createRead = true)
    (h4 : env.createSpawn = true) (h5 : env.createExit = true) (h6 : env.createThread = true)
    (h7 : env.thread = Win32.okStart) (h8 : env.waitSpawn = none) :
    Win32.pcanEventEnable w ch cb env =
      (if env.setValue = Win32.PCAN_ERROR_OK then 0 else 1,
       { w with
          pcanEventRead := (w.nextHandle : Int) + 1
          pcanEventSpawn := (w.nextHandle : Int) + 1 + 1
          pcanEventExit := (w.nextHandle : Int) + 1 + 1 + 1
          pcanEventThread := (w.nextHandle : Int) + 1 + 1 + 1 + 1
          pcanEventThreadID := w.threads.length + 1
          nextHandle := w.nextHandle + 1 + 1 + 1 + 1 + 1 + 1 + 1
          handles :=
            ((w.nextHandle : Int) + 1 + 1 + 1 + 1 + 1 + 1 + 1, Win32.Obj.eventExit) ::
            ((w.nextHandle : Int) + 1 + 1 + 1 + 1 + 1 + 1, Win32.Obj.eventSpawn) ::
            ((w.nextHandle : Int) + 1 + 1 + 1 + 1 + 1, Win32.Obj.eventRead) ::
            ((w.nextHandle : Int) + 1 + 1 + 1 + 1, Win32.Obj.thread (w.threads.length + 1)) ::
            ((w.nextHandle : Int) + 1 + 1 + 1, Win32.Obj.eventExit) ::
            ((w.nextHandle : Int) + 1 + 1, Win32.Obj.eventSpawn) ::
            ((w.nextHandle : Int) + 1, Win32.Obj.eventRead) :: w.handles
          sigRead := Win32.objOpen w.handles Win32.Obj.eventRead && w.sigRead
          sigSpawn := false
          sigExit := Win32.objOpen w.handles Win32.Obj.eventExit && w.sigExit
          threads := w.threads ++
            [{ canChannel := ch, callback := cb, pc := Win32.Pc.waiting
               hRead := (w.nextHandle : Int) + 1 + 1 + 1 + 1 + 1
               hSpawn := (w.nextHandle : Int) + 1 + 1 + 1 + 1 + 1 + 1
               hExit := (w.nextHandle : Int) + 1 + 1 + 1 + 1 + 1 + 1 + 1 }]
          driverEvent :=
            if env.setValue = Win32.PCAN_ERROR_OK then some ((w.nextHandle : Int) + 1)
            else w.driverEvent
          trace := w.trace ++
            [Win32.Ev.createEvent Win32.Obj.eventRead ((w.nextHandle : Int) + 1),
             Win32.Ev.createEvent Win32.Obj.eventSpawn ((w.nextHandle : Int) + 1 + 1),
             Win32.Ev.createEvent Win32.Obj.eventExit ((w.nextHandle : Int) + 1 + 1 + 1),
             Win32.Ev.createThread (w.threads.length + 1) ((w.nextHandle : Int) + 1 + 1 + 1 + 1),
             Win32.Ev.openEvent (w.threads.length + 1) Win32.Obj.eventRead
               ((w.nextHandle : Int) + 1 + 1 + 1 + 1 + 1),
             Win32.Ev.openEvent (w.threads.length + 1) Win32.Obj.eventSpawn
               ((w.nextHandle : Int) + 1 + 1 + 1 + 1 + 1 + 1),
             Win32.Ev.openEvent (w.threads.length + 1) Win32.Obj.eventExit
               ((w.nextHandle : Int) + 1 + 1 + 1 + 1 + 1 + 1 + 1),
             Win32.Ev.setEvent Win32.Obj.eventSpawn,
             Win32.Ev.waitSpawn 0,
             Win32.Ev.canSetValue ch ((w.nextHandle : Int) + 1) env.setValue] }) := by
  obtain ⟨f1, f2, f3, f4, f5, f6, f7, f8, f9, f10, f11, f12, f13, f14⟩ :=
    fresh_handle_facts w.nextHandle
  by_cases hs : env.setValue = Win32.PCAN_ERROR_OK <;>
  simp [Win32.pcanEventEnable, Win32.enableCreateSpawn, Win32.enableCreateExit, Win32.enableSpawn,
    Win32.enableWait, Win32.enableRegister, Win32.threadOpenSpawn, Win32.threadOpenExit,
    Win32.threadSignalSpawn, Win32.CreateEvent, Win32.CreateThread, h1, h2, h3, h4, h5, h6, h7,
    h8, Win32.okStart, Win32.freshHandle, f1, f2, f3, f4, f5, f6, f7, f8, f9, f10, f11, f12, f13,
    f14, Win32.setSig, Win32.sig, Win32.threadProcStart, Win32.OpenEvent, Win32.SetEvent,
    Win32.WaitForSingleObject_bounded, Win32.CAN_SetValue, Win32.objOpen, Win32.lookupH,
    Win32.threadReturn, Win32.WAIT_OBJECT_0, updThread_append_new, hs, Win32.INVALID_HANDLE_VALUE]

/-- State left by `pcanEventEnable` on macOS when every call after
`CAN_GetValue` succeeds and the thread signals the spawn pipe in time. -/
theorem enable_handshake_done_darwin (w : Darwin.World) (ch cb : Nat) (env : Darwin.EnableEnv)
    (h2 : env.pipeSpawn = true) (h3 : env.pipeExit = true) (h4 : env.malloc = true)
    (h5 : env.threadCreate = 0) (h6 : env.thread = Darwin.okStart) (h7 : env.select = none) :
    Darwin.pcanEventEnable w ch cb env =
      (0, { w with
          pcanPipeRead := if env.getValue = Darwin.PCAN_ERROR_OK then env.driverFd else w.pcanPipeRead
          pcanPipeSpawn := ((w.nextFd : Int), (w.nextFd : Int) + 1)
          pcanPipeExit := ((w.nextFd : Int) + 2, (w.nextFd : Int) + 2 + 1)
          pcanEventThread := w.threads.length + 1
          nextFd := w.nextFd + 2 + 2
          fds := ((w.nextFd : Int) + 2) :: ((w.nextFd : Int) + 2 + 1) :: (w.nextFd : Int) ::
            ((w.nextFd : Int) + 1) :: w.fds
          pipes :=
            { rfd := (w.nextFd : Int) + 2, wfd := (w.nextFd : Int) + 2 + 1, bytes := 0 } ::
            { rfd := (w.nextFd : Int), wfd := (w.nextFd : Int) + 1, bytes := 4 } ::
            w.pipes.map (fun p => if p.wfd = (w.nextFd : Int) + 1 then
              { p with bytes := p.bytes + 4 } else p)
          heap := w.heap
          threads := w.threads ++
            [{ canChannel := ch, callback := cb
               pipeRead := if env.getValue = Darwin.PCAN_ERROR_OK then env.driverFd
                 else w.pcanPipeRead
               pipeSpawn := (w.nextFd : Int) + 1
               pipeExit := (w.nextFd : Int) + 2
               pc := Darwin.Pc.waiting }]
          trace := w.trace ++
            [Darwin.Ev.canGetValue ch env.getValue,
             Darwin.Ev.pipe (w.nextFd : Int) ((w.nextFd : Int) + 1),
             Darwin.Ev.pipe ((w.nextFd : Int) + 2) ((w.nextFd : Int) + 2 + 1),
             Darwin.Ev.malloc,
             Darwin.Ev.threadCreate (w.threads.length + 1),
             Darwin.Ev.write ((w.nextFd : Int) + 1) 4,
             Darwin.Ev.selectSpawn 1,
             Darwin.Ev.free] }) := by
  simp [Darwin.pcanEventEnable, Darwin.enablePipeExit, Darwin.enableMalloc, Darwin.enableSpawn,
    Darwin.enableWait, Darwin.CAN_GetValue, Darwin.pipe, Darwin.malloc,
    Darwin.pthread_create, h2, h3, h4, h5, h6, h7, Darwin.okStart, Darwin.threadProcStart,
    Darwin.write, Darwin.select1, Darwin.free, Darwin.readable, findThread_append_new,
    updThread_append_new, Darwin.sizeofBuf, Darwin.threadReturn]

/-! ## Return value of Enable on Windows, stage by stage -/

theorem enableRegister_fst (w : Win32.World) (ch : Nat) (env : Win32.EnableEnv) :
    (Win32.enableRegister w ch env).1 = if env.setValue = Win32.PCAN_ERROR_OK then 0 else 1 := by
  unfold Win32.enableRegister Win32.CAN_SetValue
  by_cases h : env.setValue = Win32.PCAN_ERROR_OK <;> simp [h]

/-- A property of the return value that holds for 1 and for every return value
of the handshake stage holds for every return value of `pcanEventEnable`: the
stages before the handshake return 1 or continue. -/
theorem enable_ret_of_wait_win32 (Q : Nat → Prop) (h1 : Q 1) (ch : Nat)
    (env : Win32.EnableEnv) (h : ∀ w, Q (Win32.enableWait w ch env).1)
    (w : Win32.World) (cb : Nat) : Q (Win32.pcanEventEnable w ch cb env).1 := by
  have hSpawn : ∀ w, Q (Win32.enableSpawn w ch cb env).1 := by
    intro w
    simp only [Win32.enableSpawn]
    split_ifs
    · exact h1
    · exact h _
  have hExit : ∀ w, Q (Win32.enableCreateExit w ch cb env).1 := by
    intro w
    simp only [Win32.enableCreateExit]
    split_ifs
    · exact h1
    · exact hSpawn _
  have hCreate : ∀ w, Q (Win32.enableCreateSpawn w ch cb env).1 := by
    intro w
    simp only [Win32.enableCreateSpawn]
    split_ifs
    · exact h1
    · exact hExit _
  simp only [Win32.pcanEventEnable]
  split_ifs
  · exact h1
  · exact h1
  · exact h1
  · exact hCreate _

theorem enableWait_fst_of_setValue (w : Win32.World) (ch : Nat) (env : Win32.EnableEnv)
    (hfail : env.setValue ≠ Win32.PCAN_ERROR_OK) : (Win32.enableWait w ch env).1 = 1 := by
  simp only [Win32.enableWait]
  split_ifs
  all_goals first | rfl | rw [enableRegister_fst, if_neg hfail]

/-- On Windows, `pcanEventEnable` returns 1 whenever the environment makes
`CAN_SetValue` fail. -/
theorem pcanEventEnable_fst_of_setValue (w : Win32.World) (ch cb : Nat)
    (env : Win32.EnableEnv) (hfail : env.setValue ≠ Win32.PCAN_ERROR_OK) :
    (Win32.pcanEventEnable w ch cb env).1 = 1 :=
  enable_ret_of_wait_win32 (fun r => r = 1) rfl ch env
    (fun w => enableWait_fst_of_setValue w ch env hfail) w cb

theorem enableWait_fst_of_fault (w : Win32.World) (ch : Nat) (env : Win32.EnableEnv)
    (r : Nat) (hr : r ≠ Win32.WAIT_OBJECT_0) (h : env.waitSpawn = some r) :
    (Win32.enableWait w ch env).1 = 1 := by
  simp only [Win32.enableWait, Win32.WaitForSingleObject_bounded, h, if_neg hr]
  split_ifs
  all_goals rfl

/-- On Windows, `pcanEventEnable` returns 1 whenever the startup wait returns
a result other than `WAIT_OBJECT_0`, such as `WAIT_TIMEOUT`. -/
theorem pcanEventEnable_fst_of_wait_fault (w : Win32.World) (ch cb : Nat)
    (env : Win32.EnableEnv) (r : Nat) (hr : r ≠ Win32.WAIT_OBJECT_0)
    (h : env.waitSpawn = some r) : (Win32.pcanEventEnable w ch cb env).1 = 1 :=
  enable_ret_of_wait_win32 (fun r => r = 1) rfl ch env
    (fun w => enableWait_fst_of_fault w ch env r hr h) w cb

/-! ## What the prologue of a worker thread leaves unchanged (Windows) -/

theorem frame_refl (tid : Nat) (w : Win32.World) : Win32.Frame tid w w :=
  { read := rfl, spawn := rfl, exit := rfl, thread := rfl, threadID := rfl
    handles := List.suffix_refl _, length := rfl, others := fun _ _ => rfl
    self := fun t h => ⟨t, h, rfl, rfl⟩, callbacks := rfl }

theorem frame_trans (tid : Nat) (a b c : Win32.World) (h1 : Win32.Frame tid a b)
    (h2 : Win32.Frame tid b c) : Win32.Frame tid a c :=
  { read := h2.read.trans h1.read, spawn := h2.spawn.trans h1.spawn
    exit := h2.exit.trans h1.exit, thread := h2.thread.trans h1.thread
    threadID := h2.threadID.trans h1.threadID
    handles := h1.handles.trans h2.handles, length := h2.length.trans h1.length
    others := fun t ht => (h2.others t ht).trans (h1.others t ht)
    self := fun t ht => by
      obtain ⟨t1, e1, c1, d1⟩ := h1.self t ht
      obtain ⟨t2, e2, c2, d2⟩ := h2.self t1 e1
      exact ⟨t2, e2, c2.trans c1, d2.trans d1⟩
    callbacks := h2.callbacks.trans h1.callbacks }

theorem callbackCount_append_win32 (w : Win32.World) (tr : List Win32.Ev) (es : List Win32.Ev)
    (h : tr = w.trace ++ es) :
    (tr.filter (fun e => match e with
      | Win32.Ev.callback _ _ => true
      | _ => false)).length =
    Win32.callbackCount w + (es.filter (fun e => match e with
      | Win32.Ev.callback _ _ => true
      | _ => false)).length := by
  subst h
  simp [Win32.callbackCount, List.filter_append]

theorem frame_openEvent (tid tid2 : Nat) (w : Win32.World) (o : Win32.Obj) (ok : Bool) :
    Win32.Frame tid w (Win32.OpenEvent w tid2 o ok).2 := by
  unfold Win32.OpenEvent
  split_ifs
  · exact
      { read := rfl, spawn := rfl, exit := rfl, thread := rfl, threadID := rfl
        handles := List.suffix_cons _ _, length := rfl, others := fun _ _ => rfl
        self := fun t h => ⟨t, h, rfl, rfl⟩
        callbacks := by simp [Win32.callbackCount, List.filter_append] }
  · exact frame_refl tid w

theorem frame_setEvent (tid : Nat) (w : Win32.World) (h : Int) (ok : Bool) :
    Win32.Frame tid w (Win32.SetEvent w h ok).2 := by
  unfold Win32.SetEvent
  split
  · exact frame_refl tid w
  · rename_i o _ _
    split_ifs
    · cases o <;>
      exact
        { read := rfl, spawn := rfl, exit := rfl, thread := rfl, threadID := rfl
          handles := List.suffix_refl _, length := rfl, others := fun _ _ => rfl
          self := fun t h => ⟨t, h, rfl, rfl⟩
          callbacks := by simp [Win32.callbackCount, List.filter_append] }
    · exact frame_refl tid w
  · exact frame_refl tid w

theorem frame_updThread (tid : Nat) (w : Win32.World) (f : Win32.Waiter → Win32.Waiter)
    (hc : ∀ t, (f t).callback = t.callback) (hd : ∀ t, (f t).canChannel = t.canChannel) :
    Win32.Frame tid w { w with threads := updThread w.threads tid f } :=
  { read := rfl, spawn := rfl, exit := rfl, thread := rfl, threadID := rfl
    handles := List.suffix_refl _, length := length_updThread _ _ _
    others := fun t ht => findThread_updThread_other _ _ _ _ (Ne.symm ht)
    self := fun t h => ⟨f t, by simp [findThread_updThread_same, h], hc t, hd t⟩
    callbacks := rfl }

theorem frame_threadReturn (tid : Nat) (w : Win32.World) (code : Nat) :
    Win32.Frame tid w (Win32.threadReturn w tid code) :=
  { read := rfl, spawn := rfl, exit := rfl, thread := rfl, threadID := rfl
    handles := List.suffix_refl _, length := length_updThread _ _ _
    others := fun t ht => findThread_updThread_other _ _ _ _ (Ne.symm ht)
    self := fun t h => ⟨{ t with pc := Win32.Pc.exited code },
      by simp [Win32.threadReturn, findThread_updThread_same, h], rfl, rfl⟩
    callbacks := by simp [Win32.threadReturn, Win32.callbackCount, List.filter_append] }

theorem frame_threadSignalSpawn (tid : Nat) (w : Win32.World) (hSpawn : Int)
    (e : Win32.ThreadStartEnv) : Win32.Frame tid w (Win32.threadSignalSpawn w tid hSpawn e) := by
  simp only [Win32.threadSignalSpawn]
  split_ifs
  · exact frame_trans _ _ _ _ (frame_setEvent tid w hSpawn e.setSpawn)
      (frame_threadReturn _ _ _)
  · exact frame_trans _ _ _ _ (frame_setEvent tid w hSpawn e.setSpawn)
      (frame_updThread _ _ _ (fun _ => rfl) (fun _ => rfl))

theorem frame_threadOpenExit (tid : Nat) (w : Win32.World) (hSpawn : Int)
    (e : Win32.ThreadStartEnv) : Win32.Frame tid w (Win32.threadOpenExit w tid hSpawn e) := by
  have h1 := frame_trans _ _ _ _ (frame_openEvent tid tid w Win32.Obj.eventExit e.openExit)
    (frame_updThread tid _
      (fun t => { t with hExit := (Win32.OpenEvent w tid Win32.Obj.eventExit e.openExit).1 })
      (fun _ => rfl) (fun _ => rfl))
  simp only [Win32.threadOpenExit]
  split_ifs
  · exact frame_trans _ _ _ _ h1 (frame_threadReturn _ _ _)
  · exact frame_trans _ _ _ _ h1 (frame_threadSignalSpawn _ _ _ _)

theorem frame_threadOpenSpawn (tid : Nat) (w : Win32.World)
    (e : Win32.ThreadStartEnv) : Win32.Frame tid w (Win32.threadOpenSpawn w tid e) := by
  have h1 := frame_trans _ _ _ _ (frame_openEvent tid tid w Win32.Obj.eventSpawn e.openSpawn)
    (frame_updThread tid _
      (fun t => { t with hSpawn := (Win32.OpenEvent w tid Win32.Obj.eventSpawn e.openSpawn).1 })
      (fun _ => rfl) (fun _ => rfl))
  simp only [Win32.threadOpenSpawn]
  split_ifs
  · exact frame_trans _ _ _ _ h1 (frame_threadReturn _ _ _)
  · exact frame_trans _ _ _ _ h1 (frame_threadOpenExit _ _ _ _)

/-- The prologue of a worker thread on Windows closes no handle, touches no
other thread, keeps its own parameters and invokes no callback. -/
theorem frame_threadProcStart (tid : Nat) (w : Win32.World)
    (e : Win32.ThreadStartEnv) : Win32.Frame tid w (Win32.threadProcStart w tid e) := by
  have h1 := frame_trans _ _ _ _ (frame_openEvent tid tid w Win32.Obj.eventRead e.openRead)
    (frame_updThread tid _
      (fun t => { t with hRead := (Win32.OpenEvent w tid Win32.Obj.eventRead e.openRead).1 })
      (fun _ => rfl) (fun _ => rfl))
  simp only [Win32.threadProcStart]
  split_ifs
  · exact frame_trans _ _ _ _ h1 (frame_threadReturn _ _ _)
  · exact frame_trans _ _ _ _ h1 (frame_threadOpenSpawn _ _ _)

theorem frame_waitBounded (tid : Nat) (w : Win32.World) (h : Int) (fault : Option Nat) :
    Win32.Frame tid w (Win32.WaitForSingleObject_bounded w h fault).2 := by
  have hn : Win32.Frame tid w
      (match Win32.lookupH w.handles h with
        | some (Win32.Obj.thread tid) =>
          match findThread w.threads tid with
          | some t =>
            match t.pc with
            | Win32.Pc.exited _ => (Win32.WAIT_OBJECT_0, w)
            | _ => (Win32.WAIT_TIMEOUT, w)
          | none => (Win32.WAIT_TIMEOUT, w)
        | some o =>
          if Win32.sig w o then (Win32.WAIT_OBJECT_0, Win32.setSig w o false)
          else (Win32.WAIT_TIMEOUT, w)
        | none => (Win32.WAIT_FAILED, w)).2 := by
    split
    · split
      · split <;> exact frame_refl tid w
      · exact frame_refl tid w
    · rename_i o _ _
      split_ifs
      · cases o <;>
        exact
          { read := rfl, spawn := rfl, exit := rfl, thread := rfl, threadID := rfl
            handles := List.suffix_refl _, length := rfl, others := fun _ _ => rfl
            self := fun t h => ⟨t, h, rfl, rfl⟩, callbacks := rfl }
      · exact frame_refl tid w
    · exact frame_refl tid w
  unfold Win32.WaitForSingleObject_bounded
  simp only []
  split
  · split_ifs
    · exact hn
    · exact frame_refl tid w
  · exact hn

theorem frame_enableRegister (tid : Nat) (w : Win32.World) (ch : Nat) (env : Win32.EnableEnv) :
    Win32.Frame tid w (Win32.enableRegister w ch env).2 := by
  simp only [Win32.enableRegister, Win32.CAN_SetValue]
  split_ifs <;>
  exact
    { read := rfl, spawn := rfl, exit := rfl, thread := rfl, threadID := rfl
      handles := List.suffix_refl _, length := rfl, others := fun _ _ => rfl
      self := fun t h => ⟨t, h, rfl, rfl⟩
      callbacks := by simp [Win32.callbackCount, List.filter_append] }

theorem frame_trace (tid : Nat) (w : Win32.World) (e : Win32.Ev)
    (he : ∀ cb ch, e ≠ Win32.Ev.callback cb ch) :
    Win32.Frame tid w { w with trace := w.trace ++ [e] } :=
  { read := rfl, spawn := rfl, exit := rfl, thread := rfl, threadID := rfl
    handles := List.suffix_refl _, length := rfl, others := fun _ _ => rfl
    self := fun t h => ⟨t, h, rfl, rfl⟩
    callbacks := by
      cases e <;> simp [Win32.callbackCount, List.filter_append]
      exact absurd rfl (he _ _) }

/-- The handshake stage of `pcanEventEnable` on Windows, whatever its outcome,
closes no handle, changes no global of the C file, touches no thread but the
new one, and keeps the parameters of the new thread. -/
theorem frame_enableWait (w : Win32.World) (ch : Nat) (env : Win32.EnableEnv) :
    Win32.Frame w.pcanEventThreadID w (Win32.enableWait w ch env).2 := by
  have key : ∀ w5 : Win32.World, Win32.Frame w.pcanEventThreadID w w5 →
      Win32.Frame w.pcanEventThreadID w
        (if (Win32.WaitForSingleObject_bounded w5 w5.pcanEventSpawn env.waitSpawn).1
            = Win32.WAIT_OBJECT_0 then
          Win32.enableRegister
            { (Win32.WaitForSingleObject_bounded w5 w5.pcanEventSpawn env.waitSpawn).2 with
              trace := (Win32.WaitForSingleObject_bounded w5 w5.pcanEventSpawn env.waitSpawn).2.trace
                ++ [Win32.Ev.waitSpawn
                  (Win32.WaitForSingleObject_bounded w5 w5.pcanEventSpawn env.waitSpawn).1] }
            ch env
        else
          (1, { (Win32.WaitForSingleObject_bounded w5 w5.pcanEventSpawn env.waitSpawn).2 with
              trace := (Win32.WaitForSingleObject_bounded w5 w5.pcanEventSpawn env.waitSpawn).2.trace
                ++ [Win32.Ev.waitSpawn
                  (Win32.WaitForSingleObject_bounded w5 w5.pcanEventSpawn env.waitSpawn).1] })).2 := by
    intro w5 h5
    have h6 := frame_trans _ _ _ _ h5
      (frame_waitBounded w.pcanEventThreadID w5 w5.pcanEventSpawn env.waitSpawn)
    have h7 := frame_trans _ _ _ _ h6 (frame_trace w.pcanEventThreadID _
      (Win32.Ev.waitSpawn (Win32.WaitForSingleObject_bounded w5 w5.pcanEventSpawn env.waitSpawn).1)
      (by intro cb ch h; cases h))
    split_ifs
    · exact frame_trans _ _ _ _ h7 (frame_enableRegister _ _ _ _)
    · exact h7
  by_cases hs : env.thread.scheduled = true
  · have := key _ (frame_threadProcStart w.pcanEventThreadID w env.thread)
    simp only [Win32.enableWait, hs, if_true]
    split_ifs at this ⊢ <;> exact this
  · have := key _ (frame_refl w.pcanEventThreadID w)
    have hs2 : env.thread.scheduled = false := by simpa using hs
    simp only [Win32.enableWait, hs2, Bool.false_eq_true, if_false]
    split_ifs at this ⊢ <;> exact this

/-! ## Closing a handle -/

theorem closeHandle_threads (w : Win32.World) (h : Int) (ok : Bool) :
    (Win32.CloseHandle w h ok).2.threads = w.threads := by
  unfold Win32.CloseHandle
  split
  · split_ifs <;> rfl
  · rfl

/-- The handshake stage of `pcanEventEnable` on macOS keeps the thread id in
`pcanEventThread` and the parameters of that thread. -/
theorem enableWait_thread_darwin (w : Darwin.World) (env : Darwin.EnableEnv) (t : Darwin.Waiter)
    (ht : findThread w.threads w.pcanEventThread = some t) :
    (Darwin.enableWait w env).2.pcanEventThread = w.pcanEventThread ∧
    ∃ t1, findThread (Darwin.enableWait w env).2.threads w.pcanEventThread = some t1 ∧
      t1.callback = t.callback ∧ t1.canChannel = t.canChannel := by
  simp only [Darwin.enableWait, ht, Darwin.threadProcStart, Darwin.write, Darwin.threadReturn,
    Darwin.free]
  split_ifs <;> simp [findThread_updThread_same, ht]

/-- World in which `pcanEventEnable` on Windows enters its handshake stage when
the three events and the thread were created. -/
theorem enable_created_win32 (w : Win32.World) (ch cb : Nat) (env : Win32.EnableEnv)
    (h1 : env.initSD = true) (h2 : env.setDacl = true) (h3 : env.createRead = true)
    (h4 : env.createSpawn = true) (h5 : env.createExit = true) (h6 : env.createThread = true) :
    Win32.pcanEventEnable w ch cb env =
      Win32.enableWait (Win32.afterCreate w ch cb) ch env := by
  unfold Win32.afterCreate
  obtain ⟨f1, f2, f3, f4, f5, f6, f7, f8, f9, f10, f11, f12, f13, f14⟩ :=
    fresh_handle_facts w.nextHandle
  simp [Win32.pcanEventEnable, Win32.enableCreateSpawn, Win32.enableCreateExit, Win32.enableSpawn,
    Win32.CreateEvent, Win32.CreateThread, h1, h2, h3, h4, h5, h6, Win32.freshHandle, f1, f2, f3,
    f4, Win32.setSig, Win32.sig, Win32.objOpen]

/-- World in which `pcanEventEnable` on macOS enters its handshake stage when
the two pipes, the parameter block and the thread were created. -/
theorem enable_created_darwin (w : Darwin.World) (ch cb : Nat) (env : Darwin.EnableEnv)
    (h2 : env.pipeSpawn = true) (h3 : env.pipeExit = true) (h4 : env.malloc = true)
    (h5 : env.threadCreate = 0) :
    Darwin.pcanEventEnable w ch cb env =
      Darwin.enableWait (Darwin.afterCreate w ch cb env) env := by
  unfold Darwin.afterCreate
  simp [Darwin.pcanEventEnable, Darwin.enablePipeExit, Darwin.enableMalloc, Darwin.enableSpawn,
    Darwin.CAN_GetValue, Darwin.pipe, Darwin.malloc, Darwin.pthread_create, h2, h3, h4, h5]

/-! ## Disable on an enabled bridge -/

theorem lookupH_closeH_ne (hs : List (Int × Win32.Obj)) (h k : Int) (hne : k ≠ h) :
    Win32.lookupH (Win32.closeH hs h) k = Win32.lookupH hs k := by
  induction hs with
  | nil => rfl
  | cons p rest ih =>
    unfold Win32.closeH at ih ⊢
    by_cases hp : p.1 = h
    · have hk : ¬ h = k := fun e => hne e.symm
      simp only [List.filter_cons, hp, ne_eq, not_true_eq_false, decide_False,
        Bool.false_eq_true, if_false, Win32.lookupH, hk]
      exact ih
    · by_cases hpk : p.1 = k
      · have hkh : ¬ k = h := fun e => hp (hpk.trans e)
        simp [List.filter_cons, hpk, hkh, Win32.lookupH]
      · simp only [List.filter_cons, hp, ne_eq, not_false_eq_true, decide_True, if_true,
          Win32.lookupH, hpk, if_false]
        exact ih

theorem lookupH_ne_of_obj (hs : List (Int × Win32.Obj)) (a b : Int) (x y : Win32.Obj)
    (ha : Win32.lookupH hs a = some x) (hb : Win32.lookupH hs b = some y) (hxy : x ≠ y) :
    a ≠ b := by
  intro e
  subst e
  rw [ha] at hb
  exact hxy (Option.some.inj hb)

/-- A thread that has returned stays as it is: running its procedure changes
nothing, whatever the fuel. -/
theorem threadProc_of_terminal_win32 (fuel : Nat) (w : Win32.World) (tid : Nat)
    (env : Win32.ThreadEnv) (n : Nat)
    (h : (findThread w.threads tid).map Win32.Waiter.terminal = some true) :
    Win32.pcanEventThreadProc fuel w tid env n = some w := by
  cases hf : findThread w.threads tid with
  | none => simp [hf] at h
  | some t =>
    simp only [hf, Option.map_some', Option.some.injEq, Win32.Waiter.terminal] at h
    cases hp : t.pc with
    | start => simp [hp] at h
    | waiting => simp [hp] at h
    | exited c => cases fuel <;> simp [Win32.pcanEventThreadProc, hf, hp]

/-- A worker thread in its wait loop makes no pass while neither event is
signalled and the environment forces no wait result: its procedure does not
return, whatever the fuel. -/
theorem threadProc_blocked_win32 (fuel : Nat) (w : Win32.World) (tid : Nat) (t : Win32.Waiter)
    (env : Win32.ThreadEnv) (n : Nat) (hf : findThread w.threads tid = some t)
    (hp : t.pc = Win32.Pc.waiting) (hr : w.sigRead = false) (he : w.sigExit = false)
    (hn : env.waits n = none) :
    Win32.pcanEventThreadProc fuel w tid env n = none := by
  cases fuel <;>
    simp [Win32.pcanEventThreadProc, hf, hp, Win32.threadProcPass, Win32.WaitForMultipleObjects,
      hr, he, hn]

/-- On Windows, `pcanEventDisable` on an enabled bridge with every call
succeeding and no other worker thread alive: the result and the world it
leaves. -/
theorem disable_enabled_win32 (fuel : Nat) (w : Win32.World) (ch : Nat)
    (env : Win32.DisableEnv) (tid : Nat) (t : Win32.Waiter) (hE : Win32.Enabled w tid t)
    (_hone : ∀ i x, findThread w.threads i = some x → i ≠ tid → x.terminal = true)
    (hok : env.allOk) (hfuel : 2 ≤ fuel) :
    Win32.pcanEventDisable fuel w ch env =
      some (0, { w with
        handles :=
          Win32.closeH (Win32.closeH (Win32.closeH (Win32.closeH (Win32.closeH (Win32.closeH
            (Win32.closeH w.handles t.hRead) t.hSpawn) t.hExit) w.pcanEventRead)
            w.pcanEventSpawn) w.pcanEventExit) w.pcanEventThread
        sigRead := false
        sigExit := false
        threads := updThread w.threads tid (fun x => { x with pc := Win32.Pc.exited 0 })
        driverEvent := none
        trace := w.trace ++
          [Win32.Ev.canSetValue ch Win32.INVALID_HANDLE_VALUE Win32.PCAN_ERROR_OK,
           Win32.Ev.setEvent Win32.Obj.eventExit] ++
          (if w.sigRead then [Win32.Ev.callback t.callback t.canChannel] else []) ++
          [Win32.Ev.closeHandle t.hRead true, Win32.Ev.closeHandle t.hSpawn true,
           Win32.Ev.closeHandle t.hExit true, Win32.Ev.threadReturn tid 0,
           Win32.Ev.waitThread Win32.WAIT_OBJECT_0,
           Win32.Ev.closeHandle w.pcanEventRead true, Win32.Ev.closeHandle w.pcanEventSpawn true,
           Win32.Ev.closeHandle w.pcanEventExit true,
           Win32.Ev.closeHandle w.pcanEventThread true] }) := by
  obtain ⟨k, rfl⟩ : ∃ k, fuel = k + 2 := ⟨fuel - 2, by omega⟩
  obtain ⟨e1, e2, e3, e4, e5, e6, e7, e8, e9⟩ := hok
  obtain ⟨a1, a2, a3, a4, a5, a6, a7, a8, a9, a10, a11, a12⟩ := hE
  have n1 : t.hSpawn ≠ t.hRead := lookupH_ne_of_obj _ _ _ _ _ a8 a7 (by decide)
  have n2 : t.hExit ≠ t.hRead := lookupH_ne_of_obj _ _ _ _ _ a9 a7 (by decide)
  have n3 : t.hExit ≠ t.hSpawn := lookupH_ne_of_obj _ _ _ _ _ a9 a8 (by decide)
  have m1 : w.pcanEventRead ≠ t.hRead := Ne.symm a10
  have m2 : w.pcanEventRead ≠ t.hSpawn := lookupH_ne_of_obj _ _ _ _ _ a3 a8 (by decide)
  have m3 : w.pcanEventRead ≠ t.hExit := lookupH_ne_of_obj _ _ _ _ _ a3 a9 (by decide)
  have m4 : w.pcanEventSpawn ≠ t.hRead := lookupH_ne_of_obj _ _ _ _ _ a4 a7 (by decide)
  have m5 : w.pcanEventSpawn ≠ t.hSpawn := Ne.symm a11
  have m6 : w.pcanEventSpawn ≠ t.hExit := lookupH_ne_of_obj _ _ _ _ _ a4 a9 (by decide)
  have m7 : w.pcanEventExit ≠ t.hRead := lookupH_ne_of_obj _ _ _ _ _ a5 a7 (by decide)
  have m8 : w.pcanEventExit ≠ t.hSpawn := lookupH_ne_of_obj _ _ _ _ _ a5 a8 (by decide)
  have m9 : w.pcanEventExit ≠ t.hExit := Ne.symm a12
  have m10 : w.pcanEventThread ≠ t.hRead := lookupH_ne_of_obj _ _ _ _ _ a6 a7 (by simp)
  have m11 : w.pcanEventThread ≠ t.hSpawn := lookupH_ne_of_obj _ _ _ _ _ a6 a8 (by simp)
  have m12 : w.pcanEventThread ≠ t.hExit := lookupH_ne_of_obj _ _ _ _ _ a6 a9 (by simp)
  have p1 : w.pcanEventSpawn ≠ w.pcanEventRead := lookupH_ne_of_obj _ _ _ _ _ a4 a3 (by decide)
  have p2 : w.pcanEventExit ≠ w.pcanEventRead := lookupH_ne_of_obj _ _ _ _ _ a5 a3 (by decide)
  have p3 : w.pcanEventExit ≠ w.pcanEventSpawn := lookupH_ne_of_obj _ _ _ _ _ a5 a4 (by decide)
  have p4 : w.pcanEventThread ≠ w.pcanEventRead := lookupH_ne_of_obj _ _ _ _ _ a6 a3 (by simp)
  have p5 : w.pcanEventThread ≠ w.pcanEventSpawn := lookupH_ne_of_obj _ _ _ _ _ a6 a4 (by simp)
  have p6 : w.pcanEventThread ≠ w.pcanEventExit := lookupH_ne_of_obj _ _ _ _ _ a6 a5 (by simp)
  cases hsr : w.sigRead
  · simp [Win32.pcanEventDisable, Win32.disableJoin, Win32.disableClose, Win32.CAN_SetValue,
      Win32.SetEvent, Win32.WaitForSingleObject_infinite, Win32.pcanEventThreadProc,
      Win32.threadProcPass, Win32.WaitForMultipleObjects, Win32.GetExitCodeThread,
      Win32.CloseHandle, Win32.threadReturn, Win32.setSig, Win32.loopBody,
      e1, e2, e3, e4, e5, e6, e7, e8, e9, a1, a2, a3, a4, a5, a6, a7, a8, a9, hsr,
      lookupH_closeH_ne, n1, n2, n3, m1, m2, m3, m4, m5, m6, m7, m8, m9, m10, m11, m12,
      p1, p2, p3, p4, p5, p6, findThread_updThread_same, threadProc_of_terminal_win32,
      Win32.Waiter.terminal, Win32.WAIT_OBJECT_0, Win32.EVENT_INDEX_EXIT, Win32.EVENT_INDEX_READ, Win32.WAIT_ABANDONED_0,
      Win32.WAIT_TIMEOUT, Win32.WAIT_FAILED, Win32.STILL_ACTIVE, Win32.PCAN_ERROR_OK]
  · simp [Win32.pcanEventDisable, Win32.disableJoin, Win32.disableClose, Win32.CAN_SetValue,
      Win32.SetEvent, Win32.WaitForSingleObject_infinite, Win32.pcanEventThreadProc,
      Win32.threadProcPass, Win32.WaitForMultipleObjects, Win32.GetExitCodeThread,
      Win32.CloseHandle, Win32.threadReturn, Win32.setSig, Win32.loopBody,
      e1, e2, e3, e4, e5, e6, e7, e8, e9, a1, a2, a3, a4, a5, a6, a7, a8, a9, hsr,
      lookupH_closeH_ne, n1, n2, n3, m1, m2, m3, m4, m5, m6, m7, m8, m9, m10, m11, m12,
      p1, p2, p3, p4, p5, p6, findThread_updThread_same, threadProc_of_terminal_win32,
      Win32.Waiter.terminal, Win32.WAIT_OBJECT_0, Win32.EVENT_INDEX_EXIT, Win32.EVENT_INDEX_READ, Win32.WAIT_ABANDONED_0,
      Win32.WAIT_TIMEOUT, Win32.WAIT_FAILED, Win32.STILL_ACTIVE, Win32.PCAN_ERROR_OK]

theorem readable_after_write (ps : List Darwin.Pipe) (r wf : Int)
    (h : ∃ p ∈ ps, p.rfd = r ∧ p.wfd = wf) :
    Darwin.readable (ps.map (fun p => if p.wfd = wf then
      { p with bytes := p.bytes + Darwin.sizeofBuf } else p)) r = true := by
  obtain ⟨p, hp, hr, hw⟩ := h
  simp only [Darwin.readable, List.any_map, List.any_eq_true]
  refine ⟨p, hp, ?_⟩
  simp [hw, hr, Darwin.sizeofBuf]

/-- A thread that has returned stays as it is: running its procedure changes
nothing, whatever the fuel. -/
theorem threadProc_of_terminal_darwin (fuel : Nat) (w : Darwin.World) (tid : Nat)
    (env : Darwin.ThreadEnv) (n : Nat)
    (h : (findThread w.threads tid).map Darwin.Waiter.terminal = some true) :
    Darwin.pcanEventThreadProc fuel w tid env n = some w := by
  cases hf : findThread w.threads tid with
  | none => simp [hf] at h
  | some t =>
    simp only [hf, Option.map_some', Option.some.injEq, Darwin.Waiter.terminal] at h
    cases hp : t.pc with
    | start => simp [hp] at h
    | waiting => simp [hp] at h
    | exited c => cases fuel <;> simp [Darwin.pcanEventThreadProc, hf, hp]

/-- On macOS, `pcanEventDisable` on an enabled bridge with every call
succeeding: the result and the world it leaves. -/
theorem disable_enabled_darwin (fuel : Nat) (w : Darwin.World) (ch : Nat)
    (env : Darwin.DisableEnv) (tid : Nat) (t : Darwin.Waiter) (hE : Darwin.Enabled w tid t)
    (hok : env.allOk) (hfuel : 1 ≤ fuel) :
    Darwin.pcanEventDisable fuel w ch env =
      some (0, { w with
        fds := (((w.fds.filter (fun x => x ≠ w.pcanPipeSpawn.2)).filter
          (fun x => x ≠ w.pcanPipeSpawn.1)).filter (fun x => x ≠ w.pcanPipeExit.2)).filter
          (fun x => x ≠ w.pcanPipeExit.1)
        pipes := w.pipes.map (fun p => if p.wfd = w.pcanPipeExit.2 then
          { p with bytes := p.bytes + Darwin.sizeofBuf } else p)
        threads := updThread w.threads tid (fun x => { x with pc := Darwin.Pc.exited 0 })
        trace := w.trace ++
          [Darwin.Ev.write w.pcanPipeExit.2 Darwin.sizeofBuf, Darwin.Ev.threadReturn tid 0,
           Darwin.Ev.join tid 0, Darwin.Ev.close w.pcanPipeSpawn.2 0,
           Darwin.Ev.close w.pcanPipeSpawn.1 0, Darwin.Ev.close w.pcanPipeExit.2 0,
           Darwin.Ev.close w.pcanPipeExit.1 0] }) := by
  obtain ⟨k, rfl⟩ : ∃ k, fuel = k + 1 := ⟨fuel - 1, by omega⟩
  obtain ⟨e1, e2, e3⟩ := hok
  obtain ⟨a1, a2, a3, a4, a5, ⟨o1, o2, o3, o4⟩, a7⟩ := hE
  have hr := readable_after_write w.pipes w.pcanPipeExit.1 w.pcanPipeExit.2 a5
  simp only [List.nodup_cons, List.mem_cons, List.mem_singleton, not_or, List.not_mem_nil,
    not_false_eq_true, List.nodup_nil, and_true] at a7
  obtain ⟨⟨d1, d2, d3⟩, ⟨d4, d5⟩, d6⟩ := a7
  simp [Darwin.pcanEventDisable, Darwin.write, Darwin.pthread_join, Darwin.pcanEventThreadProc,
    Darwin.threadProcPass, Darwin.select2, Darwin.loopBody, Darwin.threadReturn, Darwin.close,
    e1, e2, e3, a1, a2, a3, a4, o1, o2, o3, o4, hr, d1, d2, d3, d4, d5, d6,
    Ne.symm d1, Ne.symm d2, Ne.symm d3, Ne.symm d4, Ne.symm d5, Ne.symm d6,
    findThread_updThread_same, threadProc_of_terminal_darwin, Darwin.Waiter.terminal]

/-! ## What a Disable that joined the thread guarantees -/

theorem setEvent_threads (w : Win32.World) (h : Int) (ok : Bool) :
    (Win32.SetEvent w h ok).2.threads = w.threads := by
  unfold Win32.SetEvent
  split
  · rfl
  · rename_i o _ _
    split_ifs
    · cases o <;> rfl
    · rfl
  · rfl

theorem setEvent_handles (w : Win32.World) (h : Int) (ok : Bool) :
    (Win32.SetEvent w h ok).2.handles = w.handles := by
  unfold Win32.SetEvent
  split
  · rfl
  · rename_i o _ _
    split_ifs
    · cases o <;> rfl
    · rfl
  · rfl

theorem setEvent_pcanEventThread (w : Win32.World) (h : Int) (ok : Bool) :
    (Win32.SetEvent w h ok).2.pcanEventThread = w.pcanEventThread := by
  unfold Win32.SetEvent
  split
  · rfl
  · rename_i o _ _
    split_ifs
    · cases o <;> rfl
    · rfl
  · rfl

theorem setEvent_callbackCount (w : Win32.World) (h : Int) (ok : Bool) :
    Win32.callbackCount (Win32.SetEvent w h ok).2 = Win32.callbackCount w :=
  (frame_setEvent 0 w h ok).callbacks

theorem disableClose_threads (w : Win32.World) (env : Win32.DisableEnv) :
    (Win32.disableClose w env).2.threads = w.threads := by
  simp only [Win32.disableClose]
  split_ifs <;> simp [closeHandle_threads]

/-- One pass of the loop of thread `tid` leaves every other thread as it was. -/
theorem threadProcPass_others (w w1 : Win32.World) (tid : Nat) (t : Win32.Waiter)
    (fault : Option Nat) (h : Win32.threadProcPass w tid t fault = some w1) (tid2 : Nat)
    (hne : tid2 ≠ tid) : findThread w1.threads tid2 = findThread w.threads tid2 := by
  have hw : ∀ r wa, Win32.WaitForMultipleObjects w fault = some (r, wa) →
      wa.threads = w.threads := by
    intro r wa hwa
    unfold Win32.WaitForMultipleObjects at hwa
    split at hwa
    · simp only [Option.some.injEq, Prod.mk.injEq] at hwa
      rw [← hwa.2]
    · split_ifs at hwa
      · simp only [Option.some.injEq, Prod.mk.injEq] at hwa
        rw [← hwa.2]
      · simp only [Option.some.injEq, Prod.mk.injEq] at hwa
        rw [← hwa.2]
  unfold Win32.threadProcPass at h
  split at h
  · exact absurd h (by simp)
  · rename_i r wa hwa
    have hth := hw r wa hwa
    split at h
    all_goals
      simp only [Option.some.injEq] at h
      subst h
      first
        | (show findThread wa.threads tid2 = _; rw [hth])
        | (simp only [Win32.threadReturn, closeHandle_threads, hth]
           rw [findThread_updThread_other _ _ _ _ (Ne.symm hne)])

/-- When the procedure of thread `tid` has run to its end, the thread is
terminal and every other thread is as it was. -/
theorem threadProc_result_win32 (fuel : Nat) :
    ∀ (w w1 : Win32.World) (tid : Nat) (env : Win32.ThreadEnv) (n : Nat),
      Win32.pcanEventThreadProc fuel w tid env n = some w1 →
      (findThread w1.threads tid).map Win32.Waiter.terminal = some true ∧
      ∀ tid2, tid2 ≠ tid → findThread w1.threads tid2 = findThread w.threads tid2 := by
  induction fuel with
  | zero =>
    intro w w1 tid env n h
    cases ht : findThread w.threads tid with
    | none => simp [Win32.pcanEventThreadProc, ht] at h
    | some t =>
      cases hc : t.pc with
      | start => simp [Win32.pcanEventThreadProc, ht, hc] at h
      | waiting => simp [Win32.pcanEventThreadProc, ht, hc] at h
      | exited c =>
        simp only [Win32.pcanEventThreadProc, ht, hc, Option.some.injEq] at h
        subst h
        exact ⟨by simp [ht, Win32.Waiter.terminal, hc], fun _ _ => rfl⟩
  | succ k ih =>
    intro w w1 tid env n h
    cases ht : findThread w.threads tid with
    | none => simp [Win32.pcanEventThreadProc, ht] at h
    | some t =>
      cases hc : t.pc with
      | exited c =>
        simp only [Win32.pcanEventThreadProc, ht, hc, Option.some.injEq] at h
        subst h
        exact ⟨by simp [ht, Win32.Waiter.terminal, hc], fun _ _ => rfl⟩
      | start =>
        simp only [Win32.pcanEventThreadProc, ht, hc] at h
        obtain ⟨r1, r2⟩ := ih _ _ _ _ _ h
        refine ⟨r1, fun tid2 hne => ?_⟩
        rw [r2 tid2 hne]
        exact (frame_threadProcStart tid w env.start).others tid2 hne
      | waiting =>
        simp only [Win32.pcanEventThreadProc, ht, hc] at h
        cases hp : Win32.threadProcPass w tid t (env.waits n) with
        | none => simp [hp] at h
        | some wp =>
          simp only [hp] at h
          obtain ⟨r1, r2⟩ := ih _ _ _ _ _ h
          refine ⟨r1, fun tid2 hne => ?_⟩
          rw [r2 tid2 hne]
          exact threadProcPass_others w wp tid t _ hp tid2 hne

theorem waitInfinite_ok_inv (fuel : Nat) (w w3 : Win32.World) (h : Int) (fault : Option Nat)
    (env : Win32.ThreadEnv)
    (hw : Win32.WaitForSingleObject_infinite fuel w h fault env = some (Win32.WAIT_OBJECT_0, w3)) :
    ∃ tid, Win32.lookupH w.handles h = some (Win32.Obj.thread tid) ∧
      Win32.pcanEventThreadProc fuel w tid env 0 = some w3 := by
  have normal : (match Win32.lookupH w.handles h with
      | some (Win32.Obj.thread tid) =>
        match Win32.pcanEventThreadProc fuel w tid env 0 with
        | some w1 => some (Win32.WAIT_OBJECT_0, w1)
        | none => none
      | _ => some (Win32.WAIT_FAILED, w)) = some (Win32.WAIT_OBJECT_0, w3) →
      ∃ tid, Win32.lookupH w.handles h = some (Win32.Obj.thread tid) ∧
        Win32.pcanEventThreadProc fuel w tid env 0 = some w3 := by
    intro hn
    split at hn
    · rename_i tid hl
      refine ⟨tid, hl, ?_⟩
      split at hn
      · rename_i w1 hp
        simp only [Option.some.injEq, Prod.mk.injEq, true_and] at hn
        rw [hp, hn]
      · exact absurd hn (by simp)
    · simp [Win32.WAIT_FAILED, Win32.WAIT_OBJECT_0] at hn
  unfold Win32.WaitForSingleObject_infinite at hw
  simp only [] at hw
  split at hw
  · split_ifs at hw
    · exact normal hw
    · rename_i r _ hr
      simp only [Option.some.injEq, Prod.mk.injEq] at hw
      exact absurd hw.1 hr
  · exact normal hw

theorem disableJoin_ok_inv (fuel : Nat) (w w1 : Win32.World) (env : Win32.DisableEnv)
    (h : Win32.disableJoin fuel w env = some (0, w1)) :
    ∃ tid w3, Win32.lookupH w.handles w.pcanEventThread = some (Win32.Obj.thread tid) ∧
      Win32.pcanEventThreadProc fuel w tid env.thread 0 = some w3 ∧
      w1.threads = w3.threads := by
  unfold Win32.disableJoin at h
  split at h
  · exact absurd h (by simp)
  · rename_i ret w3a hwait
    simp only [] at h
    by_cases hret : ret = Win32.WAIT_OBJECT_0
    · subst hret
      obtain ⟨tid, hl, hp⟩ := waitInfinite_ok_inv _ _ _ _ _ _ hwait
      refine ⟨tid, w3a, hl, hp, ?_⟩
      simp only [if_true] at h
      split_ifs at h
      · simp at h
      · simp at h
      · simp only [Option.some.injEq] at h
        have e := congrArg (fun r : Nat × Win32.World => r.2.threads) h
        simp only [disableClose_threads] at e
        exact e.symm
    · simp only [hret, if_false] at h
      split_ifs at h <;> simp at h

/-- On Windows, a `pcanEventDisable` that returns 0 has run the thread named by
the global thread handle to its end and has touched no other thread. -/
theorem disable_ok_inv_win32 (fuel : Nat) (w w1 : Win32.World) (ch : Nat)
    (env : Win32.DisableEnv) (h : Win32.pcanEventDisable fuel w ch env = some (0, w1)) :
    ∃ tid, Win32.lookupH w.handles w.pcanEventThread = some (Win32.Obj.thread tid) ∧
      (findThread w1.threads tid).map Win32.Waiter.terminal = some true ∧
      ∀ tid2, tid2 ≠ tid → findThread w1.threads tid2 = findThread w.threads tid2 := by
  simp only [Win32.pcanEventDisable] at h
  split_ifs at h
  · simp at h
  · obtain ⟨tid, w3, hl, hp, ht⟩ := disableJoin_ok_inv _ _ _ _ h
    obtain ⟨r1, r2⟩ := threadProc_result_win32 _ _ _ _ _ _ hp
    rw [setEvent_handles, setEvent_pcanEventThread] at hl
    refine ⟨tid, hl, by rw [ht]; exact r1, fun tid2 hne => ?_⟩
    rw [ht, r2 tid2 hne, setEvent_threads]
    rfl

/-- The threads of a world have all returned. -/
theorem step_of_allTerminal_win32 (w w2 : Win32.World)
    (hall : ∀ tid t, findThread w.threads tid = some t → t.terminal = true)
    (hs : Win32.Step w w2) :
    Win32.callbackCount w2 = Win32.callbackCount w ∧
    ∀ tid t, findThread w2.threads tid = some t → t.terminal = true := by
  cases hs with
  | start tid t e ht hp =>
    have := hall tid t ht
    simp [Win32.Waiter.terminal, hp] at this
  | pass tid t fault _ ht hp hpass =>
    have := hall tid t ht
    simp [Win32.Waiter.terminal, hp] at this
  | driver h hd =>
    refine ⟨setEvent_callbackCount _ _ _, ?_⟩
    rw [setEvent_threads]
    exact hall

theorem steps_of_allTerminal_win32 (w w2 : Win32.World)
    (hall : ∀ tid t, findThread w.threads tid = some t → t.terminal = true)
    (hs : Relation.ReflTransGen Win32.Step w w2) :
    Win32.callbackCount w2 = Win32.callbackCount w ∧
    ∀ tid t, findThread w2.threads tid = some t → t.terminal = true := by
  induction hs with
  | refl => exact ⟨rfl, hall⟩
  | tail _ hstep ih =>
    obtain ⟨c1, a1⟩ := ih
    obtain ⟨c2, a2⟩ := step_of_allTerminal_win32 _ _ a1 hstep
    exact ⟨c2.trans c1, a2⟩

theorem threadProcStart_threads_darwin (w : Darwin.World) (tid : Nat) (t : Darwin.Waiter)
    (e : Darwin.ThreadStartEnv) :
    ∃ f, (Darwin.threadProcStart w tid t e).threads = updThread w.threads tid f := by
  simp only [Darwin.threadProcStart, Darwin.write, Darwin.threadReturn]
  split_ifs <;> exact ⟨_, rfl⟩

theorem threadProcPass_threads_darwin (w : Darwin.World) (tid : Nat) (t : Darwin.Waiter)
    (e : Darwin.SelectEnv) :
    ∃ f, (Darwin.threadProcPass w tid t e).threads = updThread w.threads tid f := by
  have hid : updThread w.threads tid (fun x => x) = w.threads := by
    cases tid with
    | zero => rfl
    | succ n =>
      simp only [updThread]
      apply List.ext_getElem?
      intro i
      by_cases hi : n = i
      · subst hi
        simp [List.getElem?_modify_eq]
      · simp [List.getElem?_modify_ne, hi]
  simp only [Darwin.threadProcPass, Darwin.threadReturn]
  split
  · exact ⟨fun x => x, hid.symm⟩
  · exact ⟨fun x => x, hid.symm⟩
  · exact ⟨_, rfl⟩
  · exact ⟨_, rfl⟩

/-- When the procedure of thread `tid` has run to its end, the thread is
terminal and every other thread is as it was. -/
theorem threadProc_result_darwin (fuel : Nat) :
    ∀ (w w1 : Darwin.World) (tid : Nat) (env : Darwin.ThreadEnv) (n : Nat),
      Darwin.pcanEventThreadProc fuel w tid env n = some w1 →
      (findThread w1.threads tid).map Darwin.Waiter.terminal = some true ∧
      ∀ tid2, tid2 ≠ tid → findThread w1.threads tid2 = findThread w.threads tid2 := by
  induction fuel with
  | zero =>
    intro w w1 tid env n h
    cases ht : findThread w.threads tid with
    | none => simp [Darwin.pcanEventThreadProc, ht] at h
    | some t =>
      cases hc : t.pc with
      | start => simp [Darwin.pcanEventThreadProc, ht, hc] at h
      | waiting => simp [Darwin.pcanEventThreadProc, ht, hc] at h
      | exited c =>
        simp only [Darwin.pcanEventThreadProc, ht, hc, Option.some.injEq] at h
        subst h
        exact ⟨by simp [ht, Darwin.Waiter.terminal, hc], fun _ _ => rfl⟩
  | succ k ih =>
    intro w w1 tid env n h
    cases ht : findThread w.threads tid with
    | none => simp [Darwin.pcanEventThreadProc, ht] at h
    | some t =>
      cases hc : t.pc with
      | exited c =>
        simp only [Darwin.pcanEventThreadProc, ht, hc, Option.some.injEq] at h
        subst h
        exact ⟨by simp [ht, Darwin.Waiter.terminal, hc], fun _ _ => rfl⟩
      | start =>
        simp only [Darwin.pcanEventThreadProc, ht, hc] at h
        obtain ⟨r1, r2⟩ := ih _ _ _ _ _ h
        refine ⟨r1, fun tid2 hne => ?_⟩
        rw [r2 tid2 hne]
        obtain ⟨f, hf⟩ := threadProcStart_threads_darwin w tid t env.start
        rw [hf, findThread_updThread_other _ _ _ _ (Ne.symm hne)]
      | waiting =>
        simp only [Darwin.pcanEventThreadProc, ht, hc] at h
        obtain ⟨r1, r2⟩ := ih _ _ _ _ _ h
        refine ⟨r1, fun tid2 hne => ?_⟩
        rw [r2 tid2 hne]
        obtain ⟨f, hf⟩ := threadProcPass_threads_darwin w tid t (env.selects n)
        rw [hf, findThread_updThread_other _ _ _ _ (Ne.symm hne)]

theorem close_threads_darwin (w : Darwin.World) (fd : Int) :
    (Darwin.close w fd).2.threads = w.threads := by
  unfold Darwin.close
  split_ifs <;> rfl

theorem write_threads_darwin (w : Darwin.World) (fd : Int) (count : Nat) :
    (Darwin.write w fd count).2.threads = w.threads ∧
    (Darwin.write w fd count).2.pcanEventThread = w.pcanEventThread := by
  unfold Darwin.write
  split_ifs <;> exact ⟨rfl, rfl⟩

/-- On macOS, a `pcanEventDisable` that returns 0 with a `pthread_join` that
the environment does not fail has run the thread named by `pcanEventThread`
to its end, if there is such a thread, and has touched no other thread. -/
theorem disable_ok_inv_darwin (fuel : Nat) (w w1 : Darwin.World) (ch : Nat)
    (env : Darwin.DisableEnv) (hj : env.join = none ∨ env.join = some 0)
    (h : Darwin.pcanEventDisable fuel w ch env = some (0, w1)) :
    (findThread w1.threads w.pcanEventThread = none ∨
      (findThread w1.threads w.pcanEventThread).map Darwin.Waiter.terminal = some true) ∧
    ∀ tid2, tid2 ≠ w.pcanEventThread → findThread w1.threads tid2 = findThread w.threads tid2 := by
  obtain ⟨hwt, hwp⟩ := write_threads_darwin w w.pcanPipeExit.2 env.writeCount
  simp only [Darwin.pcanEventDisable] at h
  split_ifs at h
  · simp at h
  · have hjoin : ∀ r w2, Darwin.pthread_join fuel (Darwin.write w w.pcanPipeExit.2
        env.writeCount).2 w.pcanEventThread env.join env.thread = some (r, w2) →
        (findThread w2.threads w.pcanEventThread = none ∨
          (findThread w2.threads w.pcanEventThread).map Darwin.Waiter.terminal = some true) ∧
        ∀ tid2, tid2 ≠ w.pcanEventThread →
          findThread w2.threads tid2 = findThread w.threads tid2 := by
      intro r w2 hr
      have hnorm : Darwin.pthread_join fuel (Darwin.write w w.pcanPipeExit.2
          env.writeCount).2 w.pcanEventThread env.join env.thread =
          (match findThread w.threads w.pcanEventThread with
            | none => some (Darwin.ESRCH, (Darwin.write w w.pcanPipeExit.2 env.writeCount).2)
            | some _ =>
              match Darwin.pcanEventThreadProc fuel
                  (Darwin.write w w.pcanPipeExit.2 env.writeCount).2 w.pcanEventThread
                  env.thread 0 with
              | some w1 => some (0, w1)
              | none => none) := by
        rcases hj with hj | hj <;> simp [Darwin.pthread_join, hj, hwt]
      rw [hnorm] at hr
      cases hf : findThread w.threads w.pcanEventThread with
      | none =>
        simp only [hf, Option.some.injEq, Prod.mk.injEq] at hr
        refine ⟨Or.inl ?_, fun tid2 _ => ?_⟩
        · rw [← hr.2, hwt]
          exact hf
        · rw [← hr.2, hwt]
      | some t =>
        simp only [hf] at hr
        cases hp : Darwin.pcanEventThreadProc fuel
            (Darwin.write w w.pcanPipeExit.2 env.writeCount).2 w.pcanEventThread env.thread 0 with
        | none => simp [hp] at hr
        | some w3 =>
          simp only [hp, Option.some.injEq, Prod.mk.injEq] at hr
          obtain ⟨r1, r2⟩ := threadProc_result_darwin _ _ _ _ _ _ hp
          rw [← hr.2]
          refine ⟨Or.inr r1, fun tid2 hne => ?_⟩
          rw [r2 tid2 hne, hwt]
    rw [hwp] at h
    cases hres : Darwin.pthread_join fuel (Darwin.write w w.pcanPipeExit.2 env.writeCount).2
        w.pcanEventThread env.join env.thread with
    | none => simp [hres] at h
    | some p =>
      obtain ⟨r, w2⟩ := p
      simp only [hres, Option.some.injEq, Prod.mk.injEq, true_and] at h
      obtain ⟨j1, j2⟩ := hjoin r w2 hres
      have ht : w1.threads = w2.threads := by
        rw [← h]
        simp [close_threads_darwin]
      rw [ht]
      exact ⟨j1, j2⟩

theorem step_of_allTerminal_darwin (w w2 : Darwin.World)
    (hall : ∀ tid t, findThread w.threads tid = some t → t.terminal = true)
    (hs : Darwin.Step w w2) :
    Darwin.callbackCount w2 = Darwin.callbackCount w ∧
    ∀ tid t, findThread w2.threads tid = some t → t.terminal = true := by
  cases hs with
  | start tid t e ht hp =>
    have := hall tid t ht
    simp [Darwin.Waiter.terminal, hp] at this
  | pass tid t e ht hp =>
    have := hall tid t ht
    simp [Darwin.Waiter.terminal, hp] at this

theorem steps_of_allTerminal_darwin (w w2 : Darwin.World)
    (hall : ∀ tid t, findThread w.threads tid = some t → t.terminal = true)
    (hs : Relation.ReflTransGen Darwin.Step w w2) :
    Darwin.callbackCount w2 = Darwin.callbackCount w ∧
    ∀ tid t, findThread w2.threads tid = some t → t.terminal = true := by
  induction hs with
  | refl => exact ⟨rfl, hall⟩
  | tail _ hstep ih =>
    obtain ⟨c1, a1⟩ := ih
    obtain ⟨c2, a2⟩ := step_of_allTerminal_darwin _ _ a1 hstep
    exact ⟨c2.trans c1, a2⟩

/-! ## Failure of the driver call in Enable -/

/-- C1, counterexample to the claim as stated.  On Windows, when only
`CAN_SetValue` fails, `pcanEventEnable` returns 1 but the worker thread it
started is left in its wait loop and the seven handles opened by the call stay
open.  On macOS, when only `CAN_GetValue` fails, `pcanEventEnable` returns 0
and leaves a worker thread in its wait loop. -/
theorem C1_counterexample_thread_left_running :
    (Win32.pcanEventEnable Win32.init 5 7 Win32.setValueFails).1 = 1 ∧
    ((Win32.pcanEventEnable Win32.init 5 7 Win32.setValueFails).2.threads.map (fun t => t.pc))
      = [Win32.Pc.waiting] ∧
    (Win32.pcanEventEnable Win32.init 5 7 Win32.setValueFails).2.handles.length = 7 ∧
    (Darwin.pcanEventEnable Darwin.init 5 7 Darwin.getValueFails).1 = 0 ∧
    ((Darwin.pcanEventEnable Darwin.init 5 7 Darwin.getValueFails).2.threads.map (fun t => t.pc))
      = [Darwin.Pc.waiting] := by
  decide

/-- C1 (as amended): on Windows, whenever `CAN_SetValue(PCAN_RECEIVE_EVENT)`
returns a status other than `PCAN_ERROR_OK`, `pcanEventEnable` returns 1; and
when the call is reached after a completed handshake, nothing is undone: the
worker thread started by the call is left in its wait loop, every handle that
was open before is still open and the seven handles opened by the call stay
open. -/
theorem C1_enable_setvalue_failure_win32 (w : Win32.World) (ch cb : Nat)
    (env : Win32.EnableEnv) (hfail : env.setValue ≠ Win32.PCAN_ERROR_OK) :
    (Win32.pcanEventEnable w ch cb env).1 = 1 ∧
    (env.initSD = true → env.setDacl = true → env.createRead = true →
      env.createSpawn = true → env.createExit = true → env.createThread = true →
      env.thread = Win32.okStart → env.waitSpawn = none →
      (∃ t, findThread (Win32.pcanEventEnable w ch cb env).2.threads (w.threads.length + 1)
          = some t ∧ t.pc = Win32.Pc.waiting ∧ t.callback = cb ∧ t.canChannel = ch) ∧
      w.handles <:+ (Win32.pcanEventEnable w ch cb env).2.handles ∧
      (Win32.pcanEventEnable w ch cb env).2.handles.length = w.handles.length + 7) := by
  constructor
  · exact pcanEventEnable_fst_of_setValue w ch cb env hfail
  · intro h1 h2 h3 h4 h5 h6 h7 h8
    rw [enable_handshake_done_win32 w ch cb env h1 h2 h3 h4 h5 h6 h7 h8]
    refine ⟨⟨_, findThread_append_new _ _, rfl, rfl, rfl⟩, ?_, by simp⟩
    simp [List.suffix_cons_iff]

/-- C1, witness: the amended statement at the initial state with status 1. -/
theorem C1_enable_setvalue_failure_win32_witness :
    Win32.setValueFails.setValue ≠ Win32.PCAN_ERROR_OK ∧
    (Win32.pcanEventEnable Win32.init 5 7 Win32.setValueFails).1 = 1 :=
  ⟨by decide, (C1_enable_setvalue_failure_win32 Win32.init 5 7 Win32.setValueFails
    (by decide)).1⟩

/-! ## The bounded wait of Enable -/

/-- C2, the code at the failing input: on macOS, when every call succeeds but
the new thread does not signal the spawn pipe within the second, `select`
returns 0 (timeout) and `pcanEventEnable` returns 0, with the thread not yet
started. -/
theorem C2_darwin_enable_timeout_returns_ok :
    (Darwin.pcanEventEnable Darwin.init 5 7 Darwin.lateThread).1 = 0 ∧
    Darwin.Ev.selectSpawn 0 ∈ (Darwin.pcanEventEnable Darwin.init 5 7 Darwin.lateThread).2.trace ∧
    ((Darwin.pcanEventEnable Darwin.init 5 7 Darwin.lateThread).2.threads.map (fun t => t.pc))
      = [Darwin.Pc.start] := by
  decide

/-! ## Disable: shutdown, join, return -/

/-- C4, counterexample to the claim as stated.  On Windows, a first
`pcanEventEnable(5, 7)` in which only the driver call `CAN_SetValue` fails
returns 1 and leaves its thread in the wait loop; a second `pcanEventEnable(5,
8)` in which every call succeeds returns 0, and the bridge is enabled with its
thread (thread 2) in the wait loop.  In the `pcanEventDisable` that follows
every call succeeds; once it has signalled the exit event, the thread of the
first attempt, which waits on the same named event, makes the loop pass that
takes the signal and returns.  The thread waited for (thread 2) is then still
in its wait loop with no event signalled, and the wait of `pcanEventDisable`
for it has no result, whatever the fuel. -/
theorem C4_counterexample_exit_signal_taken_by_other_thread :
    (Win32.pcanEventEnable Win32.init 5 7 Win32.setValueFails).1 = 1 ∧
    Win32.pcanEventEnable (Win32.pcanEventEnable Win32.init 5 7 Win32.setValueFails).2 5 8
      Win32.okEnable = (0, Win32.retryWorld) ∧
    Win32.Enabled Win32.retryWorld 2
      { canChannel := 5, callback := 8, pc := Win32.Pc.waiting, hRead := 12, hSpawn := 13,
        hExit := 14 } ∧
    Win32.okDisable.allOk ∧
    (∀ fuel, Win32.pcanEventDisable fuel Win32.retryWorld 5 Win32.okDisable =
      Win32.disableJoin fuel Win32.retryExitSignalled Win32.okDisable) ∧
    Win32.Step Win32.retryExitSignalled Win32.retryExitTaken ∧
    Win32.retryExitTaken.threads.map (fun t => t.pc)
      = [Win32.Pc.exited 0, Win32.Pc.waiting] ∧
    (∀ fuel, Win32.disableJoin fuel Win32.retryExitTaken Win32.okDisable = none) := by
  refine ⟨by decide, by decide,
    { thread := by decide, waiting := by decide, hRead := by decide, hSpawn := by decide
      hExit := by decide, hThread := by decide, tRead := by decide, tSpawn := by decide
      tExit := by decide, neRead := by decide, neSpawn := by decide, neExit := by decide },
    ⟨rfl, rfl, rfl, fun _ => rfl, rfl, rfl, rfl, rfl, rfl⟩, ?_, ?_, by decide, ?_⟩
  · intro fuel
    simp only [Win32.pcanEventDisable]
    rw [if_neg (by decide)]
    rfl
  · exact Win32.Step.pass Win32.retryExitSignalled 1 Win32.enabledThread none _
      (by decide) (by decide) (by decide)
  · intro fuel
    have hl : Win32.lookupH Win32.retryExitTaken.handles Win32.retryExitTaken.pcanEventThread
        = some (Win32.Obj.thread 2) := by decide
    have hb := threadProc_blocked_win32 fuel Win32.retryExitTaken 2
      { canChannel := 5, callback := 8, pc := Win32.Pc.waiting, hRead := 12, hSpawn := 13,
        hExit := 14 } Win32.okDisable.thread 0 (by decide) rfl (by decide) (by decide) rfl
    have hw : Win32.okDisable.waitThread = none := rfl
    simp only [Win32.disableJoin, Win32.WaitForSingleObject_infinite, hl, hw, hb]

/-- C4 (as amended): on both platforms, when the bridge is enabled with the
worker thread in its wait loop, every call succeeds and, on Windows, no other
worker thread is alive, `pcanEventDisable` returns 0 (given fuel for the two
passes the thread may need), and the trace of the call shows the shutdown
signal (`setEvent eventExit`, or the `write` on the exit pipe), then the return
of the thread with code 0, then the completion of the join (`waitThread
WAIT_OBJECT_0`, or `join tid 0`), then the closing of the handles or
descriptors.  In the world it leaves the thread is terminal. -/
theorem C4_disable_signals_joins_returns_ok :
    (∀ (fuel : Nat) (w : Win32.World) (ch : Nat) (env : Win32.DisableEnv) (tid : Nat)
      (t : Win32.Waiter), Win32.Enabled w tid t →
      (∀ i x, findThread w.threads i = some x → i ≠ tid → x.terminal = true) →
      env.allOk → 2 ≤ fuel →
      Win32.pcanEventDisable fuel w ch env =
        some (0, { w with
          handles :=
            Win32.closeH (Win32.closeH (Win32.closeH (Win32.closeH (Win32.closeH (Win32.closeH
              (Win32.closeH w.handles t.hRead) t.hSpawn) t.hExit) w.pcanEventRead)
              w.pcanEventSpawn) w.pcanEventExit) w.pcanEventThread
          sigRead := false
          sigExit := false
          threads := updThread w.threads tid (fun x => { x with pc := Win32.Pc.exited 0 })
          driverEvent := none
          trace := w.trace ++
            [Win32.Ev.canSetValue ch Win32.INVALID_HANDLE_VALUE Win32.PCAN_ERROR_OK,
             Win32.Ev.setEvent Win32.Obj.eventExit] ++
            (if w.sigRead then [Win32.Ev.callback t.callback t.canChannel] else []) ++
            [Win32.Ev.closeHandle t.hRead true, Win32.Ev.closeHandle t.hSpawn true,
             Win32.Ev.closeHandle t.hExit true, Win32.Ev.threadReturn tid 0,
             Win32.Ev.waitThread Win32.WAIT_OBJECT_0,
             Win32.Ev.closeHandle w.pcanEventRead true,
             Win32.Ev.closeHandle w.pcanEventSpawn true,
             Win32.Ev.closeHandle w.pcanEventExit true,
             Win32.Ev.closeHandle w.pcanEventThread true] })) ∧
    (∀ (fuel : Nat) (w : Darwin.World) (ch : Nat) (env : Darwin.DisableEnv) (tid : Nat)
      (t : Darwin.Waiter), Darwin.Enabled w tid t → env.allOk → 1 ≤ fuel →
      Darwin.pcanEventDisable fuel w ch env =
        some (0, { w with
          fds := (((w.fds.filter (fun x => x ≠ w.pcanPipeSpawn.2)).filter
            (fun x => x ≠ w.pcanPipeSpawn.1)).filter (fun x => x ≠ w.pcanPipeExit.2)).filter
            (fun x => x ≠ w.pcanPipeExit.1)
          pipes := w.pipes.map (fun p => if p.wfd = w.pcanPipeExit.2 then
            { p with bytes := p.bytes + Darwin.sizeofBuf } else p)
          threads := updThread w.threads tid (fun x => { x with pc := Darwin.Pc.exited 0 })
          trace := w.trace ++
            [Darwin.Ev.write w.pcanPipeExit.2 Darwin.sizeofBuf, Darwin.Ev.threadReturn tid 0,
             Darwin.Ev.join tid 0, Darwin.Ev.close w.pcanPipeSpawn.2 0,
             Darwin.Ev.close w.pcanPipeSpawn.1 0, Darwin.Ev.close w.pcanPipeExit.2 0,
             Darwin.Ev.close w.pcanPipeExit.1 0] })) :=
  ⟨disable_enabled_win32, disable_enabled_darwin⟩

/-- The world left by a first successful `pcanEventEnable` on Windows is an
enabled bridge. -/
theorem enabledWorld_enabled_win32 :
    Win32.Enabled Win32.enabledWorld 1 Win32.enabledThread :=
  { thread := by decide, waiting := by decide, hRead := by decide, hSpawn := by decide
    hExit := by decide, hThread := by decide, tRead := by decide, tSpawn := by decide
    tExit := by decide, neRead := by decide, neSpawn := by decide, neExit := by decide }

/-- The world left by a first successful `pcanEventEnable` on macOS is an
enabled bridge. -/
theorem enabledWorld_enabled_darwin :
    Darwin.Enabled Darwin.enabledWorld 1 Darwin.enabledThread :=
  { thread := by decide, waiting := by decide, global := by decide, exitFd := by decide
    exitPipe := ⟨{ rfd := 5, wfd := 6, bytes := 0 }, by decide, by decide, by decide⟩
    fdsOpen := by decide, distinct := by decide }

/-- The world left by a first successful `pcanEventEnable` on Windows has no
worker thread but thread 1. -/
theorem enabledWorld_only_thread_win32 (i : Nat) (x : Win32.Waiter)
    (h : findThread Win32.enabledWorld.threads i = some x) (hi : i ≠ 1) :
    x.terminal = true := by
  have hthreads : Win32.enabledWorld.threads = [Win32.enabledThread] := by decide
  rw [hthreads] at h
  match i, h, hi with
  | 1, _, hi => exact absurd rfl hi
  | 0, h, _ => simp [findThread] at h
  | n + 2, h, _ => simp [findThread] at h

/-- C4, witness: `pcanEventDisable` after a first successful
`pcanEventEnable(5, 7)`, on both platforms. -/
theorem C4_disable_signals_joins_returns_ok_witness :
    (Win32.Enabled Win32.enabledWorld 1 Win32.enabledThread ∧
      Win32.enabledWorld.threads.length = 1 ∧ Win32.okDisable.allOk ∧
      (Win32.pcanEventDisable 2 Win32.enabledWorld 5 Win32.okDisable).map (fun r => r.1)
        = some 0) ∧
    (Darwin.Enabled Darwin.enabledWorld 1 Darwin.enabledThread ∧ Darwin.okDisable.allOk ∧
      (Darwin.pcanEventDisable 1 Darwin.enabledWorld 5 Darwin.okDisable).map (fun r => r.1)
        = some 0) :=
  ⟨⟨enabledWorld_enabled_win32, by decide,
    ⟨rfl, rfl, rfl, fun _ => rfl, rfl, rfl, rfl, rfl, rfl⟩,
    congrArg (Option.map (fun r => r.1))
      (C4_disable_signals_joins_returns_ok.1 2 Win32.enabledWorld 5 Win32.okDisable 1
        Win32.enabledThread enabledWorld_enabled_win32 enabledWorld_only_thread_win32
        ⟨rfl, rfl, rfl, fun _ => rfl, rfl, rfl, rfl, rfl, rfl⟩ (by decide))⟩,
   ⟨enabledWorld_enabled_darwin,
    ⟨rfl, rfl, fun _ => rfl⟩,
    congrArg (Option.map (fun r => r.1))
      (C4_disable_signals_joins_returns_ok.2 1 Darwin.enabledWorld 5 Darwin.okDisable 1
        Darwin.enabledThread enabledWorld_enabled_darwin ⟨rfl, rfl, fun _ => rfl⟩
        (by decide))⟩⟩

/-! ## No callback after Disable -/

/-- C3, counterexample to the claim as stated.  On Windows, with the read event
signalled, a `pcanEventDisable` whose `SetEvent` fails returns 1 and leaves the
worker thread in its wait loop; a step of the process then invokes the
callback.  A second cycle on that world, in which every call succeeds, ends
with a `pcanEventDisable` that returns 0 and has joined the second thread
only: the first is still in its wait loop.  On macOS, a `pcanEventDisable`
whose `pthread_join` fails returns 0 although the thread has not returned. -/
theorem C3_counterexample_callback_after_disable :
    Win32.pcanEventDisable 2 Win32.signalledWorld 5 Win32.setEventFails
      = some (1, Win32.afterFailedDisable) ∧
    findThread Win32.afterFailedDisable.threads 1 = some Win32.enabledThread ∧
    Win32.enabledThread.pc = Win32.Pc.waiting ∧
    Win32.Step Win32.afterFailedDisable
      { Win32.afterFailedDisable with
        sigRead := false
        trace := Win32.afterFailedDisable.trace ++ [Win32.Ev.callback 7 5] } ∧
    Win32.callbackCount
      { Win32.afterFailedDisable with
        sigRead := false
        trace := Win32.afterFailedDisable.trace ++ [Win32.Ev.callback 7 5] }
      = Win32.callbackCount Win32.afterFailedDisable + 1 ∧
    (Win32.pcanEventEnable Win32.afterFailedDisable 5 7 Win32.okEnable).1 = 0 ∧
    (Win32.pcanEventDisable 2
      (Win32.pcanEventEnable Win32.afterFailedDisable 5 7 Win32.okEnable).2 5
      Win32.okDisable).map (fun r => (r.1, r.2.threads.map (fun t => t.pc)))
      = some (0, [Win32.Pc.waiting, Win32.Pc.exited 0]) ∧
    (Darwin.pcanEventDisable 1 Darwin.enabledWorld 5 Darwin.joinFails).map
      (fun r => (r.1, r.2.threads.map (fun t => t.pc))) = some (0, [Darwin.Pc.waiting]) := by
  refine ⟨by decide, by decide, by decide, ?_, by decide, by decide, by decide, by decide⟩
  exact Win32.Step.pass Win32.afterFailedDisable 1 Win32.enabledThread none _
    (by decide) (by decide) (by decide)

/-- C3 (as amended): whenever `pcanEventDisable` has joined the worker thread,
which on Windows is whenever it returns 0 and on macOS whenever it returns 0
with a `pthread_join` that did not fail, and the thread named by the global
thread handle or id was the only one that had not returned, then every thread
has returned when `pcanEventDisable` returns, and in every state the process
reaches afterwards by steps of its threads and of the driver every thread has
still returned and no callback has been invoked since.  (A `pcanEventDisable`
that returns before the join leaves the thread waiting.) -/
theorem C3_no_callback_after_joined_disable :
    (∀ (fuel : Nat) (w w1 : Win32.World) (ch : Nat) (env : Win32.DisableEnv),
      Win32.pcanEventDisable fuel w ch env = some (0, w1) →
      (∀ tid t, findThread w.threads tid = some t → t.terminal = true ∨
        Win32.lookupH w.handles w.pcanEventThread = some (Win32.Obj.thread tid)) →
      ∀ w2, Relation.ReflTransGen Win32.Step w1 w2 →
        Win32.callbackCount w2 = Win32.callbackCount w1 ∧
        ∀ tid t, findThread w2.threads tid = some t → t.terminal = true) ∧
    (∀ (fuel : Nat) (w w1 : Darwin.World) (ch : Nat) (env : Darwin.DisableEnv),
      Darwin.pcanEventDisable fuel w ch env = some (0, w1) →
      (env.join = none ∨ env.join = some 0) →
      (∀ tid t, findThread w.threads tid = some t → t.terminal = true ∨
        tid = w.pcanEventThread) →
      ∀ w2, Relation.ReflTransGen Darwin.Step w1 w2 →
        Darwin.callbackCount w2 = Darwin.callbackCount w1 ∧
        ∀ tid t, findThread w2.threads tid = some t → t.terminal = true) := by
  constructor
  · intro fuel w w1 ch env h hone w2 hsteps
    obtain ⟨tid, hl, hterm, hothers⟩ := disable_ok_inv_win32 fuel w w1 ch env h
    refine steps_of_allTerminal_win32 w1 w2 ?_ hsteps
    intro tid2 t ht
    by_cases he : tid2 = tid
    · subst he
      rw [ht] at hterm
      simpa using hterm
    · rw [hothers tid2 he] at ht
      rcases hone tid2 t ht with h1 | h1
      · exact h1
      · rw [hl] at h1
        simp only [Option.some.injEq, Win32.Obj.thread.injEq] at h1
        exact absurd h1.symm he
  · intro fuel w w1 ch env h hj hone w2 hsteps
    obtain ⟨hterm, hothers⟩ := disable_ok_inv_darwin fuel w w1 ch env hj h
    refine steps_of_allTerminal_darwin w1 w2 ?_ hsteps
    intro tid2 t ht
    by_cases he : tid2 = w.pcanEventThread
    · subst he
      rcases hterm with h0 | h0
      · rw [h0] at ht
        exact absurd ht (by simp)
      · rw [ht] at h0
        simpa using h0
    · rw [hothers tid2 he] at ht
      rcases hone tid2 t ht with h1 | h1
      · exact h1
      · exact absurd h1 he

/-- C3, witness: after a first successful `pcanEventEnable(5, 7)` and a
`pcanEventDisable` in which every call succeeds, on both platforms, the one
thread has returned. -/
theorem C3_no_callback_after_joined_disable_witness :
    (Win32.pcanEventDisable 2 Win32.enabledWorld 5 Win32.okDisable
        = some (0, Win32.disabledWorld) ∧
      Win32.enabledWorld.threads.length = 1 ∧
      Win32.lookupH Win32.enabledWorld.handles Win32.enabledWorld.pcanEventThread
        = some (Win32.Obj.thread 1) ∧
      (findThread Win32.disabledWorld.threads 1).map Win32.Waiter.terminal = some true) ∧
    (Darwin.pcanEventDisable 1 Darwin.enabledWorld 5 Darwin.okDisable
        = some (0, Darwin.disabledWorld) ∧
      Darwin.okDisable.join = none ∧
      Darwin.enabledWorld.threads.length = 1 ∧
      Darwin.enabledWorld.pcanEventThread = 1 ∧
      (findThread Darwin.disabledWorld.threads 1).map Darwin.Waiter.terminal = some true) := by
  have hw : ∀ tid t, findThread Win32.enabledWorld.threads tid = some t →
      t.terminal = true ∨
      Win32.lookupH Win32.enabledWorld.handles Win32.enabledWorld.pcanEventThread
        = some (Win32.Obj.thread tid) := by
    intro tid t ht
    have hthreads : Win32.enabledWorld.threads = [Win32.enabledThread] := by decide
    rw [hthreads] at ht
    match tid, ht with
    | 1, _ => exact Or.inr (by decide)
    | 0, ht => simp [findThread] at ht
    | n + 2, ht => simp [findThread] at ht
  have hd : ∀ tid t, findThread Darwin.enabledWorld.threads tid = some t →
      t.terminal = true ∨ tid = Darwin.enabledWorld.pcanEventThread := by
    intro tid t ht
    have hthreads : Darwin.enabledWorld.threads = [Darwin.enabledThread] := by decide
    rw [hthreads] at ht
    match tid, ht with
    | 1, _ => exact Or.inr (by decide)
    | 0, ht => simp [findThread] at ht
    | n + 2, ht => simp [findThread] at ht
  have tw : findThread Win32.disabledWorld.threads 1
      = some { Win32.enabledThread with pc := Win32.Pc.exited 0 } := by decide
  have td : findThread Darwin.disabledWorld.threads 1
      = some { Darwin.enabledThread with pc := Darwin.Pc.exited 0 } := by decide
  refine ⟨⟨by decide, by decide, by decide, ?_⟩, ⟨by decide, rfl, by decide, by decide, ?_⟩⟩
  · rw [tw]
    exact congrArg some
      ((C3_no_callback_after_joined_disable.1 2 Win32.enabledWorld Win32.disabledWorld 5
        Win32.okDisable (by decide) hw Win32.disabledWorld Relation.ReflTransGen.refl).2 1 _ tw)
  · rw [td]
    exact congrArg some
      ((C3_no_callback_after_joined_disable.2 1 Darwin.enabledWorld Darwin.disabledWorld 5
        Darwin.okDisable (by decide) (Or.inl rfl) hd Darwin.disabledWorld
        Relation.ReflTransGen.refl).2 1 _ td)

/-! ## The wait loop of the worker thread -/

/-- C6, counterexample to the claim as stated: in the Windows loop the
abandoned results `WAIT_ABANDONED_0` and `WAIT_ABANDONED_0 + 1`, and
`WAIT_FAILED` as well, do not end the thread: the pass leaves the world as it
was, with the thread still waiting. -/
theorem C6_counterexample_abandoned_keeps_waiting :
    Win32.loopBody Win32.WAIT_ABANDONED_0 = Win32.LoopStep.again false ∧
    Win32.loopBody (Win32.WAIT_ABANDONED_0 + 1) = Win32.LoopStep.again false ∧
    Win32.loopBody Win32.WAIT_FAILED = Win32.LoopStep.again false ∧
    Win32.threadProcPass Win32.enabledWorld 1
        { canChannel := 5, callback := 7, pc := Win32.Pc.waiting, hRead := 5, hSpawn := 6,
          hExit := 7 } (some Win32.WAIT_ABANDONED_0) = some Win32.enabledWorld ∧
    findThread Win32.enabledWorld.threads 1 =
      some { canChannel := 5, callback := 7, pc := Win32.Pc.waiting, hRead := 5, hSpawn := 6,
             hExit := 7 } := by
  decide

/-- In the macOS loop a `select` that fails reports the exit descriptor set, as
the loop armed it, so the pass takes the branch of the shutdown signal: the
thread leaves the loop and returns 0. -/
theorem select_failure_leaves_loop_darwin (w : Darwin.World) (tid : Nat) (t : Darwin.Waiter)
    (e : Darwin.SelectEnv) (ret : Int) (hf : e.fault = some ret) :
    Darwin.threadProcPass w tid t e = Darwin.threadReturn w tid 0 := by
  simp [Darwin.threadProcPass, Darwin.select2, hf, Darwin.loopBody]

/-- C6 (as amended): in the Windows loop an abandoned wait result
(`WAIT_ABANDONED_0 + i` for the two events) is only reported: no callback is
invoked, the thread does not end and waits again.  On neither platform does a
pass whose wait failed invoke the callback: not with `WAIT_FAILED` on Windows,
and not with a failing `select` on macOS. -/
theorem C6_wait_failure_handling :
    (∀ (w : Win32.World) (tid : Nat) (t : Win32.Waiter) (i : Nat), i < 2 →
      Win32.loopBody (Win32.WAIT_ABANDONED_0 + i) = Win32.LoopStep.again false ∧
      Win32.threadProcPass w tid t (some (Win32.WAIT_ABANDONED_0 + i)) = some w) ∧
    (∀ (w : Win32.World) (tid : Nat) (t : Win32.Waiter),
      ∃ w1, Win32.threadProcPass w tid t (some Win32.WAIT_FAILED) = some w1 ∧
        Win32.callbackCount w1 = Win32.callbackCount w) ∧
    (∀ (w : Darwin.World) (tid : Nat) (t : Darwin.Waiter) (e : Darwin.SelectEnv) (ret : Int),
      e.fault = some ret →
      Darwin.callbackCount (Darwin.threadProcPass w tid t e) = Darwin.callbackCount w) := by
  refine ⟨?_, ?_, ?_⟩
  · intro w tid t i hi
    have hb : Win32.loopBody (Win32.WAIT_ABANDONED_0 + i) = Win32.LoopStep.again false := by
      interval_cases i <;> decide
    exact ⟨hb, by simp [Win32.threadProcPass, Win32.WaitForMultipleObjects, hb]⟩
  · intro w tid t
    have hb : Win32.loopBody Win32.WAIT_FAILED = Win32.LoopStep.again false := by decide
    exact ⟨w, by simp [Win32.threadProcPass, Win32.WaitForMultipleObjects, hb], rfl⟩
  · intro w tid t e ret hf
    simp [Darwin.threadProcPass, Darwin.select2, hf, Darwin.loopBody, Darwin.threadReturn,
      Darwin.callbackCount, List.filter_append]

/-- C6, witness: the amended statement at `WAIT_ABANDONED_0 + 1` on an enabled
bridge and at a `select` that fails with -1. -/
theorem C6_wait_failure_handling_witness :
    (Win32.loopBody (Win32.WAIT_ABANDONED_0 + 1) = Win32.LoopStep.again false ∧
      Win32.threadProcPass Win32.enabledWorld 1
        { canChannel := 5, callback := 7, pc := Win32.Pc.waiting, hRead := 5, hSpawn := 6,
          hExit := 7 } (some (Win32.WAIT_ABANDONED_0 + 1)) = some Win32.enabledWorld) ∧
    Darwin.callbackCount
        (Darwin.threadProcPass Darwin.enabledWorld 1
          { canChannel := 5, callback := 7, pipeRead := 9, pipeSpawn := 4, pipeExit := 5
            pc := Darwin.Pc.waiting }
          { readReady := true, fault := some (-1) })
      = Darwin.callbackCount Darwin.enabledWorld :=
  ⟨C6_wait_failure_handling.1 Win32.enabledWorld 1 _ 1 (by decide),
   C6_wait_failure_handling.2.2 Darwin.enabledWorld 1 _ _ (-1) rfl⟩

/-! ## Failure of a creation in Enable -/

/-- C7, counterexample to the claim as stated: on Windows, when the second
`CreateEvent` fails, `pcanEventEnable` returns 1 with the handle of the read
event still open; on macOS, when `pthread_create` fails, it returns 1 with the
four pipe descriptors still open and the parameter block still allocated. -/
theorem C7_counterexample_created_primitives_stay_open :
    (Win32.pcanEventEnable Win32.init 5 7 Win32.createSpawnFails).1 = 1 ∧
    (Win32.pcanEventEnable Win32.init 5 7 Win32.createSpawnFails).2.handles
      = [(1, Win32.Obj.eventRead)] ∧
    Win32.init.handles = [] ∧
    (Darwin.pcanEventEnable Darwin.init 5 7 Darwin.threadCreateFails).1 = 1 ∧
    (Darwin.pcanEventEnable Darwin.init 5 7 Darwin.threadCreateFails).2.fds
      = [5, 6, 3, 4, 0, 1, 2] ∧
    (Darwin.pcanEventEnable Darwin.init 5 7 Darwin.threadCreateFails).2.heap = 1 ∧
    Darwin.init.fds = [0, 1, 2] ∧ Darwin.init.heap = 0 := by
  decide

/-- C7 (as amended): when a creation fails inside `pcanEventEnable`, the
function returns 1 at once and releases nothing: every handle (Windows) or
descriptor (macOS) created earlier in the call stays open in addition to those
open before, no thread exists that did not before, and on macOS the parameter
block stays allocated when `pthread_create` fails. -/
theorem C7_enable_creation_failure (w : Win32.World) (d : Darwin.World) (ch cb : Nat)
    (env : Win32.EnableEnv) (denv : Darwin.EnableEnv)
    (h1 : env.initSD = true) (h2 : env.setDacl = true) :
    (env.createRead = false →
      (Win32.pcanEventEnable w ch cb env).1 = 1 ∧
      (Win32.pcanEventEnable w ch cb env).2.handles = w.handles ∧
      (Win32.pcanEventEnable w ch cb env).2.threads = w.threads) ∧
    (env.createRead = true → env.createSpawn = false →
      (Win32.pcanEventEnable w ch cb env).1 = 1 ∧
      (Win32.pcanEventEnable w ch cb env).2.handles =
        ((w.nextHandle : Int) + 1, Win32.Obj.eventRead) :: w.handles ∧
      (Win32.pcanEventEnable w ch cb env).2.threads = w.threads) ∧
    (env.createRead = true → env.createSpawn = true → env.createExit = false →
      (Win32.pcanEventEnable w ch cb env).1 = 1 ∧
      (Win32.pcanEventEnable w ch cb env).2.handles =
        ((w.nextHandle : Int) + 1 + 1, Win32.Obj.eventSpawn) ::
        ((w.nextHandle : Int) + 1, Win32.Obj.eventRead) :: w.handles ∧
      (Win32.pcanEventEnable w ch cb env).2.threads = w.threads) ∧
    (env.createRead = true → env.createSpawn = true → env.createExit = true →
      env.createThread = false →
      (Win32.pcanEventEnable w ch cb env).1 = 1 ∧
      (Win32.pcanEventEnable w ch cb env).2.handles =
        ((w.nextHandle : Int) + 1 + 1 + 1, Win32.Obj.eventExit) ::
        ((w.nextHandle : Int) + 1 + 1, Win32.Obj.eventSpawn) ::
        ((w.nextHandle : Int) + 1, Win32.Obj.eventRead) :: w.handles ∧
      (Win32.pcanEventEnable w ch cb env).2.threads = w.threads) ∧
    (denv.pipeSpawn = false →
      (Darwin.pcanEventEnable d ch cb denv).1 = 1 ∧
      (Darwin.pcanEventEnable d ch cb denv).2.fds = d.fds ∧
      (Darwin.pcanEventEnable d ch cb denv).2.heap = d.heap ∧
      (Darwin.pcanEventEnable d ch cb denv).2.threads = d.threads) ∧
    (denv.pipeSpawn = true → denv.pipeExit = false →
      (Darwin.pcanEventEnable d ch cb denv).1 = 1 ∧
      (Darwin.pcanEventEnable d ch cb denv).2.fds =
        (d.nextFd : Int) :: ((d.nextFd : Int) + 1) :: d.fds ∧
      (Darwin.pcanEventEnable d ch cb denv).2.heap = d.heap ∧
      (Darwin.pcanEventEnable d ch cb denv).2.threads = d.threads) ∧
    (denv.pipeSpawn = true → denv.pipeExit = true → denv.malloc = false →
      (Darwin.pcanEventEnable d ch cb denv).1 = 1 ∧
      (Darwin.pcanEventEnable d ch cb denv).2.fds =
        ((d.nextFd : Int) + 2) :: ((d.nextFd : Int) + 2 + 1) :: (d.nextFd : Int) ::
          ((d.nextFd : Int) + 1) :: d.fds ∧
      (Darwin.pcanEventEnable d ch cb denv).2.heap = d.heap ∧
      (Darwin.pcanEventEnable d ch cb denv).2.threads = d.threads) ∧
    (denv.pipeSpawn = true → denv.pipeExit = true → denv.malloc = true →
      denv.threadCreate ≠ 0 →
      (Darwin.pcanEventEnable d ch cb denv).1 = 1 ∧
      (Darwin.pcanEventEnable d ch cb denv).2.fds =
        ((d.nextFd : Int) + 2) :: ((d.nextFd : Int) + 2 + 1) :: (d.nextFd : Int) ::
          ((d.nextFd : Int) + 1) :: d.fds ∧
      (Darwin.pcanEventEnable d ch cb denv).2.heap = d.heap + 1 ∧
      (Darwin.pcanEventEnable d ch cb denv).2.threads = d.threads) := by
  obtain ⟨f1, f2, f3, f4, f5, f6, f7, f8, f9, f10, f11, f12, f13, f14⟩ :=
    fresh_handle_facts w.nextHandle
  refine ⟨?_, ?_, ?_, ?_, ?_, ?_, ?_, ?_⟩
  · intro h3
    simp [Win32.pcanEventEnable, Win32.CreateEvent, h1, h2, h3]
  · intro h3 h4
    simp [Win32.pcanEventEnable, Win32.enableCreateSpawn, Win32.CreateEvent, h1, h2, h3, h4,
      Win32.freshHandle, f1, Win32.setSig]
  · intro h3 h4 h5
    simp [Win32.pcanEventEnable, Win32.enableCreateSpawn, Win32.enableCreateExit,
      Win32.CreateEvent, h1, h2, h3, h4, h5, Win32.freshHandle, f1, f2, Win32.setSig]
  · intro h3 h4 h5 h6
    simp [Win32.pcanEventEnable, Win32.enableCreateSpawn, Win32.enableCreateExit,
      Win32.enableSpawn, Win32.CreateEvent, Win32.CreateThread, h1, h2, h3, h4, h5, h6,
      Win32.freshHandle, f1, f2, f3, Win32.setSig]
  · intro g2
    simp [Darwin.pcanEventEnable, Darwin.CAN_GetValue, Darwin.pipe, g2]
  · intro g2 g3
    simp [Darwin.pcanEventEnable, Darwin.enablePipeExit, Darwin.CAN_GetValue, Darwin.pipe, g2, g3]
  · intro g2 g3 g4
    simp [Darwin.pcanEventEnable, Darwin.enablePipeExit, Darwin.enableMalloc,
      Darwin.CAN_GetValue, Darwin.pipe, Darwin.malloc, g2, g3, g4]
  · intro g2 g3 g4 g5
    simp [Darwin.pcanEventEnable, Darwin.enablePipeExit, Darwin.enableMalloc, Darwin.enableSpawn,
      Darwin.CAN_GetValue, Darwin.pipe, Darwin.malloc, Darwin.pthread_create, g2, g3, g4, g5]

/-- C7, witness: the amended statement at the initial states, with the second
`CreateEvent` failing on Windows and `pthread_create` failing on macOS. -/
theorem C7_enable_creation_failure_witness :
    ((Win32.pcanEventEnable Win32.init 5 7 Win32.createSpawnFails).1 = 1 ∧
      (Win32.pcanEventEnable Win32.init 5 7 Win32.createSpawnFails).2.handles =
        ((Win32.init.nextHandle : Int) + 1, Win32.Obj.eventRead) :: Win32.init.handles ∧
      (Win32.pcanEventEnable Win32.init 5 7 Win32.createSpawnFails).2.threads
        = Win32.init.threads) ∧
    ((Darwin.pcanEventEnable Darwin.init 5 7 Darwin.threadCreateFails).1 = 1 ∧
      (Darwin.pcanEventEnable Darwin.init 5 7 Darwin.threadCreateFails).2.fds =
        ((Darwin.init.nextFd : Int) + 2) :: ((Darwin.init.nextFd : Int) + 2 + 1) ::
          (Darwin.init.nextFd : Int) :: ((Darwin.init.nextFd : Int) + 1) :: Darwin.init.fds ∧
      (Darwin.pcanEventEnable Darwin.init 5 7 Darwin.threadCreateFails).2.heap
        = Darwin.init.heap + 1 ∧
      (Darwin.pcanEventEnable Darwin.init 5 7 Darwin.threadCreateFails).2.threads
        = Darwin.init.threads) :=
  ⟨(C7_enable_creation_failure Win32.init Darwin.init 5 7 Win32.createSpawnFails
      Darwin.threadCreateFails rfl rfl).2.1 rfl rfl,
   (C7_enable_creation_failure Win32.init Darwin.init 5 7 Win32.createSpawnFails
      Darwin.threadCreateFails rfl rfl).2.2.2.2.2.2.2 rfl rfl rfl (by decide)⟩

/-! ## Failure of the startup handshake in Enable -/

/-- C8, counterexample to the claim as stated: on Windows, when the new thread
does not run within the bounded wait, the wait times out and `pcanEventEnable`
returns 1 while the thread, not yet started, still exists and the four handles
created by the call are open; on macOS, when the startup `select` fails,
`pcanEventEnable` returns 1 while the thread is in its wait loop, the four pipe
descriptors are open and the parameter block is allocated. -/
theorem C8_counterexample_left_half_initialized :
    (Win32.pcanEventEnable Win32.init 5 7 Win32.lateThread).1 = 1 ∧
    (Win32.pcanEventEnable Win32.init 5 7 Win32.lateThread).2.trace.getLast?
      = some (Win32.Ev.waitSpawn Win32.WAIT_TIMEOUT) ∧
    ((Win32.pcanEventEnable Win32.init 5 7 Win32.lateThread).2.threads.map (fun t => t.pc))
      = [Win32.Pc.start] ∧
    (Win32.pcanEventEnable Win32.init 5 7 Win32.lateThread).2.handles =
      [(4, Win32.Obj.thread 1), (3, Win32.Obj.eventExit), (2, Win32.Obj.eventSpawn),
       (1, Win32.Obj.eventRead)] ∧
    (Darwin.pcanEventEnable Darwin.init 5 7 Darwin.selectFails).1 = 1 ∧
    ((Darwin.pcanEventEnable Darwin.init 5 7 Darwin.selectFails).2.threads.map (fun t => t.pc))
      = [Darwin.Pc.waiting] ∧
    (Darwin.pcanEventEnable Darwin.init 5 7 Darwin.selectFails).2.fds = [5, 6, 3, 4, 0, 1, 2] ∧
    (Darwin.pcanEventEnable Darwin.init 5 7 Darwin.selectFails).2.heap = 1 := by
  decide

theorem enableWait_threads_unscheduled_darwin (w : Darwin.World) (env : Darwin.EnableEnv)
    (hs : env.thread.scheduled = false) :
    (Darwin.enableWait w env).2.threads = w.threads := by
  simp only [Darwin.enableWait, hs, Bool.false_eq_true, if_false, Darwin.free]
  split_ifs <;> rfl

theorem threadProcStart_resources_darwin (w : Darwin.World) (tid : Nat) (t : Darwin.Waiter)
    (e : Darwin.ThreadStartEnv) :
    (Darwin.threadProcStart w tid t e).fds = w.fds ∧
    (Darwin.threadProcStart w tid t e).heap = w.heap := by
  simp only [Darwin.threadProcStart, Darwin.write, Darwin.threadReturn]
  split_ifs <;> exact ⟨rfl, rfl⟩

theorem enableWait_resources_darwin (w : Darwin.World) (env : Darwin.EnableEnv)
    (hsel : env.select = some (-1)) :
    (Darwin.enableWait w env).1 = 1 ∧ (Darwin.enableWait w env).2.fds = w.fds ∧
    (Darwin.enableWait w env).2.heap = w.heap := by
  cases hs : env.thread.scheduled
  · simp [Darwin.enableWait, Darwin.select1, hsel, hs]
  · cases hf : findThread w.threads w.pcanEventThread with
    | none => simp [Darwin.enableWait, Darwin.select1, hsel, hs, hf]
    | some t =>
      simpa [Darwin.enableWait, Darwin.select1, hsel, hs, hf] using
        threadProcStart_resources_darwin w w.pcanEventThread t env.thread

/-- C8 (as amended): when the startup wait of `pcanEventEnable` fails, or on
Windows times out, the function returns 1 at once; the thread it created is
neither joined nor ended (it has not even started when it was not scheduled)
and nothing created by the call is released: on Windows the four handles stay
open with every handle open before, on macOS the four descriptors stay open and
the parameter block stays allocated, so that the thread has or will find the
channel and the callback of the call in it. -/
theorem C8_enable_handshake_failure (w : Win32.World) (d : Darwin.World) (ch cb : Nat)
    (env : Win32.EnableEnv) (denv : Darwin.EnableEnv)
    (h1 : env.initSD = true) (h2 : env.setDacl = true) (h3 : env.createRead = true)
    (h4 : env.createSpawn = true) (h5 : env.createExit = true) (h6 : env.createThread = true)
    (g2 : denv.pipeSpawn = true) (g3 : denv.pipeExit = true) (g4 : denv.malloc = true)
    (g5 : denv.threadCreate = 0) :
    (∀ r, env.waitSpawn = some r → r ≠ Win32.WAIT_OBJECT_0 →
      (Win32.pcanEventEnable w ch cb env).1 = 1 ∧
      w.handles <:+ (Win32.pcanEventEnable w ch cb env).2.handles ∧
      ((w.nextHandle : Int) + 1, Win32.Obj.eventRead)
        ∈ (Win32.pcanEventEnable w ch cb env).2.handles ∧
      ((w.nextHandle : Int) + 1 + 1, Win32.Obj.eventSpawn)
        ∈ (Win32.pcanEventEnable w ch cb env).2.handles ∧
      ((w.nextHandle : Int) + 1 + 1 + 1, Win32.Obj.eventExit)
        ∈ (Win32.pcanEventEnable w ch cb env).2.handles ∧
      ((w.nextHandle : Int) + 1 + 1 + 1 + 1, Win32.Obj.thread (w.threads.length + 1))
        ∈ (Win32.pcanEventEnable w ch cb env).2.handles ∧
      ∃ t, findThread (Win32.pcanEventEnable w ch cb env).2.threads (w.threads.length + 1)
          = some t) ∧
    (env.waitSpawn = none → env.thread.scheduled = false →
      (Win32.objOpen w.handles Win32.Obj.eventSpawn && w.sigSpawn) = false →
      (Win32.pcanEventEnable w ch cb env).1 = 1 ∧
      (Win32.pcanEventEnable w ch cb env).2.trace.getLast?
        = some (Win32.Ev.waitSpawn Win32.WAIT_TIMEOUT) ∧
      (Win32.pcanEventEnable w ch cb env).2.handles =
        ((w.nextHandle : Int) + 1 + 1 + 1 + 1, Win32.Obj.thread (w.threads.length + 1)) ::
        ((w.nextHandle : Int) + 1 + 1 + 1, Win32.Obj.eventExit) ::
        ((w.nextHandle : Int) + 1 + 1, Win32.Obj.eventSpawn) ::
        ((w.nextHandle : Int) + 1, Win32.Obj.eventRead) :: w.handles ∧
      ∃ t, (Win32.pcanEventEnable w ch cb env).2.threads = w.threads ++ [t] ∧
        t.pc = Win32.Pc.start ∧ t.hRead = Win32.INVALID_HANDLE_VALUE ∧
        t.hSpawn = Win32.INVALID_HANDLE_VALUE ∧ t.hExit = Win32.INVALID_HANDLE_VALUE) ∧
    (denv.select = some (-1) →
      (Darwin.pcanEventEnable d ch cb denv).1 = 1 ∧
      (Darwin.pcanEventEnable d ch cb denv).2.fds =
        ((d.nextFd : Int) + 2) :: ((d.nextFd : Int) + 2 + 1) :: (d.nextFd : Int) ::
          ((d.nextFd : Int) + 1) :: d.fds ∧
      (Darwin.pcanEventEnable d ch cb denv).2.heap = d.heap + 1 ∧
      (∃ t, findThread (Darwin.pcanEventEnable d ch cb denv).2.threads (d.threads.length + 1)
          = some t ∧ t.callback = cb ∧ t.canChannel = ch) ∧
      (denv.thread.scheduled = false →
        ∃ t, findThread (Darwin.pcanEventEnable d ch cb denv).2.threads (d.threads.length + 1)
          = some t ∧ t.pc = Darwin.Pc.start)) := by
  obtain ⟨f1, f2, f3, f4, f5, f6, f7, f8, f9, f10, f11, f12, f13, f14⟩ :=
    fresh_handle_facts w.nextHandle
  refine ⟨?_, ?_, ?_⟩
  · intro r hw hr
    refine ⟨pcanEventEnable_fst_of_wait_fault w ch cb env r hr hw, ?_⟩
    rw [enable_created_win32 w ch cb env h1 h2 h3 h4 h5 h6]
    have hf := frame_enableWait (Win32.afterCreate w ch cb) ch env
    have hsub := hf.handles.subset
    refine ⟨?_, hsub (by simp [Win32.afterCreate]), hsub (by simp [Win32.afterCreate]),
      hsub (by simp [Win32.afterCreate]), hsub (by simp [Win32.afterCreate]), ?_⟩
    · refine List.IsSuffix.trans ?_ hf.handles
      simp [Win32.afterCreate, List.suffix_cons_iff]
    · obtain ⟨t1, e1, _⟩ := hf.self _ (findThread_append_new _ _)
      exact ⟨t1, e1⟩
  · intro hw hs hsig
    rw [enable_created_win32 w ch cb env h1 h2 h3 h4 h5 h6]
    have hc : ¬ (Win32.objOpen w.handles Win32.Obj.eventSpawn = true ∧ w.sigSpawn = true) := by
      simpa using hsig
    simp [Win32.afterCreate, Win32.enableWait, hs, hw, Win32.WaitForSingleObject_bounded,
      Win32.lookupH, f13, f14,
      Win32.sig, hc, Win32.WAIT_TIMEOUT, Win32.WAIT_OBJECT_0, Win32.WAIT_ABANDONED]
  · intro hsel
    rw [enable_created_darwin d ch cb denv g2 g3 g4 g5]
    obtain ⟨r1, r2, r3⟩ := enableWait_resources_darwin (Darwin.afterCreate d ch cb denv) denv hsel
    refine ⟨r1, r2, r3, ?_, ?_⟩
    · obtain ⟨_, t1, e1, c1, d1⟩ := enableWait_thread_darwin (Darwin.afterCreate d ch cb denv)
        denv _ (findThread_append_new d.threads _)
      exact ⟨t1, e1, c1, d1⟩
    · intro hs
      rw [enableWait_threads_unscheduled_darwin _ denv hs]
      exact ⟨_, findThread_append_new _ _, rfl⟩

/-- C8, witness: `pcanEventEnable(5, 7)` from the initial state, on Windows
with a startup wait that fails and with one that times out, on macOS with a
startup `select` that fails. -/
theorem C8_enable_handshake_failure_witness :
    (Win32.waitFails.waitSpawn = some Win32.WAIT_FAILED ∧
      Win32.WAIT_FAILED ≠ Win32.WAIT_OBJECT_0 ∧
      (Win32.pcanEventEnable Win32.init 5 7 Win32.waitFails).1 = 1 ∧
      Win32.init.handles <:+ (Win32.pcanEventEnable Win32.init 5 7 Win32.waitFails).2.handles) ∧
    (Win32.lateThread.waitSpawn = none ∧ Win32.lateThread.thread.scheduled = false ∧
      (Win32.pcanEventEnable Win32.init 5 7 Win32.lateThread).1 = 1 ∧
      (Win32.pcanEventEnable Win32.init 5 7 Win32.lateThread).2.trace.getLast?
        = some (Win32.Ev.waitSpawn Win32.WAIT_TIMEOUT)) ∧
    (Darwin.selectFails.select = some (-1) ∧
      (Darwin.pcanEventEnable Darwin.init 5 7 Darwin.selectFails).1 = 1 ∧
      (Darwin.pcanEventEnable Darwin.init 5 7 Darwin.selectFails).2.heap
        = Darwin.init.heap + 1) := by
  have a := (C8_enable_handshake_failure Win32.init Darwin.init 5 7 Win32.waitFails
    Darwin.selectFails rfl rfl rfl rfl rfl rfl rfl rfl rfl rfl).1 Win32.WAIT_FAILED rfl
    (by decide)
  have b := (C8_enable_handshake_failure Win32.init Darwin.init 5 7 Win32.lateThread
    Darwin.selectFails rfl rfl rfl rfl rfl rfl rfl rfl rfl rfl).2.1 rfl rfl (by decide)
  have c := (C8_enable_handshake_failure Win32.init Darwin.init 5 7 Win32.lateThread
    Darwin.selectFails rfl rfl rfl rfl rfl rfl rfl rfl rfl rfl).2.2 rfl
  exact ⟨⟨rfl, by decide, a.1, a.2.1⟩, ⟨rfl, rfl, b.1, b.2.1⟩, ⟨rfl, c.1, c.2.2.1⟩⟩

/-! ## Enable after a failed Enable -/

/-- C9, counterexample to the claim as stated.  On Windows a `pcanEventEnable`
that fails at `CAN_SetValue` leaves a thread in its wait loop, seven open
handles and a changed global thread handle; the next `pcanEventEnable`, in
which every call succeeds, returns 0 and leaves two threads in their wait loops
and fourteen open handles; when that second call registers callback 8 and the
driver then signals the read event, a step of the first thread invokes
callback 7.  On macOS a `pcanEventEnable` whose startup `select`
fails leaves the thread, the four descriptors and the parameter block; after
the next, successful `pcanEventEnable` the block is still allocated and there
are two threads and eight pipe descriptors. -/
theorem C9_counterexample_failed_attempt_leaves_state :
    ((Win32.pcanEventEnable Win32.init 5 7 Win32.setValueFails).1 = 1 ∧
      (Win32.pcanEventEnable Win32.init 5 7 Win32.setValueFails).2.threads.map (fun t => t.pc)
        = [Win32.Pc.waiting] ∧
      (Win32.pcanEventEnable Win32.init 5 7 Win32.setValueFails).2.handles.length = 7 ∧
      (Win32.pcanEventEnable Win32.init 5 7 Win32.setValueFails).2.pcanEventThread
        ≠ Win32.init.pcanEventThread ∧
      (Win32.pcanEventEnable (Win32.pcanEventEnable Win32.init 5 7 Win32.setValueFails).2 5 7
        Win32.okEnable).1 = 0 ∧
      (Win32.pcanEventEnable (Win32.pcanEventEnable Win32.init 5 7 Win32.setValueFails).2 5 7
        Win32.okEnable).2.threads.map (fun t => t.pc) = [Win32.Pc.waiting, Win32.Pc.waiting] ∧
      (Win32.pcanEventEnable (Win32.pcanEventEnable Win32.init 5 7 Win32.setValueFails).2 5 7
        Win32.okEnable).2.handles.length = 14 ∧
      (Win32.pcanEventEnable (Win32.pcanEventEnable Win32.init 5 7 Win32.setValueFails).2 5 8
        Win32.okEnable) = (0, Win32.retryWorld) ∧
      Win32.Step Win32.retryWorld Win32.retrySignalled ∧
      Win32.Step Win32.retrySignalled
        { Win32.retrySignalled with
          sigRead := false
          trace := Win32.retrySignalled.trace ++ [Win32.Ev.callback 7 5] }) ∧
    ((Darwin.pcanEventEnable Darwin.init 5 7 Darwin.selectFails).1 = 1 ∧
      (Darwin.pcanEventEnable Darwin.init 5 7 Darwin.selectFails).2.threads.map (fun t => t.pc)
        = [Darwin.Pc.waiting] ∧
      (Darwin.pcanEventEnable Darwin.init 5 7 Darwin.selectFails).2.fds = [5, 6, 3, 4, 0, 1, 2] ∧
      (Darwin.pcanEventEnable Darwin.init 5 7 Darwin.selectFails).2.heap = 1 ∧
      (Darwin.pcanEventEnable Darwin.init 5 7 Darwin.selectFails).2.pcanEventThread
        ≠ Darwin.init.pcanEventThread ∧
      (Darwin.pcanEventEnable (Darwin.pcanEventEnable Darwin.init 5 7 Darwin.selectFails).2 5 7
        Darwin.okEnable).1 = 0 ∧
      (Darwin.pcanEventEnable (Darwin.pcanEventEnable Darwin.init 5 7 Darwin.selectFails).2 5 7
        Darwin.okEnable).2.threads.map (fun t => t.pc)
        = [Darwin.Pc.waiting, Darwin.Pc.waiting] ∧
      (Darwin.pcanEventEnable (Darwin.pcanEventEnable Darwin.init 5 7 Darwin.selectFails).2 5 7
        Darwin.okEnable).2.fds = [9, 10, 7, 8, 5, 6, 3, 4, 0, 1, 2] ∧
      (Darwin.pcanEventEnable (Darwin.pcanEventEnable Darwin.init 5 7 Darwin.selectFails).2 5 7
        Darwin.okEnable).2.heap = 1) := by
  refine ⟨⟨by decide, by decide, by decide, by decide, by decide, by decide, by decide,
    by decide, ?_, ?_⟩, by decide⟩
  · exact Win32.Step.driver Win32.retryWorld 8 (by decide)
  · exact Win32.Step.pass Win32.retrySignalled 1 Win32.enabledThread none _
      (by decide) (by decide) (by decide)

theorem allOk_thread_win32 (env : Win32.EnableEnv) (h : env.allOk) :
    env.thread = Win32.okStart := by
  obtain ⟨_, _, _, _, _, _, a1, a2, a3, a4, a5, _, _⟩ := h
  cases ht : env.thread
  rw [ht] at a1 a2 a3 a4 a5
  simp only at a1 a2 a3 a4 a5
  simp [Win32.okStart, a1, a2, a3, a4, a5]

theorem allOk_thread_darwin (env : Darwin.EnableEnv) (h : env.allOk) :
    env.thread = Darwin.okStart := by
  obtain ⟨_, _, _, _, _, a1, a2, _⟩ := h
  cases ht : env.thread
  rw [ht] at a1 a2
  simp only at a1 a2
  simp [Darwin.okStart, a1, a2]

/-- C9 (as amended): after any `pcanEventEnable` attempt, failed or not, a
`pcanEventEnable` in which every driver and OS call succeeds returns 0.  It
does not clear what the earlier attempt left: every handle or descriptor that
was open stays open, every thread the earlier attempt left keeps its state, and
the globals are overwritten with the new handles and the new thread. -/
theorem C9_enable_after_failed_attempt :
    (∀ (w0 : Win32.World) (ch0 cb0 : Nat) (env0 : Win32.EnableEnv) (ch cb : Nat)
      (env : Win32.EnableEnv), env.allOk →
      (Win32.pcanEventEnable (Win32.pcanEventEnable w0 ch0 cb0 env0).2 ch cb env).1 = 0 ∧
      (Win32.pcanEventEnable w0 ch0 cb0 env0).2.handles <:+
        (Win32.pcanEventEnable (Win32.pcanEventEnable w0 ch0 cb0 env0).2 ch cb env).2.handles ∧
      (∀ tid t, findThread (Win32.pcanEventEnable w0 ch0 cb0 env0).2.threads tid = some t →
        findThread
          (Win32.pcanEventEnable (Win32.pcanEventEnable w0 ch0 cb0 env0).2 ch cb env).2.threads
          tid = some t) ∧
      (Win32.pcanEventEnable (Win32.pcanEventEnable w0 ch0 cb0 env0).2 ch cb env).2.pcanEventThreadID
        = (Win32.pcanEventEnable w0 ch0 cb0 env0).2.threads.length + 1) ∧
    (∀ (w0 : Darwin.World) (ch0 cb0 : Nat) (env0 : Darwin.EnableEnv) (ch cb : Nat)
      (env : Darwin.EnableEnv), env.allOk →
      (Darwin.pcanEventEnable (Darwin.pcanEventEnable w0 ch0 cb0 env0).2 ch cb env).1 = 0 ∧
      (Darwin.pcanEventEnable w0 ch0 cb0 env0).2.fds <:+
        (Darwin.pcanEventEnable (Darwin.pcanEventEnable w0 ch0 cb0 env0).2 ch cb env).2.fds ∧
      (Darwin.pcanEventEnable (Darwin.pcanEventEnable w0 ch0 cb0 env0).2 ch cb env).2.heap
        = (Darwin.pcanEventEnable w0 ch0 cb0 env0).2.heap ∧
      (∀ tid t, findThread (Darwin.pcanEventEnable w0 ch0 cb0 env0).2.threads tid = some t →
        findThread
          (Darwin.pcanEventEnable (Darwin.pcanEventEnable w0 ch0 cb0 env0).2 ch cb env).2.threads
          tid = some t) ∧
      (Darwin.pcanEventEnable (Darwin.pcanEventEnable w0 ch0 cb0 env0).2 ch cb env).2.pcanEventThread
        = (Darwin.pcanEventEnable w0 ch0 cb0 env0).2.threads.length + 1) := by
  constructor
  · intro w0 ch0 cb0 env0 ch cb env h
    have ht := allOk_thread_win32 env h
    obtain ⟨h1, h2, h3, h4, h5, h6, _, _, _, _, _, h8, h9⟩ := h
    rw [enable_handshake_done_win32 _ ch cb env h1 h2 h3 h4 h5 h6 ht h8]
    refine ⟨by simp [h9], ?_, ?_, rfl⟩
    · simp [List.suffix_cons_iff]
    · intro tid t hf
      exact findThread_append_old _ _ _ _ hf
  · intro w0 ch0 cb0 env0 ch cb env h
    have ht := allOk_thread_darwin env h
    obtain ⟨_, h2, h3, h4, h5, _, _, h7⟩ := h
    rw [enable_handshake_done_darwin _ ch cb env h2 h3 h4 h5 ht h7]
    refine ⟨rfl, ?_, rfl, ?_, rfl⟩
    · simp [List.suffix_cons_iff]
    · intro tid t hf
      exact findThread_append_old _ _ _ _ hf

/-- C9, witness: a successful `pcanEventEnable(5, 7)` after one that failed at
`CAN_SetValue` (Windows) or at the startup `select` (macOS). -/
theorem C9_enable_after_failed_attempt_witness :
    (Win32.okEnable.allOk ∧
      (Win32.pcanEventEnable (Win32.pcanEventEnable Win32.init 5 7 Win32.setValueFails).2 5 7
        Win32.okEnable).1 = 0) ∧
    (Darwin.okEnable.allOk ∧
      (Darwin.pcanEventEnable (Darwin.pcanEventEnable Darwin.init 5 7 Darwin.selectFails).2 5 7
        Darwin.okEnable).1 = 0) :=
  ⟨⟨⟨rfl, rfl, rfl, rfl, rfl, rfl, rfl, rfl, rfl, rfl, rfl, rfl, rfl⟩,
    (C9_enable_after_failed_attempt.1 Win32.init 5 7 Win32.setValueFails 5 7 Win32.okEnable
      ⟨rfl, rfl, rfl, rfl, rfl, rfl, rfl, rfl, rfl, rfl, rfl, rfl, rfl⟩).1⟩,
   ⟨⟨rfl, rfl, rfl, rfl, rfl, rfl, rfl, rfl⟩,
    (C9_enable_after_failed_attempt.2 Darwin.init 5 7 Darwin.selectFails 5 7 Darwin.okEnable
      ⟨rfl, rfl, rfl, rfl, rfl, rfl, rfl, rfl⟩).1⟩⟩

/-! ## Disable in the initial state -/

/-- What `pcanEventDisable` does in the initial state, for every outcome of its
calls.  On Windows it returns 1 after `CAN_SetValue` and the failing
`SetEvent`, without waiting for a thread and without closing a handle.  On
macOS it returns 1 with nothing joined or closed when the `write` on descriptor
0 (the initial `pcanPipeExit[W]`) is short; when that `write` succeeds,
`pthread_join` on thread id 0 fails without blocking, the failure is only
printed, descriptor 0 is closed and the result is 0. -/
theorem disable_initial_state :
    (∀ (fuel ch : Nat) (env : Win32.DisableEnv),
      Win32.pcanEventDisable fuel Win32.init ch env =
        some (1, { Win32.init with
          trace := [Win32.Ev.canSetValue ch Win32.INVALID_HANDLE_VALUE env.setValue] })) ∧
    (∀ (fuel ch : Nat) (env : Darwin.DisableEnv), env.writeCount ≠ Darwin.sizeofBuf →
      Darwin.pcanEventDisable fuel Darwin.init ch env =
        some (1, { Darwin.init with trace := [Darwin.Ev.write 0 env.writeCount] })) ∧
    (∀ (fuel ch : Nat) (env : Darwin.DisableEnv), env.writeCount = Darwin.sizeofBuf →
      ∃ r : Nat, r ≠ 0 ∧
      Darwin.pcanEventDisable fuel Darwin.init ch env =
        some (0, { Darwin.init with
          fds := [1, 2]
          trace := [Darwin.Ev.write 0 Darwin.sizeofBuf, Darwin.Ev.join 0 r,
            Darwin.Ev.close 0 0, Darwin.Ev.close 0 (-1), Darwin.Ev.close 0 (-1),
            Darwin.Ev.close 0 (-1)] })) := by
  refine ⟨?_, ?_, ?_⟩
  · intro fuel ch env
    by_cases hs : env.setValue = Win32.PCAN_ERROR_OK <;>
      simp [Win32.pcanEventDisable, Win32.CAN_SetValue, Win32.SetEvent, Win32.init,
        Win32.lookupH, hs, Win32.INVALID_HANDLE_VALUE]
  · intro fuel ch env hw
    simp [Darwin.pcanEventDisable, Darwin.write, Darwin.init, hw]
  · intro fuel ch env hw
    cases hj : env.join with
    | none =>
      refine ⟨Darwin.ESRCH, by decide, ?_⟩
      simp [Darwin.pcanEventDisable, Darwin.write, Darwin.init, hw, Darwin.pthread_join, hj,
        findThread, Darwin.close, Darwin.sizeofBuf]
    | some r =>
      by_cases hr : r = 0
      · refine ⟨Darwin.ESRCH, by decide, ?_⟩
        simp [Darwin.pcanEventDisable, Darwin.write, Darwin.init, hw, Darwin.pthread_join, hj,
          findThread, Darwin.close, Darwin.sizeofBuf, hr]
      · refine ⟨r, hr, ?_⟩
        simp [Darwin.pcanEventDisable, Darwin.write, Darwin.init, hw, Darwin.pthread_join, hj,
          findThread, Darwin.close, Darwin.sizeofBuf, hr]

/-- C10, the code at the failing input.  On macOS, in the initial state and
with a `write` on descriptor 0 that writes its four bytes, `pthread_join` on
thread id 0 fails with `ESRCH` without blocking; the failure is only printed,
the four `close` calls follow, descriptor 0 is closed and `pcanEventDisable`
returns 0.  On Windows, in the initial state, `pcanEventDisable` returns 1
after the failing `SetEvent`, with nothing waited for and nothing closed, and
on an enabled bridge a failed wait for the thread makes it return 1. -/
theorem C10_darwin_disable_initial_returns_ok :
    Darwin.init.fds = [0, 1, 2] ∧
    Darwin.pcanEventDisable 1 Darwin.init 5 Darwin.okDisable =
      some (0, { Darwin.init with
        fds := [1, 2]
        trace := [Darwin.Ev.write 0 Darwin.sizeofBuf, Darwin.Ev.join 0 Darwin.ESRCH,
          Darwin.Ev.close 0 0, Darwin.Ev.close 0 (-1), Darwin.Ev.close 0 (-1),
          Darwin.Ev.close 0 (-1)] }) ∧
    Win32.pcanEventDisable 2 Win32.init 5 Win32.okDisable =
      some (1, { Win32.init with
        trace := [Win32.Ev.canSetValue 5 Win32.INVALID_HANDLE_VALUE Win32.PCAN_ERROR_OK] }) ∧
    (Win32.pcanEventDisable 2 Win32.enabledWorld 5 Win32.joinFails).map (fun r => r.1)
      = some 1 := by
  decide

/-! ## Enable that returns 0 -/

/-- On Windows, a `pcanEventEnable` that returns 0 has created the three events
and the thread. -/
theorem enable_ok_flags_win32 (w : Win32.World) (ch cb : Nat) (env : Win32.EnableEnv)
    (h0 : (Win32.pcanEventEnable w ch cb env).1 = 0) :
    env.initSD = true ∧ env.setDacl = true ∧ env.createRead = true ∧ env.createSpawn = true ∧
    env.createExit = true ∧ env.createThread = true := by
  obtain ⟨f1, f2, f3, f4, f5, f6, f7, f8, f9, f10, f11, f12, f13, f14⟩ :=
    fresh_handle_facts w.nextHandle
  cases h1 : env.initSD
  · simp [Win32.pcanEventEnable, h1] at h0
  cases h2 : env.setDacl
  · simp [Win32.pcanEventEnable, h1, h2] at h0
  cases h3 : env.createRead
  · simp [Win32.pcanEventEnable, Win32.CreateEvent, h1, h2, h3] at h0
  cases h4 : env.createSpawn
  · simp [Win32.pcanEventEnable, Win32.enableCreateSpawn, Win32.CreateEvent, h1, h2, h3, h4,
      Win32.freshHandle, f1, Win32.setSig] at h0
  cases h5 : env.createExit
  · simp [Win32.pcanEventEnable, Win32.enableCreateSpawn, Win32.enableCreateExit,
      Win32.CreateEvent, h1, h2, h3, h4, h5, Win32.freshHandle, f1, f2, Win32.setSig] at h0
  cases h6 : env.createThread
  · simp [Win32.pcanEventEnable, Win32.enableCreateSpawn, Win32.enableCreateExit,
      Win32.enableSpawn, Win32.CreateEvent, Win32.CreateThread, h1, h2, h3, h4, h5, h6,
      Win32.freshHandle, f1, f2, f3, Win32.setSig] at h0
  exact ⟨rfl, rfl, rfl, rfl, rfl, rfl⟩

/-- On Windows, a `pcanEventEnable` that returns 0 is its handshake stage run
on the world in which the three events and the thread have been created. -/
theorem enable_ok_created_win32 (w : Win32.World) (ch cb : Nat) (env : Win32.EnableEnv)
    (h0 : (Win32.pcanEventEnable w ch cb env).1 = 0) :
    Win32.pcanEventEnable w ch cb env = Win32.enableWait (Win32.afterCreate w ch cb) ch env := by
  obtain ⟨h1, h2, h3, h4, h5, h6⟩ := enable_ok_flags_win32 w ch cb env h0
  exact enable_created_win32 w ch cb env h1 h2 h3 h4 h5 h6

/-- The handshake stage of `pcanEventEnable` on Windows returns 0 only through
a startup wait that returned `WAIT_OBJECT_0` followed by a `CAN_SetValue` on the
global read handle that returned `PCAN_ERROR_OK`; these are the last two
actions, and the driver then holds that handle. -/
theorem enableWait_ok_win32 (w : Win32.World) (ch : Nat) (env : Win32.EnableEnv)
    (h0 : (Win32.enableWait w ch env).1 = 0) :
    env.setValue = Win32.PCAN_ERROR_OK ∧
    (Win32.enableWait w ch env).2.driverEvent =
      (if w.pcanEventRead = Win32.INVALID_HANDLE_VALUE then none else some w.pcanEventRead) ∧
    ∃ pre, (Win32.enableWait w ch env).2.trace =
      pre ++ [Win32.Ev.waitSpawn Win32.WAIT_OBJECT_0,
        Win32.Ev.canSetValue ch w.pcanEventRead Win32.PCAN_ERROR_OK] := by
  have key : ∀ w5 : Win32.World, w5.pcanEventRead = w.pcanEventRead →
      (let r := Win32.WaitForSingleObject_bounded w5 w5.pcanEventSpawn env.waitSpawn
       let w6 : Win32.World := { r.2 with trace := r.2.trace ++ [Win32.Ev.waitSpawn r.1] }
       (if r.1 = Win32.WAIT_OBJECT_0 then Win32.enableRegister w6 ch env
        else if r.1 = Win32.WAIT_ABANDONED then (1, w6)
        else if r.1 = Win32.WAIT_TIMEOUT then (1, w6)
        else if r.1 = Win32.WAIT_FAILED then (1, w6)
        else (1, w6))) = Win32.enableWait w ch env →
      env.setValue = Win32.PCAN_ERROR_OK ∧
      (Win32.enableWait w ch env).2.driverEvent =
        (if w.pcanEventRead = Win32.INVALID_HANDLE_VALUE then none else some w.pcanEventRead) ∧
      ∃ pre, (Win32.enableWait w ch env).2.trace =
        pre ++ [Win32.Ev.waitSpawn Win32.WAIT_OBJECT_0,
          Win32.Ev.canSetValue ch w.pcanEventRead Win32.PCAN_ERROR_OK] := by
    intro w5 hr he
    have hread : (Win32.WaitForSingleObject_bounded w5 w5.pcanEventSpawn env.waitSpawn).2.pcanEventRead
        = w.pcanEventRead := by
      rw [(frame_waitBounded 0 w5 w5.pcanEventSpawn env.waitSpawn).read, hr]
    rw [← he] at h0 ⊢
    simp only at h0 ⊢
    by_cases c1 : (Win32.WaitForSingleObject_bounded w5 w5.pcanEventSpawn env.waitSpawn).1
        = Win32.WAIT_OBJECT_0
    swap
    · rw [if_neg c1] at h0
      split_ifs at h0
    rw [if_pos c1] at h0 ⊢
    have hs : env.setValue = Win32.PCAN_ERROR_OK := by
      by_contra hne
      rw [enableRegister_fst, if_neg hne] at h0
      exact absurd h0 Nat.one_ne_zero
    refine ⟨hs, ?_, ?_⟩
    · simp [Win32.enableRegister, Win32.CAN_SetValue, hs, hread]
    · refine ⟨(Win32.WaitForSingleObject_bounded w5 w5.pcanEventSpawn env.waitSpawn).2.trace, ?_⟩
      simp [Win32.enableRegister, Win32.CAN_SetValue, hs, hread, c1]
  by_cases hsch : env.thread.scheduled = true
  · exact key (Win32.threadProcStart w w.pcanEventThreadID env.thread)
      (frame_threadProcStart w.pcanEventThreadID w env.thread).read
      (by simp [Win32.enableWait, hsch])
  · have hs2 : env.thread.scheduled = false := by simpa using hsch
    exact key w rfl (by simp [Win32.enableWait, hs2])

/-- The handshake stage of `pcanEventEnable` on Windows depends on the
environment only through the prologue of the thread, the result of the startup
wait and the status of `CAN_SetValue`; a startup wait the environment lets
return `WAIT_OBJECT_0` is one it does not interfere with. -/
theorem enableWait_congr_win32 (w : Win32.World) (ch : Nat) (env env2 : Win32.EnableEnv)
    (ht : env.thread = env2.thread) (hs : env.setValue = env2.setValue)
    (hw : env.waitSpawn = env2.waitSpawn ∨
      (env.waitSpawn = some Win32.WAIT_OBJECT_0 ∧ env2.waitSpawn = none)) :
    Win32.enableWait w ch env = Win32.enableWait w ch env2 := by
  have hwait : ∀ w5 : Win32.World,
      Win32.WaitForSingleObject_bounded w5 w5.pcanEventSpawn env.waitSpawn =
        Win32.WaitForSingleObject_bounded w5 w5.pcanEventSpawn env2.waitSpawn := by
    intro w5
    rcases hw with e | ⟨e1, e2⟩
    · rw [e]
    · rw [e1, e2]
      simp [Win32.WaitForSingleObject_bounded]
  simp only [Win32.enableWait, Win32.enableRegister, ht, hs, hwait]

/-- On Windows, when no handle is open before the call, a `pcanEventEnable`
that returns 0 is one in which the new thread ran its prologue with every call
succeeding, the startup wait was not failed by the environment and
`CAN_SetValue` returned `PCAN_ERROR_OK`. -/
theorem enable_clean_ok_env_win32 (w : Win32.World) (ch cb : Nat) (env : Win32.EnableEnv)
    (hclean : w.handles = []) (h0 : (Win32.pcanEventEnable w ch cb env).1 = 0) :
    env.thread = Win32.okStart ∧
    (env.waitSpawn = none ∨ env.waitSpawn = some Win32.WAIT_OBJECT_0) ∧
    env.setValue = Win32.PCAN_ERROR_OK := by
  obtain ⟨f1, f2, f3, f4, f5, f6, f7, f8, f9, f10, f11, f12, f13, f14⟩ :=
    fresh_handle_facts w.nextHandle
  rw [enable_ok_created_win32 w ch cb env h0] at h0
  have hset := (enableWait_ok_win32 _ ch env h0).1
  have hwait : env.waitSpawn = none ∨ env.waitSpawn = some Win32.WAIT_OBJECT_0 := by
    cases hw : env.waitSpawn with
    | none => exact Or.inl rfl
    | some r =>
      by_cases hr : r = Win32.WAIT_OBJECT_0
      · rw [hr]
        exact Or.inr rfl
      · rw [enableWait_fst_of_fault _ ch env r hr hw] at h0
        exact absurd h0 Nat.one_ne_zero
  have hnorm : Win32.enableWait (Win32.afterCreate w ch cb) ch env =
      Win32.enableWait (Win32.afterCreate w ch cb) ch { env with waitSpawn := none } := by
    refine enableWait_congr_win32 (Win32.afterCreate w ch cb) ch env
      { env with waitSpawn := none } rfl rfl ?_
    rcases hwait with e | e
    · exact Or.inl e
    · exact Or.inr ⟨e, rfl⟩
  rw [hnorm] at h0
  refine ⟨?_, hwait, hset⟩
  cases hth : env.thread with
  | mk sch oR oS oE sS =>
    cases sch
    · simp [Win32.afterCreate, Win32.enableWait, hth, Win32.WaitForSingleObject_bounded,
        Win32.lookupH, f13, f14, Win32.sig, hclean, Win32.objOpen, Win32.WAIT_TIMEOUT,
        Win32.WAIT_OBJECT_0, Win32.WAIT_ABANDONED] at h0
    cases oR
    · simp [Win32.afterCreate, Win32.enableWait, hth, Win32.WaitForSingleObject_bounded,
        Win32.threadProcStart, Win32.OpenEvent, Win32.threadReturn,
        Win32.lookupH, f13, f14, Win32.sig, hclean, Win32.objOpen, Win32.WAIT_TIMEOUT,
        Win32.WAIT_OBJECT_0, Win32.WAIT_ABANDONED] at h0
    cases oS
    · simp [Win32.afterCreate, Win32.enableWait, hth, Win32.WaitForSingleObject_bounded,
        Win32.threadProcStart, Win32.threadOpenSpawn, Win32.OpenEvent, Win32.threadReturn,
        Win32.freshHandle, f1, f2, f3, f4, f5, f6, f7, f8, f9, f10, f11, f12,
        Win32.lookupH, f13, f14, Win32.sig, hclean, Win32.objOpen, Win32.WAIT_TIMEOUT,
        Win32.WAIT_OBJECT_0, Win32.WAIT_ABANDONED] at h0
    cases oE
    · simp [Win32.afterCreate, Win32.enableWait, hth, Win32.WaitForSingleObject_bounded,
        Win32.threadProcStart, Win32.threadOpenSpawn, Win32.threadOpenExit, Win32.OpenEvent,
        Win32.threadReturn,
        Win32.freshHandle, f1, f2, f3, f4, f5, f6, f7, f8, f9, f10, f11, f12,
        Win32.lookupH, f13, f14, Win32.sig, hclean, Win32.objOpen, Win32.WAIT_TIMEOUT,
        Win32.WAIT_OBJECT_0, Win32.WAIT_ABANDONED] at h0
    cases sS
    · simp [Win32.afterCreate, Win32.enableWait, hth, Win32.WaitForSingleObject_bounded,
        Win32.threadProcStart, Win32.threadOpenSpawn, Win32.threadOpenExit,
        Win32.threadSignalSpawn, Win32.OpenEvent, Win32.SetEvent, Win32.threadReturn,
        Win32.freshHandle, f1, f2, f3, f4, f5, f6, f7, f8, f9, f10, f11, f12,
        Win32.lookupH, f13, f14, Win32.sig, hclean, Win32.objOpen, Win32.WAIT_TIMEOUT,
        Win32.WAIT_OBJECT_0, Win32.WAIT_ABANDONED] at h0
    rfl

/-- On Windows, when no handle is open before the call, a `pcanEventEnable`
that returns 0 ran as the one in which every call succeeds. -/
theorem enable_clean_ok_win32 (w : Win32.World) (ch cb : Nat) (env : Win32.EnableEnv)
    (hclean : w.handles = []) (h0 : (Win32.pcanEventEnable w ch cb env).1 = 0) :
    Win32.pcanEventEnable w ch cb env = Win32.pcanEventEnable w ch cb Win32.okEnable := by
  obtain ⟨ht, hw, hs⟩ := enable_clean_ok_env_win32 w ch cb env hclean h0
  rw [enable_ok_created_win32 w ch cb env h0,
    enable_created_win32 w ch cb Win32.okEnable rfl rfl rfl rfl rfl rfl]
  refine enableWait_congr_win32 (Win32.afterCreate w ch cb) ch env Win32.okEnable ht hs ?_
  rcases hw with e | e
  · exact Or.inl e
  · exact Or.inr ⟨e, rfl⟩

/-- On macOS, a `pcanEventEnable` that returns 0 has created the two pipes, the
parameter block and the thread. -/
theorem enable_ok_created_darwin (w : Darwin.World) (ch cb : Nat) (env : Darwin.EnableEnv)
    (h0 : (Darwin.pcanEventEnable w ch cb env).1 = 0) :
    Darwin.pcanEventEnable w ch cb env =
      Darwin.enableWait (Darwin.afterCreate w ch cb env) env := by
  cases g2 : env.pipeSpawn
  · simp [Darwin.pcanEventEnable, Darwin.CAN_GetValue, Darwin.pipe, g2] at h0
  cases g3 : env.pipeExit
  · simp [Darwin.pcanEventEnable, Darwin.enablePipeExit, Darwin.CAN_GetValue, Darwin.pipe, g2,
      g3] at h0
  cases g4 : env.malloc
  · simp [Darwin.pcanEventEnable, Darwin.enablePipeExit, Darwin.enableMalloc,
      Darwin.CAN_GetValue, Darwin.pipe, Darwin.malloc, g2, g3, g4] at h0
  by_cases g5 : env.threadCreate = 0
  swap
  · simp [Darwin.pcanEventEnable, Darwin.enablePipeExit, Darwin.enableMalloc, Darwin.enableSpawn,
      Darwin.CAN_GetValue, Darwin.pipe, Darwin.malloc, Darwin.pthread_create, g2, g3, g4,
      g5] at h0
  exact enable_created_darwin w ch cb env g2 g3 g4 g5

/-! ## Status returned by Disable -/

/-- C11, the code at the failing inputs.  On macOS, `pcanEventDisable` on an
enabled bridge returns 0 when `pthread_join` fails (with `EDEADLK`), the thread
being still in its wait loop; and in the initial state it returns 0 although
`pthread_join` fails (with `ESRCH`) and three of the four `close` calls fail.
On Windows the same kinds of failure make `pcanEventDisable` return 1: a failed
wait for the thread, and a failed `CloseHandle`. -/
theorem C11_darwin_disable_ignores_join_and_close_failures :
    (Darwin.pcanEventDisable 1 Darwin.enabledWorld 5 Darwin.joinFails).map
      (fun r => (r.1, r.2.threads.map (fun t => t.pc),
        r.2.trace.drop Darwin.enabledWorld.trace.length))
      = some (0, [Darwin.Pc.waiting],
          [Darwin.Ev.write 6 4, Darwin.Ev.join 1 11, Darwin.Ev.close 4 0, Darwin.Ev.close 3 0,
           Darwin.Ev.close 6 0, Darwin.Ev.close 5 0]) ∧
    (Darwin.pcanEventDisable 1 Darwin.init 5 Darwin.okDisable).map (fun r => (r.1, r.2.trace))
      = some (0, [Darwin.Ev.write 0 4, Darwin.Ev.join 0 Darwin.ESRCH, Darwin.Ev.close 0 0,
          Darwin.Ev.close 0 (-1), Darwin.Ev.close 0 (-1), Darwin.Ev.close 0 (-1)]) ∧
    (Win32.pcanEventDisable 2 Win32.enabledWorld 5 Win32.joinFails).map (fun r => r.1)
      = some 1 ∧
    (Win32.pcanEventDisable 2 Win32.enabledWorld 5 Win32.closeReadFails).map (fun r => r.1)
      = some 1 := by
  decide

/-! ## Disable with a failing step -/

/-- On Windows, `pcanEventDisable` on an enabled bridge with no other worker
thread alive, when the first `CloseHandle` fails and every call before it
succeeds: the result and the world it leaves. -/
theorem disable_enabled_close_fails_win32 (fuel : Nat) (w : Win32.World) (ch : Nat)
    (env : Win32.DisableEnv) (tid : Nat) (t : Win32.Waiter) (hE : Win32.Enabled w tid t)
    (_hone : ∀ i x, findThread w.threads i = some x → i ≠ tid → x.terminal = true)
    (e2 : env.setEvent = true) (e3 : env.waitThread = none)
    (e4 : ∀ n, env.thread.waits n = none) (e5 : env.getExitCode = true)
    (e6 : env.closeRead = false) (hfuel : 2 ≤ fuel) :
    Win32.pcanEventDisable fuel w ch env =
      some (1, { w with
        handles := Win32.closeH (Win32.closeH (Win32.closeH w.handles t.hRead) t.hSpawn) t.hExit
        sigRead := false
        sigExit := false
        threads := updThread w.threads tid (fun x => { x with pc := Win32.Pc.exited 0 })
        driverEvent := if env.setValue = Win32.PCAN_ERROR_OK then none else w.driverEvent
        trace := w.trace ++
          [Win32.Ev.canSetValue ch Win32.INVALID_HANDLE_VALUE env.setValue,
           Win32.Ev.setEvent Win32.Obj.eventExit] ++
          (if w.sigRead then [Win32.Ev.callback t.callback t.canChannel] else []) ++
          [Win32.Ev.closeHandle t.hRead true, Win32.Ev.closeHandle t.hSpawn true,
           Win32.Ev.closeHandle t.hExit true, Win32.Ev.threadReturn tid 0,
           Win32.Ev.waitThread Win32.WAIT_OBJECT_0,
           Win32.Ev.closeHandle w.pcanEventRead false] }) := by
  obtain ⟨k, rfl⟩ : ∃ k, fuel = k + 2 := ⟨fuel - 2, by omega⟩
  obtain ⟨a1, a2, a3, a4, a5, a6, a7, a8, a9, a10, a11, a12⟩ := hE
  have n1 : t.hSpawn ≠ t.hRead := lookupH_ne_of_obj _ _ _ _ _ a8 a7 (by decide)
  have n2 : t.hExit ≠ t.hRead := lookupH_ne_of_obj _ _ _ _ _ a9 a7 (by decide)
  have n3 : t.hExit ≠ t.hSpawn := lookupH_ne_of_obj _ _ _ _ _ a9 a8 (by decide)
  have m1 : w.pcanEventRead ≠ t.hRead := Ne.symm a10
  have m2 : w.pcanEventRead ≠ t.hSpawn := lookupH_ne_of_obj _ _ _ _ _ a3 a8 (by decide)
  have m3 : w.pcanEventRead ≠ t.hExit := lookupH_ne_of_obj _ _ _ _ _ a3 a9 (by decide)
  have m10 : w.pcanEventThread ≠ t.hRead := lookupH_ne_of_obj _ _ _ _ _ a6 a7 (by simp)
  have m11 : w.pcanEventThread ≠ t.hSpawn := lookupH_ne_of_obj _ _ _ _ _ a6 a8 (by simp)
  have m12 : w.pcanEventThread ≠ t.hExit := lookupH_ne_of_obj _ _ _ _ _ a6 a9 (by simp)
  cases hsr : w.sigRead <;> by_cases hsv : env.setValue = Win32.PCAN_ERROR_OK <;>
    simp [Win32.pcanEventDisable, Win32.disableJoin, Win32.disableClose, Win32.CAN_SetValue,
      Win32.SetEvent, Win32.WaitForSingleObject_infinite, Win32.pcanEventThreadProc,
      Win32.threadProcPass, Win32.WaitForMultipleObjects, Win32.GetExitCodeThread,
      Win32.CloseHandle, Win32.threadReturn, Win32.setSig, Win32.loopBody,
      e2, e3, e4, e5, e6, a1, a2, a3, a4, a5, a6, a7, a8, a9, hsr, hsv,
      lookupH_closeH_ne, n1, n2, n3, m1, m2, m3, m10, m11, m12,
      findThread_updThread_same, threadProc_of_terminal_win32,
      Win32.Waiter.terminal, Win32.WAIT_OBJECT_0, Win32.EVENT_INDEX_EXIT,
      Win32.EVENT_INDEX_READ, Win32.WAIT_ABANDONED_0,
      Win32.WAIT_TIMEOUT, Win32.WAIT_FAILED, Win32.STILL_ACTIVE]

/-- C12, counterexample to the claim as stated.  On Windows, on an enabled
bridge, a `pcanEventDisable` whose `SetEvent` fails returns 1 with the thread
still in its wait loop and all seven handles open; one whose first
`CloseHandle` fails returns 1 with the four global handles open.  On macOS, a
`pcanEventDisable` whose `write` is short returns 1 with the thread still in
its wait loop and the four pipe descriptors open. -/
theorem C12_counterexample_failed_step_skips_teardown :
    (Win32.pcanEventDisable 2 Win32.enabledWorld 5 Win32.setEventFails).map
      (fun r => (r.1, r.2.threads.map (fun t => t.pc), r.2.handles.map (fun p => p.1)))
      = some (1, [Win32.Pc.waiting], [7, 6, 5, 4, 3, 2, 1]) ∧
    (Win32.pcanEventDisable 2 Win32.enabledWorld 5 Win32.closeReadFails).map
      (fun r => (r.1, r.2.threads.map (fun t => t.pc), r.2.handles.map (fun p => p.1)))
      = some (1, [Win32.Pc.exited 0], [4, 3, 2, 1]) ∧
    (Darwin.pcanEventDisable 1 Darwin.enabledWorld 5
        { Darwin.okDisable with writeCount := 0 }).map
      (fun r => (r.1, r.2.threads.map (fun t => t.pc), r.2.fds))
      = some (1, [Darwin.Pc.waiting], [5, 6, 3, 4, 0, 1, 2]) := by
  decide

/-- C12 (as amended): on an enabled bridge, a step of `pcanEventDisable` that
fails makes the function return 1 at once, and the rest of the teardown is
skipped.  On Windows: when `SetEvent` fails, nothing but the driver
registration has changed (the thread has not been asked to stop, no handle is
closed); when the wait for the thread fails, the exit event is signalled but
the thread is not joined and no handle is closed; when the first `CloseHandle`
fails, the driver registration having been cleared and no other worker thread
being alive, the thread has returned and closed its own three handles, and the
four global handles stay open.  On macOS: when the `write` on the exit pipe is
short, nothing has changed. -/
theorem C12_disable_failed_step_returns_at_once :
    (∀ (fuel : Nat) (w : Win32.World) (ch : Nat) (env : Win32.DisableEnv) (tid : Nat)
      (t : Win32.Waiter), Win32.Enabled w tid t → env.setEvent = false →
      Win32.pcanEventDisable fuel w ch env =
        some (1, { w with
          driverEvent := if env.setValue = Win32.PCAN_ERROR_OK then none else w.driverEvent
          trace := w.trace ++
            [Win32.Ev.canSetValue ch Win32.INVALID_HANDLE_VALUE env.setValue] })) ∧
    (∀ (fuel : Nat) (w : Win32.World) (ch : Nat) (env : Win32.DisableEnv) (tid : Nat)
      (t : Win32.Waiter) (r : Nat), Win32.Enabled w tid t → env.setEvent = true →
      env.waitThread = some r → r ≠ Win32.WAIT_OBJECT_0 →
      Win32.pcanEventDisable fuel w ch env =
        some (1, { w with
          sigExit := true
          driverEvent := if env.setValue = Win32.PCAN_ERROR_OK then none else w.driverEvent
          trace := w.trace ++
            [Win32.Ev.canSetValue ch Win32.INVALID_HANDLE_VALUE env.setValue,
             Win32.Ev.setEvent Win32.Obj.eventExit, Win32.Ev.waitThread r] })) ∧
    (∀ (fuel : Nat) (w : Win32.World) (ch : Nat) (env : Win32.DisableEnv) (tid : Nat)
      (t : Win32.Waiter), Win32.Enabled w tid t →
      (∀ i x, findThread w.threads i = some x → i ≠ tid → x.terminal = true) →
      env.setValue = Win32.PCAN_ERROR_OK → env.setEvent = true →
      env.waitThread = none → (∀ n, env.thread.waits n = none) → env.getExitCode = true →
      env.closeRead = false → 2 ≤ fuel →
      Win32.pcanEventDisable fuel w ch env =
        some (1, { w with
          handles :=
            Win32.closeH (Win32.closeH (Win32.closeH w.handles t.hRead) t.hSpawn) t.hExit
          sigRead := false
          sigExit := false
          threads := updThread w.threads tid (fun x => { x with pc := Win32.Pc.exited 0 })
          driverEvent := none
          trace := w.trace ++
            [Win32.Ev.canSetValue ch Win32.INVALID_HANDLE_VALUE Win32.PCAN_ERROR_OK,
             Win32.Ev.setEvent Win32.Obj.eventExit] ++
            (if w.sigRead then [Win32.Ev.callback t.callback t.canChannel] else []) ++
            [Win32.Ev.closeHandle t.hRead true, Win32.Ev.closeHandle t.hSpawn true,
             Win32.Ev.closeHandle t.hExit true, Win32.Ev.threadReturn tid 0,
             Win32.Ev.waitThread Win32.WAIT_OBJECT_0,
             Win32.Ev.closeHandle w.pcanEventRead false] })) ∧
    (∀ (fuel : Nat) (w : Darwin.World) (ch : Nat) (env : Darwin.DisableEnv) (tid : Nat)
      (t : Darwin.Waiter), Darwin.Enabled w tid t → env.writeCount ≠ Darwin.sizeofBuf →
      Darwin.pcanEventDisable fuel w ch env =
        some (1, { w with
          trace := w.trace ++ [Darwin.Ev.write w.pcanPipeExit.2 env.writeCount] })) := by
  refine ⟨?_, ?_, ?_, ?_⟩
  · intro fuel w ch env tid t hE e2
    by_cases hsv : env.setValue = Win32.PCAN_ERROR_OK <;>
      simp [Win32.pcanEventDisable, Win32.CAN_SetValue, Win32.SetEvent, hE.hExit, e2, hsv]
  · intro fuel w ch env tid t r hE e2 e3 hr
    have hw : r ≠ 0 := hr
    by_cases hsv : env.setValue = Win32.PCAN_ERROR_OK <;>
      simp [Win32.pcanEventDisable, Win32.disableJoin, Win32.CAN_SetValue, Win32.SetEvent,
        Win32.WaitForSingleObject_infinite, Win32.setSig, hE.hExit, e2, e3, hsv, hw,
        Win32.WAIT_OBJECT_0]
  · intro fuel w ch env tid t hE hone e1 e2 e3 e4 e5 e6 hfuel
    have h := disable_enabled_close_fails_win32 fuel w ch env tid t hE hone e2 e3 e4 e5 e6 hfuel
    rw [e1, if_pos rfl] at h
    exact h
  · intro fuel w ch env tid t hE hw
    have hmem := hE.fdsOpen.2.2.1
    simp [Darwin.pcanEventDisable, Darwin.write, hmem, hw]

/-- C12, witness: the amended statement at a first enabled bridge, with a
failing `SetEvent`, a failing first `CloseHandle` and, on macOS, a `write` that
writes nothing. -/
theorem C12_disable_failed_step_returns_at_once_witness :
    (Win32.Enabled Win32.enabledWorld 1 Win32.enabledThread ∧
      (Win32.pcanEventDisable 2 Win32.enabledWorld 5 Win32.setEventFails).map (fun r => r.1)
        = some 1 ∧
      (Win32.pcanEventDisable 2 Win32.enabledWorld 5 Win32.joinFails).map (fun r => r.1)
        = some 1 ∧
      (Win32.pcanEventDisable 2 Win32.enabledWorld 5 Win32.closeReadFails).map (fun r => r.1)
        = some 1) ∧
    (Darwin.Enabled Darwin.enabledWorld 1 Darwin.enabledThread ∧
      (Darwin.pcanEventDisable 1 Darwin.enabledWorld 5
        { Darwin.okDisable with writeCount := 0 }).map (fun r => r.1) = some 1) :=
  ⟨⟨enabledWorld_enabled_win32,
    congrArg (Option.map (fun r => r.1))
      (C12_disable_failed_step_returns_at_once.1 2 Win32.enabledWorld 5 Win32.setEventFails 1
        Win32.enabledThread enabledWorld_enabled_win32 rfl),
    congrArg (Option.map (fun r => r.1))
      (C12_disable_failed_step_returns_at_once.2.1 2 Win32.enabledWorld 5 Win32.joinFails 1
        Win32.enabledThread Win32.WAIT_FAILED enabledWorld_enabled_win32 rfl rfl (by decide)),
    congrArg (Option.map (fun r => r.1))
      (C12_disable_failed_step_returns_at_once.2.2.1 2 Win32.enabledWorld 5
        Win32.closeReadFails 1 Win32.enabledThread enabledWorld_enabled_win32
        enabledWorld_only_thread_win32 rfl rfl rfl
        (fun _ => rfl) rfl rfl (by decide))⟩,
   ⟨enabledWorld_enabled_darwin,
    congrArg (Option.map (fun r => r.1))
      (C12_disable_failed_step_returns_at_once.2.2.2 1 Darwin.enabledWorld 5
        { Darwin.okDisable with writeCount := 0 } 1 Darwin.enabledThread
        enabledWorld_enabled_darwin (by decide))⟩⟩

/-! ## Live threads -/

theorem liveSub_trans {α : Type} (term : α → Bool) (a b c : List α)
    (h1 : liveSub term a b) (h2 : liveSub term b c) : liveSub term a c := by
  intro i t hf ht
  obtain ⟨t2, hf2, ht2⟩ := h1 i t hf ht
  exact h2 i t2 hf2 ht2

theorem findThread_append_ne {α : Type} (ts : List α) (t : α) (i : Nat)
    (h : i ≠ ts.length + 1) : findThread (ts ++ [t]) i = findThread ts i := by
  cases i with
  | zero => rfl
  | succ n =>
    simp only [findThread]
    have hn : n ≠ ts.length := fun e => h (by rw [e])
    by_cases hlt : n < ts.length
    · rw [List.getElem?_append_left hlt]
    · have hge : ts.length < n := by omega
      rw [List.getElem?_eq_none (by simp; omega), List.getElem?_eq_none (by omega)]

/-! ### Windows -/

/-- `pthread_join` either leaves the world as it was or has run the procedure
of the thread to its end. -/
theorem join_cases (fuel : Nat) (w w2 : Darwin.World) (tid : Nat) (fault : Option Nat)
    (env : Darwin.ThreadEnv) (ret : Nat)
    (hj : Darwin.pthread_join fuel w tid fault env = some (ret, w2)) :
    w2 = w ∨ Darwin.pcanEventThreadProc fuel w tid env 0 = some w2 := by
  have normal : (match findThread w.threads tid with
      | none => some (Darwin.ESRCH, w)
      | some _ =>
        match Darwin.pcanEventThreadProc fuel w tid env 0 with
        | some w1 => some (0, w1)
        | none => none) = some (ret, w2) →
      w2 = w ∨ Darwin.pcanEventThreadProc fuel w tid env 0 = some w2 := by
    intro hn
    split at hn
    · simp only [Option.some.injEq, Prod.mk.injEq] at hn
      exact Or.inl hn.2.symm
    · split at hn
      · rename_i w1 hp
        simp only [Option.some.injEq, Prod.mk.injEq] at hn
        exact Or.inr (by rw [hp, hn.2])
      · exact absurd hn (by simp)
  unfold Darwin.pthread_join at hj
  simp only [] at hj
  split at hj
  · split_ifs at hj
    · exact normal hj
    · simp only [Option.some.injEq, Prod.mk.injEq] at hj
      exact Or.inl hj.2.symm
  · exact normal hj

/-- C15: on Windows, whenever `pcanEventEnable` returns 0, its last two actions
were the startup wait returning `WAIT_OBJECT_0` and then
`CAN_SetValue(channel, PCAN_RECEIVE_EVENT, pcanEventRead)` returning
`PCAN_ERROR_OK`, where `pcanEventRead` is the handle of the read event created
by the call; on return the driver holds that handle as the event to signal. -/
theorem C15_enable_ok_has_registered_read_event (w : Win32.World) (ch cb : Nat)
    (env : Win32.EnableEnv) (h0 : (Win32.pcanEventEnable w ch cb env).1 = 0) :
    env.setValue = Win32.PCAN_ERROR_OK ∧
    (Win32.pcanEventEnable w ch cb env).2.pcanEventRead = (w.nextHandle : Int) + 1 ∧
    ((w.nextHandle : Int) + 1, Win32.Obj.eventRead)
      ∈ (Win32.pcanEventEnable w ch cb env).2.handles ∧
    (Win32.pcanEventEnable w ch cb env).2.driverEvent
      = some (Win32.pcanEventEnable w ch cb env).2.pcanEventRead ∧
    ∃ pre, (Win32.pcanEventEnable w ch cb env).2.trace =
      pre ++ [Win32.Ev.waitSpawn Win32.WAIT_OBJECT_0,
        Win32.Ev.canSetValue ch (Win32.pcanEventEnable w ch cb env).2.pcanEventRead
          Win32.PCAN_ERROR_OK] := by
  obtain ⟨f1, f2, f3, f4, f5, f6, f7, f8, f9, f10, f11, f12, f13, f14⟩ :=
    fresh_handle_facts w.nextHandle
  have hc := enable_ok_created_win32 w ch cb env h0
  rw [hc] at h0 ⊢
  have hf := frame_enableWait (Win32.afterCreate w ch cb) ch env
  obtain ⟨hs, hd, pre, ht⟩ := enableWait_ok_win32 _ ch env h0
  have hread : (Win32.enableWait (Win32.afterCreate w ch cb) ch env).2.pcanEventRead
      = (w.nextHandle : Int) + 1 := hf.read
  have hne : ¬ ((w.nextHandle : Int) + 1 = Win32.INVALID_HANDLE_VALUE) := by
    simp only [Win32.INVALID_HANDLE_VALUE]
    omega
  refine ⟨hs, hread, ?_, ?_, pre, ?_⟩
  · exact hf.handles.subset (by simp [Win32.afterCreate])
  · rw [hd, hread]
    simp only [Win32.afterCreate]
    rw [if_neg hne]
  · rw [ht, hread]
    rfl

/-- C15, witness: a first `pcanEventEnable(5, 7)` in which every call
succeeds. -/
theorem C15_enable_ok_has_registered_read_event_witness :
    (Win32.pcanEventEnable Win32.init 5 7 Win32.okEnable).1 = 0 ∧
    (Win32.pcanEventEnable Win32.init 5 7 Win32.okEnable).2.driverEvent
      = some (Win32.pcanEventEnable Win32.init 5 7 Win32.okEnable).2.pcanEventRead :=
  ⟨by decide,
   (C15_enable_ok_has_registered_read_event Win32.init 5 7 Win32.okEnable (by decide)).2.2.2.1⟩

/-! ## Clearing the driver registration in Disable -/

/-- C16, the code at the failing input.  On Windows, on an enabled bridge whose
read event (handle 1) is registered with the driver, a `pcanEventDisable` whose
`CAN_SetValue` returns an error status goes on: it signals the exit event,
joins the thread, closes handle 1 and the other three handles and returns 0,
the driver still holding handle 1 as the event to signal.  When `CAN_SetValue`
returns `PCAN_ERROR_OK` the registration is cleared first. -/
theorem C16_disable_closes_event_still_registered :
    Win32.enabledWorld.pcanEventRead = 1 ∧
    Win32.enabledWorld.driverEvent = some 1 ∧
    (Win32.pcanEventDisable 2 Win32.enabledWorld 5 Win32.clearFails).map
      (fun r => (r.1, r.2.driverEvent, Win32.lookupH r.2.handles 1,
        r.2.trace.drop Win32.enabledWorld.trace.length))
      = some (0, some 1, none,
          [Win32.Ev.canSetValue 5 Win32.INVALID_HANDLE_VALUE 1,
           Win32.Ev.setEvent Win32.Obj.eventExit,
           Win32.Ev.closeHandle 5 true, Win32.Ev.closeHandle 6 true,
           Win32.Ev.closeHandle 7 true, Win32.Ev.threadReturn 1 0,
           Win32.Ev.waitThread Win32.WAIT_OBJECT_0,
           Win32.Ev.closeHandle 1 true, Win32.Ev.closeHandle 2 true,
           Win32.Ev.closeHandle 3 true, Win32.Ev.closeHandle 4 true]) ∧
    (Win32.pcanEventDisable 2 Win32.enabledWorld 5 Win32.okDisable).map
      (fun r => (r.1, r.2.driverEvent, (r.2.trace.drop Win32.enabledWorld.trace.length).head?))
      = some (0, none,
          some (Win32.Ev.canSetValue 5 Win32.INVALID_HANDLE_VALUE Win32.PCAN_ERROR_OK)) := by
  decide

/-! ## A timeout of `select` in the macOS wait loop -/

/-- C17: in the macOS wait loop a `select` that times out, returning 0 with
neither descriptor set (which is what `select` reports when the exit pipe is
empty and the driver descriptor is not ready), is not an error path: the pass
leaves the world as it was, so no callback is invoked and the thread stays in
its loop; and the next pass calls `select` on both descriptors again, its
outcome being decided by the exit pipe and the driver descriptor as before. -/
theorem C17_select_timeout_waits_again :
    Darwin.loopBody 0 false false = Darwin.LoopStep.again false ∧
    (∀ (w : Darwin.World) (t : Darwin.Waiter) (e : Darwin.SelectEnv),
      e.fault = none → e.readReady = false → Darwin.readable w.pipes t.pipeExit = false →
      Darwin.select2 w t e = (0, false, false)) ∧
    (∀ (w : Darwin.World) (tid : Nat) (t : Darwin.Waiter) (e : Darwin.SelectEnv),
      Darwin.select2 w t e = (0, false, false) →
      Darwin.threadProcPass w tid t e = w ∧
      ∀ e2 : Darwin.SelectEnv, e2.fault = none →
        Darwin.select2 (Darwin.threadProcPass w tid t e) t e2 =
          ((if Darwin.readable w.pipes t.pipeExit then 1 else 0) +
            (if e2.readReady then 1 else 0),
           Darwin.readable w.pipes t.pipeExit, e2.readReady)) := by
  refine ⟨rfl, ?_, ?_⟩
  · intro w t e hf hr he
    simp [Darwin.select2, hf, hr, he]
  · intro w tid t e hs
    have hp : Darwin.threadProcPass w tid t e = w := by
      simp [Darwin.threadProcPass, hs, Darwin.loopBody]
    refine ⟨hp, fun e2 hf2 => ?_⟩
    rw [hp]
    simp [Darwin.select2, hf2]

/-- C17, witness: a timeout pass of the worker thread of a first enabled
bridge. -/
theorem C17_select_timeout_waits_again_witness :
    Darwin.select2 Darwin.enabledWorld Darwin.enabledThread
        { readReady := false, fault := none } = (0, false, false) ∧
    Darwin.threadProcPass Darwin.enabledWorld 1 Darwin.enabledThread
        { readReady := false, fault := none } = Darwin.enabledWorld :=
  ⟨by decide,
   (C17_select_timeout_waits_again.2.2 Darwin.enabledWorld 1 Darwin.enabledThread
      { readReady := false, fault := none } (by decide)).1⟩

/-! ## The first event after Enable -/

/-- C18, counterexample to the claim as stated.  On macOS, a `pcanEventEnable`
whose new thread fails to write to the spawn pipe returns 0 (the startup
`select` times out) with the thread already returned with code 1, and one whose
new thread is not scheduled in time returns 0 with the thread not started.  On
Windows, after a `pcanEventEnable` that timed out and whose thread then
signalled the spawn event, a second `pcanEventEnable` returns 0 on that signal
while its own thread has not started. -/
theorem C18_counterexample_ok_without_waiting_thread :
    ((Darwin.pcanEventEnable Darwin.init 5 7 Darwin.spawnWriteFails).1 = 0 ∧
      (Darwin.pcanEventEnable Darwin.init 5 7 Darwin.spawnWriteFails).2.threads.map
        (fun t => t.pc) = [Darwin.Pc.exited 1]) ∧
    ((Darwin.pcanEventEnable Darwin.init 5 7 Darwin.lateThread).1 = 0 ∧
      (Darwin.pcanEventEnable Darwin.init 5 7 Darwin.lateThread).2.threads.map
        (fun t => t.pc) = [Darwin.Pc.start]) ∧
    ((Win32.pcanEventEnable Win32.init 5 7 Win32.lateThread).1 = 1 ∧
      Win32.Step Win32.lateWorld Win32.lateStarted ∧
      (Win32.pcanEventEnable Win32.lateStarted 5 7 Win32.lateThread).1 = 0 ∧
      (Win32.pcanEventEnable Win32.lateStarted 5 7 Win32.lateThread).2.threads.map
        (fun t => t.pc) = [Win32.Pc.waiting, Win32.Pc.start]) := by
  refine ⟨by decide, by decide, by decide, ?_, by decide, by decide⟩
  exact Win32.Step.start Win32.lateWorld 1
    { canChannel := 5, callback := 7, pc := Win32.Pc.start
      hRead := Win32.INVALID_HANDLE_VALUE, hSpawn := Win32.INVALID_HANDLE_VALUE
      hExit := Win32.INVALID_HANDLE_VALUE } Win32.okStart (by decide) rfl

/-- On Windows, after a `pcanEventEnable` that returned 0 from a state with no
open handle and no live thread: the new thread is in its wait loop with the
callback and the channel of the call, the driver holds the read event, and
after the driver has signalled it the only loop pass any thread can make is one
pass of the new thread, which invokes the callback once and consumes the
signal; after that pass no thread can make a pass until another signal. -/
theorem enable_clean_first_event_win32 (w : Win32.World) (ch cb : Nat)
    (env : Win32.EnableEnv) (E : Win32.World) (hclean : w.handles = [])
    (hn : noneLive Win32.Waiter.terminal w.threads)
    (hE : Win32.pcanEventEnable w ch cb env = (0, E)) :
    ∃ t, findThread E.threads E.pcanEventThreadID = some t ∧ t.pc = Win32.Pc.waiting ∧
      t.callback = cb ∧ t.canChannel = ch ∧
      E.driverEvent = some E.pcanEventRead ∧
      Win32.Step E (Win32.driverSignal E) ∧
      Win32.threadProcPass (Win32.driverSignal E) E.pcanEventThreadID t none
        = some (Win32.afterCallback (Win32.driverSignal E) cb ch) ∧
      (∀ tid2 t2 w3, findThread (Win32.driverSignal E).threads tid2 = some t2 →
        t2.pc = Win32.Pc.waiting →
        Win32.threadProcPass (Win32.driverSignal E) tid2 t2 none = some w3 →
        tid2 = E.pcanEventThreadID ∧ w3 = Win32.afterCallback (Win32.driverSignal E) cb ch) ∧
      (∀ tid2 t2, Win32.threadProcPass (Win32.afterCallback (Win32.driverSignal E) cb ch)
        tid2 t2 none = none) := by
  have h0 : (Win32.pcanEventEnable w ch cb env).1 = 0 := by rw [hE]
  rw [enable_clean_ok_win32 w ch cb env hclean h0,
    enable_handshake_done_win32 w ch cb Win32.okEnable rfl rfl rfl rfl rfl rfl rfl rfl] at hE
  simp only [Win32.okEnable, if_true, Prod.mk.injEq, true_and, hclean, Win32.objOpen,
    List.any_nil, Bool.false_and] at hE
  have g1 : ((w.nextHandle : Int) + 1 + 1 + 1 + 1 + 1 + 1 + 1 = (w.nextHandle : Int) + 1)
      = False := eq_false (by omega)
  have g2 : ((w.nextHandle : Int) + 1 + 1 + 1 + 1 + 1 + 1 = (w.nextHandle : Int) + 1)
      = False := eq_false (by omega)
  have g3 : ((w.nextHandle : Int) + 1 + 1 + 1 + 1 + 1 = (w.nextHandle : Int) + 1)
      = False := eq_false (by omega)
  have g4 : ((w.nextHandle : Int) + 1 + 1 + 1 + 1 = (w.nextHandle : Int) + 1)
      = False := eq_false (by omega)
  have g5 : ((w.nextHandle : Int) + 1 + 1 + 1 = (w.nextHandle : Int) + 1)
      = False := eq_false (by omega)
  have g6 : ((w.nextHandle : Int) + 1 + 1 = (w.nextHandle : Int) + 1)
      = False := eq_false (by omega)
  have hsig : Win32.driverSignal E =
      { E with sigRead := true, trace := E.trace ++ [Win32.Ev.setEvent Win32.Obj.eventRead] } := by
    rw [← hE]
    simp [Win32.driverSignal, Win32.SetEvent, Win32.lookupH, g1, g2, g3, g4, g5, g6,
      Win32.setSig]
  have hthreads : E.threads = w.threads ++
      [{ canChannel := ch, callback := cb, pc := Win32.Pc.waiting
         hRead := (w.nextHandle : Int) + 1 + 1 + 1 + 1 + 1
         hSpawn := (w.nextHandle : Int) + 1 + 1 + 1 + 1 + 1 + 1
         hExit := (w.nextHandle : Int) + 1 + 1 + 1 + 1 + 1 + 1 + 1 }] := by
    rw [← hE]
  have hid : E.pcanEventThreadID = w.threads.length + 1 := by rw [← hE]
  have hsexit : E.sigExit = false := by rw [← hE]
  have hdrv : E.driverEvent = some E.pcanEventRead := by
    rw [← hE]
  have hpass : ∀ (tid : Nat) (t : Win32.Waiter),
      Win32.threadProcPass (Win32.driverSignal E) tid t none
        = some (Win32.afterCallback (Win32.driverSignal E) t.callback t.canChannel) := by
    intro tid t
    rw [hsig]
    simp [Win32.threadProcPass, Win32.WaitForMultipleObjects, Win32.WAIT_OBJECT_0,
      Win32.EVENT_INDEX_READ, Win32.loopBody, Win32.WAIT_ABANDONED_0, Win32.WAIT_TIMEOUT,
      Win32.WAIT_FAILED, Win32.afterCallback]
  refine ⟨_, by rw [hid, hthreads]; exact findThread_append_new _ _, rfl, rfl, rfl, hdrv, ?_,
    hpass _ _, ?_, ?_⟩
  · have hs := Win32.Step.driver E E.pcanEventRead hdrv
    exact hs
  · intro tid2 t2 w3 hf hp hw3
    have hth2 : (Win32.driverSignal E).threads = E.threads := by rw [hsig]
    rw [hth2, hthreads] at hf
    have htid : tid2 = w.threads.length + 1 := by
      by_contra hne
      rw [findThread_append_ne _ _ _ hne] at hf
      have ht := hn tid2 t2 hf
      simp [Win32.Waiter.terminal, hp] at ht
    subst htid
    rw [findThread_append_new] at hf
    simp only [Option.some.injEq] at hf
    rw [hpass] at hw3
    simp only [Option.some.injEq] at hw3
    refine ⟨hid.symm, ?_⟩
    rw [← hw3, ← hf]
  · intro tid2 t2
    rw [hsig]
    simp [Win32.threadProcPass, Win32.WaitForMultipleObjects, Win32.afterCallback, hsexit]

/-- A descriptor the kernel has not handed out yet is the read end of no
pipe. -/
theorem readable_fresh (ps : List Darwin.Pipe) (b fd : Int)
    (hp : ∀ p ∈ ps, p.rfd < b ∧ p.wfd < b) (hfd : b ≤ fd) : Darwin.readable ps fd = false := by
  simp only [Darwin.readable, List.any_eq_false, Bool.and_eq_true, decide_eq_true_eq, not_and]
  intro p hmem hr
  have := (hp p hmem).1
  omega

/-- Writing to a pipe makes no pipe readable whose read end `fd` belongs to
empty pipes with other write ends. -/
theorem readable_map_other (ps : List Darwin.Pipe) (fd x : Int) (c : Nat)
    (h : ∀ p ∈ ps, p.rfd = fd → p.wfd ≠ x ∧ p.bytes = 0) :
    Darwin.readable (ps.map (fun p => if p.wfd = x then
      { p with bytes := p.bytes + c } else p)) fd = false := by
  simp only [Darwin.readable, List.any_map, List.any_eq_false, Function.comp, Bool.and_eq_true,
    decide_eq_true_eq, not_and]
  intro p hp hr
  by_cases hx : p.wfd = x
  · simp only [hx, if_true] at hr
    exact absurd hx (h p hp hr).1
  · simp only [hx, if_false] at hr ⊢
    rw [(h p hp hr).2]
    decide

/-- The prologue of a worker thread on macOS when its `write` succeeds. -/
theorem threadProcStart_ok_darwin (w : Darwin.World) (tid : Nat) (t : Darwin.Waiter)
    (hmem : t.pipeSpawn ∈ w.fds) :
    Darwin.threadProcStart w tid t { scheduled := true, writeCount := Darwin.sizeofBuf } =
      { w with
        pipes := w.pipes.map (fun p => if p.wfd = t.pipeSpawn then
          { p with bytes := p.bytes + Darwin.sizeofBuf } else p)
        threads := updThread w.threads tid (fun x => { x with pc := Darwin.Pc.waiting })
        trace := w.trace ++ [Darwin.Ev.write t.pipeSpawn Darwin.sizeofBuf] } := by
  simp [Darwin.threadProcStart, Darwin.write, hmem]

/-- The handshake stage of `pcanEventEnable` on macOS changes the globals and
the pipes only through the prologue of the new thread. -/
theorem enableWait_pipes_darwin (w : Darwin.World) (env : Darwin.EnableEnv) :
    (Darwin.enableWait w env).2.pcanPipeSpawn = w.pcanPipeSpawn ∧
    (Darwin.enableWait w env).2.pcanPipeExit = w.pcanPipeExit ∧
    (Darwin.enableWait w env).2.pcanEventThread = w.pcanEventThread ∧
    (Darwin.enableWait w env).2.pipes =
      (if env.thread.scheduled then
        match findThread w.threads w.pcanEventThread with
        | some t => Darwin.threadProcStart w w.pcanEventThread t env.thread
        | none => w
      else w).pipes ∧
    (Darwin.enableWait w env).2.threads =
      (if env.thread.scheduled then
        match findThread w.threads w.pcanEventThread with
        | some t => Darwin.threadProcStart w w.pcanEventThread t env.thread
        | none => w
      else w).threads := by
  have hg : ∀ (t : Darwin.Waiter),
      (Darwin.threadProcStart w w.pcanEventThread t env.thread).pcanPipeSpawn = w.pcanPipeSpawn ∧
      (Darwin.threadProcStart w w.pcanEventThread t env.thread).pcanPipeExit = w.pcanPipeExit ∧
      (Darwin.threadProcStart w w.pcanEventThread t env.thread).pcanEventThread
        = w.pcanEventThread := by
    intro t
    simp only [Darwin.threadProcStart, Darwin.write, Darwin.threadReturn]
    split_ifs <;> exact ⟨rfl, rfl, rfl⟩
  cases hs : env.thread.scheduled
  · simp only [Darwin.enableWait, hs, Bool.false_eq_true, if_false]
    split_ifs <;> exact ⟨rfl, rfl, rfl, rfl, rfl⟩
  · cases hf : findThread w.threads w.pcanEventThread with
    | none =>
      simp only [Darwin.enableWait, hs, if_true, hf]
      split_ifs <;> exact ⟨rfl, rfl, rfl, rfl, rfl⟩
    | some t =>
      obtain ⟨a, b, c⟩ := hg t
      simp only [Darwin.enableWait, hs, if_true, hf]
      split_ifs <;> exact ⟨a, b, c, rfl, rfl⟩

/-- On macOS, after a `pcanEventEnable` that returned 0 with the spawn pipe
holding the bytes written by the new thread: the thread is in its wait loop
with the callback and the channel of the call and its exit pipe is empty; a
loop pass that finds the driver descriptor ready invokes the callback once and
leaves the thread waiting, and one that finds it not ready changes nothing. -/
theorem enable_first_event_darwin (w : Darwin.World) (ch cb : Nat)
    (env : Darwin.EnableEnv) (E : Darwin.World) (hw : Darwin.pipesBelow w)
    (hE : Darwin.pcanEventEnable w ch cb env = (0, E))
    (hsp : Darwin.readable E.pipes E.pcanPipeSpawn.1 = true) :
    ∃ t, findThread E.threads E.pcanEventThread = some t ∧ t.pc = Darwin.Pc.waiting ∧
      t.callback = cb ∧ t.canChannel = ch ∧
      Darwin.readable E.pipes t.pipeExit = false ∧
      (∀ e : Darwin.SelectEnv, e.fault = none → e.readReady = true →
        Darwin.threadProcPass E E.pcanEventThread t e = Darwin.afterCallback E cb ch) ∧
      (∀ e : Darwin.SelectEnv, e.fault = none → e.readReady = false →
        Darwin.threadProcPass E E.pcanEventThread t e = E) := by
  have h0 : (Darwin.pcanEventEnable w ch cb env).1 = 0 := by rw [hE]
  rw [enable_ok_created_darwin w ch cb env h0] at hE
  obtain ⟨p1, p2, p3, p4, p5⟩ := enableWait_pipes_darwin (Darwin.afterCreate w ch cb env) env
  rw [hE] at p1 p2 p3 p4 p5
  simp only at p1 p2 p3 p4 p5
  have hfind : findThread (Darwin.afterCreate w ch cb env).threads
      (Darwin.afterCreate w ch cb env).pcanEventThread =
      some { canChannel := ch, callback := cb
             pipeRead := if env.getValue = Darwin.PCAN_ERROR_OK then env.driverFd
               else w.pcanPipeRead
             pipeSpawn := (w.nextFd : Int) + 1
             pipeExit := (w.nextFd : Int) + 2
             pc := Darwin.Pc.start } := by
    simp [Darwin.afterCreate, findThread_append_new]
  have hA : Darwin.readable (Darwin.afterCreate w ch cb env).pipes (w.nextFd : Int) = false := by
    have hr := readable_fresh w.pipes (w.nextFd : Int) (w.nextFd : Int) hw (le_refl _)
    simp only [Darwin.readable] at hr
    simp [Darwin.afterCreate, Darwin.readable, hr]
  have hmem : (w.nextFd : Int) + 1 ∈ (Darwin.afterCreate w ch cb env).fds := by
    simp [Darwin.afterCreate]
  rw [p1] at hsp
  rw [hfind] at p4 p5
  cases hth : env.thread with
  | mk sch wc =>
    rw [hth] at p4 p5
    cases sch
    · simp only [Bool.false_eq_true, if_false] at p4
      rw [p4] at hsp
      simp only [Darwin.afterCreate] at hsp hA
      rw [hA] at hsp
      exact absurd hsp (by decide)
    · by_cases hwc : wc = Darwin.sizeofBuf
      swap
      · simp only [if_true, Darwin.threadProcStart, Darwin.write, hmem, hwc, if_false,
          Darwin.threadReturn, ne_eq, not_false_eq_true] at p4
        rw [p4] at hsp
        simp only [Darwin.afterCreate] at hsp hA
        rw [hA] at hsp
        exact absurd hsp (by decide)
      · subst hwc
        simp only [if_true] at p4 p5
        rw [threadProcStart_ok_darwin _ _ _ hmem] at p4 p5
        simp only at p4 p5
        have hex : Darwin.readable E.pipes ((w.nextFd : Int) + 2) = false := by
          rw [p4]
          apply readable_map_other
          intro p hp hr
          simp only [Darwin.afterCreate, List.mem_cons] at hp
          rcases hp with e | e | e
          · subst e
            exact ⟨by simp, rfl⟩
          · subst e
            simp at hr
          · have := (hw p e).1
            omega
        refine ⟨{ canChannel := ch, callback := cb
                  pipeRead := if env.getValue = Darwin.PCAN_ERROR_OK then env.driverFd
                    else w.pcanPipeRead
                  pipeSpawn := (w.nextFd : Int) + 1
                  pipeExit := (w.nextFd : Int) + 2
                  pc := Darwin.Pc.waiting }, ?_, rfl, rfl, rfl, hex, ?_, ?_⟩
        · rw [p3, p5]
          simp [Darwin.afterCreate, findThread_updThread_same, findThread_append_new]
        · intro e hf hr
          simp [Darwin.threadProcPass, Darwin.select2, hf, hr, hex, Darwin.loopBody,
            Darwin.afterCallback]
        · intro e hf hr
          simp [Darwin.threadProcPass, Darwin.select2, hf, hr, hex, Darwin.loopBody]

/-- C18 (as amended): on Windows, after a `pcanEventEnable` that returned 0
from a state with no open handle and no live thread, the new thread is in its
wait loop, the driver holds the read event, and once the driver has signalled
it the only loop pass any thread can make is one pass of the new thread, which
invokes the callback of the call exactly once and consumes the signal; no
further pass is possible until another signal.  On macOS, after a
`pcanEventEnable` that returned 0 with the spawn pipe holding the bytes written
by the new thread (no pipe of the earlier state using a descriptor not handed
out yet), the new thread is in its wait loop with its exit pipe empty, a loop
pass that finds the driver descriptor ready invokes the callback of the call
once and leaves the thread waiting, and a pass that finds it not ready does
nothing. -/
theorem C18_first_event_after_enable :
    (∀ (w : Win32.World) (ch cb : Nat) (env : Win32.EnableEnv) (E : Win32.World),
      w.handles = [] → noneLive Win32.Waiter.terminal w.threads →
      Win32.pcanEventEnable w ch cb env = (0, E) →
      ∃ t, findThread E.threads E.pcanEventThreadID = some t ∧ t.pc = Win32.Pc.waiting ∧
        t.callback = cb ∧ t.canChannel = ch ∧
        E.driverEvent = some E.pcanEventRead ∧
        Win32.Step E (Win32.driverSignal E) ∧
        Win32.threadProcPass (Win32.driverSignal E) E.pcanEventThreadID t none
          = some (Win32.afterCallback (Win32.driverSignal E) cb ch) ∧
        (∀ tid2 t2 w3, findThread (Win32.driverSignal E).threads tid2 = some t2 →
          t2.pc = Win32.Pc.waiting →
          Win32.threadProcPass (Win32.driverSignal E) tid2 t2 none = some w3 →
          tid2 = E.pcanEventThreadID ∧
          w3 = Win32.afterCallback (Win32.driverSignal E) cb ch) ∧
        (∀ tid2 t2, Win32.threadProcPass (Win32.afterCallback (Win32.driverSignal E) cb ch)
          tid2 t2 none = none)) ∧
    (∀ (w : Darwin.World) (ch cb : Nat) (env : Darwin.EnableEnv) (E : Darwin.World),
      Darwin.pipesBelow w → Darwin.pcanEventEnable w ch cb env = (0, E) →
      Darwin.readable E.pipes E.pcanPipeSpawn.1 = true →
      ∃ t, findThread E.threads E.pcanEventThread = some t ∧ t.pc = Darwin.Pc.waiting ∧
        t.callback = cb ∧ t.canChannel = ch ∧
        Darwin.readable E.pipes t.pipeExit = false ∧
        (∀ e : Darwin.SelectEnv, e.fault = none → e.readReady = true →
          Darwin.threadProcPass E E.pcanEventThread t e = Darwin.afterCallback E cb ch) ∧
        (∀ e : Darwin.SelectEnv, e.fault = none → e.readReady = false →
          Darwin.threadProcPass E E.pcanEventThread t e = E)) :=
  ⟨enable_clean_first_event_win32, enable_first_event_darwin⟩

/-- C18, witness: a first `pcanEventEnable(5, 7)` in which every call
succeeds, on both platforms. -/
theorem C18_first_event_after_enable_witness :
    (Win32.init.handles = [] ∧
      Win32.pcanEventEnable Win32.init 5 7 Win32.okEnable = (0, Win32.enabledWorld) ∧
      ∃ t, findThread Win32.enabledWorld.threads Win32.enabledWorld.pcanEventThreadID = some t ∧
        Win32.threadProcPass (Win32.driverSignal Win32.enabledWorld)
          Win32.enabledWorld.pcanEventThreadID t none
          = some (Win32.afterCallback (Win32.driverSignal Win32.enabledWorld) 7 5)) ∧
    (Darwin.pcanEventEnable Darwin.init 5 7 Darwin.okEnable = (0, Darwin.enabledWorld) ∧
      Darwin.readable Darwin.enabledWorld.pipes Darwin.enabledWorld.pcanPipeSpawn.1 = true ∧
      ∃ t, findThread Darwin.enabledWorld.threads Darwin.enabledWorld.pcanEventThread = some t ∧
        t.pc = Darwin.Pc.waiting ∧ Darwin.readable Darwin.enabledWorld.pipes t.pipeExit = false) := by
  obtain ⟨t, a1, _, _, _, _, _, a7, _⟩ := C18_first_event_after_enable.1 Win32.init 5 7
    Win32.okEnable Win32.enabledWorld rfl
    (fun i t hi => by cases i <;> simp [findThread, Win32.init] at hi) (by decide)
  obtain ⟨u, b1, b2, _, _, b5, _⟩ := C18_first_event_after_enable.2 Darwin.init 5 7
    Darwin.okEnable Darwin.enabledWorld (fun p hp => by simp [Darwin.init] at hp) (by decide)
    (by decide)
  exact ⟨⟨rfl, by decide, t, a1, a7⟩, ⟨by decide, by decide, u, b1, b2, b5⟩⟩

/-! ## Helpers of pcan_helper.c -/

/-- C19: `pcanDLCDecode` returns `dlc` for every `dlc` from 0 to 8 and 12, 16,
20, 24, 32, 48, 64 for `dlc` = 9, ..., 15, whatever the uninitialised local
holds; hence the result is at most 64, the size of the data field of a CAN FD
message, for every `dlc` up to 15. -/
theorem C19_pcanDLCDecode_table (lenInit : Int) :
    (∀ dlc, dlc ≤ 8 → pcanDLCDecode lenInit dlc = dlc) ∧
    pcanDLCDecode lenInit 9 = 12 ∧ pcanDLCDecode lenInit 10 = 16 ∧
    pcanDLCDecode lenInit 11 = 20 ∧ pcanDLCDecode lenInit 12 = 24 ∧
    pcanDLCDecode lenInit 13 = 32 ∧ pcanDLCDecode lenInit 14 = 48 ∧
    pcanDLCDecode lenInit 15 = 64 ∧
    (∀ dlc, dlc ≤ 15 → pcanDLCDecode lenInit dlc ≤ 64) := by
  have h8 : ∀ dlc, dlc ≤ 8 → pcanDLCDecode lenInit dlc = dlc := by
    intro dlc h
    interval_cases dlc <;> rfl
  refine ⟨h8, rfl, rfl, rfl, rfl, rfl, rfl, rfl, ?_⟩
  intro dlc h
  interval_cases dlc <;> simp [pcanDLCDecode]

/-- C19, witness: the table at `dlc` = 8 and the bound at `dlc` = 15, with the
uninitialised local holding -1. -/
theorem C19_pcanDLCDecode_table_witness :
    (8 ≤ 8 ∧ pcanDLCDecode (-1) 8 = 8) ∧ (15 ≤ 15 ∧ pcanDLCDecode (-1) 15 ≤ 64) :=
  ⟨⟨Nat.le_refl 8, (C19_pcanDLCDecode_table (-1)).1 8 (Nat.le_refl 8)⟩,
   ⟨Nat.le_refl 15, (C19_pcanDLCDecode_table (-1)).2.2.2.2.2.2.2.2 15 (Nat.le_refl 15)⟩⟩

/-- C20: `pcanTranslateBaud` returns the macro `PCAN_BAUD_x` for each of the 14
supported integer bauds and 0 for every other input; with the values of
PCANBasic.h 500000 gives `0x001C`; and when none of the macros is 0, as in
PCANBasic.h, the result is 0 exactly when the baud is not a supported one. -/
theorem C20_pcanTranslateBaud_table (c : BaudConstants) :
    pcanTranslateBaud c 1000000 = c.PCAN_BAUD_1M ∧
    pcanTranslateBaud c 800000 = c.PCAN_BAUD_800K ∧
    pcanTranslateBaud c 500000 = c.PCAN_BAUD_500K ∧
    pcanTranslateBaud c 250000 = c.PCAN_BAUD_250K ∧
    pcanTranslateBaud c 125000 = c.PCAN_BAUD_125K ∧
    pcanTranslateBaud c 100000 = c.PCAN_BAUD_100K ∧
    pcanTranslateBaud c 95000 = c.PCAN_BAUD_95K ∧
    pcanTranslateBaud c 83000 = c.PCAN_BAUD_83K ∧
    pcanTranslateBaud c 50000 = c.PCAN_BAUD_50K ∧
    pcanTranslateBaud c 47000 = c.PCAN_BAUD_47K ∧
    pcanTranslateBaud c 33000 = c.PCAN_BAUD_33K ∧
    pcanTranslateBaud c 20000 = c.PCAN_BAUD_20K ∧
    pcanTranslateBaud c 10000 = c.PCAN_BAUD_10K ∧
    pcanTranslateBaud c 5000 = c.PCAN_BAUD_5K ∧
    pcanTranslateBaud pcanBasicBauds 500000 = 0x001C ∧
    (∀ baudInt, baudInt ∉ supportedBauds → pcanTranslateBaud c baudInt = 0) ∧
    (c.nonzero → ∀ baudInt, pcanTranslateBaud c baudInt = 0 ↔ baudInt ∉ supportedBauds) := by
  have hother : ∀ baudInt, baudInt ∉ supportedBauds → pcanTranslateBaud c baudInt = 0 := by
    intro b hb
    simp only [supportedBauds, List.mem_cons, List.mem_singleton, not_or, List.not_mem_nil,
      or_false] at hb
    obtain ⟨h1, h2, h3, h4, h5, h6, h7, h8, h9, h10, h11, h12, h13, h14⟩ := hb
    simp [pcanTranslateBaud, h1, h2, h3, h4, h5, h6, h7, h8, h9, h10, h11, h12, h13, h14]
  refine ⟨?_, ?_, ?_, ?_, ?_, ?_, ?_, ?_, ?_, ?_, ?_, ?_, ?_, ?_, ?_, hother, ?_⟩
  iterate 15 simp [pcanTranslateBaud, pcanBasicBauds]
  intro hc b
  obtain ⟨c1, c2, c3, c4, c5, c6, c7, c8, c9, c10, c11, c12, c13, c14⟩ := hc
  constructor
  · intro h0 hmem
    simp only [supportedBauds, List.mem_cons, List.mem_singleton, List.not_mem_nil,
      or_false] at hmem
    rcases hmem with h | h | h | h | h | h | h | h | h | h | h | h | h | h <;>
      subst h <;> simp [pcanTranslateBaud] at h0 <;> contradiction
  · exact hother b

/-- C20, witness: with the values of PCANBasic.h, 5000 translates to a non-zero
constant and 5001 to 0. -/
theorem C20_pcanTranslateBaud_table_witness :
    pcanBasicBauds.nonzero ∧ (5001 ∉ supportedBauds ∧ pcanTranslateBaud pcanBasicBauds 5001 = 0) ∧
    pcanTranslateBaud pcanBasicBauds 5000 ≠ 0 := by
  have hn : pcanBasicBauds.nonzero := by
    refine ⟨?_, ?_, ?_, ?_, ?_, ?_, ?_, ?_, ?_, ?_, ?_, ?_, ?_, ?_⟩ <;> decide
  have h := C20_pcanTranslateBaud_table pcanBasicBauds
  refine ⟨hn, ⟨by decide, h.2.2.2.2.2.2.2.2.2.2.2.2.2.2.2.1 5001 (by decide)⟩, ?_⟩
  intro h0
  exact (h.2.2.2.2.2.2.2.2.2.2.2.2.2.2.2.2 hn 5000).1 h0 (by decide)

/-! ## What an Enable/Disable pair keeps true in between: Windows -/

theorem lookupH_closeH_self (hs : List (Int × Win32.Obj)) (h : Int) :
    Win32.lookupH (Win32.closeH hs h) h = none := by
  induction hs with
  | nil => rfl
  | cons p rest ih =>
    unfold Win32.closeH at ih ⊢
    by_cases hp : p.1 = h
    · simp only [List.filter_cons, hp, ne_eq, not_true_eq_false, decide_False,
        Bool.false_eq_true, if_false]
      exact ih
    · simp only [List.filter_cons, hp, ne_eq, not_false_eq_true, decide_True, if_true,
        Win32.lookupH, if_false]
      exact ih

theorem lookupH_closeH_none (hs : List (Int × Win32.Obj)) (h k : Int)
    (hk : Win32.lookupH hs k = none) : Win32.lookupH (Win32.closeH hs h) k = none := by
  by_cases e : k = h
  · subst e
    exact lookupH_closeH_self hs k
  · rw [lookupH_closeH_ne hs h k e]
    exact hk

theorem closeH_of_lookupH_none (hs : List (Int × Win32.Obj)) (h : Int)
    (hk : Win32.lookupH hs h = none) : Win32.closeH hs h = hs := by
  induction hs with
  | nil => rfl
  | cons p rest ih =>
    unfold Win32.closeH at ih ⊢
    by_cases hp : p.1 = h
    · simp [Win32.lookupH, hp] at hk
    · simp only [Win32.lookupH, hp, if_false] at hk
      simp only [List.filter_cons, hp, ne_eq, not_false_eq_true, decide_True, if_true]
      rw [ih hk]

/-- A `CloseHandle` that the environment does not fail leaves the handle table
without the handle, and changes nothing else but the trace. -/
theorem closeHandle_true (w : Win32.World) (h : Int) :
    (Win32.CloseHandle w h true).2.handles = Win32.closeH w.handles h ∧
    (Win32.CloseHandle w h true).2.threads = w.threads ∧
    (Win32.CloseHandle w h true).2.nextHandle = w.nextHandle ∧
    (Win32.CloseHandle w h true).2.pcanEventThread = w.pcanEventThread := by
  unfold Win32.CloseHandle
  cases hl : Win32.lookupH w.handles h with
  | none => exact ⟨(closeH_of_lookupH_none _ _ hl).symm, rfl, rfl, rfl⟩
  | some o => exact ⟨rfl, rfl, rfl, rfl⟩

theorem fieldsOk_mono (g : Int) (nh nh2 : Nat) (t : Win32.Waiter)
    (h : Win32.FieldsOk g nh t) (hle : nh ≤ nh2) : Win32.FieldsOk g nh2 t := by
  obtain ⟨a, b, c, d, e, f⟩ := h
  have : (nh : Int) ≤ (nh2 : Int) := by exact_mod_cast hle
  exact ⟨a, b, c, by omega, by omega, by omega⟩

/-- The invariant of a pair depends on the world only through the global thread
handle, the handle table, the handle counter and the threads. -/
theorem pairInv_congr (g : Int) (tid0 : Nat) (w w2 : Win32.World) (h : Win32.PairInv g tid0 w)
    (h1 : w2.pcanEventThread = w.pcanEventThread) (h2 : w2.handles = w.handles)
    (h3 : w2.nextHandle = w.nextHandle) (h4 : w2.threads = w.threads) :
    Win32.PairInv g tid0 w2 :=
  { thread := h1.trans h.thread
    hThread := by rw [h2]; exact h.hThread
    pos := h.pos
    next := by rw [h3]; exact h.next
    fields := by rw [h3, h4]; exact h.fields
    closed := by rw [h2, h4]; exact h.closed }

/-- A change of the state `pc` of thread `tid` to a state other than "returned
0" keeps the invariant of a pair. -/
theorem pairInv_setPc (g : Int) (tid0 tid : Nat) (w : Win32.World) (pc : Win32.Pc)
    (hpc : pc ≠ Win32.Pc.exited 0) (h : Win32.PairInv g tid0 w) :
    Win32.PairInv g tid0
      { w with threads := updThread w.threads tid (fun t => { t with pc := pc }) } :=
  { thread := h.thread
    hThread := h.hThread
    pos := h.pos
    next := h.next
    fields := by
      intro i t hf
      by_cases hi : i = tid
      · subst hi
        simp only [findThread_updThread_same] at hf
        cases ho : findThread w.threads i with
        | none => simp [ho] at hf
        | some t0 =>
          simp only [ho, Option.map_some', Option.some.injEq] at hf
          rw [← hf]
          exact h.fields i t0 ho
      · simp only [findThread_updThread_other _ _ _ _ (Ne.symm hi)] at hf
        exact h.fields i t hf
    closed := by
      intro t hf hp
      by_cases hi : tid0 = tid
      · subst hi
        simp only [findThread_updThread_same] at hf
        cases ho : findThread w.threads tid0 with
        | none => simp [ho] at hf
        | some t0 =>
          simp only [ho, Option.map_some', Option.some.injEq] at hf
          rw [← hf] at hp
          exact absurd hp hpc
      · simp only [findThread_updThread_other _ _ _ _ (Ne.symm hi)] at hf
        exact h.closed t hf hp }

theorem pairInv_threadReturn_one (g : Int) (tid0 tid : Nat) (w : Win32.World)
    (h : Win32.PairInv g tid0 w) : Win32.PairInv g tid0 (Win32.threadReturn w tid 1) :=
  pairInv_congr g tid0 _ _ (pairInv_setPc g tid0 tid w (Win32.Pc.exited 1) (by decide) h)
    rfl rfl rfl rfl

/-- The two outcomes of `OpenEvent`. -/
theorem openEvent_cases (w : Win32.World) (tid : Nat) (o : Win32.Obj) (ok : Bool) :
    ((Win32.OpenEvent w tid o ok).1 = 0 ∧ (Win32.OpenEvent w tid o ok).2 = w) ∨
    ((Win32.OpenEvent w tid o ok).1 = (w.nextHandle : Int) + 1 ∧
      (Win32.OpenEvent w tid o ok).2 =
        { w with
          nextHandle := w.nextHandle + 1
          handles := ((w.nextHandle : Int) + 1, o) :: w.handles
          trace := w.trace ++ [Win32.Ev.openEvent tid o ((w.nextHandle : Int) + 1)] }) := by
  unfold Win32.OpenEvent
  split_ifs
  · exact Or.inr ⟨rfl, rfl⟩
  · exact Or.inl ⟨rfl, rfl⟩

/-- An `OpenEvent` by thread `tid`, which has not returned 0, whose result is
stored in one of the handle fields of the thread keeps the invariant of a
pair. -/
theorem pairInv_open (g : Int) (tid0 tid : Nat) (w : Win32.World) (o : Win32.Obj) (ok : Bool)
    (f : Win32.Waiter → Win32.Waiter) (h : Win32.PairInv g tid0 w)
    (hpc : ∀ t, (f t).pc = t.pc)
    (hf : ∀ t, ((f t).hRead = t.hRead ∨ (f t).hRead = (Win32.OpenEvent w tid o ok).1) ∧
      ((f t).hSpawn = t.hSpawn ∨ (f t).hSpawn = (Win32.OpenEvent w tid o ok).1) ∧
      ((f t).hExit = t.hExit ∨ (f t).hExit = (Win32.OpenEvent w tid o ok).1))
    (hlive : ∀ t, findThread w.threads tid = some t → t.pc ≠ Win32.Pc.exited 0) :
    Win32.PairInv g tid0
      { (Win32.OpenEvent w tid o ok).2 with
        threads := updThread (Win32.OpenEvent w tid o ok).2.threads tid f } := by
  have hpos := h.pos
  have hnext := h.next
  rcases openEvent_cases w tid o ok with ⟨e1, e2⟩ | ⟨e1, e2⟩
  · rw [e1] at hf
    rw [e2]
    exact
      { thread := h.thread
        hThread := h.hThread
        pos := h.pos
        next := h.next
        fields := by
          intro i t hfi
          show Win32.FieldsOk g w.nextHandle t
          by_cases hi : i = tid
          · subst hi
            simp only [findThread_updThread_same] at hfi
            cases ho : findThread w.threads i with
            | none => simp [ho] at hfi
            | some t0 =>
              simp only [ho, Option.map_some', Option.some.injEq] at hfi
              obtain ⟨a, b, c, d, e, f6⟩ := h.fields i t0 ho
              obtain ⟨x, y, z⟩ := hf t0
              rw [← hfi]
              refine ⟨?_, ?_, ?_, ?_, ?_, ?_⟩
              · rcases x with x | x <;> rw [x] <;> first | exact a | omega
              · rcases y with y | y <;> rw [y] <;> first | exact b | omega
              · rcases z with z | z <;> rw [z] <;> first | exact c | omega
              · rcases x with x | x <;> omega
              · rcases y with y | y <;> omega
              · rcases z with z | z <;> omega
          · simp only [findThread_updThread_other _ _ _ _ (Ne.symm hi)] at hfi
            exact h.fields i t hfi
        closed := by
          intro t hft hp
          by_cases hi : tid0 = tid
          · subst hi
            simp only [findThread_updThread_same] at hft
            cases ho : findThread w.threads tid0 with
            | none => simp [ho] at hft
            | some t0 =>
              simp only [ho, Option.map_some', Option.some.injEq] at hft
              rw [← hft, hpc] at hp
              exact absurd hp (hlive t0 ho)
          · simp only [findThread_updThread_other _ _ _ _ (Ne.symm hi)] at hft
            exact h.closed t hft hp }
  · rw [e1] at hf
    rw [e2]
    have hne : ¬ ((w.nextHandle : Int) + 1 = g) := by omega
    exact
      { thread := h.thread
        hThread := by
          simp only [Win32.lookupH, hne, if_false]
          exact h.hThread
        pos := h.pos
        next := by
          simp only [Nat.cast_add, Nat.cast_one]
          omega
        fields := by
          intro i t hfi
          simp only [Win32.FieldsOk, Nat.cast_add, Nat.cast_one]
          by_cases hi : i = tid
          · subst hi
            simp only [findThread_updThread_same] at hfi
            cases ho : findThread w.threads i with
            | none => simp [ho] at hfi
            | some t0 =>
              simp only [ho, Option.map_some', Option.some.injEq] at hfi
              obtain ⟨a, b, c, d, e, f6⟩ := h.fields i t0 ho
              obtain ⟨x, y, z⟩ := hf t0
              rw [← hfi]
              refine ⟨?_, ?_, ?_, ?_, ?_, ?_⟩
              · rcases x with x | x <;> rw [x] <;> first | exact a | omega
              · rcases y with y | y <;> rw [y] <;> first | exact b | omega
              · rcases z with z | z <;> rw [z] <;> first | exact c | omega
              · rcases x with x | x <;> omega
              · rcases y with y | y <;> omega
              · rcases z with z | z <;> omega
          · simp only [findThread_updThread_other _ _ _ _ (Ne.symm hi)] at hfi
            obtain ⟨a, b, c, d, e, f6⟩ := h.fields i t hfi
            exact ⟨a, b, c, by omega, by omega, by omega⟩
        closed := by
          intro t hft hp
          by_cases hi : tid0 = tid
          · subst hi
            simp only [findThread_updThread_same] at hft
            cases ho : findThread w.threads tid0 with
            | none => simp [ho] at hft
            | some t0 =>
              simp only [ho, Option.map_some', Option.some.injEq] at hft
              rw [← hft, hpc] at hp
              exact absurd hp (hlive t0 ho)
          · simp only [findThread_updThread_other _ _ _ _ (Ne.symm hi)] at hft
            obtain ⟨a, b, c, d, e, f6⟩ := h.fields tid0 t hft
            obtain ⟨c1, c2, c3⟩ := h.closed t hft hp
            have n1 : ¬ ((w.nextHandle : Int) + 1 = t.hRead) := by omega
            have n2 : ¬ ((w.nextHandle : Int) + 1 = t.hSpawn) := by omega
            have n3 : ¬ ((w.nextHandle : Int) + 1 = t.hExit) := by omega
            exact ⟨by simp only [Win32.lookupH, n1, if_false]; exact c1,
              by simp only [Win32.lookupH, n2, if_false]; exact c2,
              by simp only [Win32.lookupH, n3, if_false]; exact c3⟩ }

theorem openEvent_threads (w : Win32.World) (tid : Nat) (o : Win32.Obj) (ok : Bool) :
    (Win32.OpenEvent w tid o ok).2.threads = w.threads := by
  rcases openEvent_cases w tid o ok with ⟨_, e2⟩ | ⟨_, e2⟩ <;> rw [e2]

/-- After an `OpenEvent` whose result is stored in a field of thread `tid`, the
thread is in the state it was in. -/
theorem live_after_open (w : Win32.World) (tid : Nat) (o : Win32.Obj) (ok : Bool)
    (f : Win32.Waiter → Win32.Waiter) (hpc : ∀ t, (f t).pc = t.pc)
    (hlive : ∀ t, findThread w.threads tid = some t → t.pc ≠ Win32.Pc.exited 0) :
    ∀ t, findThread (updThread (Win32.OpenEvent w tid o ok).2.threads tid f) tid = some t →
      t.pc ≠ Win32.Pc.exited 0 := by
  intro t hf
  rw [openEvent_threads, findThread_updThread_same] at hf
  cases ho : findThread w.threads tid with
  | none => simp [ho] at hf
  | some t0 =>
    simp only [ho, Option.map_some', Option.some.injEq] at hf
    rw [← hf, hpc]
    exact hlive t0 ho

theorem setEvent_nextHandle (w : Win32.World) (h : Int) (ok : Bool) :
    (Win32.SetEvent w h ok).2.nextHandle = w.nextHandle := by
  unfold Win32.SetEvent
  split
  · rfl
  · rename_i o _ _
    split_ifs
    · cases o <;> rfl
    · rfl
  · rfl

theorem pairInv_setEvent (g : Int) (tid0 : Nat) (w : Win32.World) (h : Int) (ok : Bool)
    (hi : Win32.PairInv g tid0 w) : Win32.PairInv g tid0 (Win32.SetEvent w h ok).2 :=
  pairInv_congr g tid0 w _ hi (setEvent_pcanEventThread w h ok) (setEvent_handles w h ok)
    (setEvent_nextHandle w h ok) (setEvent_threads w h ok)

theorem pairInv_threadSignalSpawn (g : Int) (tid0 tid : Nat) (w : Win32.World) (hSpawn : Int)
    (e : Win32.ThreadStartEnv) (h : Win32.PairInv g tid0 w) :
    Win32.PairInv g tid0 (Win32.threadSignalSpawn w tid hSpawn e) := by
  simp only [Win32.threadSignalSpawn]
  split_ifs
  · exact pairInv_threadReturn_one g tid0 tid _ (pairInv_setEvent g tid0 w hSpawn e.setSpawn h)
  · exact pairInv_setPc g tid0 tid _ Win32.Pc.waiting (by decide)
      (pairInv_setEvent g tid0 w hSpawn e.setSpawn h)

theorem pairInv_threadOpenExit (g : Int) (tid0 tid : Nat) (w : Win32.World) (hSpawn : Int)
    (e : Win32.ThreadStartEnv) (h : Win32.PairInv g tid0 w)
    (hlive : ∀ t, findThread w.threads tid = some t → t.pc ≠ Win32.Pc.exited 0) :
    Win32.PairInv g tid0 (Win32.threadOpenExit w tid hSpawn e) := by
  have h1 := pairInv_open g tid0 tid w Win32.Obj.eventExit e.openExit
    (fun t => { t with hExit := (Win32.OpenEvent w tid Win32.Obj.eventExit e.openExit).1 }) h
    (fun _ => rfl) (fun _ => ⟨Or.inl rfl, Or.inl rfl, Or.inr rfl⟩) hlive
  simp only [Win32.threadOpenExit]
  split_ifs
  · exact pairInv_threadReturn_one g tid0 tid _ h1
  · exact pairInv_threadSignalSpawn g tid0 tid _ hSpawn e h1

theorem pairInv_threadOpenSpawn (g : Int) (tid0 tid : Nat) (w : Win32.World)
    (e : Win32.ThreadStartEnv) (h : Win32.PairInv g tid0 w)
    (hlive : ∀ t, findThread w.threads tid = some t → t.pc ≠ Win32.Pc.exited 0) :
    Win32.PairInv g tid0 (Win32.threadOpenSpawn w tid e) := by
  have h1 := pairInv_open g tid0 tid w Win32.Obj.eventSpawn e.openSpawn
    (fun t => { t with hSpawn := (Win32.OpenEvent w tid Win32.Obj.eventSpawn e.openSpawn).1 }) h
    (fun _ => rfl) (fun _ => ⟨Or.inl rfl, Or.inr rfl, Or.inl rfl⟩) hlive
  have l1 := live_after_open w tid Win32.Obj.eventSpawn e.openSpawn
    (fun t => { t with hSpawn := (Win32.OpenEvent w tid Win32.Obj.eventSpawn e.openSpawn).1 })
    (fun _ => rfl) hlive
  simp only [Win32.threadOpenSpawn]
  split_ifs
  · exact pairInv_threadReturn_one g tid0 tid _ h1
  · exact pairInv_threadOpenExit g tid0 tid _ _ e h1 l1

/-- The prologue of a thread that has not returned 0 keeps the invariant of a
pair. -/
theorem pairInv_threadProcStart (g : Int) (tid0 tid : Nat) (w : Win32.World)
    (e : Win32.ThreadStartEnv) (h : Win32.PairInv g tid0 w)
    (hlive : ∀ t, findThread w.threads tid = some t → t.pc ≠ Win32.Pc.exited 0) :
    Win32.PairInv g tid0 (Win32.threadProcStart w tid e) := by
  have h1 := pairInv_open g tid0 tid w Win32.Obj.eventRead e.openRead
    (fun t => { t with hRead := (Win32.OpenEvent w tid Win32.Obj.eventRead e.openRead).1 }) h
    (fun _ => rfl) (fun _ => ⟨Or.inr rfl, Or.inl rfl, Or.inl rfl⟩) hlive
  have l1 := live_after_open w tid Win32.Obj.eventRead e.openRead
    (fun t => { t with hRead := (Win32.OpenEvent w tid Win32.Obj.eventRead e.openRead).1 })
    (fun _ => rfl) hlive
  simp only [Win32.threadProcStart]
  split_ifs
  · exact pairInv_threadReturn_one g tid0 tid _ h1
  · exact pairInv_threadOpenSpawn g tid0 tid _ e h1 l1

theorem waitMultiple_inv (w wa : Win32.World) (fault : Option Nat) (ret : Nat)
    (h : Win32.WaitForMultipleObjects w fault = some (ret, wa)) :
    wa.pcanEventThread = w.pcanEventThread ∧ wa.handles = w.handles ∧
    wa.nextHandle = w.nextHandle ∧ wa.threads = w.threads := by
  unfold Win32.WaitForMultipleObjects at h
  split at h
  · simp only [Option.some.injEq, Prod.mk.injEq] at h
    rw [← h.2]
    exact ⟨rfl, rfl, rfl, rfl⟩
  · split_ifs at h
    · simp only [Option.some.injEq, Prod.mk.injEq] at h
      rw [← h.2]
      exact ⟨rfl, rfl, rfl, rfl⟩
    · simp only [Option.some.injEq, Prod.mk.injEq] at h
      rw [← h.2]
      exact ⟨rfl, rfl, rfl, rfl⟩

/-- The end of the loop of thread `tid`, whose record is `t`: the thread closes
its three handles and returns 0.  This keeps the invariant of a pair. -/
theorem pairInv_leave (g : Int) (tid0 tid : Nat) (w : Win32.World) (t : Win32.Waiter)
    (h : Win32.PairInv g tid0 w) (ht : findThread w.threads tid = some t) :
    Win32.PairInv g tid0
      (Win32.threadReturn (Win32.CloseHandle (Win32.CloseHandle (Win32.CloseHandle w t.hRead
        true).2 t.hSpawn true).2 t.hExit true).2 tid 0) := by
  obtain ⟨a1, a2, a3, a4⟩ := closeHandle_true w t.hRead
  obtain ⟨b1, b2, b3, b4⟩ := closeHandle_true (Win32.CloseHandle w t.hRead true).2 t.hSpawn
  obtain ⟨c1, c2, c3, c4⟩ := closeHandle_true
    (Win32.CloseHandle (Win32.CloseHandle w t.hRead true).2 t.hSpawn true).2 t.hExit
  have hh : (Win32.CloseHandle (Win32.CloseHandle (Win32.CloseHandle w t.hRead
      true).2 t.hSpawn true).2 t.hExit true).2.handles =
      Win32.closeH (Win32.closeH (Win32.closeH w.handles t.hRead) t.hSpawn) t.hExit := by
    rw [c1, b1, a1]
  have hth : (Win32.CloseHandle (Win32.CloseHandle (Win32.CloseHandle w t.hRead
      true).2 t.hSpawn true).2 t.hExit true).2.threads = w.threads := by
    rw [c2, b2, a2]
  have hnh : (Win32.CloseHandle (Win32.CloseHandle (Win32.CloseHandle w t.hRead
      true).2 t.hSpawn true).2 t.hExit true).2.nextHandle = w.nextHandle := by
    rw [c3, b3, a3]
  have hg : (Win32.CloseHandle (Win32.CloseHandle (Win32.CloseHandle w t.hRead
      true).2 t.hSpawn true).2 t.hExit true).2.pcanEventThread = w.pcanEventThread := by
    rw [c4, b4, a4]
  obtain ⟨f1, f2, f3, _, _, _⟩ := h.fields tid t ht
  have keep : ∀ k, Win32.lookupH w.handles k = none →
      Win32.lookupH (Win32.closeH (Win32.closeH (Win32.closeH w.handles t.hRead) t.hSpawn)
        t.hExit) k = none :=
    fun k hk => lookupH_closeH_none _ _ _ (lookupH_closeH_none _ _ _
      (lookupH_closeH_none _ _ _ hk))
  exact
    { thread := by
        show (Win32.CloseHandle (Win32.CloseHandle (Win32.CloseHandle w t.hRead
          true).2 t.hSpawn true).2 t.hExit true).2.pcanEventThread = g
        rw [hg]
        exact h.thread
      hThread := by
        show Win32.lookupH (Win32.CloseHandle (Win32.CloseHandle (Win32.CloseHandle w t.hRead
          true).2 t.hSpawn true).2 t.hExit true).2.handles g = _
        rw [hh, lookupH_closeH_ne _ _ _ (Ne.symm f3), lookupH_closeH_ne _ _ _ (Ne.symm f2),
          lookupH_closeH_ne _ _ _ (Ne.symm f1)]
        exact h.hThread
      pos := h.pos
      next := by
        show g ≤ ((Win32.CloseHandle (Win32.CloseHandle (Win32.CloseHandle w t.hRead
          true).2 t.hSpawn true).2 t.hExit true).2.nextHandle : Int)
        rw [hnh]
        exact h.next
      fields := by
        intro i t1 hfi
        show Win32.FieldsOk g (Win32.CloseHandle (Win32.CloseHandle (Win32.CloseHandle w t.hRead
          true).2 t.hSpawn true).2 t.hExit true).2.nextHandle t1
        rw [hnh]
        simp only [Win32.threadReturn, hth] at hfi
        by_cases hi : i = tid
        · subst hi
          simp only [findThread_updThread_same, ht, Option.map_some', Option.some.injEq] at hfi
          rw [← hfi]
          exact h.fields i t ht
        · simp only [findThread_updThread_other _ _ _ _ (Ne.symm hi)] at hfi
          exact h.fields i t1 hfi
      closed := by
        intro t1 hft hp
        show Win32.HandlesClosed (Win32.CloseHandle (Win32.CloseHandle (Win32.CloseHandle w
          t.hRead true).2 t.hSpawn true).2 t.hExit true).2.handles t1
        rw [hh]
        simp only [Win32.threadReturn, hth] at hft
        by_cases hi : tid0 = tid
        · subst hi
          simp only [findThread_updThread_same, ht, Option.map_some', Option.some.injEq] at hft
          rw [← hft]
          exact ⟨lookupH_closeH_none _ _ _ (lookupH_closeH_none _ _ _
              (lookupH_closeH_self _ _)),
            lookupH_closeH_none _ _ _ (lookupH_closeH_self _ _),
            lookupH_closeH_self _ _⟩
        · simp only [findThread_updThread_other _ _ _ _ (Ne.symm hi)] at hft
          obtain ⟨x, y, z⟩ := h.closed t1 hft hp
          exact ⟨keep _ x, keep _ y, keep _ z⟩ }

/-- One pass of the loop of thread `tid`, whose record is `t`, keeps the
invariant of a pair. -/
theorem pairInv_threadProcPass (g : Int) (tid0 tid : Nat) (w w1 : Win32.World)
    (t : Win32.Waiter) (fault : Option Nat) (h : Win32.PairInv g tid0 w)
    (ht : findThread w.threads tid = some t)
    (hp : Win32.threadProcPass w tid t fault = some w1) : Win32.PairInv g tid0 w1 := by
  unfold Win32.threadProcPass at hp
  split at hp
  · exact absurd hp (by simp)
  · rename_i ret wa hwa
    obtain ⟨e1, e2, e3, e4⟩ := waitMultiple_inv w wa fault ret hwa
    have ha : Win32.PairInv g tid0 wa := pairInv_congr g tid0 w wa h e1 e2 e3 e4
    have hta : findThread wa.threads tid = some t := by rw [e4]; exact ht
    split at hp
    · simp only [Option.some.injEq] at hp
      rw [← hp]
      exact pairInv_congr g tid0 wa _ ha rfl rfl rfl rfl
    · simp only [Option.some.injEq] at hp
      rw [← hp]
      exact ha
    · simp only [Option.some.injEq] at hp
      rw [← hp]
      exact pairInv_leave g tid0 tid wa t ha hta
    · simp only [Option.some.injEq] at hp
      rw [← hp]
      exact pairInv_threadReturn_one g tid0 tid wa ha

theorem pairInv_step (g : Int) (tid0 : Nat) (w w1 : Win32.World) (h : Win32.PairInv g tid0 w)
    (hs : Win32.Step w w1) : Win32.PairInv g tid0 w1 := by
  cases hs with
  | start tid t e ht hp =>
    exact pairInv_threadProcStart g tid0 tid w e h (fun t1 h1 => by
      rw [ht] at h1
      simp only [Option.some.injEq] at h1
      rw [← h1, hp]
      decide)
  | pass tid t fault _ ht hp hpass =>
    exact pairInv_threadProcPass g tid0 tid w w1 t fault h ht hpass
  | driver hd hde =>
    exact pairInv_setEvent g tid0 w hd true h

theorem pairInv_steps (g : Int) (tid0 : Nat) (w w1 : Win32.World) (h : Win32.PairInv g tid0 w)
    (hs : Relation.ReflTransGen Win32.Step w w1) : Win32.PairInv g tid0 w1 := by
  induction hs with
  | refl => exact h
  | tail _ hstep ih => exact pairInv_step g tid0 _ _ ih hstep

/-- Running the procedure of a thread to its end keeps the invariant of a
pair. -/
theorem pairInv_threadProc (g : Int) (tid0 : Nat) (fuel : Nat) :
    ∀ (w w1 : Win32.World) (tid : Nat) (env : Win32.ThreadEnv) (n : Nat),
      Win32.PairInv g tid0 w → Win32.pcanEventThreadProc fuel w tid env n = some w1 →
      Win32.PairInv g tid0 w1 := by
  induction fuel with
  | zero =>
    intro w w1 tid env n hi h
    cases ht : findThread w.threads tid with
    | none => simp [Win32.pcanEventThreadProc, ht] at h
    | some t =>
      cases hc : t.pc with
      | start => simp [Win32.pcanEventThreadProc, ht, hc] at h
      | waiting => simp [Win32.pcanEventThreadProc, ht, hc] at h
      | exited c =>
        simp only [Win32.pcanEventThreadProc, ht, hc, Option.some.injEq] at h
        rw [← h]
        exact hi
  | succ k ih =>
    intro w w1 tid env n hi h
    cases ht : findThread w.threads tid with
    | none => simp [Win32.pcanEventThreadProc, ht] at h
    | some t =>
      cases hc : t.pc with
      | exited c =>
        simp only [Win32.pcanEventThreadProc, ht, hc, Option.some.injEq] at h
        rw [← h]
        exact hi
      | start =>
        simp only [Win32.pcanEventThreadProc, ht, hc] at h
        refine ih _ _ _ _ _ (pairInv_threadProcStart g tid0 tid w env.start hi ?_) h
        intro t1 h1
        rw [ht] at h1
        simp only [Option.some.injEq] at h1
        rw [← h1, hc]
        decide
      | waiting =>
        simp only [Win32.pcanEventThreadProc, ht, hc] at h
        cases hp : Win32.threadProcPass w tid t (env.waits n) with
        | none => simp [hp] at h
        | some wp =>
          simp only [hp] at h
          exact ih _ _ _ _ _ (pairInv_threadProcPass g tid0 tid w wp t _ hi ht hp) h

theorem waitBounded_core (w : Win32.World) (h : Int) (fault : Option Nat) :
    (Win32.WaitForSingleObject_bounded w h fault).2.pcanEventThread = w.pcanEventThread ∧
    (Win32.WaitForSingleObject_bounded w h fault).2.handles = w.handles ∧
    (Win32.WaitForSingleObject_bounded w h fault).2.nextHandle = w.nextHandle ∧
    (Win32.WaitForSingleObject_bounded w h fault).2.threads = w.threads := by
  have hn : ∀ r : Nat × Win32.World, r =
      (match Win32.lookupH w.handles h with
        | some (Win32.Obj.thread tid) =>
          match findThread w.threads tid with
          | some t =>
            match t.pc with
            | Win32.Pc.exited _ => (Win32.WAIT_OBJECT_0, w)
            | _ => (Win32.WAIT_TIMEOUT, w)
          | none => (Win32.WAIT_TIMEOUT, w)
        | some o =>
          if Win32.sig w o then (Win32.WAIT_OBJECT_0, Win32.setSig w o false)
          else (Win32.WAIT_TIMEOUT, w)
        | none => (Win32.WAIT_FAILED, w)) →
      r.2.pcanEventThread = w.pcanEventThread ∧ r.2.handles = w.handles ∧
      r.2.nextHandle = w.nextHandle ∧ r.2.threads = w.threads := by
    intro r hr
    subst hr
    split
    · split
      · split <;> exact ⟨rfl, rfl, rfl, rfl⟩
      · exact ⟨rfl, rfl, rfl, rfl⟩
    · rename_i o _ _
      split_ifs
      · cases o <;> exact ⟨rfl, rfl, rfl, rfl⟩
      · exact ⟨rfl, rfl, rfl, rfl⟩
    · exact ⟨rfl, rfl, rfl, rfl⟩
  unfold Win32.WaitForSingleObject_bounded
  simp only []
  split
  · split_ifs
    · exact hn _ rfl
    · exact ⟨rfl, rfl, rfl, rfl⟩
  · exact hn _ rfl

/-- The handshake stage of `pcanEventEnable` keeps the invariant of a pair when
the thread named by `pcanEventThreadID` has not returned 0. -/
theorem pairInv_enableWait (g : Int) (tid0 : Nat) (w : Win32.World) (ch : Nat)
    (env : Win32.EnableEnv) (h : Win32.PairInv g tid0 w)
    (hlive : ∀ t, findThread w.threads w.pcanEventThreadID = some t →
      t.pc ≠ Win32.Pc.exited 0) :
    Win32.PairInv g tid0 (Win32.enableWait w ch env).2 := by
  have key : ∀ w5 : Win32.World, Win32.PairInv g tid0 w5 →
      Win32.PairInv g tid0
        (let r := Win32.WaitForSingleObject_bounded w5 w5.pcanEventSpawn env.waitSpawn
         let w6 : Win32.World := { r.2 with trace := r.2.trace ++ [Win32.Ev.waitSpawn r.1] }
         (if r.1 = Win32.WAIT_OBJECT_0 then Win32.enableRegister w6 ch env
          else if r.1 = Win32.WAIT_ABANDONED then (1, w6)
          else if r.1 = Win32.WAIT_TIMEOUT then (1, w6)
          else if r.1 = Win32.WAIT_FAILED then (1, w6)
          else (1, w6))).2 := by
    intro w5 h5
    obtain ⟨c1, c2, c3, c4⟩ := waitBounded_core w5 w5.pcanEventSpawn env.waitSpawn
    have h6 := pairInv_congr g tid0 w5 _ h5 c1 c2 c3 c4
    simp only
    split_ifs
    · simp only [Win32.enableRegister, Win32.CAN_SetValue]
      split_ifs <;> exact pairInv_congr g tid0 _ _ h6 rfl rfl rfl rfl
    all_goals exact pairInv_congr g tid0 _ _ h6 rfl rfl rfl rfl
  by_cases hsch : env.thread.scheduled = true
  · have hk := key (Win32.threadProcStart w w.pcanEventThreadID env.thread)
      (pairInv_threadProcStart g tid0 _ w env.thread h hlive)
    simpa [Win32.enableWait, hsch] using hk
  · have hs2 : env.thread.scheduled = false := by simpa using hsch
    have hk := key w h
    simpa [Win32.enableWait, hs2] using hk

/-- The world in which `pcanEventEnable` enters its handshake stage satisfies
the invariant of the pair it starts. -/
theorem pairInv_afterCreate (w : Win32.World) (ch cb : Nat) (hw : Win32.fieldsBelow w) :
    Win32.PairInv ((w.nextHandle : Int) + 1 + 1 + 1 + 1) (w.threads.length + 1)
      (Win32.afterCreate w ch cb) :=
  { thread := rfl
    hThread := by simp [Win32.afterCreate, Win32.lookupH]
    pos := by omega
    next := by
      simp only [Win32.afterCreate, Nat.cast_add, Nat.cast_one]
      omega
    fields := by
      intro i t hf
      simp only [Win32.afterCreate] at hf ⊢
      simp only [Win32.FieldsOk, Nat.cast_add, Nat.cast_one]
      by_cases hi : i = w.threads.length + 1
      · subst hi
        rw [findThread_append_new] at hf
        simp only [Option.some.injEq] at hf
        rw [← hf]
        simp only [Win32.INVALID_HANDLE_VALUE]
        refine ⟨?_, ?_, ?_, ?_, ?_, ?_⟩ <;> omega
      · rw [findThread_append_ne _ _ _ hi] at hf
        obtain ⟨a, b, c⟩ := hw i t hf
        refine ⟨?_, ?_, ?_, ?_, ?_, ?_⟩ <;> omega
    closed := by
      intro t hf hp
      simp only [Win32.afterCreate] at hf
      rw [findThread_append_new] at hf
      simp only [Option.some.injEq] at hf
      rw [← hf] at hp
      exact absurd hp (by simp) }

/-- After a `pcanEventEnable` that returned 0, the four global handles are the
ones the call created, and the invariant of the pair holds. -/
theorem pairInv_enable_ok (w E : Win32.World) (ch cb : Nat) (env : Win32.EnableEnv)
    (hw : Win32.fieldsBelow w) (hE : Win32.pcanEventEnable w ch cb env = (0, E)) :
    E.pcanEventRead = (w.nextHandle : Int) + 1 ∧
    E.pcanEventSpawn = (w.nextHandle : Int) + 1 + 1 ∧
    E.pcanEventExit = (w.nextHandle : Int) + 1 + 1 + 1 ∧
    E.pcanEventThread = (w.nextHandle : Int) + 1 + 1 + 1 + 1 ∧
    E.pcanEventThreadID = w.threads.length + 1 ∧
    (((w.nextHandle : Int) + 1, Win32.Obj.eventRead) ∈ E.handles ∧
      ((w.nextHandle : Int) + 1 + 1, Win32.Obj.eventSpawn) ∈ E.handles ∧
      ((w.nextHandle : Int) + 1 + 1 + 1, Win32.Obj.eventExit) ∈ E.handles ∧
      ((w.nextHandle : Int) + 1 + 1 + 1 + 1, Win32.Obj.thread (w.threads.length + 1))
        ∈ E.handles) ∧
    Win32.PairInv ((w.nextHandle : Int) + 1 + 1 + 1 + 1) (w.threads.length + 1) E := by
  have h0 : (Win32.pcanEventEnable w ch cb env).1 = 0 := by rw [hE]
  have hc := enable_ok_created_win32 w ch cb env h0
  rw [hc] at hE
  have hf := frame_enableWait (Win32.afterCreate w ch cb) ch env
  have hp := pairInv_enableWait _ _ (Win32.afterCreate w ch cb) ch env
    (pairInv_afterCreate w ch cb hw) (by
      intro t ht
      simp only [Win32.afterCreate] at ht
      rw [findThread_append_new] at ht
      simp only [Option.some.injEq] at ht
      rw [← ht]
      simp)
  rw [hE] at hf hp
  have hsub := hf.handles.subset
  exact ⟨hf.read, hf.spawn, hf.exit, hf.thread, hf.threadID,
    ⟨hsub (by simp [Win32.afterCreate]), hsub (by simp [Win32.afterCreate]),
      hsub (by simp [Win32.afterCreate]), hsub (by simp [Win32.afterCreate])⟩, hp⟩

/-! ### The globals between Enable and Disable -/

theorem sameGlobals_refl (w : Win32.World) : Win32.sameGlobals w w :=
  ⟨rfl, rfl, rfl, rfl, rfl⟩

theorem sameGlobals_trans (a b c : Win32.World) (h1 : Win32.sameGlobals a b)
    (h2 : Win32.sameGlobals b c) : Win32.sameGlobals a c :=
  ⟨h2.1.trans h1.1, h2.2.1.trans h1.2.1, h2.2.2.1.trans h1.2.2.1,
    h2.2.2.2.1.trans h1.2.2.2.1, h2.2.2.2.2.trans h1.2.2.2.2⟩

theorem sameGlobals_of_frame (tid : Nat) (w w1 : Win32.World) (h : Win32.Frame tid w w1) :
    Win32.sameGlobals w w1 :=
  ⟨h.read, h.spawn, h.exit, h.thread, h.threadID⟩

theorem closeHandle_globals (w : Win32.World) (h : Int) (ok : Bool) :
    Win32.sameGlobals w (Win32.CloseHandle w h ok).2 := by
  unfold Win32.CloseHandle
  split
  · split_ifs <;> exact ⟨rfl, rfl, rfl, rfl, rfl⟩
  · exact ⟨rfl, rfl, rfl, rfl, rfl⟩

theorem threadProcPass_globals (w w1 : Win32.World) (tid : Nat) (t : Win32.Waiter)
    (fault : Option Nat) (hp : Win32.threadProcPass w tid t fault = some w1) :
    Win32.sameGlobals w w1 := by
  have hw : ∀ r wa, Win32.WaitForMultipleObjects w fault = some (r, wa) →
      Win32.sameGlobals w wa := by
    intro r wa hwa
    unfold Win32.WaitForMultipleObjects at hwa
    split at hwa
    · simp only [Option.some.injEq, Prod.mk.injEq] at hwa
      rw [← hwa.2]
      exact sameGlobals_refl w
    · split_ifs at hwa
      · simp only [Option.some.injEq, Prod.mk.injEq] at hwa
        rw [← hwa.2]
        exact ⟨rfl, rfl, rfl, rfl, rfl⟩
      · simp only [Option.some.injEq, Prod.mk.injEq] at hwa
        rw [← hwa.2]
        exact ⟨rfl, rfl, rfl, rfl, rfl⟩
  unfold Win32.threadProcPass at hp
  split at hp
  · exact absurd hp (by simp)
  · rename_i ret wa hwa
    have ha := hw ret wa hwa
    split at hp
    · simp only [Option.some.injEq] at hp
      rw [← hp]
      exact sameGlobals_trans _ _ _ ha ⟨rfl, rfl, rfl, rfl, rfl⟩
    · simp only [Option.some.injEq] at hp
      rw [← hp]
      exact ha
    · simp only [Option.some.injEq] at hp
      rw [← hp]
      refine sameGlobals_trans _ _ _ ha ?_
      refine sameGlobals_trans _ _ _ (closeHandle_globals wa t.hRead true) ?_
      refine sameGlobals_trans _ _ _ (closeHandle_globals _ t.hSpawn true) ?_
      refine sameGlobals_trans _ _ _ (closeHandle_globals _ t.hExit true) ?_
      exact ⟨rfl, rfl, rfl, rfl, rfl⟩
    · simp only [Option.some.injEq] at hp
      rw [← hp]
      exact sameGlobals_trans _ _ _ ha ⟨rfl, rfl, rfl, rfl, rfl⟩

theorem step_globals (w w1 : Win32.World) (hs : Win32.Step w w1) : Win32.sameGlobals w w1 := by
  cases hs with
  | start tid t e ht hp => exact sameGlobals_of_frame tid _ _ (frame_threadProcStart tid w e)
  | pass tid t fault _ ht hp hpass => exact threadProcPass_globals w w1 tid t fault hpass
  | driver hd hde => exact sameGlobals_of_frame 0 _ _ (frame_setEvent 0 w hd true)

theorem steps_globals (w w1 : Win32.World) (hs : Relation.ReflTransGen Win32.Step w w1) :
    Win32.sameGlobals w w1 := by
  induction hs with
  | refl => exact sameGlobals_refl w
  | tail _ hstep ih => exact sameGlobals_trans _ _ _ ih (step_globals _ _ hstep)

theorem threadProc_globals (fuel : Nat) :
    ∀ (w w1 : Win32.World) (tid : Nat) (env : Win32.ThreadEnv) (n : Nat),
      Win32.pcanEventThreadProc fuel w tid env n = some w1 → Win32.sameGlobals w w1 := by
  induction fuel with
  | zero =>
    intro w w1 tid env n h
    cases ht : findThread w.threads tid with
    | none => simp [Win32.pcanEventThreadProc, ht] at h
    | some t =>
      cases hc : t.pc with
      | start => simp [Win32.pcanEventThreadProc, ht, hc] at h
      | waiting => simp [Win32.pcanEventThreadProc, ht, hc] at h
      | exited c =>
        simp only [Win32.pcanEventThreadProc, ht, hc, Option.some.injEq] at h
        rw [← h]
        exact sameGlobals_refl w
  | succ k ih =>
    intro w w1 tid env n h
    cases ht : findThread w.threads tid with
    | none => simp [Win32.pcanEventThreadProc, ht] at h
    | some t =>
      cases hc : t.pc with
      | exited c =>
        simp only [Win32.pcanEventThreadProc, ht, hc, Option.some.injEq] at h
        rw [← h]
        exact sameGlobals_refl w
      | start =>
        simp only [Win32.pcanEventThreadProc, ht, hc] at h
        exact sameGlobals_trans _ _ _
          (sameGlobals_of_frame tid _ _ (frame_threadProcStart tid w env.start))
          (ih _ _ _ _ _ h)
      | waiting =>
        simp only [Win32.pcanEventThreadProc, ht, hc] at h
        cases hp : Win32.threadProcPass w tid t (env.waits n) with
        | none => simp [hp] at h
        | some wp =>
          simp only [hp] at h
          exact sameGlobals_trans _ _ _ (threadProcPass_globals w wp tid t _ hp)
            (ih _ _ _ _ _ h)

/-! ### Disable that returns 0 -/

/-- A `CloseHandle` that returns non-zero has removed the handle. -/
theorem closeHandle_ok (w : Win32.World) (h : Int) (ok : Bool)
    (hr : (Win32.CloseHandle w h ok).1 ≠ 0) :
    (Win32.CloseHandle w h ok).2.handles = Win32.closeH w.handles h := by
  cases hl : Win32.lookupH w.handles h with
  | none =>
    simp only [Win32.CloseHandle, hl] at hr
    exact absurd rfl hr
  | some o =>
    cases ok
    · simp only [Win32.CloseHandle, hl, Bool.false_eq_true, if_false] at hr
      exact absurd rfl hr
    · simp only [Win32.CloseHandle, hl, if_true]

/-- When the closing stage of `pcanEventDisable` returns 0, the four global
handles have been removed from the handle table and nothing else has. -/
theorem disableClose_ok (w w1 : Win32.World) (env : Win32.DisableEnv)
    (h : Win32.disableClose w env = (0, w1)) :
    w1.handles = Win32.closeH (Win32.closeH (Win32.closeH (Win32.closeH w.handles
      w.pcanEventRead) w.pcanEventSpawn) w.pcanEventExit) w.pcanEventThread ∧
    w1.threads = w.threads := by
  have ht : w1.threads = w.threads := by
    have e := congrArg (fun r : Nat × Win32.World => r.2.threads) h
    simp only [disableClose_threads] at e
    exact e.symm
  refine ⟨?_, ht⟩
  have g5 := closeHandle_globals w w.pcanEventRead env.closeRead
  have g6 := closeHandle_globals (Win32.CloseHandle w w.pcanEventRead env.closeRead).2
    (Win32.CloseHandle w w.pcanEventRead env.closeRead).2.pcanEventSpawn env.closeSpawn
  have g7 := closeHandle_globals
    (Win32.CloseHandle (Win32.CloseHandle w w.pcanEventRead env.closeRead).2
      (Win32.CloseHandle w w.pcanEventRead env.closeRead).2.pcanEventSpawn env.closeSpawn).2
    (Win32.CloseHandle (Win32.CloseHandle w w.pcanEventRead env.closeRead).2
      (Win32.CloseHandle w w.pcanEventRead env.closeRead).2.pcanEventSpawn
      env.closeSpawn).2.pcanEventExit env.closeExit
  simp only [Win32.disableClose] at h
  split_ifs at h with c5 c6 c7 c8
  · simp at h
  · simp at h
  · simp at h
  · simp at h
  · simp only [Prod.mk.injEq, true_and] at h
    rw [← h, closeHandle_ok _ _ _ c8, closeHandle_ok _ _ _ c7, closeHandle_ok _ _ _ c6,
      closeHandle_ok _ _ _ c5, g7.2.2.2.1, g6.2.2.2.1, g5.2.2.2.1, g6.2.2.1, g5.2.2.1, g5.2.1]

theorem disableJoin_ok_full (fuel : Nat) (w w1 : Win32.World) (env : Win32.DisableEnv)
    (h : Win32.disableJoin fuel w env = some (0, w1)) :
    ∃ tid wj, Win32.lookupH w.handles w.pcanEventThread = some (Win32.Obj.thread tid) ∧
      Win32.pcanEventThreadProc fuel w tid env.thread 0 = some wj ∧
      Win32.disableClose
        { wj with trace := wj.trace ++ [Win32.Ev.waitThread Win32.WAIT_OBJECT_0] } env
        = (0, w1) := by
  unfold Win32.disableJoin at h
  split at h
  · exact absurd h (by simp)
  · rename_i ret w3a hwait
    simp only [] at h
    by_cases hret : ret = Win32.WAIT_OBJECT_0
    · subst hret
      obtain ⟨tid, hl, hp⟩ := waitInfinite_ok_inv _ _ _ _ _ _ hwait
      refine ⟨tid, w3a, hl, hp, ?_⟩
      simp only [if_true] at h
      split_ifs at h
      · simp at h
      · simp at h
      · simp only [Option.some.injEq] at h
        exact h
    · simp only [hret, if_false] at h
      split_ifs at h <;> simp at h

/-- On Windows, when `pcanEventDisable` returns 0 in a state in which the
invariant of a pair holds: the four global handles are closed, thread `tid0` has
returned, and if it returned 0 its own three handles are closed. -/
theorem disable_ok_pair_win32 (g : Int) (tid0 : Nat) (fuel : Nat) (w w3 : Win32.World)
    (ch : Nat) (env : Win32.DisableEnv) (hi : Win32.PairInv g tid0 w)
    (h : Win32.pcanEventDisable fuel w ch env = some (0, w3)) :
    Win32.lookupH w3.handles w.pcanEventRead = none ∧
    Win32.lookupH w3.handles w.pcanEventSpawn = none ∧
    Win32.lookupH w3.handles w.pcanEventExit = none ∧
    Win32.lookupH w3.handles w.pcanEventThread = none ∧
    ∃ t, findThread w3.threads tid0 = some t ∧ t.terminal = true ∧
      (t.pc = Win32.Pc.exited 0 → Win32.HandlesClosed w3.handles t) := by
  simp only [Win32.pcanEventDisable] at h
  split_ifs at h
  · simp at h
  · have hf := frame_setEvent 0 (Win32.CAN_SetValue w ch Win32.INVALID_HANDLE_VALUE
      env.setValue).2 (Win32.CAN_SetValue w ch Win32.INVALID_HANDLE_VALUE
      env.setValue).2.pcanEventExit env.setEvent
    have hg0 : Win32.sameGlobals w (Win32.SetEvent (Win32.CAN_SetValue w ch
        Win32.INVALID_HANDLE_VALUE env.setValue).2 (Win32.CAN_SetValue w ch
        Win32.INVALID_HANDLE_VALUE env.setValue).2.pcanEventExit env.setEvent).2 :=
      sameGlobals_trans w (Win32.CAN_SetValue w ch Win32.INVALID_HANDLE_VALUE env.setValue).2 _
        ⟨rfl, rfl, rfl, rfl, rfl⟩ (sameGlobals_of_frame 0 _ _ hf)
    have hi0 : Win32.PairInv g tid0 (Win32.SetEvent (Win32.CAN_SetValue w ch
        Win32.INVALID_HANDLE_VALUE env.setValue).2 (Win32.CAN_SetValue w ch
        Win32.INVALID_HANDLE_VALUE env.setValue).2.pcanEventExit env.setEvent).2 :=
      pairInv_setEvent g tid0 _ _ _ (pairInv_congr g tid0 w _ hi rfl rfl rfl rfl)
    obtain ⟨tid, wj, hl, hp, hc⟩ := disableJoin_ok_full _ _ _ _ h
    rw [hi0.thread, hi0.hThread] at hl
    simp only [Option.some.injEq, Win32.Obj.thread.injEq] at hl
    subst hl
    have hij := pairInv_threadProc g tid0 fuel _ _ _ _ _ hi0 hp
    have hgj := sameGlobals_trans _ _ _ hg0 (threadProc_globals fuel _ _ _ _ _ hp)
    obtain ⟨r1, _⟩ := threadProc_result_win32 fuel _ _ _ _ _ hp
    obtain ⟨hh, hth⟩ := disableClose_ok _ _ _ hc
    simp only at hh hth
    rw [hgj.1, hgj.2.1, hgj.2.2.1, hgj.2.2.2.1] at hh
    have keep : ∀ k, Win32.lookupH wj.handles k = none → Win32.lookupH w3.handles k = none := by
      intro k hk
      rw [hh]
      exact lookupH_closeH_none _ _ _ (lookupH_closeH_none _ _ _ (lookupH_closeH_none _ _ _
        (lookupH_closeH_none _ _ _ hk)))
    refine ⟨?_, ?_, ?_, ?_, ?_⟩
    · rw [hh]
      exact lookupH_closeH_none _ _ _ (lookupH_closeH_none _ _ _ (lookupH_closeH_none _ _ _
        (lookupH_closeH_self _ _)))
    · rw [hh]
      exact lookupH_closeH_none _ _ _ (lookupH_closeH_none _ _ _ (lookupH_closeH_self _ _))
    · rw [hh]
      exact lookupH_closeH_none _ _ _ (lookupH_closeH_self _ _)
    · rw [hh]
      exact lookupH_closeH_self _ _
    · cases hft : findThread wj.threads tid0 with
      | none => simp [hft] at r1
      | some t =>
        simp only [hft, Option.map_some', Option.some.injEq] at r1
        refine ⟨t, by rw [hth]; exact hft, r1, fun hpc => ?_⟩
        obtain ⟨x, y, z⟩ := hij.closed t hft hpc
        exact ⟨keep _ x, keep _ y, keep _ z⟩

/-- On Windows, an Enable/Disable pair in which both calls return 0, from a
state in which no thread record holds a handle not handed out yet, with any
steps of the threads and of the driver in between. -/
theorem pair_ok_win32 (w E w2 w3 : Win32.World) (ch cb : Nat) (env : Win32.EnableEnv)
    (fuel ch2 : Nat) (denv : Win32.DisableEnv) (hw : Win32.fieldsBelow w)
    (hE : Win32.pcanEventEnable w ch cb env = (0, E))
    (hs : Relation.ReflTransGen Win32.Step E w2)
    (hD : Win32.pcanEventDisable fuel w2 ch2 denv = some (0, w3)) :
    E.pcanEventRead = (w.nextHandle : Int) + 1 ∧
    E.pcanEventSpawn = (w.nextHandle : Int) + 1 + 1 ∧
    E.pcanEventExit = (w.nextHandle : Int) + 1 + 1 + 1 ∧
    E.pcanEventThread = (w.nextHandle : Int) + 1 + 1 + 1 + 1 ∧
    E.pcanEventThreadID = w.threads.length + 1 ∧
    (((w.nextHandle : Int) + 1, Win32.Obj.eventRead) ∈ E.handles ∧
      ((w.nextHandle : Int) + 1 + 1, Win32.Obj.eventSpawn) ∈ E.handles ∧
      ((w.nextHandle : Int) + 1 + 1 + 1, Win32.Obj.eventExit) ∈ E.handles ∧
      ((w.nextHandle : Int) + 1 + 1 + 1 + 1, Win32.Obj.thread (w.threads.length + 1))
        ∈ E.handles) ∧
    Win32.lookupH w3.handles E.pcanEventRead = none ∧
    Win32.lookupH w3.handles E.pcanEventSpawn = none ∧
    Win32.lookupH w3.handles E.pcanEventExit = none ∧
    Win32.lookupH w3.handles E.pcanEventThread = none ∧
    ∃ t, findThread w3.threads E.pcanEventThreadID = some t ∧ t.terminal = true ∧
      (t.pc = Win32.Pc.exited 0 → Win32.HandlesClosed w3.handles t) := by
  obtain ⟨e1, e2, e3, e4, e5, hm, hp⟩ := pairInv_enable_ok w E ch cb env hw hE
  have hp2 := pairInv_steps _ _ E w2 hp hs
  have hg := steps_globals E w2 hs
  obtain ⟨a, b, c, d, e⟩ := disable_ok_pair_win32 _ _ fuel w2 w3 ch2 denv hp2 hD
  rw [hg.1] at a
  rw [hg.2.1] at b
  rw [hg.2.2.1] at c
  rw [hg.2.2.2.1] at d
  rw [e5]
  exact ⟨e1, e2, e3, e4, rfl, hm, a, b, c, d, e⟩

/-! ## What an Enable/Disable pair keeps true in between: macOS -/

theorem sameCore_refl (w : Darwin.World) : Darwin.sameCore w w :=
  ⟨rfl, rfl, rfl, rfl, rfl⟩

theorem sameCore_trans (a b c : Darwin.World) (h1 : Darwin.sameCore a b)
    (h2 : Darwin.sameCore b c) : Darwin.sameCore a c :=
  ⟨h2.1.trans h1.1, h2.2.1.trans h1.2.1, h2.2.2.1.trans h1.2.2.1,
    h2.2.2.2.1.trans h1.2.2.2.1, h2.2.2.2.2.trans h1.2.2.2.2⟩

theorem threadProcStart_core_darwin (w : Darwin.World) (tid : Nat) (t : Darwin.Waiter)
    (e : Darwin.ThreadStartEnv) : Darwin.sameCore w (Darwin.threadProcStart w tid t e) := by
  simp only [Darwin.threadProcStart, Darwin.write, Darwin.threadReturn]
  split_ifs <;> exact ⟨rfl, rfl, rfl, rfl, length_updThread _ _ _⟩

theorem threadProcPass_core_darwin (w : Darwin.World) (tid : Nat) (t : Darwin.Waiter)
    (e : Darwin.SelectEnv) : Darwin.sameCore w (Darwin.threadProcPass w tid t e) := by
  simp only [Darwin.threadProcPass, Darwin.threadReturn]
  split
  · exact ⟨rfl, rfl, rfl, rfl, rfl⟩
  · exact ⟨rfl, rfl, rfl, rfl, rfl⟩
  · exact ⟨rfl, rfl, rfl, rfl, length_updThread _ _ _⟩
  · exact ⟨rfl, rfl, rfl, rfl, length_updThread _ _ _⟩

theorem step_core_darwin (w w1 : Darwin.World) (hs : Darwin.Step w w1) :
    Darwin.sameCore w w1 := by
  cases hs with
  | start tid t e ht hp => exact threadProcStart_core_darwin w tid t e
  | pass tid t e ht hp => exact threadProcPass_core_darwin w tid t e

theorem steps_core_darwin (w w1 : Darwin.World) (hs : Relation.ReflTransGen Darwin.Step w w1) :
    Darwin.sameCore w w1 := by
  induction hs with
  | refl => exact sameCore_refl w
  | tail _ hstep ih => exact sameCore_trans _ _ _ ih (step_core_darwin _ _ hstep)

theorem threadProc_core_darwin (fuel : Nat) :
    ∀ (w w1 : Darwin.World) (tid : Nat) (env : Darwin.ThreadEnv) (n : Nat),
      Darwin.pcanEventThreadProc fuel w tid env n = some w1 → Darwin.sameCore w w1 := by
  induction fuel with
  | zero =>
    intro w w1 tid env n h
    cases ht : findThread w.threads tid with
    | none => simp [Darwin.pcanEventThreadProc, ht] at h
    | some t =>
      cases hc : t.pc with
      | start => simp [Darwin.pcanEventThreadProc, ht, hc] at h
      | waiting => simp [Darwin.pcanEventThreadProc, ht, hc] at h
      | exited c =>
        simp only [Darwin.pcanEventThreadProc, ht, hc, Option.some.injEq] at h
        rw [← h]
        exact sameCore_refl w
  | succ k ih =>
    intro w w1 tid env n h
    cases ht : findThread w.threads tid with
    | none => simp [Darwin.pcanEventThreadProc, ht] at h
    | some t =>
      cases hc : t.pc with
      | exited c =>
        simp only [Darwin.pcanEventThreadProc, ht, hc, Option.some.injEq] at h
        rw [← h]
        exact sameCore_refl w
      | start =>
        simp only [Darwin.pcanEventThreadProc, ht, hc] at h
        exact sameCore_trans _ _ _ (threadProcStart_core_darwin w tid t env.start)
          (ih _ _ _ _ _ h)
      | waiting =>
        simp only [Darwin.pcanEventThreadProc, ht, hc] at h
        exact sameCore_trans _ _ _ (threadProcPass_core_darwin w tid t (env.selects n))
          (ih _ _ _ _ _ h)

/-- A `close` leaves the descriptor table without the descriptor. -/
theorem close_fds_darwin (w : Darwin.World) (fd : Int) :
    (Darwin.close w fd).2.fds = w.fds.filter (fun x => x ≠ fd) ∧
    (Darwin.close w fd).2.pcanPipeSpawn = w.pcanPipeSpawn ∧
    (Darwin.close w fd).2.pcanPipeExit = w.pcanPipeExit ∧
    (Darwin.close w fd).2.threads = w.threads := by
  unfold Darwin.close
  split_ifs with hm
  · exact ⟨rfl, rfl, rfl, rfl⟩
  · refine ⟨?_, rfl, rfl, rfl⟩
    symm
    rw [List.filter_eq_self]
    intro a ha
    have : a ≠ fd := fun e => hm (e ▸ ha)
    simpa using this

theorem not_mem_filter_ne (l : List Int) (a : Int) : a ∉ l.filter (fun x => x ≠ a) := by
  simp

theorem not_mem_filter_of_not_mem (l : List Int) (a b : Int) (h : a ∉ l) :
    a ∉ l.filter (fun x => x ≠ b) := by
  intro hm
  exact h (List.mem_of_mem_filter hm)

theorem findThread_isSome_of_length {α : Type} (ts ts2 : List α) (i : Nat)
    (hl : ts2.length = ts.length) (h : (findThread ts i).isSome = true) :
    (findThread ts2 i).isSome = true := by
  cases i with
  | zero => simp [findThread] at h
  | succ n =>
    simp only [findThread] at h ⊢
    have hlt : n < ts.length := by
      by_contra hge
      rw [List.getElem?_eq_none (by omega)] at h
      simp at h
    rw [List.getElem?_eq_getElem (by omega)]
    rfl

/-- On macOS, when `pcanEventDisable` returns 0: the four descriptors named by
the globals are closed, and the number of threads is as before. -/
theorem disable_ok_core_darwin (fuel : Nat) (w w3 : Darwin.World) (ch : Nat)
    (env : Darwin.DisableEnv) (h : Darwin.pcanEventDisable fuel w ch env = some (0, w3)) :
    w.pcanPipeSpawn.2 ∉ w3.fds ∧ w.pcanPipeSpawn.1 ∉ w3.fds ∧ w.pcanPipeExit.2 ∉ w3.fds ∧
    w.pcanPipeExit.1 ∉ w3.fds ∧ w3.threads.length = w.threads.length := by
  have hwc : Darwin.sameCore w (Darwin.write w w.pcanPipeExit.2 env.writeCount).2 := by
    unfold Darwin.write
    split_ifs <;> exact ⟨rfl, rfl, rfl, rfl, rfl⟩
  simp only [Darwin.pcanEventDisable] at h
  split_ifs at h
  · simp at h
  · cases hres : Darwin.pthread_join fuel (Darwin.write w w.pcanPipeExit.2 env.writeCount).2
        (Darwin.write w w.pcanPipeExit.2 env.writeCount).2.pcanEventThread env.join
        env.thread with
    | none => simp [hres] at h
    | some p =>
      obtain ⟨ret, wj⟩ := p
      simp only [hres, Option.some.injEq, Prod.mk.injEq, true_and] at h
      have hj : Darwin.sameCore w wj := by
        rcases join_cases _ _ _ _ _ _ _ hres with e | hp
        · rw [e]
          exact hwc
        · exact sameCore_trans _ _ _ hwc (threadProc_core_darwin _ _ _ _ _ _ hp)
      obtain ⟨j1, j2, j3, j4, j5⟩ := hj
      obtain ⟨a1, a2, a3, a4⟩ := close_fds_darwin
        { wj with trace := wj.trace ++ [Darwin.Ev.join wj.pcanEventThread ret] }
        wj.pcanPipeSpawn.2
      obtain ⟨b1, b2, b3, b4⟩ := close_fds_darwin (Darwin.close
        { wj with trace := wj.trace ++ [Darwin.Ev.join wj.pcanEventThread ret] }
        wj.pcanPipeSpawn.2).2 wj.pcanPipeSpawn.1
      obtain ⟨c1, c2, c3, c4⟩ := close_fds_darwin (Darwin.close (Darwin.close
        { wj with trace := wj.trace ++ [Darwin.Ev.join wj.pcanEventThread ret] }
        wj.pcanPipeSpawn.2).2 wj.pcanPipeSpawn.1).2 wj.pcanPipeExit.2
      obtain ⟨d1, d2, d3, d4⟩ := close_fds_darwin (Darwin.close (Darwin.close (Darwin.close
        { wj with trace := wj.trace ++ [Darwin.Ev.join wj.pcanEventThread ret] }
        wj.pcanPipeSpawn.2).2 wj.pcanPipeSpawn.1).2 wj.pcanPipeExit.2).2 wj.pcanPipeExit.1
      simp only at a1 a2 a3 a4 b1 b2 b3 b4 c1 c2 c3 c4 d1 d2 d3 d4
      simp only [a2, a3, b2, b3, c2, c3] at h
      have hfds : w3.fds = (((wj.fds.filter (fun x => x ≠ wj.pcanPipeSpawn.2)).filter
          (fun x => x ≠ wj.pcanPipeSpawn.1)).filter (fun x => x ≠ wj.pcanPipeExit.2)).filter
          (fun x => x ≠ wj.pcanPipeExit.1) := by
        rw [← h, d1, c1, b1, a1]
      have hth : w3.threads = wj.threads := by
        rw [← h, d4, c4, b4, a4]
      rw [hfds, hth, ← j2, ← j3]
      refine ⟨?_, ?_, ?_, ?_, j5⟩
      · exact not_mem_filter_of_not_mem _ _ _ (not_mem_filter_of_not_mem _ _ _
          (not_mem_filter_of_not_mem _ _ _ (not_mem_filter_ne _ _)))
      · exact not_mem_filter_of_not_mem _ _ _ (not_mem_filter_of_not_mem _ _ _
          (not_mem_filter_ne _ _))
      · exact not_mem_filter_of_not_mem _ _ _ (not_mem_filter_ne _ _)
      · exact not_mem_filter_ne _ _

theorem enableWait_core_darwin (w : Darwin.World) (env : Darwin.EnableEnv) :
    Darwin.sameCore w (Darwin.enableWait w env).2 := by
  have key : ∀ w5 : Darwin.World, Darwin.sameCore w w5 →
      Darwin.sameCore w
        (if Darwin.select1 w5 w5.pcanPipeSpawn.1 env.select = -1 then
          ((1 : Nat), { w5 with trace := w5.trace ++
            [Darwin.Ev.selectSpawn (Darwin.select1 w5 w5.pcanPipeSpawn.1 env.select)] })
        else
          (0, Darwin.free { w5 with trace := w5.trace ++
            [Darwin.Ev.selectSpawn (Darwin.select1 w5 w5.pcanPipeSpawn.1 env.select)] })).2 := by
    intro w5 h5
    split_ifs
    · exact sameCore_trans _ _ _ h5 ⟨rfl, rfl, rfl, rfl, rfl⟩
    · exact sameCore_trans _ _ _ h5 ⟨rfl, rfl, rfl, rfl, rfl⟩
  cases hs : env.thread.scheduled
  · have hk := key w (sameCore_refl w)
    simpa [Darwin.enableWait, hs] using hk
  · cases hf : findThread w.threads w.pcanEventThread with
    | none =>
      have hk := key w (sameCore_refl w)
      simpa [Darwin.enableWait, hs, hf] using hk
    | some t =>
      have hk := key _ (threadProcStart_core_darwin w w.pcanEventThread t env.thread)
      simpa [Darwin.enableWait, hs, hf] using hk

/-- On macOS, an Enable/Disable pair in which both calls return 0 and
`pthread_join` does not fail, with any steps of the threads in between. -/
theorem pair_ok_darwin (w E w2 w3 : Darwin.World) (ch cb : Nat) (env : Darwin.EnableEnv)
    (fuel ch2 : Nat) (denv : Darwin.DisableEnv)
    (hE : Darwin.pcanEventEnable w ch cb env = (0, E))
    (hs : Relation.ReflTransGen Darwin.Step E w2)
    (hD : Darwin.pcanEventDisable fuel w2 ch2 denv = some (0, w3))
    (hj : denv.join = none ∨ denv.join = some 0) :
    E.pcanPipeSpawn = ((w.nextFd : Int), (w.nextFd : Int) + 1) ∧
    E.pcanPipeExit = ((w.nextFd : Int) + 2, (w.nextFd : Int) + 2 + 1) ∧
    E.pcanEventThread = w.threads.length + 1 ∧
    (E.pcanPipeSpawn.1 ∈ E.fds ∧ E.pcanPipeSpawn.2 ∈ E.fds ∧ E.pcanPipeExit.1 ∈ E.fds ∧
      E.pcanPipeExit.2 ∈ E.fds) ∧
    (E.pcanPipeSpawn.1 ∉ w3.fds ∧ E.pcanPipeSpawn.2 ∉ w3.fds ∧ E.pcanPipeExit.1 ∉ w3.fds ∧
      E.pcanPipeExit.2 ∉ w3.fds) ∧
    ∃ t, findThread w3.threads E.pcanEventThread = some t ∧ t.terminal = true := by
  have h0 : (Darwin.pcanEventEnable w ch cb env).1 = 0 := by rw [hE]
  rw [enable_ok_created_darwin w ch cb env h0] at hE
  have hc := enableWait_core_darwin (Darwin.afterCreate w ch cb env) env
  rw [hE] at hc
  obtain ⟨c1, c2, c3, c4, c5⟩ := hc
  simp only at c1 c2 c3 c4 c5
  obtain ⟨s1, s2, s3, s4, s5⟩ := steps_core_darwin E w2 hs
  obtain ⟨d1, d2, d3, d4, d5⟩ := disable_ok_core_darwin fuel w2 w3 ch2 denv hD
  obtain ⟨i1, _⟩ := disable_ok_inv_darwin fuel w2 w3 ch2 denv hj hD
  rw [s2] at d1 d2
  rw [s3] at d3 d4
  rw [s4] at i1
  have hex : (findThread w3.threads E.pcanEventThread).isSome = true := by
    apply findThread_isSome_of_length (Darwin.afterCreate w ch cb env).threads
    · rw [d5, s5, c5]
    · rw [c4]
      simp [Darwin.afterCreate, findThread_append_new]
  refine ⟨c2, c3, c4, ?_, ⟨d2, d1, d4, d3⟩, ?_⟩
  · rw [c1, c2, c3]
    simp [Darwin.afterCreate]
  · cases hft : findThread w3.threads E.pcanEventThread with
    | none => simp [hft] at hex
    | some t =>
      rcases i1 with i1 | i1
      · rw [hft] at i1
        exact absurd i1 (by simp)
      · rw [hft] at i1
        simp only [Option.map_some', Option.some.injEq] at i1
        exact ⟨t, rfl, i1⟩

/-! ## What survives an Enable/Disable pair -/

/-- C13, counterexample to the claim as stated.  On Windows, let a first
`pcanEventEnable` time out and its thread then signal the spawn event.  In the
next `pcanEventEnable` the new thread opens its read handle (handle 12) and
returns 1 because its second `OpenEvent` fails, and the call returns 0 on the
signal that was pending; the following `pcanEventDisable`, in which every call
succeeds, returns 0 and handle 12 is still open.  On macOS, after a
`pcanEventEnable` that returned 0, a `pcanEventDisable` whose `pthread_join`
fails returns 0 with the thread still in its wait loop. -/
theorem C13_counterexample_primitive_survives_pair :
    (Win32.Step Win32.lateWorld Win32.lateStarted ∧
      (Win32.pcanEventEnable Win32.lateStarted 5 7 Win32.openSpawnFails).1 = 0 ∧
      Win32.Ev.openEvent 2 Win32.Obj.eventRead 12
        ∈ (Win32.pcanEventEnable Win32.lateStarted 5 7 Win32.openSpawnFails).2.trace ∧
      (Win32.pcanEventDisable 2
        (Win32.pcanEventEnable Win32.lateStarted 5 7 Win32.openSpawnFails).2 5
        Win32.okDisable).map (fun r => (r.1, Win32.lookupH r.2.handles 12))
        = some (0, some Win32.Obj.eventRead)) ∧
    (Darwin.pcanEventEnable Darwin.init 5 7 Darwin.okEnable = (0, Darwin.enabledWorld) ∧
      (Darwin.pcanEventDisable 1 Darwin.enabledWorld 5 Darwin.joinFails).map
        (fun r => (r.1, r.2.threads.map (fun t => t.pc))) = some (0, [Darwin.Pc.waiting])) := by
  refine ⟨⟨?_, by decide, by decide, by decide⟩, by decide, by decide⟩
  exact Win32.Step.start Win32.lateWorld 1
    { canChannel := 5, callback := 7, pc := Win32.Pc.start
      hRead := Win32.INVALID_HANDLE_VALUE, hSpawn := Win32.INVALID_HANDLE_VALUE
      hExit := Win32.INVALID_HANDLE_VALUE } Win32.okStart (by decide) rfl

/-- C13 (as amended): for every Enable/Disable pair in which both calls return
0, with any steps of the threads and of the driver in between.  On Windows
(from a state in which no thread record holds a handle not handed out yet): the
four global handles are the ones created by `pcanEventEnable`, they are closed
when `pcanEventDisable` returns, the thread created by `pcanEventEnable` has
returned, and if it returned 0 the three handles it opened for itself are
closed.  On macOS, when `pthread_join` did not fail: the four descriptors of
the two pipes created by `pcanEventEnable` are closed when `pcanEventDisable`
returns and the thread created by `pcanEventEnable` has returned. -/
theorem C13_pair_releases_what_enable_created :
    (∀ (w E w2 w3 : Win32.World) (ch cb : Nat) (env : Win32.EnableEnv) (fuel ch2 : Nat)
      (denv : Win32.DisableEnv), Win32.fieldsBelow w →
      Win32.pcanEventEnable w ch cb env = (0, E) →
      Relation.ReflTransGen Win32.Step E w2 →
      Win32.pcanEventDisable fuel w2 ch2 denv = some (0, w3) →
      E.pcanEventRead = (w.nextHandle : Int) + 1 ∧
      E.pcanEventSpawn = (w.nextHandle : Int) + 1 + 1 ∧
      E.pcanEventExit = (w.nextHandle : Int) + 1 + 1 + 1 ∧
      E.pcanEventThread = (w.nextHandle : Int) + 1 + 1 + 1 + 1 ∧
      E.pcanEventThreadID = w.threads.length + 1 ∧
      (((w.nextHandle : Int) + 1, Win32.Obj.eventRead) ∈ E.handles ∧
        ((w.nextHandle : Int) + 1 + 1, Win32.Obj.eventSpawn) ∈ E.handles ∧
        ((w.nextHandle : Int) + 1 + 1 + 1, Win32.Obj.eventExit) ∈ E.handles ∧
        ((w.nextHandle : Int) + 1 + 1 + 1 + 1, Win32.Obj.thread (w.threads.length + 1))
          ∈ E.handles) ∧
      Win32.lookupH w3.handles E.pcanEventRead = none ∧
      Win32.lookupH w3.handles E.pcanEventSpawn = none ∧
      Win32.lookupH w3.handles E.pcanEventExit = none ∧
      Win32.lookupH w3.handles E.pcanEventThread = none ∧
      ∃ t, findThread w3.threads E.pcanEventThreadID = some t ∧ t.terminal = true ∧
        (t.pc = Win32.Pc.exited 0 → Win32.HandlesClosed w3.handles t)) ∧
    (∀ (w E w2 w3 : Darwin.World) (ch cb : Nat) (env : Darwin.EnableEnv) (fuel ch2 : Nat)
      (denv : Darwin.DisableEnv),
      Darwin.pcanEventEnable w ch cb env = (0, E) →
      Relation.ReflTransGen Darwin.Step E w2 →
      Darwin.pcanEventDisable fuel w2 ch2 denv = some (0, w3) →
      (denv.join = none ∨ denv.join = some 0) →
      E.pcanPipeSpawn = ((w.nextFd : Int), (w.nextFd : Int) + 1) ∧
      E.pcanPipeExit = ((w.nextFd : Int) + 2, (w.nextFd : Int) + 2 + 1) ∧
      E.pcanEventThread = w.threads.length + 1 ∧
      (E.pcanPipeSpawn.1 ∈ E.fds ∧ E.pcanPipeSpawn.2 ∈ E.fds ∧ E.pcanPipeExit.1 ∈ E.fds ∧
        E.pcanPipeExit.2 ∈ E.fds) ∧
      (E.pcanPipeSpawn.1 ∉ w3.fds ∧ E.pcanPipeSpawn.2 ∉ w3.fds ∧ E.pcanPipeExit.1 ∉ w3.fds ∧
        E.pcanPipeExit.2 ∉ w3.fds) ∧
      ∃ t, findThread w3.threads E.pcanEventThread = some t ∧ t.terminal = true) :=
  ⟨fun w E w2 w3 ch cb env fuel ch2 denv hw hE hs hD =>
      pair_ok_win32 w E w2 w3 ch cb env fuel ch2 denv hw hE hs hD,
   fun w E w2 w3 ch cb env fuel ch2 denv hE hs hD hj =>
      pair_ok_darwin w E w2 w3 ch cb env fuel ch2 denv hE hs hD hj⟩

/-- C13, witness: a first `pcanEventEnable(5, 7)` followed by a
`pcanEventDisable`, every call succeeding, on both platforms. -/
theorem C13_pair_releases_what_enable_created_witness :
    (Win32.pcanEventEnable Win32.init 5 7 Win32.okEnable = (0, Win32.enabledWorld) ∧
      Win32.pcanEventDisable 2 Win32.enabledWorld 5 Win32.okDisable
        = some (0, Win32.disabledWorld) ∧
      Win32.lookupH Win32.disabledWorld.handles Win32.enabledWorld.pcanEventRead = none ∧
      Win32.lookupH Win32.disabledWorld.handles Win32.enabledWorld.pcanEventThread = none ∧
      ∃ t, findThread Win32.disabledWorld.threads Win32.enabledWorld.pcanEventThreadID
          = some t ∧ t.terminal = true) ∧
    (Darwin.pcanEventEnable Darwin.init 5 7 Darwin.okEnable = (0, Darwin.enabledWorld) ∧
      Darwin.pcanEventDisable 1 Darwin.enabledWorld 5 Darwin.okDisable
        = some (0, Darwin.disabledWorld) ∧
      Darwin.enabledWorld.pcanPipeSpawn.1 ∉ Darwin.disabledWorld.fds ∧
      ∃ t, findThread Darwin.disabledWorld.threads Darwin.enabledWorld.pcanEventThread
          = some t ∧ t.terminal = true) := by
  have hw := C13_pair_releases_what_enable_created.1 Win32.init Win32.enabledWorld
    Win32.enabledWorld Win32.disabledWorld 5 7 Win32.okEnable 2 5 Win32.okDisable
    (fun i t hi => by cases i <;> simp [findThread, Win32.init] at hi) (by decide)
    Relation.ReflTransGen.refl (by decide)
  have hd := C13_pair_releases_what_enable_created.2 Darwin.init Darwin.enabledWorld
    Darwin.enabledWorld Darwin.disabledWorld 5 7 Darwin.okEnable 1 5 Darwin.okDisable
    (by decide) Relation.ReflTransGen.refl (by decide) (Or.inl rfl)
  obtain ⟨_, _, _, _, _, _, a, _, _, d, t, ht, htt, _⟩ := hw
  obtain ⟨_, _, _, _, ⟨b, _⟩, u, hu, hut⟩ := hd
  exact ⟨⟨by decide, by decide, a, d, t, ht, htt⟩, ⟨by decide, by decide, b, u, hu, hut⟩⟩

/-! ## String lookup -/

/-- The loop of `lookupString` over entries with a string, none of which has
the value looked up: it goes on with the rest of the table, the local holding
the default string once an entry has been passed. -/
theorem lookupStringLoop_skip (d : String) (value : Int) (pre rest : List lookup_t)
    (r : Option String) (hs : ∀ x ∈ pre, x.string ≠ none) (hv : ∀ x ∈ pre, x.value ≠ value) :
    lookupStringLoop d value (pre ++ rest) r =
      lookupStringLoop d value rest (if pre = [] then r else some d) := by
  induction pre generalizing r with
  | nil => simp
  | cons e pre ih =>
    have hes := hs e (List.mem_cons_self _ _)
    have hev := hv e (List.mem_cons_self _ _)
    obtain ⟨s, hs1⟩ : ∃ s, e.string = some s := by
      cases h : e.string with
      | none => exact absurd h hes
      | some s => exact ⟨s, rfl⟩
    have ih1 := ih (some d) (fun x hx => hs x (List.mem_cons_of_mem _ hx))
      (fun x hx => hv x (List.mem_cons_of_mem _ hx))
    rw [List.cons_append, lookupStringLoop]
    simp only [hs1, if_neg hev, ih1]
    by_cases hp : pre = [] <;> simp [hp]

/-- The loop of `lookupString` at the first entry with the value looked up. -/
theorem lookupStringLoop_found (d : String) (value : Int) (pre : List lookup_t) (e : lookup_t)
    (s : String) (rest : List lookup_t) (r : Option String)
    (hs : ∀ x ∈ pre, x.string ≠ none) (hv : ∀ x ∈ pre, x.value ≠ value)
    (he : e.string = some s) (hval : e.value = value) :
    lookupStringLoop d value (pre ++ e :: rest) r = some (some s) := by
  rw [lookupStringLoop_skip d value pre (e :: rest) r hs hv]
  simp [lookupStringLoop, he, hval]

/-- C21: for a table whose entries `pre` before the terminator `term` (the
first entry with a null string) include one with the value looked up,
`lookupString` returns the string of the first such entry, whatever the default
string and whatever follows the terminator; and `pcanStatusLookup(PCAN_ERROR_OK)`
returns `"PCAN_ERROR_OK"`, whatever values the header gives the macros. -/
theorem C21_lookupString_first_match :
    (∀ (pre : List lookup_t) (term : lookup_t) (post : List lookup_t) (value : Int),
      (∀ x ∈ pre, x.string ≠ none) → term.string = none → (∃ x ∈ pre, x.value = value) →
      ∃ e s, pre.find? (fun x => decide (x.value = value)) = some e ∧ e.string = some s ∧
        ∀ defaultString : String,
          lookupString (pre ++ term :: post) defaultString value = some (some s)) ∧
    (∀ c : StatusConstants, pcanStatusLookup c c.PCAN_ERROR_OK = some (some "PCAN_ERROR_OK")) := by
  constructor
  · intro pre term post value hs _ hex
    have hsome : (pre.find? (fun x => decide (x.value = value))).isSome = true := by
      rw [List.find?_isSome]
      obtain ⟨x, hx, hxv⟩ := hex
      exact ⟨x, hx, by simpa using hxv⟩
    obtain ⟨e, hf⟩ := Option.isSome_iff_exists.1 hsome
    obtain ⟨hpe, as, bs, hsplit, hno⟩ := List.find?_eq_some.1 hf
    have hval : e.value = value := by simpa using hpe
    have hmem : e ∈ pre := hsplit ▸ List.mem_append_right _ (List.mem_cons_self _ _)
    obtain ⟨s, hs1⟩ : ∃ s, e.string = some s := by
      cases h : e.string with
      | none => exact absurd h (hs e hmem)
      | some s => exact ⟨s, rfl⟩
    refine ⟨e, s, hf, hs1, fun d => ?_⟩
    have h := lookupStringLoop_found d value as e s (bs ++ term :: post) none
      (fun x hx => hs x (hsplit ▸ List.mem_append_left _ hx))
      (fun x hx => by simpa using hno x hx) hs1 hval
    simpa [lookupString, hsplit] using h
  · intro c
    simp [pcanStatusLookup, lookupString, pcanStatuses, lookupStringLoop]

/-- C21, witness: in the status table with the values of PCANBasic.h the value
8 is held by the entries of `PCAN_ERROR_BUSHEAVY` and `PCAN_ERROR_BUSWARNING`;
the string of the first is returned. -/
theorem C21_lookupString_first_match_witness :
    (∃ x ∈ (pcanStatuses pcanBasicStatuses).take 29, x.value = 8) ∧
    lookupString (pcanStatuses pcanBasicStatuses) "d" 8 = some (some "PCAN_ERROR_BUSHEAVY") := by
  have hex : ∃ x ∈ (pcanStatuses pcanBasicStatuses).take 29, x.value = 8 :=
    ⟨{ value := 8, string := some "PCAN_ERROR_BUSHEAVY" }, by decide, rfl⟩
  obtain ⟨e, s, hf, hs, hall⟩ := C21_lookupString_first_match.1
    ((pcanStatuses pcanBasicStatuses).take 29) { value := 0, string := none } [] 8
    (by decide) rfl hex
  have h := hall "d"
  have he : e = { value := 8, string := some "PCAN_ERROR_BUSHEAVY" } := by
    have : ((pcanStatuses pcanBasicStatuses).take 29).find? (fun x => decide (x.value = 8))
        = some { value := 8, string := some "PCAN_ERROR_BUSHEAVY" } := by decide
    rw [this] at hf
    exact (Option.some.inj hf).symm
  subst he
  have hs2 : s = "PCAN_ERROR_BUSHEAVY" := (Option.some.inj hs).symm
  subst hs2
  exact ⟨hex, h⟩

/-- C22, the code at the failing input and elsewhere.  For a table that holds
only the terminator (an entry with a null string first), `lookupString`
returns the null pointer, not the default string, whatever the value.  For a
table with at least one entry before the terminator and a value that none of
these entries has (the value 0 of the terminator included), it returns the
default string. -/
theorem C22_lookupString_default_or_null :
    (∀ (term : lookup_t) (post : List lookup_t) (defaultString : String) (value : Int),
      term.string = none → lookupString (term :: post) defaultString value = some none) ∧
    lookupString [{ value := 0, string := none }] pcanStatusUnknown 5 = some none ∧
    (∀ (pre : List lookup_t) (term : lookup_t) (post : List lookup_t) (defaultString : String)
      (value : Int), pre ≠ [] → (∀ x ∈ pre, x.string ≠ none) → term.string = none →
      (∀ x ∈ pre, x.value ≠ value) →
      lookupString (pre ++ term :: post) defaultString value = some (some defaultString)) := by
  refine ⟨?_, by decide, ?_⟩
  · intro term post d value ht
    simp [lookupString, lookupStringLoop, ht]
  · intro pre term post d value hne hs ht hv
    unfold lookupString
    rw [lookupStringLoop_skip d value pre (term :: post) none hs hv]
    simp [lookupStringLoop, ht, hne]

/-- C22, witness: the status table with the values of PCANBasic.h has no entry
with the value 3, and none with the value 0 once its first entry is left out;
the terminator alone gives the null pointer. -/
theorem C22_lookupString_default_or_null_witness :
    lookupString [{ value := 0, string := none }] pcanStatusUnknown 0 = some none ∧
    lookupString (pcanStatuses pcanBasicStatuses) pcanStatusUnknown 3
      = some (some "Status unknown") ∧
    lookupString ((pcanStatuses pcanBasicStatuses).drop 1) pcanStatusUnknown 0
      = some (some "Status unknown") :=
  ⟨C22_lookupString_default_or_null.1 { value := 0, string := none } [] pcanStatusUnknown 0 rfl,
   C22_lookupString_default_or_null.2.2 ((pcanStatuses pcanBasicStatuses).take 29)
     { value := 0, string := none } [] pcanStatusUnknown 3 (by decide) (by decide) rfl
     (by decide),
   C22_lookupString_default_or_null.2.2 (((pcanStatuses pcanBasicStatuses).take 29).drop 1)
     { value := 0, string := none } [] pcanStatusUnknown 0 (by decide) (by decide) rfl
     (by decide)⟩

/-! ## The acceptance filter -/

/-- The complement of a 32-bit value, as a number. -/
theorem not32_eq (m : Nat) (hm : m < 2 ^ 32) : not32 m = 2 ^ 32 - 1 - m := by
  unfold not32
  rw [Nat.mod_eq_of_lt hm]
  apply Nat.eq_of_testBit_eq
  intro i
  have h1 : (0xFFFFFFFF : Nat) = 2 ^ 32 - 1 := by norm_num
  have h2 : 2 ^ 32 - 1 - m = 2 ^ 32 - (m + 1) := by omega
  rw [Nat.testBit_xor, h1, Nat.testBit_two_pow_sub_one, h2, Nat.testBit_two_pow_sub_succ hm]
  by_cases hi : i < 32
  · simp [hi]
  · have : m.testBit i = false :=
      Nat.testBit_lt_two_pow (Nat.lt_of_lt_of_le hm (Nat.pow_le_pow_right (by decide) (by omega)))
    simp [hi, this]

/-- The bits of the complement of a 32-bit value. -/
theorem testBit_not32 (m : Nat) (hm : m < 2 ^ 32) (i : Nat) :
    (not32 m).testBit i = (decide (i < 32) && !m.testBit i) := by
  unfold not32
  rw [Nat.mod_eq_of_lt hm]
  have h1 : (0xFFFFFFFF : Nat) = 2 ^ 32 - 1 := by norm_num
  rw [Nat.testBit_xor, h1, Nat.testBit_two_pow_sub_one]
  by_cases hi : i < 32
  · simp [hi]
  · have : m.testBit i = false :=
      Nat.testBit_lt_two_pow (Nat.lt_of_lt_of_le hm (Nat.pow_le_pow_right (by decide) (by omega)))
    simp [hi, this]

/-- The value built at lines 1346-1349 of pcan.c. -/
theorem acceptanceFilter11Bit_eq (c m : Nat) (hc : c < 2 ^ 32) (hm : m < 2 ^ 32) :
    pcan_CAN_AcceptanceFilter11Bit c m = c * 2 ^ 32 + (2 ^ 32 - 1 - m) := by
  have hlt : 2 ^ 32 - 1 - m < 2 ^ 32 := by omega
  have hsh : (c <<< 0x20) % 2 ^ 64 = 2 ^ 32 * c := by
    rw [Nat.shiftLeft_eq, Nat.mod_eq_of_lt, Nat.mul_comm]
    calc c * 2 ^ 32 < 2 ^ 32 * 2 ^ 32 := Nat.mul_lt_mul_of_pos_right hc (by decide)
      _ = 2 ^ 64 := by norm_num
  simp only [pcan_CAN_AcceptanceFilter11Bit, Nat.zero_or, Nat.mod_eq_of_lt hc, hsh,
    not32_eq m hm]
  rw [← Nat.mul_add_lt_is_or hlt, Nat.mul_comm]

/-- The value built at lines 1443-1446 of pcan.c is built by the same two
statements. -/
theorem acceptanceFilter29Bit_eq (c m : Nat) :
    pcan_CAN_AcceptanceFilter29Bit c m = pcan_CAN_AcceptanceFilter11Bit c m := rfl

/-- C23: for every 32-bit acceptance code `c` and acceptance mask `m`, the
64-bit filter built by `pcan_CAN_AcceptanceFilter11Bit` and by
`pcan_CAN_AcceptanceFilter29Bit` is `c * 2^32 + (2^32 - 1 - m)`: it fits 64
bits, its upper 32 bits are `c`, and its lower 32 bits are the bitwise
complement of `m`; `c = 0x81`, `m = 0xF8` gives `0x00000081FFFFFF07`. -/
theorem C23_acceptance_filter_value :
    (∀ c m : Nat, c < 2 ^ 32 → m < 2 ^ 32 →
      pcan_CAN_AcceptanceFilter11Bit c m = c * 2 ^ 32 + (2 ^ 32 - 1 - m) ∧
      pcan_CAN_AcceptanceFilter29Bit c m = c * 2 ^ 32 + (2 ^ 32 - 1 - m) ∧
      pcan_CAN_AcceptanceFilter11Bit c m < 2 ^ 64 ∧
      pcan_CAN_AcceptanceFilter11Bit c m / 2 ^ 32 = c ∧
      pcan_CAN_AcceptanceFilter11Bit c m % 2 ^ 32 = 2 ^ 32 - 1 - m ∧
      ∀ i, i < 32 →
        (pcan_CAN_AcceptanceFilter11Bit c m % 2 ^ 32).testBit i = !m.testBit i) ∧
    pcan_CAN_AcceptanceFilter11Bit 0x81 0xF8 = 0x00000081FFFFFF07 ∧
    pcan_CAN_AcceptanceFilter29Bit 0x81 0xF8 = 0x00000081FFFFFF07 := by
  refine ⟨?_, by decide, by decide⟩
  intro c m hc hm
  have h := acceptanceFilter11Bit_eq c m hc hm
  have hlow : pcan_CAN_AcceptanceFilter11Bit c m % 2 ^ 32 = 2 ^ 32 - 1 - m := by
    rw [h]
    omega
  refine ⟨h, (acceptanceFilter29Bit_eq c m).trans h, ?_, ?_, hlow, ?_⟩
  · rw [h]
    have : c * 2 ^ 32 ≤ (2 ^ 32 - 1) * 2 ^ 32 := Nat.mul_le_mul_right _ (by omega)
    have h64 : (2 : Nat) ^ 64 = 2 ^ 32 * 2 ^ 32 := by norm_num
    omega
  · rw [h]
    omega
  · intro i hi
    rw [hlow, ← not32_eq m hm, testBit_not32 m hm]
    simp [hi]

/-- C23, witness: the code `0x81` and the mask `0xF8` of the example
program. -/
theorem C23_acceptance_filter_value_witness :
    (0x81 : Nat) < 2 ^ 32 ∧ (0xF8 : Nat) < 2 ^ 32 ∧
    pcan_CAN_AcceptanceFilter11Bit 0x81 0xF8 = 0x81 * 2 ^ 32 + (2 ^ 32 - 1 - 0xF8) :=
  ⟨by decide, by decide,
   (C23_acceptance_filter_value.1 0x81 0xF8 (by decide) (by decide)).1⟩

/-! ## The export table -/

/-- C24, the code at the failing input.  The export table built by `Init` has
`descriptors_len` = 19 entries with pairwise distinct names, and every name `X`
other than `"WriteFD"` is bound to the function `pcan_CAN_X`; but `"WriteFD"`
is bound to `pcan_CAN_Write`, the function `"Write"` is bound to as well, and
no name is bound to `pcan_CAN_WriteFD`. -/
theorem C24_init_binds_WriteFD_to_Write :
    Init.length = 19 ∧ Init.length = descriptors_len ∧ (Init.map (fun p => p.1)).Nodup ∧
    (∀ p ∈ Init, p.1 ≠ "WriteFD" → documentedHandler p.1 p.2) ∧
    Init.lookup "Write" = some Handler.pcan_CAN_Write ∧
    Init.lookup "WriteFD" = some Handler.pcan_CAN_Write ∧
    ¬ documentedHandler "WriteFD" Handler.pcan_CAN_Write ∧
    documentedHandler "WriteFD" Handler.pcan_CAN_WriteFD ∧
    (∀ p ∈ Init, p.2 ≠ Handler.pcan_CAN_WriteFD) := by
  decide

/-! ## The branches of the wait loops -/

/-- The test `ret & WAIT_ABANDONED_0` of the Windows loop is a test of bit 7
(the bit of value 0x80). -/
theorem and_abandoned_ne_zero_iff (r : Nat) :
    r &&& Win32.WAIT_ABANDONED_0 ≠ 0 ↔ r.testBit 7 = true := by
  have h80 : Win32.WAIT_ABANDONED_0 = 2 ^ 7 := by decide
  rw [h80]
  constructor
  · intro h
    by_contra hb
    apply h
    apply Nat.eq_of_testBit_eq
    intro i
    rw [Nat.testBit_and, Nat.testBit_two_pow, Nat.zero_testBit]
    by_cases hi : 7 = i
    · subst hi
      simp [hb]
    · simp [hi]
  · intro hb h0
    have := congrArg (fun x => x.testBit 7) h0
    simp only [Nat.testBit_and, Nat.testBit_two_pow_self, hb, Nat.zero_testBit] at this
    exact absurd this (by decide)

/-- The loop body of the Windows thread is the effect of the arm of the chain
that is taken. -/
theorem loopBody_eq_branchStep (r : Nat) :
    Win32.loopBody r = Win32.branchStep (Win32.loopBranch r) r := by
  unfold Win32.loopBody Win32.loopBranch
  split_ifs <;> rfl

/-- C25: in the Windows wait loop every wait result `r` with
`r & WAIT_ABANDONED_0` non-zero, which is to say with bit 0x80 set, takes the
abandoned arm: the pass invokes no callback, does not end the thread and leaves
the state as it was, so the thread waits again.  `WAIT_FAILED` = 0xFFFFFFFF has
that bit set, and the arm of `WAIT_FAILED` is taken for no value of `r`.
`WAIT_TIMEOUT` = 0x102 takes its own arm, and the thread returns 1. -/
theorem C25_abandoned_mask_shadows_wait_failed :
    (∀ r : Nat, r &&& Win32.WAIT_ABANDONED_0 ≠ 0 ↔ r.testBit 7 = true) ∧
    (∀ r : Nat, r &&& Win32.WAIT_ABANDONED_0 ≠ 0 →
      Win32.loopBranch r = Win32.Branch.abandoned ∧
      Win32.loopBody r = Win32.LoopStep.again false ∧
      ∀ (w : Win32.World) (tid : Nat) (t : Win32.Waiter),
        Win32.threadProcPass w tid t (some r) = some w) ∧
    (Win32.WAIT_FAILED = 0xFFFFFFFF ∧ Win32.WAIT_FAILED &&& Win32.WAIT_ABANDONED_0 ≠ 0 ∧
      Win32.loopBranch Win32.WAIT_FAILED = Win32.Branch.abandoned) ∧
    (∀ r : Nat, Win32.loopBranch r ≠ Win32.Branch.failed) ∧
    (∀ r : Nat, Win32.loopBody r = Win32.branchStep (Win32.loopBranch r) r) ∧
    (Win32.WAIT_TIMEOUT = 0x102 ∧ Win32.loopBranch Win32.WAIT_TIMEOUT = Win32.Branch.timeout ∧
      Win32.loopBody Win32.WAIT_TIMEOUT = Win32.LoopStep.fail ∧
      ∀ (w : Win32.World) (tid : Nat) (t : Win32.Waiter),
        Win32.threadProcPass w tid t (some Win32.WAIT_TIMEOUT) =
          some { w with
            threads := updThread w.threads tid (fun x => { x with pc := Win32.Pc.exited 1 })
            trace := w.trace ++ [Win32.Ev.threadReturn tid 1] }) := by
  refine ⟨and_abandoned_ne_zero_iff, ?_, ⟨rfl, by decide, by decide⟩, ?_,
    loopBody_eq_branchStep, ⟨rfl, by decide, by decide, ?_⟩⟩
  · intro r hr
    have hb : Win32.loopBody r = Win32.LoopStep.again false := by
      simp only [Win32.loopBody, if_pos hr]
    refine ⟨by simp only [Win32.loopBranch, if_pos hr], hb, fun w tid t => ?_⟩
    simp [Win32.threadProcPass, Win32.WaitForMultipleObjects, hb]
  · intro r h
    unfold Win32.loopBranch at h
    split_ifs at h with h1 h2 h3
    apply h1
    rw [h3]
    decide
  · intro w tid t
    have hb : Win32.loopBody Win32.WAIT_TIMEOUT = Win32.LoopStep.fail := by decide
    simp [Win32.threadProcPass, Win32.WaitForMultipleObjects, hb, Win32.threadReturn]

/-- C25, witness: the result 0x81 (`WAIT_ABANDONED_0 + 1`) in the loop of the
thread of a first enabled bridge. -/
theorem C25_abandoned_mask_shadows_wait_failed_witness :
    0x81 &&& Win32.WAIT_ABANDONED_0 ≠ 0 ∧
    Win32.loopBranch 0x81 = Win32.Branch.abandoned ∧
    Win32.threadProcPass Win32.enabledWorld 1 Win32.enabledThread (some 0x81)
      = some Win32.enabledWorld :=
  ⟨by decide,
   (C25_abandoned_mask_shadows_wait_failed.2.1 0x81 (by decide)).1,
   (C25_abandoned_mask_shadows_wait_failed.2.1 0x81 (by decide)).2.2 Win32.enabledWorld 1
     Win32.enabledThread⟩

/-- C26: in the macOS wait loop, whenever the exit descriptor is reported
ready after `select`, whatever `select` returned and whether or not the read
descriptor is ready too, the pass ends the loop: the thread returns 0 and no
callback is invoked in the pass.  In particular this is so when the exit pipe
holds unread bytes and the driver descriptor is ready at the same time. -/
theorem C26_exit_has_priority_over_read :
    (∀ (ret : Int) (readSet : Bool),
      Darwin.loopBody ret true readSet = Darwin.LoopStep.leave) ∧
    (∀ (w : Darwin.World) (tid : Nat) (t : Darwin.Waiter) (e : Darwin.SelectEnv),
      (Darwin.select2 w t e).2.1 = true →
      Darwin.threadProcPass w tid t e =
        { w with
          threads := updThread w.threads tid (fun x => { x with pc := Darwin.Pc.exited 0 })
          trace := w.trace ++ [Darwin.Ev.threadReturn tid 0] }) ∧
    (∀ (w : Darwin.World) (t : Darwin.Waiter) (e : Darwin.SelectEnv),
      e.fault = none → e.readReady = true → Darwin.readable w.pipes t.pipeExit = true →
      Darwin.select2 w t e = (2, true, true)) := by
  refine ⟨fun ret readSet => rfl, ?_, ?_⟩
  · intro w tid t e h
    simp [Darwin.threadProcPass, Darwin.loopBody, h, Darwin.threadReturn]
  · intro w t e hf hr he
    simp [Darwin.select2, hf, hr, he]

/-- C26, witness: a pass of the thread of a first enabled bridge after the
exit pipe has been written, with the driver descriptor ready as well. -/
theorem C26_exit_has_priority_over_read_witness :
    Darwin.select2 (Darwin.write Darwin.enabledWorld 6 4).2 Darwin.enabledThread
        { readReady := true, fault := none } = (2, true, true) ∧
    Darwin.threadProcPass (Darwin.write Darwin.enabledWorld 6 4).2 1 Darwin.enabledThread
        { readReady := true, fault := none } =
      { (Darwin.write Darwin.enabledWorld 6 4).2 with
        threads := updThread (Darwin.write Darwin.enabledWorld 6 4).2.threads 1
          (fun x => { x with pc := Darwin.Pc.exited 0 })
        trace := (Darwin.write Darwin.enabledWorld 6 4).2.trace ++
          [Darwin.Ev.threadReturn 1 0] } :=
  ⟨by decide,
   C26_exit_has_priority_over_read.2.1 (Darwin.write Darwin.enabledWorld 6 4).2 1
     Darwin.enabledThread { readReady := true, fault := none } (by decide)⟩

/-! ## The status the event wrappers report -/

/-- On Windows `pcanEventEnable` returns 0 or 1. -/
theorem enable_ret_win32 (w : Win32.World) (ch cb : Nat) (env : Win32.EnableEnv) :
    (Win32.pcanEventEnable w ch cb env).1 = 0 ∨ (Win32.pcanEventEnable w ch cb env).1 = 1 := by
  refine enable_ret_of_wait_win32 (fun r => r = 0 ∨ r = 1) (Or.inr rfl) ch env ?_ w cb
  have hReg : ∀ w2, (Win32.enableRegister w2 ch env).1 = 0 ∨
      (Win32.enableRegister w2 ch env).1 = 1 := by
    intro w2
    rw [enableRegister_fst]
    split_ifs
    · exact Or.inl rfl
    · exact Or.inr rfl
  intro w1
  simp only [Win32.enableWait]
  split_ifs
  all_goals first | exact Or.inr rfl | exact hReg _

/-- On macOS `pcanEventEnable` returns 0 or 1. -/
theorem enable_ret_darwin (w : Darwin.World) (ch cb : Nat) (env : Darwin.EnableEnv) :
    (Darwin.pcanEventEnable w ch cb env).1 = 0 ∨ (Darwin.pcanEventEnable w ch cb env).1 = 1 := by
  have hWait : ∀ w1, (Darwin.enableWait w1 env).1 = 0 ∨ (Darwin.enableWait w1 env).1 = 1 := by
    intro w1
    simp only [Darwin.enableWait]
    split_ifs
    all_goals first | exact Or.inl rfl | exact Or.inr rfl
  have hSpawn : ∀ w1, (Darwin.enableSpawn w1 ch cb env).1 = 0 ∨
      (Darwin.enableSpawn w1 ch cb env).1 = 1 := by
    intro w1
    simp only [Darwin.enableSpawn]
    split_ifs
    · exact Or.inr rfl
    · exact hWait _
  have hMalloc : ∀ w1, (Darwin.enableMalloc w1 ch cb env).1 = 0 ∨
      (Darwin.enableMalloc w1 ch cb env).1 = 1 := by
    intro w1
    simp only [Darwin.enableMalloc]
    split_ifs
    · exact Or.inr rfl
    · exact hSpawn _
  have hExit : ∀ w1, (Darwin.enablePipeExit w1 ch cb env).1 = 0 ∨
      (Darwin.enablePipeExit w1 ch cb env).1 = 1 := by
    intro w1
    simp only [Darwin.enablePipeExit]
    split_ifs
    · exact Or.inr rfl
    · exact hMalloc _
  simp only [Darwin.pcanEventEnable]
  split_ifs
  · exact Or.inr rfl
  · exact hExit _

/-- On Windows `pcanEventDisable` returns 0 or 1 when it returns. -/
theorem disable_ret_win32 (fuel : Nat) (w : Win32.World) (ch : Nat) (env : Win32.DisableEnv)
    (r : Nat × Win32.World) (h : Win32.pcanEventDisable fuel w ch env = some r) :
    r.1 = 0 ∨ r.1 = 1 := by
  have hClose : ∀ w1, (Win32.disableClose w1 env).1 = 0 ∨ (Win32.disableClose w1 env).1 = 1 := by
    intro w1
    simp only [Win32.disableClose]
    split_ifs
    all_goals first | exact Or.inl rfl | exact Or.inr rfl
  have hJoin : ∀ w1 r1, Win32.disableJoin fuel w1 env = some r1 → r1.1 = 0 ∨ r1.1 = 1 := by
    intro w1 r1 h1
    simp only [Win32.disableJoin] at h1
    split at h1
    · exact absurd h1 (by simp)
    · split_ifs at h1
      all_goals first
        | (rw [← Option.some.inj h1]; exact Or.inr rfl)
        | (rw [← Option.some.inj h1]; exact hClose _)
  simp only [Win32.pcanEventDisable] at h
  split_ifs at h
  · rw [← Option.some.inj h]
    exact Or.inr rfl
  · exact hJoin _ _ h

/-- On macOS `pcanEventDisable` returns 0 or 1 when it returns. -/
theorem disable_ret_darwin (fuel : Nat) (w : Darwin.World) (ch : Nat) (env : Darwin.DisableEnv)
    (r : Nat × Darwin.World) (h : Darwin.pcanEventDisable fuel w ch env = some r) :
    r.1 = 0 ∨ r.1 = 1 := by
  simp only [Darwin.pcanEventDisable] at h
  split_ifs at h
  · rw [← Option.some.inj h]
    exact Or.inr rfl
  · split at h
    · exact absurd h (by simp)
    · rw [← Option.some.inj h]
      exact Or.inl rfl

/-- The string of the status table for the value 1, when the header gives
`PCAN_ERROR_OK` the value 0 and `PCAN_ERROR_XMTFULL` the value 1. -/
theorem pcanStatusLookup_one (c : StatusConstants) (hOK : c.PCAN_ERROR_OK = 0)
    (hX : c.PCAN_ERROR_XMTFULL = 1) :
    pcanStatusLookup c 1 = some (some "PCAN_ERROR_XMTFULL") := by
  have h0 : toInt32 0 = 0 := by decide
  have h1 : toInt32 1 = 1 := by decide
  simp [pcanStatusLookup, lookupString, pcanStatuses, lookupStringLoop, hOK, hX, h0, h1]

/-- C27: `pcanEventEnable` and `pcanEventDisable` return only 0 or 1 on both
platforms; and, `PCAN_ERROR_OK` being 0 and `PCAN_ERROR_XMTFULL` being 1 as in
PCANBasic.h, `pcan_CAN_EnableEvent` and `pcan_CAN_DisableEvent` read such a
result as a PCAN status: they throw exactly when it is not 0, the error code
then being `pcanStatusLookup(1)` = `"PCAN_ERROR_XMTFULL"` whatever made the
bridge function fail, and `pcan_CAN_DisableEvent` releases the thread-safe
function only when the result is 0 (and does release it then, once the
`napi_unref_threadsafe_function` before it has succeeded). -/
theorem C27_event_wrappers_report_status (c : StatusConstants) (n : NapiEnv)
    (hOK : c.PCAN_ERROR_OK = 0) (hX : c.PCAN_ERROR_XMTFULL = 1) :
    ((∀ (w : Win32.World) (ch cb : Nat) (env : Win32.EnableEnv),
        (Win32.pcanEventEnable w ch cb env).1 = 0 ∨ (Win32.pcanEventEnable w ch cb env).1 = 1) ∧
      (∀ (w : Darwin.World) (ch cb : Nat) (env : Darwin.EnableEnv),
        (Darwin.pcanEventEnable w ch cb env).1 = 0 ∨
          (Darwin.pcanEventEnable w ch cb env).1 = 1) ∧
      (∀ (fuel : Nat) (w : Win32.World) (ch : Nat) (env : Win32.DisableEnv)
        (r : Nat × Win32.World),
        Win32.pcanEventDisable fuel w ch env = some r → r.1 = 0 ∨ r.1 = 1) ∧
      (∀ (fuel : Nat) (w : Darwin.World) (ch : Nat) (env : Darwin.DisableEnv)
        (r : Nat × Darwin.World),
        Darwin.pcanEventDisable fuel w ch env = some r → r.1 = 0 ∨ r.1 = 1)) ∧
    pcanStatusLookup c 1 = some (some "PCAN_ERROR_XMTFULL") ∧
    (∀ s : Nat, s = 0 ∨ s = 1 →
      (s ≠ 0 → pcan_CAN_EnableEvent c n s =
        ([NapiCall.throw_error (some (some "PCAN_ERROR_XMTFULL")) "pcan_CAN_EnableEvent"],
          NapiReturn.null)) ∧
      (s = 0 → (pcan_CAN_EnableEvent c n s).1 = [NapiCall.create_uint32 0]) ∧
      (s ≠ 0 → pcan_CAN_DisableEvent c n s =
        ([NapiCall.throw_error (some (some "PCAN_ERROR_XMTFULL")) "pcan_CAN_DisableEvent"],
          NapiReturn.null)) ∧
      (s = 0 →
        (pcan_CAN_DisableEvent c n s).1.head? = some NapiCall.unref_threadsafe_function ∧
        ∀ code msg, NapiCall.throw_error code msg ∉ (pcan_CAN_DisableEvent c n s).1) ∧
      (NapiCall.release_threadsafe_function ∈ (pcan_CAN_DisableEvent c n s).1 → s = 0) ∧
      (s = 0 → n.unrefOk = true →
        NapiCall.release_threadsafe_function ∈ (pcan_CAN_DisableEvent c n s).1)) := by
  have hL := pcanStatusLookup_one c hOK hX
  refine ⟨⟨enable_ret_win32, enable_ret_darwin, disable_ret_win32, disable_ret_darwin⟩, hL, ?_⟩
  intro s hs
  rcases hs with hs | hs
  · subst hs
    refine ⟨fun h => absurd rfl h, ?_, fun h => absurd rfl h, ?_, fun _ => rfl, ?_⟩
    · intro _
      cases hc : n.createOk <;> simp [pcan_CAN_EnableEvent, hOK, hc]
    · intro _
      cases hu : n.unrefOk <;> cases hr : n.releaseOk <;> cases hc : n.createOk <;>
        simp [pcan_CAN_DisableEvent, hOK, hu, hr, hc]
    · intro _ hu
      cases hr : n.releaseOk <;> cases hc : n.createOk <;>
        simp [pcan_CAN_DisableEvent, hOK, hu, hr, hc]
  · subst hs
    refine ⟨fun _ => ?_, fun h => absurd h (by decide), fun _ => ?_,
      fun h => absurd h (by decide), ?_, fun h => absurd h (by decide)⟩
    · simp [pcan_CAN_EnableEvent, hOK, hL]
    · simp [pcan_CAN_DisableEvent, hOK, hL]
    · intro h
      simp [pcan_CAN_DisableEvent, hOK] at h

/-- C27, witness: with the values of PCANBasic.h and every N-API call
succeeding, a first `pcanEventEnable` that times out on Windows returns 1 and
the wrapper throws `"PCAN_ERROR_XMTFULL"`; a `pcanEventDisable` on a first
enabled bridge on macOS returns 0 and the wrapper releases the thread-safe
function. -/
theorem C27_event_wrappers_report_status_witness :
    (pcanBasicStatuses.PCAN_ERROR_OK = 0 ∧ pcanBasicStatuses.PCAN_ERROR_XMTFULL = 1) ∧
    ((Win32.pcanEventEnable Win32.init 5 pcan_CAN_EventCallback Win32.lateThread).1 = 1 ∧
      pcan_CAN_EnableEvent pcanBasicStatuses { unrefOk := true, releaseOk := true, createOk := true }
          (Win32.pcanEventEnable Win32.init 5 pcan_CAN_EventCallback Win32.lateThread).1 =
        ([NapiCall.throw_error (some (some "PCAN_ERROR_XMTFULL")) "pcan_CAN_EnableEvent"],
          NapiReturn.null)) ∧
    ((Darwin.pcanEventDisable 1 Darwin.enabledWorld 5 Darwin.okDisable).map (fun r => r.1)
        = some 0 ∧
      NapiCall.release_threadsafe_function ∈
        (pcan_CAN_DisableEvent pcanBasicStatuses
          { unrefOk := true, releaseOk := true, createOk := true } 0).1) := by
  have h := C27_event_wrappers_report_status pcanBasicStatuses
    { unrefOk := true, releaseOk := true, createOk := true } rfl rfl
  have h1 : (Win32.pcanEventEnable Win32.init 5 pcan_CAN_EventCallback Win32.lateThread).1 = 1 := by
    decide
  refine ⟨⟨rfl, rfl⟩, ⟨h1, ?_⟩, ⟨by decide, (h.2.2 0 (Or.inl rfl)).2.2.2.2.2 rfl rfl⟩⟩
  rw [h1]
  exact (h.2.2 1 (Or.inr rfl)).1 (by decide)
